import Mathlib

/-! # Space Invader: the simulation core

A shallow embedding of `src/src/model.c` and `src/src/utils.c` (constants from
`src/include/config.h`, records from `src/include/model.h`).

Conventions of the embedding.

* A C `int` is a mathematical `Int`.  Signed overflow is undefined in C and
  wraps around in the compiled program; the quantities of a game stay far from
  the limits, so no wrap-around is modelled, except where a value is computed
  from an argument that the caller chooses freely: the level bonus of
  `game_set_level` and the sums of `utils_rect_collision_int` go through
  `wrap_int`, the 32-bit two's complement value of the exact result.
* A fixed C array is a `List` of the array's capacity; `a[i]` is
  `a.getD i default` and `a[i] = v` is `a.set i v`.  The element counts
  (`enemy_count`, `projectile_count`, ...) are separate `Int` fields, exactly
  as in `GameState`.  An access outside the array is undefined in C; here such
  a read yields a zeroed entry and such a write is dropped, and a property that
  needs the access to be inside the array says so in a hypothesis.
* `for (int i = 0; i < n; i++) body` is `forLoop n body`, a left fold over
  `0, 1, ..., n-1` on the part of the state that the loop body touches.
* Every call of `rand()` is an explicit natural-number argument: `rand` for the
  draw of `utils_random_int` in `update_enemies`, and a stream `rnd` for the
  twelve draws of `init_shields` (`rnd 0 .. rnd 3` for the base columns,
  `rnd (4 + 2*i + j)` for the row of block `j` of shield `i`).
* `fprintf (stderr, ...)` calls are not part of the state and are dropped; a
  `GameState` value stands for a non-null `GameState *`, and `malloc` in
  `game_init` is taken to succeed.
-/

namespace SpaceInvader

/-! ## Constants (`config.h`) -/

abbrev BOARD_WIDTH : Int := 80
abbrev BOARD_HEIGHT : Int := 24
abbrev PLAYER_WIDTH : Int := 3
abbrev PLAYER_HEIGHT : Int := 1
abbrev PLAYER_SPEED : Int := 2
abbrev ENEMY_WIDTH : Int := 3
abbrev ENEMY_HEIGHT : Int := 1
abbrev MAX_ENEMIES : Nat := 55
abbrev INITIAL_ENEMIES : Int := 30
abbrev ENEMY_ROWS : Int := 5
abbrev ENEMY_COLS : Int := 6
abbrev ENEMY_BASE_SPEED : Int := 1
abbrev ENEMY_MOVE_DOWN : Int := 1
abbrev ENEMY_SPEED_INCREASE_THRESHOLD : Int := 10
abbrev MAX_PROJECTILES : Int := 100
abbrev PROJECTILE_SPEED : Int := 3
abbrev MAX_ENEMY_PROJECTILES : Int := 30
abbrev ENEMY_PROJECTILE_SPEED : Int := 1
abbrev ENEMY_FIRE_RATE : Int := 50
abbrev SHIELD_COUNT : Int := 4
abbrev SHIELD_WIDTH : Int := 4
abbrev SHIELD_HEIGHT : Int := 1
abbrev SHIELD_HEALTH : Int := 3
abbrev INITIAL_LIVES : Int := 3
abbrev INITIAL_LEVEL : Int := 1
abbrev POINTS_PER_ENEMY : Int := 10
abbrev POINTS_LEVEL_BONUS : Int := 100

/-! ## Records (`model.h`) -/

structure Projectile where
  x : Int
  y : Int
  active : Bool
deriving DecidableEq, Repr

structure ShieldBlock where
  x : Int
  y : Int
  health : Int
deriving DecidableEq, Repr

structure Shield where
  blocks : List ShieldBlock
  block_count : Int
deriving DecidableEq, Repr

structure Enemy where
  x : Int
  y : Int
  active : Bool
  health : Int
deriving DecidableEq, Repr

structure Player where
  x : Int
  y : Int
  health : Int
  score : Int
deriving DecidableEq, Repr

structure GameState where
  player : Player
  enemies : List Enemy
  enemy_count : Int
  alive_enemy_count : Int
  projectiles : List Projectile
  projectile_count : Int
  enemy_projectiles : List Projectile
  enemy_projectile_count : Int
  shields : List Shield
  level : Int
  frame_count : Int
  enemy_fire_timer : Int
  is_paused : Bool
  game_over : Bool
  player_won : Bool
  enemy_direction : Int
  enemy_move_counter : Int
deriving DecidableEq, Repr

/-- A zeroed projectile slot (what `memset` leaves). -/
instance : Inhabited Projectile := ⟨⟨0, 0, false⟩⟩
/-- A zeroed shield block. -/
instance : Inhabited ShieldBlock := ⟨⟨0, 0, 0⟩⟩
/-- A zeroed shield: 8 * 6 zeroed blocks. -/
instance : Inhabited Shield := ⟨⟨List.replicate 48 default, 0⟩⟩
/-- A zeroed enemy slot. -/
instance : Inhabited Enemy := ⟨⟨0, 0, false, 0⟩⟩

/-- The loop `for (int i = 0; i < n; i++) body`, run on the loop's state. -/
def forLoop {σ : Type} (n : Int) (body : Nat → σ → σ) (s : σ) : σ :=
  (List.range n.toNat).foldl (fun t i => body i t) s

/-! ## Machine integers -/

abbrev INT_MIN : Int := -2147483648
abbrev INT_MAX : Int := 2147483647

/-- The value a 32-bit C `int` holds when the exact result of an addition or a
multiplication is `z`: `z` itself when it fits, else `z` moved by a multiple of
`2^32` into `INT_MIN .. INT_MAX`. -/
def wrap_int (z : Int) : Int := (z + 2147483648) % 4294967296 - 2147483648

/-! ## `utils.c` -/

/-- Rectangle collision detection (`utils_rect_collision`), the sums exact:
the test as the game uses it, on coordinates of the board. -/
def utils_rect_collision (x1 y1 w1 h1 x2 y2 w2 h2 : Int) : Bool :=
  decide (x1 < x2 + w2) && decide (x1 + w1 > x2) &&
  decide (y1 < y2 + h2) && decide (y1 + h1 > y2)

/-- Rectangle collision detection (`utils_rect_collision`) on arbitrary `int`
arguments: each of the four sums is an `int` addition. -/
def utils_rect_collision_int (x1 y1 w1 h1 x2 y2 w2 h2 : Int) : Bool :=
  decide (x1 < wrap_int (x2 + w2)) && decide (wrap_int (x1 + w1) > x2) &&
  decide (y1 < wrap_int (y2 + h2)) && decide (wrap_int (y1 + h1) > y2)

/-- Random integer (`utils_random_int`); `rand` is the value `rand()` returns. -/
def utils_random_int (rand : Nat) (min max : Int) : Int :=
  let lo := if min > max then max else min
  let hi := if min > max then min else max
  lo + Int.tmod (rand : Int) (hi - lo + 1)

/-! ## `model.c`: initialisation -/

/-- Body of the inner loop of `init_enemies`, for grid cell `(row, col)`; the
loop state is the enemy array and the local `enemy_idx`.  Both C loops also
test `enemy_idx < INITIAL_ENEMIES`; as `enemy_idx` never decreases, leaving the
loops when the test fails is the same as skipping every later cell. -/
def init_enemy_body (row col : Nat) (st : List Enemy × Nat) : List Enemy × Nat :=
  if (st.2 : Int) < INITIAL_ENEMIES then
    (st.1.set st.2 ⟨2 + (col : Int) * 12, 2 + (row : Int) * 3, true, 1⟩, st.2 + 1)
  else st

/-- Initialize enemies in grid formation (`init_enemies`). -/
def init_enemies (s : GameState) : GameState :=
  { s with
    enemy_count := INITIAL_ENEMIES
    alive_enemy_count := INITIAL_ENEMIES
    enemies :=
      (forLoop ENEMY_ROWS (fun row st => forLoop ENEMY_COLS (init_enemy_body row) st)
        (s.enemies, 0)).1 }

/-- Body of the inner loop of `init_shields`: block `j` of a shield whose base
column is `pos`, with `r` the `rand()` drawn for the block's row. -/
def init_shield_block (pos : Int) (r : Nat) (j : Nat) (sh : Shield) : Shield :=
  let block_x := Int.tmod (j : Int) SHIELD_WIDTH
  let blk : ShieldBlock := ⟨pos + block_x, BOARD_HEIGHT - 15 - Int.tmod (r : Int) 5, SHIELD_HEALTH⟩
  { sh with blocks := sh.blocks.set j blk }

/-- Body of the outer loop of `init_shields`, for shield `i`. -/
def init_shield_body (rnd : Nat → Nat) (i : Nat) (shields : List Shield) : List Shield :=
  let sh := shields.getD i default
  let sh := { sh with block_count := SHIELD_WIDTH * SHIELD_HEIGHT }
  let sh := forLoop 2
    (fun j t => init_shield_block (Int.tmod (rnd i : Int) 80) (rnd (4 + 2 * i + j)) j t) sh
  shields.set i sh

/-- Initialize shields (`init_shields`). -/
def init_shields (rnd : Nat → Nat) (s : GameState) : GameState :=
  { s with shields := forLoop SHIELD_COUNT (init_shield_body rnd) s.shields }

/-- The state right after `memset (state, 0, sizeof (GameState))`. -/
def zeroed : GameState where
  player := ⟨0, 0, 0, 0⟩
  enemies := List.replicate 55 default
  enemy_count := 0
  alive_enemy_count := 0
  projectiles := List.replicate 100 default
  projectile_count := 0
  enemy_projectiles := List.replicate 30 default
  enemy_projectile_count := 0
  shields := List.replicate 4 default
  level := 0
  frame_count := 0
  enemy_fire_timer := 0
  is_paused := false
  game_over := false
  player_won := false
  enemy_direction := 0
  enemy_move_counter := 0

/-- Initialize game state (`game_init`). -/
def game_init (rnd : Nat → Nat) : GameState :=
  let s := zeroed
  let s := { s with
    player := ⟨Int.tdiv BOARD_WIDTH 2 - Int.tdiv PLAYER_WIDTH 2, BOARD_HEIGHT - 2, INITIAL_LIVES, 0⟩ }
  let s := { s with
    level := INITIAL_LEVEL
    enemy_direction := 1
    enemy_move_counter := 0
    enemy_fire_timer := 0
    frame_count := 0
    is_paused := false
    game_over := false
    player_won := false }
  init_shields rnd (init_enemies s)

/-- Reset game to initial state (`game_reset`). -/
def game_reset (rnd : Nat → Nat) (s : GameState) : GameState :=
  let s := { s with
    player := ⟨Int.tdiv BOARD_WIDTH 2 - Int.tdiv PLAYER_WIDTH 2, BOARD_HEIGHT - 2, INITIAL_LIVES, 0⟩ }
  let s := { s with
    level := INITIAL_LEVEL
    frame_count := 0
    is_paused := false
    game_over := false
    player_won := false
    projectile_count := 0
    enemy_projectile_count := 0
    enemy_direction := 1
    enemy_move_counter := 0 }
  init_shields rnd (init_enemies s)

/-! ## `model.c`: enemies -/

/-- The speed tier computed at the top of `update_enemies`. -/
def enemy_speed (s : GameState) : Int :=
  let enemy_speed := ENEMY_BASE_SPEED
  let enemy_speed :=
    if s.alive_enemy_count ≤ ENEMY_SPEED_INCREASE_THRESHOLD then 2 else enemy_speed
  if s.alive_enemy_count ≤ 5 then 3 else enemy_speed

/-- Body of the horizontal-step loop of `update_enemies`; the loop state is the
game state and the local `hit_edge`. -/
def move_enemy_body (i : Nat) (st : GameState × Bool) : GameState × Bool :=
  let e := st.1.enemies.getD i default
  if !e.active then st
  else
    let e1 : Enemy := { e with x := e.x + st.1.enemy_direction }
    let s1 : GameState := { st.1 with enemies := st.1.enemies.set i e1 }
    if e1.x ≤ 0 ∨ e1.x + ENEMY_WIDTH ≥ BOARD_WIDTH then (s1, true) else (s1, st.2)

/-- Body of the descent loop of `update_enemies`. -/
def descend_enemy_body (i : Nat) (s : GameState) : GameState :=
  let e := s.enemies.getD i default
  if e.active then
    let e1 : Enemy := { e with y := e.y + ENEMY_MOVE_DOWN }
    let s1 : GameState := { s with enemies := s.enemies.set i e1 }
    if e1.y ≥ BOARD_HEIGHT - 2 then { s1 with game_over := true } else s1
  else s

/-- First half of `update_enemies`: speed tier, cadence counter, horizontal
step, edge bounce and descent. -/
def update_enemies_move (s : GameState) : GameState :=
  let speed := enemy_speed s
  let s1 : GameState := { s with enemy_move_counter := s.enemy_move_counter + 1 }
  if s1.enemy_move_counter ≥ 10 - speed then
    let s2 : GameState := { s1 with enemy_move_counter := 0 }
    let st := forLoop s2.enemy_count move_enemy_body (s2, false)
    if st.2 then
      let s3 : GameState := { st.1 with enemy_direction := st.1.enemy_direction * -1 }
      forLoop s3.enemy_count descend_enemy_body s3
    else st.1
  else s1

/-- The probe loop `for (attempts = 0; attempts < 5; attempts++)` of
`update_enemies`, with `n` attempts left and `idx` the current index; the
`break` ends the recursion. -/
def fire_probe : Nat → Int → GameState → GameState
  | 0, _, s => s
  | n + 1, idx, s =>
    let idx1 := Int.tmod (idx + 1) s.enemy_count
    let e := s.enemies.getD idx1.toNat default
    if e.active then
      if s.enemy_projectile_count < MAX_ENEMY_PROJECTILES then
        { s with
          enemy_projectiles := s.enemy_projectiles.set s.enemy_projectile_count.toNat
            (Projectile.mk (e.x + Int.tdiv ENEMY_WIDTH 2) (e.y + 1) true)
          enemy_projectile_count := s.enemy_projectile_count + 1 }
      else s
    else fire_probe n idx1 s

/-- Second half of `update_enemies`: the enemy-fire timer and the shot. -/
def update_enemies_fire (rand : Nat) (s : GameState) : GameState :=
  let s1 : GameState := { s with enemy_fire_timer := s.enemy_fire_timer + 1 }
  if s1.enemy_fire_timer ≥ ENEMY_FIRE_RATE then
    let s2 : GameState := { s1 with enemy_fire_timer := 0 }
    if s2.alive_enemy_count > 0 then
      fire_probe 5 (utils_random_int rand 0 (s2.enemy_count - 1)) s2
    else s2
  else s1

/-- Update enemy positions and fire (`update_enemies`). -/
def update_enemies (rand : Nat) (s : GameState) : GameState :=
  update_enemies_fire rand (update_enemies_move s)

/-! ## `model.c`: projectiles -/

/-- Body of the move loop of `update_projectiles`, on the player pool. -/
def move_projectile_body (i : Nat) (a : List Projectile) : List Projectile :=
  let p := a.getD i default
  if !p.active then a
  else
    let p1 : Projectile := { p with y := p.y - 1 }
    a.set i (if p1.y < 0 then { p1 with active := false } else p1)

/-- Body of the move loop of `update_enemy_projectiles`, on the enemy pool. -/
def move_enemy_projectile_body (i : Nat) (a : List Projectile) : List Projectile :=
  let p := a.getD i default
  if !p.active then a
  else
    let p1 : Projectile := { p with y := p.y + ENEMY_PROJECTILE_SPEED }
    a.set i (if p1.y ≥ BOARD_HEIGHT then { p1 with active := false } else p1)

/-- Body of the "remove inactive projectiles" loop (the same text in
`update_projectiles` and `update_enemy_projectiles`); the loop state is the
pool and the local `new_count`. -/
def compact_body (i : Nat) (st : List Projectile × Nat) : List Projectile × Nat :=
  if (st.1.getD i default).active then
    (st.1.set st.2 (st.1.getD i default), st.2 + 1)
  else st

/-- Update player projectiles (`update_projectiles`). -/
def update_projectiles (s : GameState) : GameState :=
  let moved := forLoop s.projectile_count move_projectile_body s.projectiles
  let st := forLoop s.projectile_count compact_body (moved, 0)
  { s with projectiles := st.1, projectile_count := (st.2 : Int) }

/-- Update enemy projectiles (`update_enemy_projectiles`). -/
def update_enemy_projectiles (s : GameState) : GameState :=
  let moved := forLoop s.enemy_projectile_count move_enemy_projectile_body s.enemy_projectiles
  let st := forLoop s.enemy_projectile_count compact_body (moved, 0)
  { s with enemy_projectiles := st.1, enemy_projectile_count := (st.2 : Int) }

/-! ## `model.c`: collisions -/

/-- Body of the inner loop of "player projectiles vs enemies": projectile `i`
against enemy `j`. -/
def hit_enemy_body (i j : Nat) (s : GameState) : GameState :=
  let e := s.enemies.getD j default
  let p := s.projectiles.getD i default
  if !e.active then s
  else if utils_rect_collision p.x p.y 1 1 e.x e.y ENEMY_WIDTH ENEMY_HEIGHT then
    { s with
      projectiles := s.projectiles.set i { p with active := false }
      enemies := s.enemies.set j { e with active := false }
      alive_enemy_count := s.alive_enemy_count - 1
      player := { s.player with score := s.player.score + POINTS_PER_ENEMY } }
  else s

/-- Body of the outer loop of "player projectiles vs enemies". -/
def proj_vs_enemies_body (i : Nat) (s : GameState) : GameState :=
  if !(s.projectiles.getD i default).active then s
  else forLoop s.enemy_count (hit_enemy_body i) s

/-- Decrement the health of block `b` of shield `k` (`shields[k].blocks[b].health--`). -/
def damage_block (k b : Nat) (shields : List Shield) : List Shield :=
  let sh := shields.getD k default
  let blk := sh.blocks.getD b default
  shields.set k { sh with blocks := sh.blocks.set b { blk with health := blk.health - 1 } }

/-- Body of the innermost loop of "player projectiles vs shields": projectile
`i` against block `b` of shield `k`. -/
def hit_shield_body (i k b : Nat) (s : GameState) : GameState :=
  let blk := (s.shields.getD k default).blocks.getD b default
  let p := s.projectiles.getD i default
  if blk.health ≤ 0 then s
  else if utils_rect_collision p.x p.y 1 1 blk.x blk.y 6 2 then
    { s with
      projectiles := s.projectiles.set i { p with active := false }
      shields := damage_block k b s.shields }
  else s

/-- Body of the outer loop of "player projectiles vs shields". -/
def proj_vs_shields_body (i : Nat) (s : GameState) : GameState :=
  if !(s.projectiles.getD i default).active then s
  else
    forLoop SHIELD_COUNT
      (fun k t => forLoop (t.shields.getD k default).block_count (hit_shield_body i k) t) s

/-- Body of the loop "enemy projectiles vs player". -/
def eproj_vs_player_body (i : Nat) (s : GameState) : GameState :=
  let p := s.enemy_projectiles.getD i default
  if !p.active then s
  else if utils_rect_collision p.x p.y 1 1 s.player.x s.player.y PLAYER_WIDTH PLAYER_HEIGHT then
    let s1 : GameState := { s with
      enemy_projectiles := s.enemy_projectiles.set i { p with active := false }
      player := { s.player with health := s.player.health - 1 } }
    if s1.player.health ≤ 0 then { s1 with game_over := true } else s1
  else s

/-- Body of the innermost loop of "enemy projectiles vs shields". -/
def ehit_shield_body (i k b : Nat) (s : GameState) : GameState :=
  let blk := (s.shields.getD k default).blocks.getD b default
  let p := s.enemy_projectiles.getD i default
  if blk.health ≤ 0 then s
  else if utils_rect_collision p.x p.y 1 1 blk.x blk.y 6 2 then
    { s with
      enemy_projectiles := s.enemy_projectiles.set i { p with active := false }
      shields := damage_block k b s.shields }
  else s

/-- Body of the outer loop of "enemy projectiles vs shields". -/
def eproj_vs_shields_body (i : Nat) (s : GameState) : GameState :=
  if !(s.enemy_projectiles.getD i default).active then s
  else
    forLoop SHIELD_COUNT
      (fun k t => forLoop (t.shields.getD k default).block_count (ehit_shield_body i k) t) s

/-- First pass of `handle_collisions`: player projectiles vs enemies. -/
def collide_proj_enemies (s : GameState) : GameState :=
  forLoop s.projectile_count proj_vs_enemies_body s

/-- Second pass of `handle_collisions`: player projectiles vs shields. -/
def collide_proj_shields (s : GameState) : GameState :=
  forLoop s.projectile_count proj_vs_shields_body s

/-- Third pass of `handle_collisions`: enemy projectiles vs player. -/
def collide_eproj_player (s : GameState) : GameState :=
  forLoop s.enemy_projectile_count eproj_vs_player_body s

/-- Fourth pass of `handle_collisions`: enemy projectiles vs shields. -/
def collide_eproj_shields (s : GameState) : GameState :=
  forLoop s.enemy_projectile_count eproj_vs_shields_body s

/-- Handle all collision detection (`handle_collisions`). -/
def handle_collisions (s : GameState) : GameState :=
  collide_eproj_shields (collide_eproj_player (collide_proj_shields (collide_proj_enemies s)))

/-! ## `model.c`: levels, commands, the frame -/

/-- Next level (`game_next_level`). -/
def game_next_level (rnd : Nat → Nat) (s : GameState) : GameState :=
  let s1 : GameState := { s with
    level := s.level + 1
    player := { s.player with score := s.player.score + POINTS_LEVEL_BONUS } }
  if s1.level > 10 then
    { s1 with player_won := true, game_over := true }
  else
    init_shields rnd (init_enemies { s1 with projectile_count := 0, enemy_projectile_count := 0 })

/-- Set game to a specific level (`game_set_level`). -/
def game_set_level (rnd : Nat → Nat) (s : GameState) (level : Int) : GameState :=
  if level < 1 then s
  else
    let s1 : GameState := { s with
      level := level
      player := { s.player with
        score := wrap_int (s.player.score + wrap_int (POINTS_LEVEL_BONUS * (level - 1))) } }
    init_shields rnd (init_enemies { s1 with projectile_count := 0, enemy_projectile_count := 0 })

/-- Check if level is complete (`check_level_complete`). -/
def check_level_complete (rnd : Nat → Nat) (s : GameState) : GameState :=
  if s.alive_enemy_count ≤ 0 then game_next_level rnd s else s

/-- The frame up to and including both projectile advances: what `game_update`
does before it calls `handle_collisions`. -/
def advance (rand : Nat) (s : GameState) : GameState :=
  update_enemy_projectiles (update_projectiles
    (update_enemies rand { s with frame_count := s.frame_count + 1 }))

/-- Update game logic for one frame (`game_update`). -/
def game_update (rand : Nat) (rnd : Nat → Nat) (s : GameState) : GameState :=
  if s.is_paused || s.game_over then s
  else check_level_complete rnd (handle_collisions (advance rand s))

/-- Move player left (`game_move_player_left`). -/
def game_move_player_left (s : GameState) : GameState :=
  if !s.is_paused && !s.game_over then
    let x := s.player.x - PLAYER_SPEED
    { s with player := { s.player with x := if x < 0 then 0 else x } }
  else s

/-- Move player right (`game_move_player_right`). -/
def game_move_player_right (s : GameState) : GameState :=
  if !s.is_paused && !s.game_over then
    let x := s.player.x + PLAYER_SPEED
    { s with player :=
      { s.player with x := if x + PLAYER_WIDTH > BOARD_WIDTH then BOARD_WIDTH - PLAYER_WIDTH else x } }
  else s

/-- Fire projectile from player (`game_player_shoot`). -/
def game_player_shoot (s : GameState) : GameState :=
  if !s.is_paused && !s.game_over then
    if s.projectile_count < MAX_PROJECTILES then
      { s with
        projectiles := s.projectiles.set s.projectile_count.toNat
          (Projectile.mk (s.player.x + Int.tdiv PLAYER_WIDTH 2) (s.player.y - 1) true)
        projectile_count := s.projectile_count + 1 }
    else s
  else s

/-- Toggle pause (`game_toggle_pause`). -/
def game_toggle_pause (s : GameState) : GameState :=
  if !s.game_over then { s with is_paused := !s.is_paused } else s

/-- Check if game is over (`game_is_over`). -/
def game_is_over (s : GameState) : Bool :=
  s.game_over || decide (s.player.health ≤ 0)

/-- Check if player won (`game_is_won`). -/
def game_is_won (s : GameState) : Bool :=
  s.player_won

/-! ## Notions used by the properties -/

/-- Number of active enemies among the entries below `enemy_count`. -/
def active_enemies (s : GameState) : Nat :=
  (s.enemies.take s.enemy_count.toNat).countP (fun e => e.active)

/-- States reachable from `game_init` through every public operation of the
model: `game_update`, the player commands, `game_next_level`, `game_set_level`
and `game_reset`, under every outcome of `rand()`. -/
inductive Reachable : GameState → Prop
  | init (rnd : Nat → Nat) : Reachable (game_init rnd)
  | update (rand : Nat) (rnd : Nat → Nat) (s : GameState) :
      Reachable s → Reachable (game_update rand rnd s)
  | move_left (s : GameState) : Reachable s → Reachable (game_move_player_left s)
  | move_right (s : GameState) : Reachable s → Reachable (game_move_player_right s)
  | shoot (s : GameState) : Reachable s → Reachable (game_player_shoot s)
  | toggle_pause (s : GameState) : Reachable s → Reachable (game_toggle_pause s)
  | next_level (rnd : Nat → Nat) (s : GameState) :
      Reachable s → Reachable (game_next_level rnd s)
  | set_level (rnd : Nat → Nat) (s : GameState) (level : Int) :
      Reachable s → Reachable (game_set_level rnd s level)
  | reset (rnd : Nat → Nat) (s : GameState) : Reachable s → Reachable (game_reset rnd s)

/-- The cell of the initial grid that `init_enemies` writes into slot `k`. -/
def grid_enemy (k : Nat) : Enemy :=
  ⟨2 + ((k % 6 : Nat) : Int) * 12, 2 + ((k / 6 : Nat) : Int) * 3, true, 1⟩

/-- The enemy bookkeeping is consistent: the array holds the initial squad, the
count stays inside the array, and `alive_enemy_count` is the number of active
entries below `enemy_count`. -/
def EnemyInv (s : GameState) : Prop :=
  30 ≤ s.enemies.length ∧ s.enemy_count.toNat ≤ s.enemies.length ∧
  s.alive_enemy_count = (active_enemies s : Int)

/-- Both projectile pools are within their configured capacities. -/
def PoolsBounded (s : GameState) : Prop :=
  s.projectile_count ≤ MAX_PROJECTILES ∧ s.enemy_projectile_count ≤ MAX_ENEMY_PROJECTILES

instance (s : GameState) : Decidable (EnemyInv s) :=
  inferInstanceAs (Decidable (_ ∧ _ ∧ _))

instance (s : GameState) : Decidable (PoolsBounded s) :=
  inferInstanceAs (Decidable (_ ∧ _))

/-- The live part of the player pool: the entries below `projectile_count`. -/
def player_pool (s : GameState) : List Projectile :=
  s.projectiles.take s.projectile_count.toNat

/-- The live part of the enemy pool: the entries below `enemy_projectile_count`. -/
def enemy_pool (s : GameState) : List Projectile :=
  s.enemy_projectiles.take s.enemy_projectile_count.toNat

/-- The stable filter the specification describes for the player pool: keep,
in order, the projectiles that are active and whose new row `y - 1` is still on
the board, each moved up by one row. -/
def spec_advance_player_pool (pool : List Projectile) : List Projectile :=
  (pool.filter (fun p => p.active && decide (p.y - 1 ≥ 0))).map
    (fun p => { p with y := p.y - 1 })

/-- The stable filter the specification describes for the enemy pool: keep, in
order, the projectiles that are active and whose new row
`y + ENEMY_PROJECTILE_SPEED` is above the bottom of the board, each moved down
by that speed. -/
def spec_advance_enemy_pool (pool : List Projectile) : List Projectile :=
  (pool.filter (fun p => p.active && decide (p.y + ENEMY_PROJECTILE_SPEED < BOARD_HEIGHT))).map
    (fun p => { p with y := p.y + ENEMY_PROJECTILE_SPEED })

/-- What the move loop of `update_projectiles` does to one slot. -/
def move_up (p : Projectile) : Projectile :=
  if !p.active then p
  else if p.y - 1 < 0 then { p with y := p.y - 1, active := false } else { p with y := p.y - 1 }

/-- What the move loop of `update_enemy_projectiles` does to one slot. -/
def move_down (p : Projectile) : Projectile :=
  if !p.active then p
  else if p.y + ENEMY_PROJECTILE_SPEED ≥ BOARD_HEIGHT then
    { p with y := p.y + ENEMY_PROJECTILE_SPEED, active := false }
  else { p with y := p.y + ENEMY_PROJECTILE_SPEED }

/-- The collision test of the first pass of `handle_collisions`: the 1x1 cell
of projectile `p` against the `ENEMY_WIDTH` x `ENEMY_HEIGHT` box of enemy `e`. -/
def proj_hits_enemy (p : Projectile) (e : Enemy) : Bool :=
  utils_rect_collision p.x p.y 1 1 e.x e.y ENEMY_WIDTH ENEMY_HEIGHT

/-- The collision test of the third pass of `handle_collisions`: the 1x1 cell
of projectile `p` against the `PLAYER_WIDTH` x `PLAYER_HEIGHT` box of the
player. -/
def proj_hits_player (p : Projectile) (pl : Player) : Bool :=
  utils_rect_collision p.x p.y 1 1 pl.x pl.y PLAYER_WIDTH PLAYER_HEIGHT

/-- The state after projectile `i` has killed enemy `j`: both deactivated, one
enemy fewer alive, the kill points added. -/
def kill (i j : Nat) (s : GameState) : GameState :=
  { s with
    projectiles := s.projectiles.set i { s.projectiles.getD i default with active := false }
    enemies := s.enemies.set j { s.enemies.getD j default with active := false }
    alive_enemy_count := s.alive_enemy_count - 1
    player := { s.player with score := s.player.score + POINTS_PER_ENEMY } }

/-- Player projectile `i` and enemy `j` of state `s` are both active and the
projectile's cell lies inside the enemy's hit-box. -/
def overlapping (s : GameState) (i j : Nat) : Bool :=
  (s.projectiles.getD i default).active && (s.enemies.getD j default).active &&
  proj_hits_enemy (s.projectiles.getD i default) (s.enemies.getD j default)

/-- Enemy projectile `p` is active and its cell overlaps the box of player `pl`. -/
def wounds (pl : Player) (p : Projectile) : Bool :=
  p.active && proj_hits_player p pl

/-- Number of projectiles in the live enemy pool that are active and overlap
the player. -/
def player_hits (s : GameState) : Nat :=
  (enemy_pool s).countP (wounds s.player)

/-- What the third collision pass does to one slot of the enemy pool. -/
def absorb (pl : Player) (p : Projectile) : Projectile :=
  if wounds pl p then { p with active := false } else p

/-- State `s` with the three fields the third collision pass writes. -/
def with_player_pass (s : GameState) (eps : List Projectile) (health : Int) (over : Bool) :
    GameState :=
  { s with
    enemy_projectiles := eps
    player := { s.player with health := health }
    game_over := over }

/-- States reached from `s0` by any sequence of `game_update` calls and player
commands (moves, shoot, pause), under every outcome of `rand()`. -/
inductive PlayedFrom (s0 : GameState) : GameState → Prop
  | start : PlayedFrom s0 s0
  | update (rand : Nat) (rnd : Nat → Nat) (s : GameState) :
      PlayedFrom s0 s → PlayedFrom s0 (game_update rand rnd s)
  | move_left (s : GameState) : PlayedFrom s0 s → PlayedFrom s0 (game_move_player_left s)
  | move_right (s : GameState) : PlayedFrom s0 s → PlayedFrom s0 (game_move_player_right s)
  | shoot (s : GameState) : PlayedFrom s0 s → PlayedFrom s0 (game_player_shoot s)
  | toggle_pause (s : GameState) : PlayedFrom s0 s → PlayedFrom s0 (game_toggle_pause s)

/-- The ship is horizontally inside the board. -/
def PlayerInBounds (s : GameState) : Prop :=
  0 ≤ s.player.x ∧ s.player.x ≤ BOARD_WIDTH - PLAYER_WIDTH

instance (s : GameState) : Decidable (PlayerInBounds s) :=
  inferInstanceAs (Decidable (_ ∧ _))

/-- The shield that `init_shields` leaves in slot `i`, when the slot held `sh`:
`block_count` is set and blocks 0 and 1 are written, at columns `p` and `p + 1`
for the base column `p = rand() % 80` of the shield. -/
def placed_shield (rnd : Nat → Nat) (i : Nat) (sh : Shield) : Shield :=
  { blocks := (sh.blocks.set 0
        ⟨Int.tmod (rnd i : Int) 80 + 0, BOARD_HEIGHT - 15 - Int.tmod (rnd (4 + 2 * i) : Int) 5,
          SHIELD_HEALTH⟩).set 1
        ⟨Int.tmod (rnd i : Int) 80 + 1, BOARD_HEIGHT - 15 - Int.tmod (rnd (4 + 2 * i + 1) : Int) 5,
          SHIELD_HEALTH⟩
    block_count := 4 }

/-- Every block from index 2 on, of every shield, has health 0. -/
def SpareBlocksEmpty (shields : List Shield) : Prop :=
  ∀ k b, 2 ≤ b → ((shields.getD k default).blocks.getD b default).health = 0

/-- The win flag is only set past the last level, together with `game_over`. -/
def WonInv (s : GameState) : Prop :=
  s.player_won = true → 10 < s.level ∧ s.game_over = true

/-- While the game is not won, the score is the points of the cleared levels
plus the points of the enemies killed in the current level. -/
def ScoreInv (s : GameState) : Prop :=
  s.player_won = false →
    s.player.score
      = (INITIAL_ENEMIES * POINTS_PER_ENEMY + POINTS_LEVEL_BONUS) * (s.level - 1)
        + POINTS_PER_ENEMY * (INITIAL_ENEMIES - s.alive_enemy_count)

/-- What the horizontal-step loop of `update_enemies` does to one slot, for
direction `d`. -/
def shift_enemy (d : Int) (e : Enemy) : Enemy :=
  if e.active then { e with x := e.x + d } else e

/-- What the descent loop of `update_enemies` does to one slot. -/
def lower_enemy (e : Enemy) : Enemy :=
  if e.active then { e with y := e.y + ENEMY_MOVE_DOWN } else e

/-- The cadence test of `update_enemies`: the incremented move counter has
reached `10 - enemy_speed`. -/
def step_triggered (s : GameState) : Prop :=
  s.enemy_move_counter + 1 ≥ 10 - enemy_speed s

instance (s : GameState) : Decidable (step_triggered s) :=
  inferInstanceAs (Decidable (_ ≥ _))

/-- Some active enemy below `enemy_count` touches a board edge once it is moved
by `enemy_direction`: the `hit_edge` flag of `update_enemies`. -/
def edge_hit (s : GameState) : Prop :=
  ∃ i, i < s.enemy_count.toNat ∧ (s.enemies.getD i default).active = true ∧
    ((s.enemies.getD i default).x + s.enemy_direction ≤ 0 ∨
     (s.enemies.getD i default).x + s.enemy_direction + ENEMY_WIDTH ≥ BOARD_WIDTH)

instance (s : GameState) : Decidable (edge_hit s) :=
  inferInstanceAs (Decidable (∃ i, i < s.enemy_count.toNat ∧ _))

/-- An active enemy on or below the player line means the game is over. -/
def BottomInv (s : GameState) : Prop :=
  ∀ i, (s.enemies.getD i default).active = true →
    (s.enemies.getD i default).y ≥ BOARD_HEIGHT - 2 → s.game_over = true

/-- The formation marches inside the board: the squad has its 30 slots, the
direction is one column left or right, every active enemy is one of the squad
and lies inside the board, and it is still off the edge it is marching to. -/
def MarchInv (s : GameState) : Prop :=
  s.enemy_count = INITIAL_ENEMIES ∧ (s.enemy_direction = 1 ∨ s.enemy_direction = -1) ∧
  ∀ i, (s.enemies.getD i default).active = true →
    i < 30 ∧ 0 ≤ (s.enemies.getD i default).x ∧
    (s.enemies.getD i default).x + ENEMY_WIDTH ≤ BOARD_WIDTH ∧
    (s.enemy_direction = 1 → (s.enemies.getD i default).x + ENEMY_WIDTH < BOARD_WIDTH) ∧
    (s.enemy_direction = -1 → 0 < (s.enemies.getD i default).x)

/-- The projectile that `update_enemies` spawns from enemy `e`: in the enemy's
middle column, one row below it. -/
def enemy_shot (e : Enemy) : Projectile :=
  ⟨e.x + Int.tdiv ENEMY_WIDTH 2, e.y + 1, true⟩

/-- The first active enemy among the five indices `first`, `first + 1`, ...,
`first + 4` (mod `enemy_count`), if there is one. -/
def first_active_among (s : GameState) (first : Int) : Option Nat :=
  ((List.range 5).map (fun k : Nat => ((first + (k : Int)) % s.enemy_count).toNat)).find?
    (fun i => (s.enemies.getD i default).active)

/-- The shooter, if there is one, fires: one active projectile spawned from it
is appended to the enemy pool if the pool has capacity; otherwise the state is
left as it is. -/
def enemy_shoots (s : GameState) : Option Nat → GameState
  | some j =>
    if s.enemy_projectile_count < MAX_ENEMY_PROJECTILES then
      { s with
        enemy_projectiles := s.enemy_projectiles.set s.enemy_projectile_count.toNat
          (enemy_shot (s.enemies.getD j default))
        enemy_projectile_count := s.enemy_projectile_count + 1 }
    else s
  | none => s

/-- The enemy-fire step in the words of the specification, with `first` the
first of the five probed indices: the timer is incremented and, when it reaches
`ENEMY_FIRE_RATE`, reset to 0; then, if an enemy is alive, the first active
enemy among the five probed indices fires. -/
def spec_enemy_fire (first : Int) (s : GameState) : GameState :=
  if s.enemy_fire_timer + 1 ≥ ENEMY_FIRE_RATE then
    if s.alive_enemy_count > 0 then
      enemy_shoots { s with enemy_fire_timer := 0 } (first_active_among s first)
    else { s with enemy_fire_timer := 0 }
  else { s with enemy_fire_timer := s.enemy_fire_timer + 1 }

/-- At most one enemy shot is in flight: the enemy pool array has its 30 slots
and holds no entry, or one entry that is on the board and at least four rows
further down than the fire timer counts frames; and every active enemy is on
row 2 or below it. -/
def ShotInv (s : GameState) : Prop :=
  s.enemy_projectiles.length = 30 ∧
  (s.enemy_projectile_count = 0 ∨
    (s.enemy_projectile_count = 1 ∧
      s.enemy_fire_timer + 4 ≤ (s.enemy_projectiles.getD 0 default).y ∧
      (s.enemy_projectiles.getD 0 default).y < BOARD_HEIGHT)) ∧
  (∀ i, (s.enemies.getD i default).active = true → 2 ≤ (s.enemies.getD i default).y)

/-- No player projectile's cell lies in the hit-boxes of two active enemies of
the squad at once. -/
def NoDoubleHit (s : GameState) : Prop :=
  ∀ i j j', j < s.enemy_count.toNat → j' < s.enemy_count.toNat →
    overlapping s i j = true → overlapping s i j' = true → j = j'

/-- The lives are not negative, and a game with no lives left is over. -/
def LivesInv (s : GameState) : Prop :=
  0 ≤ s.player.health ∧ (s.player.health ≤ 0 → s.game_over = true)

/-- Number of active projectiles in the live player pool. -/
def active_projectiles (s : GameState) : Nat :=
  (player_pool s).countP (fun p => p.active)

/-- The active enemies keep the spacing of the grid: each is a squad member and
sits at its grid cell moved by one common offset. -/
def GridInv (s : GameState) : Prop :=
  ∃ dx dy : Int, ∀ i, (s.enemies.getD i default).active = true →
    i < 30 ∧ (s.enemies.getD i default).x = (grid_enemy i).x + dx ∧
    (s.enemies.getD i default).y = (grid_enemy i).y + dy

/-- Block `b` of shield `k`. -/
def block_at (s : GameState) (k b : Nat) : ShieldBlock :=
  (s.shields.getD k default).blocks.getD b default

/-- The shield test of `handle_collisions`: the block has health left and the
1x1 cell of `p` overlaps the 6x2 hit-box anchored at the block. -/
def shield_hit (p : Projectile) (blk : ShieldBlock) : Bool :=
  decide (0 < blk.health) && utils_rect_collision p.x p.y 1 1 blk.x blk.y 6 2

/-- A block after one hit. -/
def worn (blk : ShieldBlock) : ShieldBlock :=
  { blk with health := blk.health - 1 }

/-- From `s` to `t` the shield blocks have only been worn down: no block has
moved, no health has grown or turned negative, and a block without health is
exactly as it was. -/
def BlocksWorn (s t : GameState) : Prop :=
  ∀ k b, (block_at t k b).x = (block_at s k b).x ∧ (block_at t k b).y = (block_at s k b).y ∧
    (block_at t k b).health ≤ (block_at s k b).health ∧
    (0 ≤ (block_at s k b).health → 0 ≤ (block_at t k b).health) ∧
    ((block_at s k b).health ≤ 0 → block_at t k b = block_at s k b)

/-- State `r` is state `t` after the projectile in slot `i` of the player pool
has been tested against the blocks selected by `seen`: every selected block it
hits has lost one health, no other block and no `block_count` has changed, the
slot is deactivated if something was hit, and no other slot has changed. -/
def SweptPlayer (i : Nat) (seen : Nat → Nat → Prop) (t r : GameState) : Prop :=
  (∀ k b, seen k b → shield_hit (t.projectiles.getD i default) (block_at t k b) = true →
    block_at r k b = worn (block_at t k b)) ∧
  (∀ k b, ¬ (seen k b ∧ shield_hit (t.projectiles.getD i default) (block_at t k b) = true) →
    block_at r k b = block_at t k b) ∧
  (∀ k, (r.shields.getD k default).block_count = (t.shields.getD k default).block_count) ∧
  ((∃ k b, seen k b ∧ shield_hit (t.projectiles.getD i default) (block_at t k b) = true) →
    r.projectiles.getD i default = { t.projectiles.getD i default with active := false }) ∧
  ((¬ ∃ k b, seen k b ∧ shield_hit (t.projectiles.getD i default) (block_at t k b) = true) →
    r.projectiles.getD i default = t.projectiles.getD i default) ∧
  (∀ n, n ≠ i → r.projectiles.getD n default = t.projectiles.getD n default)

/-- The same as `SweptPlayer` for slot `i` of the enemy pool. -/
def SweptEnemy (i : Nat) (seen : Nat → Nat → Prop) (t r : GameState) : Prop :=
  (∀ k b, seen k b →
    shield_hit (t.enemy_projectiles.getD i default) (block_at t k b) = true →
    block_at r k b = worn (block_at t k b)) ∧
  (∀ k b,
    ¬ (seen k b ∧ shield_hit (t.enemy_projectiles.getD i default) (block_at t k b) = true) →
    block_at r k b = block_at t k b) ∧
  (∀ k, (r.shields.getD k default).block_count = (t.shields.getD k default).block_count) ∧
  ((∃ k b, seen k b ∧
      shield_hit (t.enemy_projectiles.getD i default) (block_at t k b) = true) →
    r.enemy_projectiles.getD i default
      = { t.enemy_projectiles.getD i default with active := false }) ∧
  ((¬ ∃ k b, seen k b ∧
      shield_hit (t.enemy_projectiles.getD i default) (block_at t k b) = true) →
    r.enemy_projectiles.getD i default = t.enemy_projectiles.getD i default) ∧
  (∀ n, n ≠ i → r.enemy_projectiles.getD n default = t.enemy_projectiles.getD n default)

/-- The 1x1 cell of `p` lies in the 6x2 hit-box anchored at `blk`. -/
def in_box (p : Projectile) (blk : ShieldBlock) : Bool :=
  utils_rect_collision p.x p.y 1 1 blk.x blk.y 6 2

/-- Number of active projectiles of `pool` whose cell lies in the hit-box of
`blk`. -/
def pool_hits (pool : List Projectile) (blk : ShieldBlock) : Nat :=
  pool.countP (fun p => p.active && in_box p blk)

/-- Health `h` after `m` projectiles have been tested in the block's hit-box:
one health goes per projectile while health is left. -/
def wear (h : Int) (m : Nat) : Int :=
  if h ≤ 0 then h else max 0 (h - (m : Int))

/-- Slot `j` of the player pool of `t` is stopped by a shield: it is active and
its cell lies in the hit-box of a block, below its shield's `block_count`,
whose health exceeds the number of active projectiles in earlier slots whose
cell lies in that hit-box. -/
def stopped_player (t : GameState) (j : Nat) : Prop :=
  (t.projectiles.getD j default).active = true ∧
  ∃ k b, (k < 4 ∧ b < ((t.shields.getD k default).block_count).toNat) ∧
    in_box (t.projectiles.getD j default) (block_at t k b) = true ∧
    (pool_hits (t.projectiles.take j) (block_at t k b) : Int) < (block_at t k b).health

/-- The same as `stopped_player` for slot `j` of the enemy pool. -/
def stopped_enemy (t : GameState) (j : Nat) : Prop :=
  (t.enemy_projectiles.getD j default).active = true ∧
  ∃ k b, (k < 4 ∧ b < ((t.shields.getD k default).block_count).toNat) ∧
    in_box (t.enemy_projectiles.getD j default) (block_at t k b) = true ∧
    (pool_hits (t.enemy_projectiles.take j) (block_at t k b) : Int) < (block_at t k b).health

/-- State `u` is state `t` after the first `n` slots of the player pool have
had their turn in the shield pass: every block below its shield's
`block_count` has the health `wear` gives for the active projectiles among
those slots whose cell lies in its hit-box, nothing else about the shields has
changed, and of the slots exactly the stopped ones among the first `n` have
been deactivated. -/
def WornPlayer (n : Nat) (t u : GameState) : Prop :=
  (∀ k b, k < 4 ∧ b < ((t.shields.getD k default).block_count).toNat →
    block_at u k b = { block_at t k b with
      health := wear (block_at t k b).health
        (pool_hits (t.projectiles.take n) (block_at t k b)) }) ∧
  (∀ k b, ¬ (k < 4 ∧ b < ((t.shields.getD k default).block_count).toNat) →
    block_at u k b = block_at t k b) ∧
  (∀ k, (u.shields.getD k default).block_count = (t.shields.getD k default).block_count) ∧
  (∀ j, j < n → stopped_player t j →
    u.projectiles.getD j default = { t.projectiles.getD j default with active := false }) ∧
  (∀ j, j < n → ¬ stopped_player t j →
    u.projectiles.getD j default = t.projectiles.getD j default) ∧
  (∀ j, n ≤ j → u.projectiles.getD j default = t.projectiles.getD j default)

/-- The same as `WornPlayer` for the enemy pool. -/
def WornEnemy (n : Nat) (t u : GameState) : Prop :=
  (∀ k b, k < 4 ∧ b < ((t.shields.getD k default).block_count).toNat →
    block_at u k b = { block_at t k b with
      health := wear (block_at t k b).health
        (pool_hits (t.enemy_projectiles.take n) (block_at t k b)) }) ∧
  (∀ k b, ¬ (k < 4 ∧ b < ((t.shields.getD k default).block_count).toNat) →
    block_at u k b = block_at t k b) ∧
  (∀ k, (u.shields.getD k default).block_count = (t.shields.getD k default).block_count) ∧
  (∀ j, j < n → stopped_enemy t j →
    u.enemy_projectiles.getD j default
      = { t.enemy_projectiles.getD j default with active := false }) ∧
  (∀ j, j < n → ¬ stopped_enemy t j →
    u.enemy_projectiles.getD j default = t.enemy_projectiles.getD j default) ∧
  (∀ j, n ≤ j → u.enemy_projectiles.getD j default = t.enemy_projectiles.getD j default)

/-! ## Concrete states used to exercise the properties -/

/-- A `rand()` that always returns 0. -/
def rnd0 : Nat → Nat := fun _ => 0

/-- A fresh game whose two pools are both marked full. -/
def full_pools : GameState :=
  { game_init rnd0 with projectile_count := 100, enemy_projectile_count := 30 }

/-- A fresh game with four slots of each pool filled: in the player pool one
projectile on the top row and one inactive slot, in the enemy pool one inactive
slot and one projectile on the bottom row. -/
def pool_demo : GameState :=
  { game_init rnd0 with
    projectiles := [⟨5, 0, true⟩, ⟨6, 3, true⟩, ⟨7, 4, false⟩, ⟨8, 9, true⟩]
      ++ List.replicate 96 default
    projectile_count := 4
    enemy_projectiles := [⟨10, 7, false⟩, ⟨11, 4, true⟩, ⟨12, 23, true⟩, ⟨13, 22, true⟩]
      ++ List.replicate 26 default
    enemy_projectile_count := 4 }

/-- A fresh game with one player projectile right below the leftmost enemy of
the top row. -/
def one_hit : GameState :=
  { game_init rnd0 with
    projectiles := (game_init rnd0).projectiles.set 0 ⟨3, 3, true⟩
    projectile_count := 1 }

/-- A fresh game with one life left and two enemy projectiles right above the
player's ship. -/
def two_shots : GameState :=
  { game_init rnd0 with
    player := ⟨39, 22, 1, 0⟩
    enemy_projectiles :=
      ((game_init rnd0).enemy_projectiles.set 0 ⟨40, 21, true⟩).set 1 ⟨40, 21, true⟩
    enemy_projectile_count := 2 }

/-- A fresh game with one enemy projectile right above the player's ship. -/
def one_shot : GameState :=
  { game_init rnd0 with
    enemy_projectiles := (game_init rnd0).enemy_projectiles.set 0 ⟨40, 21, true⟩
    enemy_projectile_count := 1 }

/-- A fresh game after one shot. -/
def one_hit_played : GameState := game_player_shoot (game_init rnd0)

/-- A fresh game left alone for `k` frames. -/
def idle_run : Nat → GameState
  | 0 => game_init rnd0
  | k + 1 => game_update 0 rnd0 (idle_run k)

/-- A fresh game whose formation has marched 14 columns to the right and whose
cadence counter is one tick short of a step: the next step touches the right
edge. -/
def at_right_edge : GameState :=
  { game_init rnd0 with
    enemy_move_counter := 8
    enemies := (game_init rnd0).enemies.map (fun e => { e with x := e.x + 14 }) }

/-- The state `at_right_edge` seven rows further down: the bottom row of the
formation is one row above the player line. -/
def low_formation : GameState :=
  { at_right_edge with
    enemies := at_right_edge.enemies.map (fun e => { e with y := e.y + 7 }) }

/-- The state `one_hit` with enemy 1 moved onto enemy 0: two active enemies
share the hit-box that the projectile is about to enter. -/
def stacked_enemies : GameState :=
  { one_hit with enemies := one_hit.enemies.set 1 ⟨2, 2, true, 1⟩ }

/-- A fresh game in which the player shoots at once and then waits `k` frames. -/
def shot_run : Nat → GameState
  | 0 => one_hit_played
  | k + 1 => game_update 0 rnd0 (shot_run k)

/-- A fresh game with one player projectile one row below the shield blocks,
which `rnd0` places at (0, 9) and (1, 9). -/
def shield_demo : GameState :=
  { game_init rnd0 with
    projectiles := (game_init rnd0).projectiles.set 0 ⟨2, 10, true⟩
    projectile_count := 1 }

/-- The state after `k` more frames in which `rand()` returns 0. -/
def wait : Nat → GameState → GameState
  | 0, s => s
  | k + 1, s => game_update 0 rnd0 (wait k s)

/-- A game in which the player moves left eleven times (to `x = 17`), waits 128
frames, shoots, and waits 6 more frames: the projectile is one row below the
bottom row of the formation, which is about to step onto the right edge. -/
def tunnel_play : GameState :=
  wait 6 (game_player_shoot (wait 128 (game_move_player_left^[11] (game_init rnd0))))

/-- One round of play: the player moves left `l` times, then right `r`
times, shoots, and `k` frames pass in which `rand()` returns 0. -/
def shot_round (l r k : Nat) (s : GameState) : GameState :=
  wait k (game_player_shoot (game_move_player_right^[r] (game_move_player_left^[l] s)))

/-- The rounds `(l, r, k)` of a list, played one after the other. -/
def play_rounds : List (Nat × Nat × Nat) → GameState → GameState
  | [], s => s
  | (l, r, k) :: rest, s => play_rounds rest (shot_round l r k s)

/-- Thirty rounds, one shot each: every shot is fired from under an enemy that
is the lowest of its column and kills it in the last frame of its round, except
that the last round stops one frame before its shot arrives. -/
def clear_script : List (Nat × Nat × Nat) :=
  [(0, 0, 7), (6, 0, 7), (5, 0, 7), (6, 0, 7), (0, 24, 7), (0, 6, 7),
   (0, 1, 10), (5, 0, 10), (5, 0, 10), (6, 0, 10), (5, 0, 10), (6, 0, 10),
   (0, 0, 13), (0, 7, 13), (0, 7, 12), (0, 5, 12), (0, 5, 12), (0, 6, 12),
   (1, 0, 15), (6, 0, 15), (7, 0, 15), (7, 0, 15), (7, 0, 15), (2, 0, 18),
   (0, 5, 17), (0, 8, 17), (0, 7, 17), (23, 0, 14), (0, 1, 17), (0, 32, 16)]

/-- A game played by `clear_script`: 29 enemies are shot, and the shot at the
last one is one row below it. -/
def clear_play : GameState := play_rounds clear_script (game_init rnd0)

/-- A game in which the player moves left ten times (to `x = 19`) and then
waits 67 frames: the enemy shot fired in frame 50 from column 20 is one row
above the ship. -/
def under_fire : GameState :=
  wait 67 (game_move_player_left^[10] (game_init rnd0))

/-- A game in which the player moves left seventeen times (to `x = 5`), shoots
and waits ten frames: the projectile, in column 6, has passed beside the
leftmost enemies and is one row below the hit-boxes of the shield blocks that
`rnd0` places at (0, 9) and (1, 9). -/
def shield_play : GameState :=
  wait 10 (game_player_shoot (game_move_player_left^[17] (game_init rnd0)))

/-- A fresh game with one player projectile and one enemy projectile inside the
hit-boxes of the shield blocks that `rnd0` places at (0, 9) and (1, 9). -/
def crossfire : GameState :=
  { game_init rnd0 with
    projectiles := (game_init rnd0).projectiles.set 0 ⟨2, 9, true⟩
    projectile_count := 1
    enemy_projectiles := (game_init rnd0).enemy_projectiles.set 0 ⟨3, 10, true⟩
    enemy_projectile_count := 1 }

/-! # Loop principles -/

theorem forLoop_ind {σ : Type} (P : Nat → σ → Prop) (n : Int) (body : Nat → σ → σ) (s : σ)
    (h0 : P 0 s) (hstep : ∀ i t, i < n.toNat → P i t → P (i + 1) (body i t)) :
    P n.toNat (forLoop n body s) := by
  unfold forLoop
  have key : ∀ m, m ≤ n.toNat → P m ((List.range m).foldl (fun t i => body i t) s) := by
    intro m
    induction m with
    | zero => intro _; simpa using h0
    | succ m ih =>
      intro hm
      rw [List.range_succ, List.foldl_append]
      exact hstep m _ (by omega) (ih (by omega))
  exact key _ (le_refl _)

theorem forLoop_inv {σ : Type} (P : σ → Prop) (n : Int) (body : Nat → σ → σ) (s : σ)
    (h0 : P s) (hstep : ∀ i t, i < n.toNat → P t → P (body i t)) :
    P (forLoop n body s) :=
  forLoop_ind (fun _ t => P t) n body s h0 hstep

/-! # Counting active enemies -/

theorem countP_take_set_same (l : List Enemy) (n i : Nat) (v : Enemy)
    (hv : v.active = (l.getD i default).active) :
    ((l.set i v).take n).countP (fun e => e.active) = (l.take n).countP (fun e => e.active) := by
  induction l generalizing n i with
  | nil => simp
  | cons a l ih =>
    cases n with
    | zero => simp
    | succ n =>
      cases i with
      | zero =>
        simp only [List.getD_cons_zero] at hv
        simp [List.countP_cons, hv]
      | succ i =>
        simp only [List.getD_cons_succ] at hv
        simp [List.countP_cons, ih n i hv]

theorem countP_take_set_off (l : List Enemy) (n i : Nat) (v : Enemy)
    (hi : i < n) (hl : i < l.length) (hv : v.active = false)
    (ha : (l.getD i default).active = true) :
    ((l.set i v).take n).countP (fun e => e.active) + 1
      = (l.take n).countP (fun e => e.active) := by
  induction l generalizing n i with
  | nil => simp at hl
  | cons a l ih =>
    cases n with
    | zero => omega
    | succ n =>
      cases i with
      | zero =>
        simp only [List.getD_cons_zero] at ha
        simp [List.countP_cons, hv, ha]
      | succ i =>
        simp only [List.getD_cons_succ] at ha
        simp only [List.length_cons] at hl
        have := ih n i (by omega) (by omega) ha
        simp [List.countP_cons]
        omega

/-! # `init_enemies` writes the grid -/

theorem set_prefix_drop {α : Type} (pre l : List α) (v : α) (h : pre.length < l.length) :
    (pre ++ l.drop pre.length).set pre.length v = (pre ++ [v]) ++ l.drop (pre.length + 1) := by
  rw [List.set_append_right _ _ (le_refl _)]
  simp only [Nat.sub_self, List.append_assoc, List.singleton_append]
  rw [List.drop_eq_getElem_cons h]
  rfl

theorem grid_prefix_succ (k : Nat) :
    (List.range (k + 1)).map grid_enemy = (List.range k).map grid_enemy ++ [grid_enemy k] := by
  rw [List.range_succ, List.map_append]; rfl

theorem init_enemy_row (l : List Enemy) (hl : 30 ≤ l.length) (row : Nat) (hrow : row < 5)
    (st : List Enemy × Nat)
    (hst : st = ((List.range (6 * row)).map grid_enemy ++ l.drop (6 * row), 6 * row)) :
    forLoop ENEMY_COLS (init_enemy_body row) st
      = ((List.range (6 * (row + 1))).map grid_enemy ++ l.drop (6 * (row + 1)), 6 * (row + 1)) := by
  have h := forLoop_ind
    (fun c t => t = ((List.range (6 * row + c)).map grid_enemy ++ l.drop (6 * row + c), 6 * row + c))
    ENEMY_COLS (init_enemy_body row) st (by simpa using hst)
    (by
      intro c t hc ht
      have hc6 : c < 6 := by simpa using hc
      subst ht
      unfold init_enemy_body
      have hlt : (((6 * row + c : Nat) : Int)) < INITIAL_ENEMIES := by
        simp only [INITIAL_ENEMIES]; omega
      simp only [hlt, if_true]
      have hlen : ((List.range (6 * row + c)).map grid_enemy).length = 6 * row + c := by simp
      have hset := set_prefix_drop ((List.range (6 * row + c)).map grid_enemy) l
        ⟨2 + (c : Int) * 12, 2 + (row : Int) * 3, true, 1⟩ (by rw [hlen]; omega)
      rw [hlen] at hset
      rw [hset, show 6 * row + (c + 1) = 6 * row + c + 1 from rfl, grid_prefix_succ]
      have hg : grid_enemy (6 * row + c) = ⟨2 + (c : Int) * 12, 2 + (row : Int) * 3, true, 1⟩ := by
        unfold grid_enemy
        have h1 : (6 * row + c) % 6 = c := by omega
        have h2 : (6 * row + c) / 6 = row := by omega
        rw [h1, h2]
      rw [hg])
  simpa [Nat.mul_add] using h

theorem init_enemies_loop (l : List Enemy) (hl : 30 ≤ l.length) :
    forLoop ENEMY_ROWS (fun row st => forLoop ENEMY_COLS (init_enemy_body row) st) (l, 0)
      = ((List.range 30).map grid_enemy ++ l.drop 30, 30) := by
  have h := forLoop_ind
    (fun r t => t = ((List.range (6 * r)).map grid_enemy ++ l.drop (6 * r), 6 * r))
    ENEMY_ROWS (fun row st => forLoop ENEMY_COLS (init_enemy_body row) st) (l, 0)
    (by simp)
    (by
      intro r t hr ht
      exact init_enemy_row l hl r (by simpa using hr) t ht)
  simpa using h

theorem init_enemies_enemies (s : GameState) (hl : 30 ≤ s.enemies.length) :
    (init_enemies s).enemies = (List.range 30).map grid_enemy ++ s.enemies.drop 30 := by
  unfold init_enemies
  simp only [init_enemies_loop s.enemies hl]

/-! # Frame conditions of the collision passes -/

theorem hit_shield_body_frame (i k b : Nat) (s t : GameState)
    (ht : t = { s with projectiles := t.projectiles, shields := t.shields }) :
    hit_shield_body i k b t
      = { s with projectiles := (hit_shield_body i k b t).projectiles,
                 shields := (hit_shield_body i k b t).shields } := by
  unfold hit_shield_body
  simp only
  split_ifs
  · exact ht
  · rw [ht]
  · exact ht

theorem proj_vs_shields_body_frame (i : Nat) (s t : GameState)
    (ht : t = { s with projectiles := t.projectiles, shields := t.shields }) :
    proj_vs_shields_body i t
      = { s with projectiles := (proj_vs_shields_body i t).projectiles,
                 shields := (proj_vs_shields_body i t).shields } := by
  unfold proj_vs_shields_body
  split_ifs
  · exact ht
  · exact forLoop_inv (fun u => u = { s with projectiles := u.projectiles, shields := u.shields })
      _ _ _ ht (fun k u _ hu =>
        forLoop_inv (fun u => u = { s with projectiles := u.projectiles, shields := u.shields })
          _ _ _ hu (fun b v _ hv => hit_shield_body_frame i k b s v hv))

/-- The pass "player projectiles vs shields" changes `projectiles` and
`shields` only. -/
theorem collide_proj_shields_frame (s : GameState) :
    collide_proj_shields s
      = { s with projectiles := (collide_proj_shields s).projectiles,
                 shields := (collide_proj_shields s).shields } := by
  unfold collide_proj_shields
  exact forLoop_inv (fun u => u = { s with projectiles := u.projectiles, shields := u.shields })
    _ _ s rfl (fun i t _ ht => proj_vs_shields_body_frame i s t ht)

theorem ehit_shield_body_frame (i k b : Nat) (s t : GameState)
    (ht : t = { s with enemy_projectiles := t.enemy_projectiles, shields := t.shields }) :
    ehit_shield_body i k b t
      = { s with enemy_projectiles := (ehit_shield_body i k b t).enemy_projectiles,
                 shields := (ehit_shield_body i k b t).shields } := by
  unfold ehit_shield_body
  simp only
  split_ifs
  · exact ht
  · rw [ht]
  · exact ht

theorem eproj_vs_shields_body_frame (i : Nat) (s t : GameState)
    (ht : t = { s with enemy_projectiles := t.enemy_projectiles, shields := t.shields }) :
    eproj_vs_shields_body i t
      = { s with enemy_projectiles := (eproj_vs_shields_body i t).enemy_projectiles,
                 shields := (eproj_vs_shields_body i t).shields } := by
  unfold eproj_vs_shields_body
  split_ifs
  · exact ht
  · exact forLoop_inv
      (fun u => u = { s with enemy_projectiles := u.enemy_projectiles, shields := u.shields })
      _ _ _ ht (fun k u _ hu =>
        forLoop_inv
          (fun u => u = { s with enemy_projectiles := u.enemy_projectiles, shields := u.shields })
          _ _ _ hu (fun b v _ hv => ehit_shield_body_frame i k b s v hv))

/-- The pass "enemy projectiles vs shields" changes `enemy_projectiles` and
`shields` only. -/
theorem collide_eproj_shields_frame (s : GameState) :
    collide_eproj_shields s
      = { s with enemy_projectiles := (collide_eproj_shields s).enemy_projectiles,
                 shields := (collide_eproj_shields s).shields } := by
  unfold collide_eproj_shields
  exact forLoop_inv
    (fun u => u = { s with enemy_projectiles := u.enemy_projectiles, shields := u.shields })
    _ _ s rfl (fun i t _ ht => eproj_vs_shields_body_frame i s t ht)

theorem eproj_vs_player_body_frame (i : Nat) (s t : GameState)
    (ht : t = { s with enemy_projectiles := t.enemy_projectiles,
                       player := { s.player with health := t.player.health },
                       game_over := t.game_over }) :
    eproj_vs_player_body i t
      = { s with enemy_projectiles := (eproj_vs_player_body i t).enemy_projectiles,
                 player := { s.player with health := (eproj_vs_player_body i t).player.health },
                 game_over := (eproj_vs_player_body i t).game_over } := by
  unfold eproj_vs_player_body
  simp only
  split_ifs
  · exact ht
  · rw [ht]
  · rw [ht]
  · exact ht

/-- The pass "enemy projectiles vs player" changes `enemy_projectiles`, the
player's lives and `game_over` only. -/
theorem collide_eproj_player_frame (s : GameState) :
    collide_eproj_player s
      = { s with enemy_projectiles := (collide_eproj_player s).enemy_projectiles,
                 player := { s.player with health := (collide_eproj_player s).player.health },
                 game_over := (collide_eproj_player s).game_over } := by
  unfold collide_eproj_player
  exact forLoop_inv
    (fun u => u = { s with enemy_projectiles := u.enemy_projectiles,
                           player := { s.player with health := u.player.health },
                           game_over := u.game_over })
    _ _ s rfl (fun i t _ ht => eproj_vs_player_body_frame i s t ht)

theorem hit_enemy_body_frame (i j : Nat) (s t : GameState)
    (ht : t = { s with projectiles := t.projectiles, enemies := t.enemies,
                       alive_enemy_count := t.alive_enemy_count,
                       player := { s.player with score := t.player.score } }) :
    hit_enemy_body i j t
      = { s with projectiles := (hit_enemy_body i j t).projectiles,
                 enemies := (hit_enemy_body i j t).enemies,
                 alive_enemy_count := (hit_enemy_body i j t).alive_enemy_count,
                 player := { s.player with score := (hit_enemy_body i j t).player.score } } := by
  unfold hit_enemy_body
  simp only
  split_ifs
  · exact ht
  · rw [ht]
  · exact ht

theorem proj_vs_enemies_body_frame (i : Nat) (s t : GameState)
    (ht : t = { s with projectiles := t.projectiles, enemies := t.enemies,
                       alive_enemy_count := t.alive_enemy_count,
                       player := { s.player with score := t.player.score } }) :
    proj_vs_enemies_body i t
      = { s with projectiles := (proj_vs_enemies_body i t).projectiles,
                 enemies := (proj_vs_enemies_body i t).enemies,
                 alive_enemy_count := (proj_vs_enemies_body i t).alive_enemy_count,
                 player := { s.player with score := (proj_vs_enemies_body i t).player.score } } := by
  unfold proj_vs_enemies_body
  split_ifs
  · exact ht
  · exact forLoop_inv
      (fun u => u = { s with projectiles := u.projectiles, enemies := u.enemies,
                             alive_enemy_count := u.alive_enemy_count,
                             player := { s.player with score := u.player.score } })
      _ _ _ ht (fun j u _ hu => hit_enemy_body_frame i j s u hu)

/-- The pass "player projectiles vs enemies" changes `projectiles`, `enemies`,
`alive_enemy_count` and the score only. -/
theorem collide_proj_enemies_frame (s : GameState) :
    collide_proj_enemies s
      = { s with projectiles := (collide_proj_enemies s).projectiles,
                 enemies := (collide_proj_enemies s).enemies,
                 alive_enemy_count := (collide_proj_enemies s).alive_enemy_count,
                 player := { s.player with score := (collide_proj_enemies s).player.score } } := by
  unfold collide_proj_enemies
  exact forLoop_inv
    (fun u => u = { s with projectiles := u.projectiles, enemies := u.enemies,
                           alive_enemy_count := u.alive_enemy_count,
                           player := { s.player with score := u.player.score } })
    _ _ s rfl (fun i t _ ht => proj_vs_enemies_body_frame i s t ht)

/-! # The enemy bookkeeping invariant -/

theorem EnemyInv.of_same {s t : GameState} (h : EnemyInv s) (he : t.enemies = s.enemies)
    (hc : t.enemy_count = s.enemy_count) (ha : t.alive_enemy_count = s.alive_enemy_count) :
    EnemyInv t := by
  unfold EnemyInv active_enemies at *
  rw [he, hc, ha]; exact h

theorem enemyInv_init_enemies (s : GameState) (hl : 30 ≤ s.enemies.length) :
    EnemyInv (init_enemies s) := by
  have he := init_enemies_enemies s hl
  have hc : (init_enemies s).enemy_count = 30 := rfl
  have ha : (init_enemies s).alive_enemy_count = 30 := rfl
  unfold EnemyInv active_enemies
  rw [he, hc, ha]
  have hlen : ((List.range 30).map grid_enemy).length = 30 := by simp
  refine ⟨by simp, by simp, ?_⟩
  have htake : List.take (30 : Int).toNat ((List.range 30).map grid_enemy ++ s.enemies.drop 30)
      = (List.range 30).map grid_enemy := by
    have : (30 : Int).toNat = ((List.range 30).map grid_enemy).length := by rw [hlen]; rfl
    rw [this, List.take_left]
  rw [htake]
  decide

theorem enemyInv_set_same (s : GameState) (i : Nat) (v : Enemy)
    (hv : v.active = (s.enemies.getD i default).active) (h : EnemyInv s) (g : Bool) :
    EnemyInv { s with enemies := s.enemies.set i v, game_over := g } := by
  unfold EnemyInv active_enemies at *
  simp only [List.length_set]
  refine ⟨h.1, h.2.1, ?_⟩
  rw [countP_take_set_same _ _ _ _ hv]
  exact h.2.2

theorem move_enemy_body_inv (i : Nat) (st : GameState × Bool) (h : EnemyInv st.1) :
    EnemyInv (move_enemy_body i st).1 := by
  unfold move_enemy_body
  simp only
  split_ifs
  · exact h
  · exact enemyInv_set_same st.1 i _ (by rfl) h _
  · exact enemyInv_set_same st.1 i _ (by rfl) h _

theorem descend_enemy_body_inv (i : Nat) (s : GameState) (h : EnemyInv s) :
    EnemyInv (descend_enemy_body i s) := by
  unfold descend_enemy_body
  simp only
  split_ifs
  · exact enemyInv_set_same s i _ (by rfl) h _
  · exact enemyInv_set_same s i _ (by rfl) h _
  · exact h

theorem update_enemies_move_inv (s : GameState) (h : EnemyInv s) :
    EnemyInv (update_enemies_move s) := by
  unfold update_enemies_move
  simp only
  have h2 : EnemyInv { s with enemy_move_counter := 0 } := h.of_same rfl rfl rfl
  have h3 := forLoop_inv (fun st : GameState × Bool => EnemyInv st.1)
    s.enemy_count move_enemy_body ({ s with enemy_move_counter := 0 }, false) h2
    (fun i t _ ht => move_enemy_body_inv i t ht)
  split_ifs
  · exact forLoop_inv EnemyInv _ _ _ (EnemyInv.of_same h3 rfl rfl rfl)
      (fun i t _ ht => descend_enemy_body_inv i t ht)
  · exact h3
  · exact h.of_same rfl rfl rfl

theorem fire_probe_frame (n : Nat) (idx : Int) (s : GameState) :
    fire_probe n idx s
      = { s with enemy_projectiles := (fire_probe n idx s).enemy_projectiles,
                 enemy_projectile_count := (fire_probe n idx s).enemy_projectile_count } := by
  induction n generalizing idx with
  | zero => rfl
  | succ n ih =>
    unfold fire_probe
    simp only
    split_ifs
    · rfl
    · rfl
    · exact ih _

/-- The enemy-fire half of `update_enemies` changes the fire timer and the
enemy pool only. -/
theorem update_enemies_fire_frame (rand : Nat) (s : GameState) :
    update_enemies_fire rand s
      = { s with enemy_fire_timer := (update_enemies_fire rand s).enemy_fire_timer,
                 enemy_projectiles := (update_enemies_fire rand s).enemy_projectiles,
                 enemy_projectile_count := (update_enemies_fire rand s).enemy_projectile_count } := by
  unfold update_enemies_fire
  simp only
  split_ifs
  · rw [fire_probe_frame]
  · rfl
  · rfl

theorem hit_enemy_body_inv (i j : Nat) (t : GameState) (hj : j < t.enemy_count.toNat)
    (h : EnemyInv t) : EnemyInv (hit_enemy_body i j t) := by
  unfold hit_enemy_body
  simp only
  split_ifs with h1 h2
  · exact h
  · unfold EnemyInv active_enemies at *
    simp only [List.length_set]
    refine ⟨h.1, h.2.1, ?_⟩
    have hact : (t.enemies.getD j default).active = true := by simpa using h1
    have := countP_take_set_off t.enemies t.enemy_count.toNat j
      (Enemy.mk (t.enemies.getD j default).x (t.enemies.getD j default).y false
        (t.enemies.getD j default).health) hj (by omega) rfl hact
    rw [h.2.2]
    omega
  · exact h

theorem proj_vs_enemies_body_inv (i : Nat) (t : GameState) (h : EnemyInv t) :
    EnemyInv (proj_vs_enemies_body i t) := by
  unfold proj_vs_enemies_body
  split_ifs
  · exact h
  · have := forLoop_inv (fun u => EnemyInv u ∧ u.enemy_count = t.enemy_count)
      t.enemy_count (hit_enemy_body i) t ⟨h, rfl⟩
      (fun j u hj hu => ⟨hit_enemy_body_inv i j u (by rw [hu.2]; exact hj) hu.1, by
        rw [hit_enemy_body_frame i j u u rfl]; exact hu.2⟩)
    exact this.1

theorem collide_proj_enemies_inv (s : GameState) (h : EnemyInv s) :
    EnemyInv (collide_proj_enemies s) := by
  unfold collide_proj_enemies
  exact forLoop_inv EnemyInv _ _ _ h (fun i t _ ht => proj_vs_enemies_body_inv i t ht)

theorem handle_collisions_inv (s : GameState) (h : EnemyInv s) :
    EnemyInv (handle_collisions s) := by
  unfold handle_collisions
  have h1 := collide_proj_enemies_inv s h
  have h2 : EnemyInv (collide_proj_shields (collide_proj_enemies s)) :=
    h1.of_same (by rw [collide_proj_shields_frame]) (by rw [collide_proj_shields_frame])
      (by rw [collide_proj_shields_frame])
  have h3 : EnemyInv (collide_eproj_player (collide_proj_shields (collide_proj_enemies s))) :=
    h2.of_same (by rw [collide_eproj_player_frame]) (by rw [collide_eproj_player_frame])
      (by rw [collide_eproj_player_frame])
  exact h3.of_same (by rw [collide_eproj_shields_frame]) (by rw [collide_eproj_shields_frame])
      (by rw [collide_eproj_shields_frame])

theorem advance_inv (rand : Nat) (s : GameState) (h : EnemyInv s) :
    EnemyInv (advance rand s) := by
  unfold advance update_enemies
  have h1 : EnemyInv (update_enemies_move { s with frame_count := s.frame_count + 1 }) :=
    update_enemies_move_inv _ (h.of_same rfl rfl rfl)
  have h2 : EnemyInv (update_enemies_fire rand
      (update_enemies_move { s with frame_count := s.frame_count + 1 })) :=
    h1.of_same (by rw [update_enemies_fire_frame]) (by rw [update_enemies_fire_frame])
      (by rw [update_enemies_fire_frame])
  exact h2.of_same rfl rfl rfl

theorem init_shields_frame (rnd : Nat → Nat) (s : GameState) :
    init_shields rnd s = { s with shields := (init_shields rnd s).shields } := rfl

theorem enemyInv_reinit (rnd : Nat → Nat) (s : GameState) (hl : 30 ≤ s.enemies.length) :
    EnemyInv (init_shields rnd (init_enemies s)) :=
  (enemyInv_init_enemies s hl).of_same (by rw [init_shields_frame]) (by rw [init_shields_frame])
    (by rw [init_shields_frame])

theorem game_next_level_inv (rnd : Nat → Nat) (s : GameState) (h : EnemyInv s) :
    EnemyInv (game_next_level rnd s) := by
  unfold game_next_level
  simp only
  split_ifs
  · exact h.of_same rfl rfl rfl
  · exact enemyInv_reinit rnd _ h.1

theorem game_update_inv (rand : Nat) (rnd : Nat → Nat) (s : GameState) (h : EnemyInv s) :
    EnemyInv (game_update rand rnd s) := by
  unfold game_update check_level_complete
  split_ifs
  · exact h
  · exact game_next_level_inv rnd _ (handle_collisions_inv _ (advance_inv rand s h))
  · exact handle_collisions_inv _ (advance_inv rand s h)

theorem reachable_enemyInv {s : GameState} (h : Reachable s) : EnemyInv s := by
  induction h with
  | init rnd =>
    unfold game_init
    exact enemyInv_reinit rnd _ (by simp [zeroed])
  | update rand rnd s _ ih => exact game_update_inv rand rnd s ih
  | move_left s _ ih =>
    unfold game_move_player_left; split_ifs
    · exact ih.of_same rfl rfl rfl
    · exact ih
  | move_right s _ ih =>
    unfold game_move_player_right; split_ifs
    · exact ih.of_same rfl rfl rfl
    · exact ih
  | shoot s _ ih =>
    unfold game_player_shoot; split_ifs
    · exact ih.of_same rfl rfl rfl
    · exact ih
    · exact ih
  | toggle_pause s _ ih =>
    unfold game_toggle_pause; split_ifs
    · exact ih.of_same rfl rfl rfl
    · exact ih
  | next_level rnd s _ ih => exact game_next_level_inv rnd s ih
  | set_level rnd s level _ ih =>
    unfold game_set_level; simp only; split_ifs
    · exact ih
    · exact enemyInv_reinit rnd _ ih.1
  | reset rnd s _ ih =>
    unfold game_reset
    exact enemyInv_reinit rnd _ ih.1

/-! # Frame conditions of the enemy step and pool sizes -/

theorem move_enemy_body_frame (i : Nat) (s : GameState) (st : GameState × Bool)
    (ht : st.1 = { s with enemies := st.1.enemies }) :
    (move_enemy_body i st).1 = { s with enemies := (move_enemy_body i st).1.enemies } := by
  unfold move_enemy_body
  simp only
  split_ifs
  · exact ht
  · simp only; rw [ht]
  · simp only; rw [ht]

theorem descend_enemy_body_frame (i : Nat) (s t : GameState)
    (ht : t = { s with enemies := t.enemies, game_over := t.game_over }) :
    descend_enemy_body i t
      = { s with enemies := (descend_enemy_body i t).enemies,
                 game_over := (descend_enemy_body i t).game_over } := by
  unfold descend_enemy_body
  simp only
  split_ifs
  · rw [ht]
  · rw [ht]
  · exact ht

/-- The movement half of `update_enemies` changes the enemy array, the cadence
counter, the direction and `game_over` only. -/
theorem update_enemies_move_frame (s : GameState) :
    update_enemies_move s
      = { s with enemies := (update_enemies_move s).enemies,
                 enemy_move_counter := (update_enemies_move s).enemy_move_counter,
                 enemy_direction := (update_enemies_move s).enemy_direction,
                 game_over := (update_enemies_move s).game_over } := by
  unfold update_enemies_move
  simp only
  have h3 := forLoop_inv
    (fun st : GameState × Bool =>
      st.1 = { ({ s with enemy_move_counter := 0 } : GameState) with enemies := st.1.enemies })
    s.enemy_count move_enemy_body ({ s with enemy_move_counter := 0 }, false) rfl
    (fun i t _ ht => move_enemy_body_frame i _ t ht)
  split_ifs
  · have h4 := forLoop_inv
      (fun u : GameState => u = { s with enemies := u.enemies, game_over := u.game_over,
                                         enemy_move_counter := 0,
                                         enemy_direction := u.enemy_direction })
      ((forLoop s.enemy_count move_enemy_body ({ s with enemy_move_counter := 0 }, false)).1.enemy_count)
      descend_enemy_body
      { (forLoop s.enemy_count move_enemy_body ({ s with enemy_move_counter := 0 }, false)).1 with
          enemy_direction :=
            (forLoop s.enemy_count move_enemy_body
              ({ s with enemy_move_counter := 0 }, false)).1.enemy_direction * -1 }
      (by rw [h3])
      (fun i t _ ht => by
        have := descend_enemy_body_frame i t t rfl
        rw [this, ht])
    rw [h4]
  · rw [h3]
  · rfl

theorem fire_probe_count_le (n : Nat) (idx : Int) (s : GameState)
    (h : s.enemy_projectile_count ≤ MAX_ENEMY_PROJECTILES) :
    (fire_probe n idx s).enemy_projectile_count ≤ MAX_ENEMY_PROJECTILES := by
  induction n generalizing idx with
  | zero => exact h
  | succ n ih =>
    unfold fire_probe
    simp only
    split_ifs with h1 h2
    · simp only [MAX_ENEMY_PROJECTILES] at h2 ⊢; omega
    · exact h
    · exact ih _

theorem fire_probe_full (n : Nat) (idx : Int) (s : GameState)
    (h : s.enemy_projectile_count = MAX_ENEMY_PROJECTILES) :
    fire_probe n idx s = s := by
  induction n generalizing idx with
  | zero => rfl
  | succ n ih =>
    unfold fire_probe
    simp only
    split_ifs with h1 h2
    · omega
    · rfl
    · exact ih _

theorem compact_body_count (a : List Projectile) (n : Int) :
    (forLoop n compact_body (a, 0)).2 ≤ n.toNat :=
  forLoop_ind (fun k st => st.2 ≤ k) n compact_body (a, 0) (le_refl _)
    (fun i t _ ht => by
      unfold compact_body
      split_ifs
      · simp only; omega
      · omega)

theorem update_projectiles_count_le (s : GameState) (c : Int) (hc : 0 ≤ c)
    (h : s.projectile_count ≤ c) : (update_projectiles s).projectile_count ≤ c := by
  unfold update_projectiles
  simp only
  have := compact_body_count
    (forLoop s.projectile_count move_projectile_body s.projectiles) s.projectile_count
  omega

theorem update_enemy_projectiles_count_le (s : GameState) (c : Int) (hc : 0 ≤ c)
    (h : s.enemy_projectile_count ≤ c) :
    (update_enemy_projectiles s).enemy_projectile_count ≤ c := by
  unfold update_enemy_projectiles
  simp only
  have := compact_body_count
    (forLoop s.enemy_projectile_count move_enemy_projectile_body s.enemy_projectiles)
    s.enemy_projectile_count
  omega

theorem update_enemies_fire_count_le (rand : Nat) (s : GameState)
    (h : s.enemy_projectile_count ≤ MAX_ENEMY_PROJECTILES) :
    (update_enemies_fire rand s).enemy_projectile_count ≤ MAX_ENEMY_PROJECTILES := by
  unfold update_enemies_fire
  simp only
  split_ifs
  · exact fire_probe_count_le _ _ _ h
  · exact h
  · exact h

theorem handle_collisions_projectile_count (s : GameState) :
    (handle_collisions s).projectile_count = s.projectile_count := by
  unfold handle_collisions
  rw [collide_eproj_shields_frame, collide_eproj_player_frame, collide_proj_shields_frame,
    collide_proj_enemies_frame]

theorem handle_collisions_enemy_projectile_count (s : GameState) :
    (handle_collisions s).enemy_projectile_count = s.enemy_projectile_count := by
  unfold handle_collisions
  rw [collide_eproj_shields_frame, collide_eproj_player_frame, collide_proj_shields_frame,
    collide_proj_enemies_frame]

theorem poolsBounded_advance (rand : Nat) (s : GameState) (h : PoolsBounded s) :
    PoolsBounded (advance rand s) := by
  unfold advance update_enemies
  have hm : PoolsBounded (update_enemies_move { s with frame_count := s.frame_count + 1 }) := by
    unfold PoolsBounded
    rw [update_enemies_move_frame]
    exact h
  have hf : PoolsBounded (update_enemies_fire rand
      (update_enemies_move { s with frame_count := s.frame_count + 1 })) := by
    refine ⟨?_, update_enemies_fire_count_le _ _ hm.2⟩
    rw [update_enemies_fire_frame]
    exact hm.1
  have hp : PoolsBounded (update_projectiles (update_enemies_fire rand
      (update_enemies_move { s with frame_count := s.frame_count + 1 }))) :=
    ⟨update_projectiles_count_le _ _ (by decide) hf.1, hf.2⟩
  exact ⟨hp.1, update_enemy_projectiles_count_le _ _ (by decide) hp.2⟩

theorem poolsBounded_next_level (rnd : Nat → Nat) (s : GameState) (h : PoolsBounded s) :
    PoolsBounded (game_next_level rnd s) := by
  unfold game_next_level
  simp only
  split_ifs
  · exact h
  · exact ⟨show (0 : Int) ≤ MAX_PROJECTILES by decide,
      show (0 : Int) ≤ MAX_ENEMY_PROJECTILES by decide⟩

theorem poolsBounded_update (rand : Nat) (rnd : Nat → Nat) (s : GameState)
    (h : PoolsBounded s) : PoolsBounded (game_update rand rnd s) := by
  unfold game_update check_level_complete
  have hc : PoolsBounded (handle_collisions (advance rand s)) := by
    unfold PoolsBounded
    rw [handle_collisions_projectile_count, handle_collisions_enemy_projectile_count]
    exact poolsBounded_advance rand s h
  split_ifs
  · exact h
  · exact poolsBounded_next_level rnd _ hc
  · exact hc

/-! # Pools as lists -/

theorem take_succ_set_end {α : Type} (l : List α) (n : Nat) (v : α) (h : n < l.length) :
    (l.set n v).take (n + 1) = l.take n ++ [v] := by
  induction l generalizing n with
  | nil => simp at h
  | cons a l ih =>
    cases n with
    | zero => simp
    | succ n =>
      simp only [List.length_cons] at h
      simp [ih n (by omega)]

theorem getD_prefix_drop {α : Type} (pre l : List α) (k : Nat) (d : α)
    (hk : pre.length ≤ k) :
    (pre ++ l.drop pre.length).getD k d = l.getD k d := by
  simp only [List.getD_eq_getElem?_getD]
  rw [List.getElem?_append_right hk, List.getElem?_drop]
  congr 2
  omega

theorem set_getD_self {α : Type} (l : List α) (i : Nat) (d : α) :
    l.set i (l.getD i d) = l := by
  induction l generalizing i with
  | nil => rfl
  | cons a l ih =>
    cases i with
    | zero => rfl
    | succ i =>
      simp only [List.getD_cons_succ, List.set_cons_succ]
      rw [ih]

theorem map_loop (f : Projectile → Projectile) (body : Nat → List Projectile → List Projectile)
    (hbody : ∀ i a, i < a.length → body i a = a.set i (f (a.getD i default)))
    (a : List Projectile) (n : Int) (hn : n.toNat ≤ a.length) :
    forLoop n body a = (a.take n.toNat).map f ++ a.drop n.toNat := by
  refine forLoop_ind (fun k b => b = (a.take k).map f ++ a.drop k) n body a (by simp) ?_
  intro k b hk hb
  have hlen : ((a.take k).map f).length = k := by simp; omega
  have hblen : b.length = a.length := by
    rw [hb]; simp; omega
  rw [hbody k b (by omega)]
  have hget : b.getD k default = a.getD k default := by
    rw [hb]
    have := getD_prefix_drop ((a.take k).map f) a k default (by omega)
    rw [hlen] at this
    exact this
  rw [hget, hb]
  have hset := set_prefix_drop ((a.take k).map f) a (f (a.getD k default)) (by omega)
  rw [hlen] at hset
  rw [hset]
  congr 1
  rw [List.take_succ, List.map_append]
  congr 1
  have : k < a.length := by omega
  simp [List.getD_eq_getElem?_getD, List.getElem?_eq_getElem this]

theorem move_projectile_body_eq (i : Nat) (a : List Projectile) :
    move_projectile_body i a = a.set i (move_up (a.getD i default)) := by
  unfold move_projectile_body move_up
  simp only
  split_ifs with h1
  · rw [set_getD_self]
  · rfl
  · rfl

theorem move_enemy_projectile_body_eq (i : Nat) (a : List Projectile) :
    move_enemy_projectile_body i a = a.set i (move_down (a.getD i default)) := by
  unfold move_enemy_projectile_body move_down
  simp only
  split_ifs with h1
  · rw [set_getD_self]
  · rfl
  · rfl

/-- The in-place compaction loop is a stable filter on the first `n` slots;
the slots from the new count on keep what they held. -/
theorem compact_loop (b : List Projectile) (n : Int) (hn : n.toNat ≤ b.length) :
    forLoop n compact_body (b, 0)
      = ((b.take n.toNat).filter (fun p => p.active)
            ++ b.drop ((b.take n.toNat).filter (fun p => p.active)).length,
         ((b.take n.toNat).filter (fun p => p.active)).length) := by
  refine forLoop_ind
    (fun k st => st = ((b.take k).filter (fun p => p.active)
        ++ b.drop ((b.take k).filter (fun p => p.active)).length,
      ((b.take k).filter (fun p => p.active)).length)) n compact_body (b, 0) (by simp) ?_
  intro k st hk hst
  have hkl : k < b.length := by omega
  have hm : ((b.take k).filter (fun p => p.active)).length ≤ k := by
    have := List.length_filter_le (fun p : Projectile => p.active) (b.take k)
    simp at this
    omega
  have hget : st.1.getD k default = b[k] := by
    rw [hst]
    simp only
    rw [getD_prefix_drop _ b k default hm]
    simp [List.getD_eq_getElem?_getD, List.getElem?_eq_getElem hkl]
  have htake : b.take (k + 1) = b.take k ++ [b[k]] := by
    rw [List.take_succ]
    simp [List.getElem?_eq_getElem hkl]
  unfold compact_body
  rw [hget]
  split_ifs with hact
  · rw [hst]
    simp only
    rw [set_prefix_drop _ b b[k] (by omega), htake, List.filter_append]
    simp [hact]
  · rw [hst, htake, List.filter_append]
    simp [hact]

theorem filter_map_move_up (l : List Projectile) :
    (l.map move_up).filter (fun p => p.active) = spec_advance_player_pool l := by
  unfold spec_advance_player_pool
  induction l with
  | nil => rfl
  | cons p l ih =>
    simp only [List.map_cons, List.filter_cons]
    rw [ih]
    unfold move_up
    cases hp : p.active
    · simp [hp]
    · by_cases hy : p.y - 1 < 0
      · have : ¬ (p.y - 1 ≥ 0) := by omega
        simp [hp, hy, this]
      · have : p.y - 1 ≥ 0 := by omega
        simp [hp, hy, this]

theorem filter_map_move_down (l : List Projectile) :
    (l.map move_down).filter (fun p => p.active) = spec_advance_enemy_pool l := by
  unfold spec_advance_enemy_pool
  induction l with
  | nil => rfl
  | cons p l ih =>
    simp only [List.map_cons, List.filter_cons]
    rw [ih]
    unfold move_down
    cases hp : p.active
    · simp [hp]
    · by_cases hy : p.y + ENEMY_PROJECTILE_SPEED ≥ BOARD_HEIGHT
      · have : ¬ (p.y + ENEMY_PROJECTILE_SPEED < BOARD_HEIGHT) := by omega
        simp [hp, hy, this]
      · have : p.y + ENEMY_PROJECTILE_SPEED < BOARD_HEIGHT := by omega
        simp [hp, hy, this]

/-- Move then compact, on an array: the first `new_count` slots are the stable
filter of the moved slots. -/
theorem move_compact_pool (f : Projectile → Projectile)
    (body : Nat → List Projectile → List Projectile)
    (hbody : ∀ i a, i < a.length → body i a = a.set i (f (a.getD i default)))
    (a : List Projectile) (n : Int) (hn : n.toNat ≤ a.length) :
    (forLoop n compact_body (forLoop n body a, 0)).1.take
        (((forLoop n compact_body (forLoop n body a, 0)).2 : Int)).toNat
      = ((a.take n.toNat).map f).filter (fun p => p.active) := by
  have hmove := map_loop f body hbody a n hn
  have hlen : (forLoop n body a).length = a.length := by
    rw [hmove]; simp; omega
  rw [compact_loop _ n (by omega)]
  simp only [Int.toNat_ofNat]
  rw [List.take_left]
  rw [hmove, List.take_left' (by simp; omega)]

/-! # A single hit in the first collision pass -/

theorem getD_active_lt {α : Type} (l : List α) (i : Nat) (d : α) (f : α → Bool)
    (hd : f d = false) (h : f (l.getD i d) = true) : i < l.length := by
  by_contra hn
  have : l.getD i d = d := by
    simp only [List.getD_eq_getElem?_getD]
    rw [List.getElem?_eq_none (by omega)]
    rfl
  rw [this, hd] at h
  exact Bool.false_ne_true h

theorem getD_set_self {α : Type} (l : List α) (i : Nat) (v d : α) (h : i < l.length) :
    (l.set i v).getD i d = v := by
  simp only [List.getD_eq_getElem?_getD]
  rw [List.getElem?_set_self h]
  rfl

theorem getD_set_ne {α : Type} (l : List α) (i k : Nat) (v d : α) (h : i ≠ k) :
    (l.set i v).getD k d = l.getD k d := by
  simp only [List.getD_eq_getElem?_getD]
  rw [List.getElem?_set_ne h]

theorem hit_enemy_body_miss (i j : Nat) (s : GameState)
    (h : ¬ ((s.enemies.getD j default).active = true ∧
            proj_hits_enemy (s.projectiles.getD i default) (s.enemies.getD j default) = true)) :
    hit_enemy_body i j s = s := by
  unfold hit_enemy_body
  unfold proj_hits_enemy at h
  simp only
  split_ifs with h1 h2
  · rfl
  · exact absurd ⟨by simpa using h1, h2⟩ h
  · rfl

theorem hit_enemy_body_hit (i j : Nat) (s : GameState)
    (ha : (s.enemies.getD j default).active = true)
    (hc : proj_hits_enemy (s.projectiles.getD i default) (s.enemies.getD j default) = true) :
    hit_enemy_body i j s = kill i j s := by
  unfold hit_enemy_body kill
  unfold proj_hits_enemy at hc
  simp only
  rw [if_neg (by rw [ha]; decide), if_pos hc]

/-- The frame up to the projectile advances leaves the player, the enemy
counts, the shields, the level and the pause and win flags alone. -/
theorem advance_frame (rand : Nat) (s : GameState) :
    advance rand s
      = { s with frame_count := s.frame_count + 1,
                 enemies := (advance rand s).enemies,
                 enemy_move_counter := (advance rand s).enemy_move_counter,
                 enemy_direction := (advance rand s).enemy_direction,
                 game_over := (advance rand s).game_over,
                 enemy_fire_timer := (advance rand s).enemy_fire_timer,
                 enemy_projectiles := (advance rand s).enemy_projectiles,
                 enemy_projectile_count := (advance rand s).enemy_projectile_count,
                 projectiles := (advance rand s).projectiles,
                 projectile_count := (advance rand s).projectile_count } := by
  unfold advance update_enemies update_enemy_projectiles update_projectiles
  simp only
  rw [update_enemies_fire_frame, update_enemies_move_frame]

theorem set_inactive_stays (l : List Projectile) (i k : Nat)
    (h : (l.getD k default).active = false) :
    ((l.set i { l.getD i default with active := false }).getD k default).active = false := by
  by_cases hik : i = k
  · subst hik
    by_cases hl : i < l.length
    · rw [getD_set_self _ _ _ _ hl]
    · rw [List.set_eq_of_length_le (by omega)]
      exact h
  · rw [getD_set_ne _ _ _ _ _ hik]
    exact h

theorem hit_shield_body_inactive (i k b n : Nat) (t : GameState)
    (h : (t.projectiles.getD n default).active = false) :
    ((hit_shield_body i k b t).projectiles.getD n default).active = false := by
  unfold hit_shield_body
  simp only
  split_ifs
  · exact h
  · exact set_inactive_stays _ _ _ h
  · exact h

theorem handle_collisions_after_first (s : GameState) :
    (handle_collisions s).enemies = (collide_proj_enemies s).enemies ∧
    (handle_collisions s).alive_enemy_count = (collide_proj_enemies s).alive_enemy_count ∧
    (handle_collisions s).player.score = (collide_proj_enemies s).player.score ∧
    (handle_collisions s).projectiles
      = (collide_proj_shields (collide_proj_enemies s)).projectiles := by
  unfold handle_collisions
  refine ⟨?_, ?_, ?_, ?_⟩
  · rw [collide_eproj_shields_frame, collide_eproj_player_frame, collide_proj_shields_frame]
  · rw [collide_eproj_shields_frame, collide_eproj_player_frame, collide_proj_shields_frame]
  · rw [collide_eproj_shields_frame, collide_eproj_player_frame, collide_proj_shields_frame]
  · rw [collide_eproj_shields_frame, collide_eproj_player_frame]

/-! # The enemy array keeps its size -/

theorem update_enemies_move_length (s : GameState) :
    (update_enemies_move s).enemies.length = s.enemies.length := by
  unfold update_enemies_move
  simp only
  have h3 := forLoop_inv (fun st : GameState × Bool => st.1.enemies.length = s.enemies.length)
    s.enemy_count move_enemy_body ({ s with enemy_move_counter := 0 }, false) rfl
    (fun i t _ ht => by
      unfold move_enemy_body
      simp only
      split_ifs
      · exact ht
      · simp only [List.length_set]; exact ht
      · simp only [List.length_set]; exact ht)
  split_ifs
  · refine forLoop_inv (fun u : GameState => u.enemies.length = s.enemies.length) _ _ _ h3 ?_
    intro i t _ ht
    unfold descend_enemy_body
    simp only
    split_ifs
    · simp only [List.length_set]; exact ht
    · simp only [List.length_set]; exact ht
    · exact ht
  · exact h3
  · rfl

theorem advance_enemies_length (rand : Nat) (s : GameState) :
    (advance rand s).enemies.length = s.enemies.length := by
  unfold advance update_enemies update_enemy_projectiles update_projectiles
  simp only
  rw [update_enemies_fire_frame]
  exact update_enemies_move_length _

theorem collide_proj_enemies_length (s : GameState) :
    (collide_proj_enemies s).enemies.length = s.enemies.length := by
  unfold collide_proj_enemies
  refine forLoop_inv (fun u : GameState => u.enemies.length = s.enemies.length) _ _ s rfl ?_
  intro i t _ ht
  unfold proj_vs_enemies_body
  split_ifs
  · exact ht
  · refine forLoop_inv (fun u : GameState => u.enemies.length = s.enemies.length) _ _ t ht ?_
    intro j u _ hu
    unfold hit_enemy_body
    simp only
    split_ifs
    · exact hu
    · simp only [List.length_set]; exact hu
    · exact hu

theorem handle_collisions_enemies_length (s : GameState) :
    (handle_collisions s).enemies.length = s.enemies.length := by
  rw [(handle_collisions_after_first s).1]
  exact collide_proj_enemies_length s

theorem handle_collisions_level (s : GameState) :
    (handle_collisions s).level = s.level := by
  unfold handle_collisions
  rw [collide_eproj_shields_frame, collide_eproj_player_frame, collide_proj_shields_frame,
    collide_proj_enemies_frame]

theorem take_grid (l : List Enemy) :
    ((List.range 30).map grid_enemy ++ l).take 30 = (List.range 30).map grid_enemy := by
  have : ((List.range 30).map grid_enemy).length = 30 := by simp
  conv_lhs => rw [← this]
  exact List.take_left _ _

theorem game_update_running (rand : Nat) (rnd : Nat → Nat) (s : GameState)
    (hp : s.is_paused = false) (hg : s.game_over = false) :
    game_update rand rnd s = check_level_complete rnd (handle_collisions (advance rand s)) := by
  unfold game_update
  rw [if_neg (by rw [hp, hg]; decide)]

theorem game_next_level_respawn (rnd : Nat → Nat) (s : GameState) (h : s.level < 10) :
    game_next_level rnd s
      = init_shields rnd (init_enemies
          { s with
            level := s.level + 1
            player := { s.player with score := s.player.score + POINTS_LEVEL_BONUS }
            projectile_count := 0
            enemy_projectile_count := 0 }) := by
  unfold game_next_level
  exact if_neg (by show ¬ (s.level + 1 > 10); omega)

theorem init_shields_enemies (rnd : Nat → Nat) (s : GameState) :
    (init_shields rnd s).enemies = s.enemies := rfl

theorem respawn_fields (rnd : Nat → Nat) (s : GameState) :
    (init_shields rnd (init_enemies s)).level = s.level ∧
    (init_shields rnd (init_enemies s)).player = s.player ∧
    (init_shields rnd (init_enemies s)).projectile_count = s.projectile_count ∧
    (init_shields rnd (init_enemies s)).enemy_projectile_count = s.enemy_projectile_count ∧
    (init_shields rnd (init_enemies s)).alive_enemy_count = INITIAL_ENEMIES ∧
    (init_shields rnd (init_enemies s)).enemy_count = INITIAL_ENEMIES ∧
    (init_shields rnd (init_enemies s)).projectiles = s.projectiles ∧
    (init_shields rnd (init_enemies s)).enemy_projectiles = s.enemy_projectiles ∧
    (init_shields rnd (init_enemies s)).game_over = s.game_over ∧
    (init_shields rnd (init_enemies s)).player_won = s.player_won ∧
    (init_shields rnd (init_enemies s)).is_paused = s.is_paused := by
  unfold init_shields init_enemies
  exact ⟨rfl, rfl, rfl, rfl, rfl, rfl, rfl, rfl, rfl, rfl, rfl⟩

/-- When no enemy is left alive below the last level, `check_level_complete`
starts the next level. -/
theorem check_level_complete_respawn (rnd : Nat → Nat) (c : GameState)
    (hlevel : c.level < 10) (hlen : 30 ≤ c.enemies.length)
    (hzero : c.alive_enemy_count ≤ 0) :
    (check_level_complete rnd c).level = c.level + 1 ∧
    (check_level_complete rnd c).player.score = c.player.score + POINTS_LEVEL_BONUS ∧
    (check_level_complete rnd c).projectile_count = 0 ∧
    (check_level_complete rnd c).enemy_projectile_count = 0 ∧
    (check_level_complete rnd c).alive_enemy_count = INITIAL_ENEMIES ∧
    (check_level_complete rnd c).enemy_count = INITIAL_ENEMIES ∧
    (check_level_complete rnd c).enemies
      = (List.range 30).map grid_enemy ++ c.enemies.drop 30 ∧
    (check_level_complete rnd c).player.health = c.player.health := by
  have hupd : check_level_complete rnd c
      = init_shields rnd (init_enemies
          { c with
            level := c.level + 1
            player := { c.player with score := c.player.score + POINTS_LEVEL_BONUS }
            projectile_count := 0
            enemy_projectile_count := 0 }) := by
    rw [check_level_complete, if_pos hzero, game_next_level_respawn rnd c hlevel]
  rw [hupd]
  have hf := respawn_fields rnd
    { c with
      level := c.level + 1
      player := { c.player with score := c.player.score + POINTS_LEVEL_BONUS }
      projectile_count := 0
      enemy_projectile_count := 0 }
  refine ⟨hf.1, ?_, hf.2.2.1, hf.2.2.2.1, hf.2.2.2.2.1, hf.2.2.2.2.2.1, ?_, ?_⟩
  · rw [hf.2.1]
  · have he := init_enemies_enemies
      { c with
        level := c.level + 1
        player := { c.player with score := c.player.score + POINTS_LEVEL_BONUS }
        projectile_count := 0
        enemy_projectile_count := 0 } hlen
    rw [init_shields_enemies, he]
  · rw [hf.2.1]

/-! # The pass "enemy projectiles vs player", slot by slot -/

theorem take_succ_getD {α : Type} (l : List α) (k : Nat) (d : α) (hk : k < l.length) :
    l.take (k + 1) = l.take k ++ [l.getD k d] := by
  rw [List.take_succ]
  simp [List.getD_eq_getElem?_getD, List.getElem?_eq_getElem hk]

theorem getD_default_of_le {α : Type} (l : List α) (k : Nat) (d : α) (hk : l.length ≤ k) :
    l.getD k d = d := by
  simp only [List.getD_eq_getElem?_getD]
  rw [List.getElem?_eq_none hk]
  rfl

theorem eproj_vs_player_body_step (s : GameState) (eps : List Projectile) (h : Int)
    (g : Bool) (k : Nat) :
    eproj_vs_player_body k (with_player_pass s eps h g)
      = with_player_pass s (eps.set k (absorb s.player (eps.getD k default)))
          (if wounds s.player (eps.getD k default) then h - 1 else h)
          (if wounds s.player (eps.getD k default) then (g || decide (h - 1 ≤ 0)) else g) := by
  unfold eproj_vs_player_body with_player_pass absorb wounds proj_hits_player
  simp only
  generalize hp : eps.getD k default = p
  have hself : eps.set k p = eps := by rw [← hp, set_getD_self]
  cases hact : p.active
  · simp [hself]
  · by_cases hc : utils_rect_collision p.x p.y 1 1
        s.player.x s.player.y PLAYER_WIDTH PLAYER_HEIGHT = true
    · by_cases hh : h - 1 ≤ 0
      · simp [hc, hh]
      · simp [hc, hh]
    · simp [hc, hself]

theorem over_after_hit (g : Bool) (H : Int) (c : Nat) :
    ((g || (decide (1 ≤ c) && decide (H - (c : Int) ≤ 0))) || decide (H - (c : Int) - 1 ≤ 0))
      = (g || (decide (1 ≤ c + 1) && decide (H - ((c + 1 : Nat) : Int) ≤ 0))) := by
  have h1 : H - ((c + 1 : Nat) : Int) = H - (c : Int) - 1 := by push_cast; ring
  rw [h1]
  by_cases h2 : H - (c : Int) - 1 ≤ 0
  · simp [h2]
  · have h3 : ¬ (H - (c : Int) ≤ 0) := by omega
    simp [h2, h3]

/-- The pass "enemy projectiles vs player" deactivates exactly the pooled
projectiles that are active and overlap the player, takes one life for each of
them, and sets `game_over` when a hit leaves no life. -/
theorem collide_eproj_player_spec (s : GameState) :
    collide_eproj_player s
      = with_player_pass s
          ((s.enemy_projectiles.take s.enemy_projectile_count.toNat).map (absorb s.player)
            ++ s.enemy_projectiles.drop s.enemy_projectile_count.toNat)
          (s.player.health - (player_hits s : Int))
          (s.game_over ||
            (decide (1 ≤ player_hits s) && decide (s.player.health - (player_hits s : Int) ≤ 0))) := by
  unfold collide_eproj_player player_hits enemy_pool
  refine forLoop_ind
    (fun k u => u = with_player_pass s
      ((s.enemy_projectiles.take k).map (absorb s.player) ++ s.enemy_projectiles.drop k)
      (s.player.health - (((s.enemy_projectiles.take k).countP (wounds s.player) : Nat) : Int))
      (s.game_over ||
        (decide (1 ≤ (s.enemy_projectiles.take k).countP (wounds s.player)) &&
         decide (s.player.health
            - (((s.enemy_projectiles.take k).countP (wounds s.player) : Nat) : Int) ≤ 0))))
    s.enemy_projectile_count eproj_vs_player_body s ?_ ?_
  · simp only [List.take_zero, List.map_nil, List.nil_append, List.drop_zero, List.countP_nil]
    simp
    rfl
  · intro k u _ hu
    rw [hu, eproj_vs_player_body_step]
    by_cases hk : k < s.enemy_projectiles.length
    · have hlen : ((s.enemy_projectiles.take k).map (absorb s.player)).length = k := by
        simp; omega
      have hget : ((s.enemy_projectiles.take k).map (absorb s.player)
            ++ s.enemy_projectiles.drop k).getD k default
          = s.enemy_projectiles.getD k default := by
        have := getD_prefix_drop ((s.enemy_projectiles.take k).map (absorb s.player))
          s.enemy_projectiles k default (by omega)
        rw [hlen] at this
        exact this
      have hset := set_prefix_drop ((s.enemy_projectiles.take k).map (absorb s.player))
        s.enemy_projectiles (absorb s.player (s.enemy_projectiles.getD k default)) (by omega)
      rw [hlen] at hset
      rw [hget, hset, take_succ_getD _ _ default hk, List.map_append, List.countP_append]
      simp only [List.map_cons, List.map_nil, List.countP_cons, List.countP_nil]
      by_cases hw : wounds s.player (s.enemy_projectiles.getD k default) = true
      · simp only [hw, if_true, Nat.zero_add]
        rw [over_after_hit]
        congr 1
        push_cast
        ring
      · simp only [hw, if_false, Nat.add_zero]
        simp
    · have hk2 : s.enemy_projectiles.length ≤ k := by omega
      have htk : s.enemy_projectiles.take k = s.enemy_projectiles := List.take_of_length_le hk2
      have htk1 : s.enemy_projectiles.take (k + 1) = s.enemy_projectiles :=
        List.take_of_length_le (by omega)
      have hdk : s.enemy_projectiles.drop k = [] := List.drop_of_length_le hk2
      have hdk1 : s.enemy_projectiles.drop (k + 1) = [] := List.drop_of_length_le (by omega)
      rw [htk, htk1, hdk, hdk1]
      have hget : (s.enemy_projectiles.map (absorb s.player) ++ []).getD k default = default :=
        getD_default_of_le _ _ _ (by simp; omega)
      rw [hget]
      have hw : wounds s.player (default : Projectile) = false := rfl
      have ha : absorb s.player (default : Projectile) = default := rfl
      rw [hw, ha, List.set_eq_of_length_le (by simp; omega)]
      simp

/-! # Lives lost in one frame -/

theorem countP_take_none {α : Type} (l : List α) (p : α → Bool) (d : α) (n : Nat)
    (h : ∀ k, k < n → k < l.length → p (l.getD k d) = false) :
    (l.take n).countP p = 0 := by
  induction l generalizing n with
  | nil => simp
  | cons a l ih =>
    cases n with
    | zero => simp
    | succ n =>
      have ha : p a = false := h 0 (by omega) (by simp)
      have := ih n (fun k hk hkl => h (k + 1) (by omega) (by simp; omega))
      simp [List.countP_cons, ha, this]

theorem countP_take_unique {α : Type} (l : List α) (p : α → Bool) (d : α) (n i : Nat)
    (hi : i < n) (hil : i < l.length) (hp : p (l.getD i d) = true)
    (huniq : ∀ k, k < n → k < l.length → p (l.getD k d) = true → k = i) :
    (l.take n).countP p = 1 := by
  induction l generalizing n i with
  | nil => simp at hil
  | cons a l ih =>
    cases n with
    | zero => omega
    | succ n =>
      cases i with
      | zero =>
        have ha : p a = true := hp
        have hrest := countP_take_none l p d n (fun k hk hkl => by
          by_contra hne
          have := huniq (k + 1) (by omega) (by simp; omega) (by simpa using hne)
          omega)
        simp [List.countP_cons, ha, hrest]
      | succ i =>
        have ha : p a = false := by
          by_contra hne
          have := huniq 0 (by omega) (by simp) (by simpa using hne)
          omega
        have hrest := ih n i (by omega) (by simpa using hil) hp
          (fun k hk hkl hpk => by
            have := huniq (k + 1) (by omega) (by simp; omega) hpk
            omega)
        simp [List.countP_cons, ha, hrest]

theorem player_hits_congr (s t : GameState)
    (h1 : t.enemy_projectiles = s.enemy_projectiles)
    (h2 : t.enemy_projectile_count = s.enemy_projectile_count)
    (hx : t.player.x = s.player.x) (hy : t.player.y = s.player.y) :
    player_hits t = player_hits s := by
  unfold player_hits enemy_pool
  rw [h1, h2]
  have : wounds t.player = wounds s.player := by
    funext p
    unfold wounds proj_hits_player
    rw [hx, hy]
  rw [this]

theorem absorb_congr (pl pl' : Player) (hx : pl'.x = pl.x) (hy : pl'.y = pl.y) :
    absorb pl' = absorb pl := by
  funext p
  unfold absorb wounds proj_hits_player
  rw [hx, hy]

theorem ehit_shield_body_inactive (i k b n : Nat) (t : GameState)
    (h : (t.enemy_projectiles.getD n default).active = false) :
    ((ehit_shield_body i k b t).enemy_projectiles.getD n default).active = false := by
  unfold ehit_shield_body
  simp only
  split_ifs
  · exact h
  · exact set_inactive_stays _ _ _ h
  · exact h

/-- The pass "enemy projectiles vs shields" never re-activates a projectile. -/
theorem collide_eproj_shields_inactive (s : GameState) (n : Nat)
    (h : (s.enemy_projectiles.getD n default).active = false) :
    ((collide_eproj_shields s).enemy_projectiles.getD n default).active = false := by
  unfold collide_eproj_shields
  refine forLoop_inv (fun u => (u.enemy_projectiles.getD n default).active = false) _ _ s h ?_
  intro i t _ ht
  unfold eproj_vs_shields_body
  split_ifs
  · exact ht
  · exact forLoop_inv (fun u => (u.enemy_projectiles.getD n default).active = false) _ _ t ht
      (fun k u _ hu =>
        forLoop_inv (fun u => (u.enemy_projectiles.getD n default).active = false) _ _ u hu
          (fun b v _ hv => ehit_shield_body_inactive i k b n v hv))

/-- The state the third collision pass starts from has the enemy pool and the
player of the state the collision passes started from, up to the score. -/
theorem before_player_pass (m : GameState) :
    (collide_proj_shields (collide_proj_enemies m)).enemy_projectiles = m.enemy_projectiles ∧
    (collide_proj_shields (collide_proj_enemies m)).enemy_projectile_count
      = m.enemy_projectile_count ∧
    (collide_proj_shields (collide_proj_enemies m)).player.x = m.player.x ∧
    (collide_proj_shields (collide_proj_enemies m)).player.y = m.player.y ∧
    (collide_proj_shields (collide_proj_enemies m)).player.health = m.player.health ∧
    (collide_proj_shields (collide_proj_enemies m)).game_over = m.game_over := by
  refine ⟨?_, ?_, ?_, ?_, ?_, ?_⟩ <;>
    rw [collide_proj_shields_frame, collide_proj_enemies_frame]

/-- What `handle_collisions` does to the enemy pool, the lives and `game_over`,
in terms of the state it starts from. -/
theorem handle_collisions_player (m : GameState) :
    (handle_collisions m).player.health = m.player.health - (player_hits m : Int) ∧
    (handle_collisions m).game_over
      = (m.game_over ||
          (decide (1 ≤ player_hits m) && decide (m.player.health - (player_hits m : Int) ≤ 0))) ∧
    (∀ i, i < m.enemy_projectile_count.toNat → i < m.enemy_projectiles.length →
      wounds m.player (m.enemy_projectiles.getD i default) = true →
      ((handle_collisions m).enemy_projectiles.getD i default).active = false) := by
  obtain ⟨h1, h2, hx, hy, hh, hg⟩ := before_player_pass m
  have hhits := player_hits_congr m (collide_proj_shields (collide_proj_enemies m)) h1 h2 hx hy
  have habs := absorb_congr m.player (collide_proj_shields (collide_proj_enemies m)).player hx hy
  have hspec := collide_eproj_player_spec (collide_proj_shields (collide_proj_enemies m))
  rw [hhits, habs, h1, h2, hh, hg] at hspec
  unfold handle_collisions
  refine ⟨?_, ?_, ?_⟩
  · rw [collide_eproj_shields_frame, hspec]
    rfl
  · rw [collide_eproj_shields_frame, hspec]
    rfl
  · intro i hi hil hw
    apply collide_eproj_shields_inactive
    rw [hspec]
    unfold with_player_pass
    simp only
    have hlen : i < ((m.enemy_projectiles.take m.enemy_projectile_count.toNat).map
        (absorb m.player)).length := by
      simp; omega
    simp only [List.getD_eq_getElem?_getD]
    rw [List.getElem?_append_left hlen, List.getElem?_map,
      List.getElem?_take_of_lt hi, List.getElem?_eq_getElem hil]
    have hw' : wounds m.player m.enemy_projectiles[i] = true := by
      rw [← hw]
      simp [List.getD_eq_getElem?_getD, List.getElem?_eq_getElem hil]
    simp [absorb, hw']

theorem game_next_level_win (rnd : Nat → Nat) (s : GameState) (h : 10 ≤ s.level) :
    game_next_level rnd s
      = { s with
          level := s.level + 1
          player := { s.player with score := s.player.score + POINTS_LEVEL_BONUS }
          player_won := true
          game_over := true } := by
  unfold game_next_level
  exact if_pos (by show s.level + 1 > 10; omega)

theorem check_level_complete_player (rnd : Nat → Nat) (c : GameState) :
    (check_level_complete rnd c).player.health = c.player.health ∧
    (check_level_complete rnd c).enemy_projectiles = c.enemy_projectiles ∧
    (c.game_over = true → (check_level_complete rnd c).game_over = true) := by
  unfold check_level_complete
  split_ifs with h
  · by_cases hl : c.level < 10
    · rw [game_next_level_respawn rnd c hl]
      have hf := respawn_fields rnd
        { c with
          level := c.level + 1
          player := { c.player with score := c.player.score + POINTS_LEVEL_BONUS }
          projectile_count := 0
          enemy_projectile_count := 0 }
      refine ⟨by rw [hf.2.1], hf.2.2.2.2.2.2.2.1, fun hg => ?_⟩
      rw [hf.2.2.2.2.2.2.2.2.1]
      exact hg
    · rw [game_next_level_win rnd c (by omega)]
      exact ⟨rfl, rfl, fun _ => rfl⟩
  · exact ⟨rfl, rfl, fun hg => hg⟩

/-- On a running state `game_update` takes one life for every active projectile
of the advanced enemy pool that overlaps the player. -/
theorem game_update_health (rand : Nat) (rnd : Nat → Nat) (s : GameState)
    (hp : s.is_paused = false) (hg : s.game_over = false) :
    (game_update rand rnd s).player.health
      = s.player.health - (player_hits (advance rand s) : Int) := by
  rw [game_update_running rand rnd s hp hg, (check_level_complete_player rnd _).1,
    (handle_collisions_player (advance rand s)).1]
  congr 1
  rw [advance_frame]


/-! # The player's position -/

theorem handle_collisions_player_pos (s : GameState) :
    (handle_collisions s).player.x = s.player.x ∧ (handle_collisions s).player.y = s.player.y := by
  unfold handle_collisions
  constructor <;>
    rw [collide_eproj_shields_frame, collide_eproj_player_frame, collide_proj_shields_frame,
      collide_proj_enemies_frame]

theorem check_level_complete_player_pos (rnd : Nat → Nat) (c : GameState) :
    (check_level_complete rnd c).player.x = c.player.x ∧
    (check_level_complete rnd c).player.y = c.player.y := by
  unfold check_level_complete
  split_ifs with h
  · by_cases hl : c.level < 10
    · rw [game_next_level_respawn rnd c hl]
      have hf := respawn_fields rnd
        { c with
          level := c.level + 1
          player := { c.player with score := c.player.score + POINTS_LEVEL_BONUS }
          projectile_count := 0
          enemy_projectile_count := 0 }
      rw [hf.2.1]
      exact ⟨rfl, rfl⟩
    · rw [game_next_level_win rnd c (by omega)]
      exact ⟨rfl, rfl⟩
  · exact ⟨rfl, rfl⟩

/-- `game_update` never moves the ship. -/
theorem game_update_player_pos (rand : Nat) (rnd : Nat → Nat) (s : GameState) :
    (game_update rand rnd s).player.x = s.player.x ∧
    (game_update rand rnd s).player.y = s.player.y := by
  by_cases hr : s.is_paused = false ∧ s.game_over = false
  · rw [game_update_running rand rnd s hr.1 hr.2, (check_level_complete_player_pos rnd _).1,
      (check_level_complete_player_pos rnd _).2, (handle_collisions_player_pos _).1,
      (handle_collisions_player_pos _).2, advance_frame]
    exact ⟨rfl, rfl⟩
  · have : game_update rand rnd s = s := by
      unfold game_update
      apply if_pos
      cases hp : s.is_paused <;> cases hg : s.game_over <;> simp_all
    rw [this]
    exact ⟨rfl, rfl⟩

theorem game_move_player_left_x (s : GameState) :
    (game_move_player_left s).player.x
      = if s.is_paused = false ∧ s.game_over = false then max 0 (s.player.x - PLAYER_SPEED)
        else s.player.x := by
  unfold game_move_player_left
  cases hp : s.is_paused <;> cases hg : s.game_over <;> simp
  rw [max_def]
  split_ifs <;> simp only [PLAYER_SPEED] at * <;> omega

theorem game_move_player_right_x (s : GameState) :
    (game_move_player_right s).player.x
      = if s.is_paused = false ∧ s.game_over = false then
          min (BOARD_WIDTH - PLAYER_WIDTH) (s.player.x + PLAYER_SPEED)
        else s.player.x := by
  unfold game_move_player_right
  cases hp : s.is_paused <;> cases hg : s.game_over <;> simp
  rw [min_def]
  split_ifs <;> simp only [PLAYER_SPEED, BOARD_WIDTH, PLAYER_WIDTH] at * <;> omega

/-! # The fresh game -/

theorem game_init_enemies (rnd : Nat → Nat) :
    (game_init rnd).enemies = (List.range 30).map grid_enemy ++ List.replicate 25 default := by
  unfold game_init
  simp only
  rw [init_shields_enemies, init_enemies_enemies _ (by simp [zeroed])]
  simp [zeroed]

theorem game_init_fields (rnd : Nat → Nat) :
    (game_init rnd).player = ⟨39, 22, 3, 0⟩ ∧ (game_init rnd).level = 1 ∧
    (game_init rnd).enemy_direction = 1 ∧ (game_init rnd).projectile_count = 0 ∧
    (game_init rnd).enemy_projectile_count = 0 ∧ (game_init rnd).is_paused = false ∧
    (game_init rnd).game_over = false ∧ (game_init rnd).player_won = false ∧
    (game_init rnd).enemy_count = 30 ∧ (game_init rnd).alive_enemy_count = 30 ∧
    (game_init rnd).frame_count = 0 ∧ (game_init rnd).enemy_fire_timer = 0 ∧
    (game_init rnd).enemy_move_counter = 0 :=
  ⟨rfl, rfl, rfl, rfl, rfl, rfl, rfl, rfl, rfl, rfl, rfl, rfl, rfl⟩

theorem drop_grid (l : List Enemy) :
    ((List.range 30).map grid_enemy ++ l).drop 30 = l := by
  have : ((List.range 30).map grid_enemy).length = 30 := by simp
  conv_lhs => rw [← this]
  exact List.drop_left _ _

theorem getD_grid (l : List Enemy) (k : Nat) (hk : k < 30) :
    ((List.range 30).map grid_enemy ++ l).getD k default = grid_enemy k := by
  simp only [List.getD_eq_getElem?_getD]
  rw [List.getElem?_append_left (by simp; exact hk), List.getElem?_map,
    List.getElem?_range hk]
  rfl

theorem game_set_level_respawn (rnd : Nat → Nat) (s : GameState) (n : Int) (h : 1 ≤ n) :
    game_set_level rnd s n
      = init_shields rnd (init_enemies
          { s with
            level := n
            player := { s.player with
              score := wrap_int (s.player.score + wrap_int (POINTS_LEVEL_BONUS * (n - 1))) }
            projectile_count := 0
            enemy_projectile_count := 0 }) := by
  unfold game_set_level
  exact if_neg (by omega)

theorem game_set_level_enemies (rnd : Nat → Nat) (s : GameState) (n : Int) (h : 1 ≤ n)
    (hl : 30 ≤ s.enemies.length) :
    (game_set_level rnd s n).enemies = (List.range 30).map grid_enemy ++ s.enemies.drop 30 := by
  rw [game_set_level_respawn rnd s n h, init_shields_enemies]
  exact init_enemies_enemies
    { s with
      level := n
      player := { s.player with
        score := wrap_int (s.player.score + wrap_int (POINTS_LEVEL_BONUS * (n - 1))) }
      projectile_count := 0
      enemy_projectile_count := 0 } hl

theorem set_level_enemies (rnd rnd' : Nat → Nat) (n : Int) (h : 1 ≤ n) :
    (game_set_level rnd' (game_init rnd) n).enemies = (game_init rnd).enemies := by
  rw [game_set_level_enemies rnd' _ n h (by rw [game_init_enemies]; simp), game_init_enemies,
    drop_grid]

/-! # Shields -/

theorem init_shield_body_eq (rnd : Nat → Nat) (i : Nat) (shields : List Shield) :
    init_shield_body rnd i shields
      = shields.set i (placed_shield rnd i (shields.getD i default)) := by
  rfl

theorem init_shields_four (rnd : Nat → Nat) (s : GameState) (a b c d : Shield)
    (h : s.shields = [a, b, c, d]) :
    (init_shields rnd s).shields
      = [placed_shield rnd 0 a, placed_shield rnd 1 b, placed_shield rnd 2 c,
         placed_shield rnd 3 d] := by
  unfold init_shields
  simp only
  rw [h]
  rfl

theorem game_init_shields (rnd : Nat → Nat) :
    (game_init rnd).shields
      = [placed_shield rnd 0 default, placed_shield rnd 1 default, placed_shield rnd 2 default,
         placed_shield rnd 3 default] := by
  rfl

theorem placed_shield_again (rnd rnd' : Nat → Nat) (i : Nat) :
    placed_shield rnd' i (placed_shield rnd i default) = placed_shield rnd' i default := by
  rfl

theorem game_set_level_shields (rnd : Nat → Nat) (s : GameState) (n : Int) (h : 1 ≤ n) :
    (game_set_level rnd s n).shields = (init_shields rnd s).shields := by
  rw [game_set_level_respawn rnd s n h]
  rfl

theorem getD_set_same {α : Type} (l : List α) (i : Nat) (v d : α) :
    (l.set i v).getD i d = if i < l.length then v else d := by
  split_ifs with h
  · exact getD_set_self l i v d h
  · rw [List.set_eq_of_length_le (by omega)]
    exact getD_default_of_le l i d (by omega)

theorem spareBlocksEmpty_set (shields : List Shield) (i : Nat) (sh : Shield)
    (h : SpareBlocksEmpty shields)
    (hsh : ∀ b, 2 ≤ b → (sh.blocks.getD b default).health = 0) :
    SpareBlocksEmpty (shields.set i sh) := by
  intro k b hb
  by_cases hik : i = k
  · subst hik
    by_cases hl : i < shields.length
    · rw [getD_set_self _ _ _ _ hl]
      exact hsh b hb
    · rw [List.set_eq_of_length_le (by omega)]
      exact h i b hb
  · rw [getD_set_ne _ _ _ _ _ hik]
    exact h k b hb

theorem spareBlocksEmpty_init_shields (rnd : Nat → Nat) (s : GameState)
    (h : SpareBlocksEmpty s.shields) : SpareBlocksEmpty (init_shields rnd s).shields := by
  unfold init_shields
  simp only
  refine forLoop_inv SpareBlocksEmpty _ _ _ h ?_
  intro i shs _ hs
  rw [init_shield_body_eq]
  apply spareBlocksEmpty_set _ _ _ hs
  intro b hb
  unfold placed_shield
  simp only
  rw [getD_set_ne _ _ _ _ _ (by omega), getD_set_ne _ _ _ _ _ (by omega)]
  exact hs i b hb

theorem spareBlocksEmpty_damage (shields : List Shield) (k b : Nat)
    (h : SpareBlocksEmpty shields)
    (hpos : ¬ ((shields.getD k default).blocks.getD b default).health ≤ 0) :
    SpareBlocksEmpty (damage_block k b shields) := by
  unfold damage_block
  simp only
  apply spareBlocksEmpty_set _ _ _ h
  intro b' hb'
  simp only
  have hne : b ≠ b' := by
    rintro rfl
    exact hpos (le_of_eq (h k b hb'))
  rw [getD_set_ne _ _ _ _ _ hne]
  exact h k b' hb'

theorem hit_shield_body_spare (i k b : Nat) (v : GameState)
    (hv : SpareBlocksEmpty v.shields) : SpareBlocksEmpty (hit_shield_body i k b v).shields := by
  unfold hit_shield_body
  simp only
  split_ifs with h1 h2
  · exact hv
  · exact spareBlocksEmpty_damage _ _ _ hv h1
  · exact hv

theorem ehit_shield_body_spare (i k b : Nat) (v : GameState)
    (hv : SpareBlocksEmpty v.shields) : SpareBlocksEmpty (ehit_shield_body i k b v).shields := by
  unfold ehit_shield_body
  simp only
  split_ifs with h1 h2
  · exact hv
  · exact spareBlocksEmpty_damage _ _ _ hv h1
  · exact hv

theorem proj_vs_shields_body_spare (i : Nat) (t : GameState)
    (ht : SpareBlocksEmpty t.shields) : SpareBlocksEmpty (proj_vs_shields_body i t).shields := by
  unfold proj_vs_shields_body
  split_ifs
  · exact ht
  · exact forLoop_inv (fun u : GameState => SpareBlocksEmpty u.shields) _ _ t ht
      (fun k u _ hu =>
        forLoop_inv (fun u : GameState => SpareBlocksEmpty u.shields) _ _ u hu
          (fun b v _ hv => hit_shield_body_spare i k b v hv))

theorem eproj_vs_shields_body_spare (i : Nat) (t : GameState)
    (ht : SpareBlocksEmpty t.shields) : SpareBlocksEmpty (eproj_vs_shields_body i t).shields := by
  unfold eproj_vs_shields_body
  split_ifs
  · exact ht
  · exact forLoop_inv (fun u : GameState => SpareBlocksEmpty u.shields) _ _ t ht
      (fun k u _ hu =>
        forLoop_inv (fun u : GameState => SpareBlocksEmpty u.shields) _ _ u hu
          (fun b v _ hv => ehit_shield_body_spare i k b v hv))

theorem spareBlocksEmpty_collide_proj_shields (s : GameState) (h : SpareBlocksEmpty s.shields) :
    SpareBlocksEmpty (collide_proj_shields s).shields := by
  unfold collide_proj_shields
  exact forLoop_inv (fun u : GameState => SpareBlocksEmpty u.shields) _ _ s h
    (fun i t _ ht => proj_vs_shields_body_spare i t ht)

theorem spareBlocksEmpty_collide_eproj_shields (s : GameState) (h : SpareBlocksEmpty s.shields) :
    SpareBlocksEmpty (collide_eproj_shields s).shields := by
  unfold collide_eproj_shields
  exact forLoop_inv (fun u : GameState => SpareBlocksEmpty u.shields) _ _ s h
    (fun i t _ ht => eproj_vs_shields_body_spare i t ht)

theorem spareBlocksEmpty_next_level (rnd : Nat → Nat) (s : GameState)
    (h : SpareBlocksEmpty s.shields) : SpareBlocksEmpty (game_next_level rnd s).shields := by
  by_cases hl : s.level < 10
  · rw [game_next_level_respawn rnd s hl]
    exact spareBlocksEmpty_init_shields rnd _ h
  · rw [game_next_level_win rnd s (by omega)]
    exact h

theorem spareBlocksEmpty_update (rand : Nat) (rnd : Nat → Nat) (s : GameState)
    (h : SpareBlocksEmpty s.shields) : SpareBlocksEmpty (game_update rand rnd s).shields := by
  unfold game_update check_level_complete
  have ha : SpareBlocksEmpty (advance rand s).shields := by
    rw [advance_frame]; exact h
  have hc : SpareBlocksEmpty (handle_collisions (advance rand s)).shields := by
    unfold handle_collisions
    apply spareBlocksEmpty_collide_eproj_shields
    rw [collide_eproj_player_frame]
    apply spareBlocksEmpty_collide_proj_shields
    rw [collide_proj_enemies_frame]
    exact ha
  split_ifs
  · exact h
  · exact spareBlocksEmpty_next_level rnd _ hc
  · exact hc

theorem reachable_spareBlocksEmpty {s : GameState} (h : Reachable s) :
    SpareBlocksEmpty s.shields := by
  induction h with
  | init rnd =>
    unfold game_init
    apply spareBlocksEmpty_init_shields
    intro k b _
    have : ((List.replicate 4 (default : Shield)).getD k default) = default := by
      simp only [List.getD_eq_getElem?_getD, List.getElem?_replicate]
      split_ifs <;> rfl
    show (((List.replicate 4 (default : Shield)).getD k default).blocks.getD b default).health = 0
    rw [this]
    have : (List.replicate 48 (default : ShieldBlock)).getD b default = default := by
      simp only [List.getD_eq_getElem?_getD, List.getElem?_replicate]
      split_ifs <;> rfl
    show ((List.replicate 48 (default : ShieldBlock)).getD b default).health = 0
    rw [this]
    rfl
  | update rand rnd s _ ih => exact spareBlocksEmpty_update rand rnd s ih
  | move_left s _ ih =>
    unfold game_move_player_left; split_ifs <;> exact ih
  | move_right s _ ih =>
    unfold game_move_player_right; split_ifs <;> exact ih
  | shoot s _ ih =>
    unfold game_player_shoot; split_ifs <;> exact ih
  | toggle_pause s _ ih =>
    unfold game_toggle_pause; split_ifs <;> exact ih
  | next_level rnd s _ ih => exact spareBlocksEmpty_next_level rnd s ih
  | set_level rnd s level _ ih =>
    by_cases hl : 1 ≤ level
    · rw [game_set_level_shields rnd s level hl]
      exact spareBlocksEmpty_init_shields rnd s ih
    · have : game_set_level rnd s level = s := by
        unfold game_set_level
        exact if_pos (by omega)
      rw [this]; exact ih
  | reset rnd s _ ih =>
    unfold game_reset
    exact spareBlocksEmpty_init_shields rnd _ ih

theorem grid_enemy_eq (k : Nat) :
    grid_enemy k
      = ⟨2 + 12 * ((k % 6 : Nat) : Int), 2 + 3 * ((k / 6 : Nat) : Int), true, 1⟩ := by
  unfold grid_enemy
  congr 1 <;> ring

theorem game_init_shield (rnd : Nat → Nat) (i : Nat) (hi : i < 4) :
    (game_init rnd).shields.getD i default = placed_shield rnd i default := by
  rw [game_init_shields]
  interval_cases i <;> rfl

theorem placed_shield_spare (rnd : Nat → Nat) (i b : Nat) (hb : 2 ≤ b) :
    ((placed_shield rnd i default).blocks.getD b default).health = 0 := by
  unfold placed_shield
  simp only
  rw [getD_set_ne _ _ _ _ _ (by omega), getD_set_ne _ _ _ _ _ (by omega)]
  have : (List.replicate 48 (default : ShieldBlock)).getD b default = default := by
    simp only [List.getD_eq_getElem?_getD, List.getElem?_replicate]
    split_ifs <;> rfl
  show ((List.replicate 48 (default : ShieldBlock)).getD b default).health = 0
  rw [this]
  rfl

theorem hit_shield_body_dead (j k b : Nat) (t : GameState)
    (h : ((t.shields.getD k default).blocks.getD b default).health ≤ 0) :
    hit_shield_body j k b t = t ∧ ehit_shield_body j k b t = t := by
  unfold hit_shield_body ehit_shield_body
  simp only
  rw [if_pos h, if_pos h]
  exact ⟨rfl, rfl⟩

/-! # Winning and scoring -/

theorem handle_collisions_flags (s : GameState) :
    (handle_collisions s).player_won = s.player_won ∧
    (handle_collisions s).is_paused = s.is_paused ∧
    (handle_collisions s).enemy_direction = s.enemy_direction ∧
    (handle_collisions s).enemy_move_counter = s.enemy_move_counter ∧
    (handle_collisions s).enemy_fire_timer = s.enemy_fire_timer ∧
    (handle_collisions s).frame_count = s.frame_count ∧
    (handle_collisions s).enemy_count = s.enemy_count := by
  unfold handle_collisions
  refine ⟨?_, ?_, ?_, ?_, ?_, ?_, ?_⟩ <;>
    rw [collide_eproj_shields_frame, collide_eproj_player_frame, collide_proj_shields_frame,
      collide_proj_enemies_frame]

theorem game_update_frozen (rand : Nat) (rnd : Nat → Nat) (s : GameState)
    (h : s.is_paused = true ∨ s.game_over = true) : game_update rand rnd s = s := by
  unfold game_update
  exact if_pos (by rcases h with h | h <;> simp [h])

theorem running_or_frozen (s : GameState) :
    (s.is_paused = false ∧ s.game_over = false) ∨ (s.is_paused = true ∨ s.game_over = true) := by
  cases s.is_paused <;> cases s.game_over <;> simp

theorem wonInv_of_not_won (s : GameState) (h : s.player_won = false) : WonInv s := by
  intro hw
  rw [h] at hw
  exact absurd hw (by decide)

theorem wonInv_check_level_complete (rnd : Nat → Nat) (c : GameState)
    (h : c.player_won = false) : WonInv (check_level_complete rnd c) := by
  unfold check_level_complete
  split_ifs with hz
  · by_cases hl : c.level < 10
    · apply wonInv_of_not_won
      rw [game_next_level_respawn rnd c hl, (respawn_fields rnd _).2.2.2.2.2.2.2.2.2.1]
      exact h
    · rw [game_next_level_win rnd c (by omega)]
      intro _
      exact ⟨by show 10 < c.level + 1; omega, rfl⟩
  · exact wonInv_of_not_won c h

theorem wonInv_update (rand : Nat) (rnd : Nat → Nat) (s : GameState) (h : WonInv s) :
    WonInv (game_update rand rnd s) := by
  rcases running_or_frozen s with hr | hf
  · rw [game_update_running rand rnd s hr.1 hr.2]
    apply wonInv_check_level_complete
    rw [(handle_collisions_flags _).1, advance_frame]
    show s.player_won = false
    cases hw : s.player_won
    · rfl
    · have := (h hw).2
      rw [hr.2] at this
      exact absurd this (by decide)
  · rw [game_update_frozen rand rnd s hf]
    exact h

theorem wonInv_played {s0 s : GameState} (h0 : WonInv s0) (h : PlayedFrom s0 s) : WonInv s := by
  induction h with
  | start => exact h0
  | update rand rnd s _ ih => exact wonInv_update rand rnd s ih
  | move_left s _ ih =>
    unfold game_move_player_left; split_ifs
    · exact ih
    · exact ih
  | move_right s _ ih =>
    unfold game_move_player_right; split_ifs
    · exact ih
    · exact ih
  | shoot s _ ih =>
    unfold game_player_shoot; split_ifs
    · exact ih
    · exact ih
    · exact ih
  | toggle_pause s _ ih =>
    unfold game_toggle_pause; split_ifs with hg
    · intro hw
      have := (ih hw).2
      rw [this] at hg
      exact absurd hg (by decide)
    · exact ih

theorem played_reachable {rnd : Nat → Nat} {s : GameState}
    (h : PlayedFrom (game_init rnd) s) : Reachable s := by
  induction h with
  | start => exact Reachable.init rnd
  | update rand rnd' s _ ih => exact Reachable.update rand rnd' s ih
  | move_left s _ ih => exact Reachable.move_left s ih
  | move_right s _ ih => exact Reachable.move_right s ih
  | shoot s _ ih => exact Reachable.shoot s ih
  | toggle_pause s _ ih => exact Reachable.toggle_pause s ih

theorem hit_enemy_body_score (i j : Nat) (u : GameState) :
    (hit_enemy_body i j u).player.score + POINTS_PER_ENEMY * (hit_enemy_body i j u).alive_enemy_count
      = u.player.score + POINTS_PER_ENEMY * u.alive_enemy_count := by
  unfold hit_enemy_body
  simp only
  split_ifs
  · rfl
  · show u.player.score + POINTS_PER_ENEMY + POINTS_PER_ENEMY * (u.alive_enemy_count - 1) = _
    ring
  · rfl

/-- The first collision pass pays `POINTS_PER_ENEMY` for every enemy it takes
off `alive_enemy_count`. -/
theorem collide_proj_enemies_score (s : GameState) :
    (collide_proj_enemies s).player.score
        + POINTS_PER_ENEMY * (collide_proj_enemies s).alive_enemy_count
      = s.player.score + POINTS_PER_ENEMY * s.alive_enemy_count := by
  unfold collide_proj_enemies
  refine forLoop_inv (fun u : GameState =>
    u.player.score + POINTS_PER_ENEMY * u.alive_enemy_count
      = s.player.score + POINTS_PER_ENEMY * s.alive_enemy_count) _ _ s rfl ?_
  intro i t _ ht
  unfold proj_vs_enemies_body
  split_ifs
  · exact ht
  · exact forLoop_inv (fun u : GameState =>
      u.player.score + POINTS_PER_ENEMY * u.alive_enemy_count
        = s.player.score + POINTS_PER_ENEMY * s.alive_enemy_count) _ _ t ht
      (fun j u _ hu => (hit_enemy_body_score i j u).trans hu)

theorem handle_collisions_score (s : GameState) :
    (handle_collisions s).player.score
        + POINTS_PER_ENEMY * (handle_collisions s).alive_enemy_count
      = s.player.score + POINTS_PER_ENEMY * s.alive_enemy_count := by
  rw [(handle_collisions_after_first s).2.1, (handle_collisions_after_first s).2.2.1]
  exact collide_proj_enemies_score s

theorem enemyInv_alive_nonneg (s : GameState) (h : EnemyInv s) : 0 ≤ s.alive_enemy_count := by
  rw [h.2.2]
  exact Int.ofNat_nonneg _

/-- After the collision pass of a running frame the score formula still holds,
with the counter the pass left. -/
theorem scoreInv_after_collisions (rand : Nat) (s : GameState)
    (hs : ScoreInv s) (hw : s.player_won = false) :
    (handle_collisions (advance rand s)).player.score
      = (INITIAL_ENEMIES * POINTS_PER_ENEMY + POINTS_LEVEL_BONUS) * (s.level - 1)
        + POINTS_PER_ENEMY
          * (INITIAL_ENEMIES - (handle_collisions (advance rand s)).alive_enemy_count) := by
  have h1 := handle_collisions_score (advance rand s)
  have h2 : (advance rand s).player.score = s.player.score := by rw [advance_frame]
  have h3 : (advance rand s).alive_enemy_count = s.alive_enemy_count := by rw [advance_frame]
  rw [h2, h3] at h1
  have h4 := hs hw
  simp only [INITIAL_ENEMIES, POINTS_PER_ENEMY, POINTS_LEVEL_BONUS] at *
  omega

theorem scoreInv_update (rand : Nat) (rnd : Nat → Nat) (s : GameState)
    (he : EnemyInv s) (hwi : WonInv s) (hs : ScoreInv s) :
    ScoreInv (game_update rand rnd s) := by
  rcases running_or_frozen s with hr | hf
  · have hw : s.player_won = false := by
      cases hw : s.player_won
      · rfl
      · have := (hwi hw).2
        rw [hr.2] at this
        exact absurd this (by decide)
    have hsc := scoreInv_after_collisions rand s hs hw
    have hl : (handle_collisions (advance rand s)).level = s.level := by
      rw [handle_collisions_level, advance_frame]
    have halive := enemyInv_alive_nonneg _ (handle_collisions_inv _ (advance_inv rand s he))
    have hlen : 30 ≤ (handle_collisions (advance rand s)).enemies.length :=
      (handle_collisions_inv _ (advance_inv rand s he)).1
    rw [game_update_running rand rnd s hr.1 hr.2]
    by_cases hz : (handle_collisions (advance rand s)).alive_enemy_count ≤ 0
    · by_cases hlv : (handle_collisions (advance rand s)).level < 10
      · obtain ⟨h1, h2, -, -, h5, -⟩ :=
          check_level_complete_respawn rnd _ hlv hlen hz
        intro _
        rw [h1, h2, h5, hsc, hl]
        simp only [INITIAL_ENEMIES, POINTS_PER_ENEMY, POINTS_LEVEL_BONUS]
        omega
      · intro hnw
        exfalso
        unfold check_level_complete at hnw
        rw [if_pos hz, game_next_level_win rnd _ (by omega)] at hnw
        exact Bool.noConfusion hnw
    · unfold check_level_complete
      rw [if_neg hz]
      intro _
      rw [hsc, hl]
  · rw [game_update_frozen rand rnd s hf]
    exact hs

theorem scoreInv_played {rnd : Nat → Nat} {s : GameState}
    (h : PlayedFrom (game_init rnd) s) : ScoreInv s := by
  have hwon : ∀ t, PlayedFrom (game_init rnd) t → WonInv t :=
    fun t ht => wonInv_played (wonInv_of_not_won _ rfl) ht
  induction h with
  | start =>
    intro _
    rfl
  | update rand rnd' s hp ih =>
    exact scoreInv_update rand rnd' s (reachable_enemyInv (played_reachable hp)) (hwon s hp) ih
  | move_left s _ ih =>
    unfold game_move_player_left; split_ifs
    · exact ih
    · exact ih
  | move_right s _ ih =>
    unfold game_move_player_right; split_ifs
    · exact ih
    · exact ih
  | shoot s _ ih =>
    unfold game_player_shoot; split_ifs
    · exact ih
    · exact ih
    · exact ih
  | toggle_pause s _ ih =>
    unfold game_toggle_pause; split_ifs
    · exact ih
    · exact ih

theorem respawn_counters (rnd : Nat → Nat) (s : GameState) :
    (init_shields rnd (init_enemies s)).frame_count = s.frame_count ∧
    (init_shields rnd (init_enemies s)).enemy_fire_timer = s.enemy_fire_timer ∧
    (init_shields rnd (init_enemies s)).enemy_direction = s.enemy_direction ∧
    (init_shields rnd (init_enemies s)).enemy_move_counter = s.enemy_move_counter := by
  unfold init_shields init_enemies
  exact ⟨rfl, rfl, rfl, rfl⟩

theorem game_reset_fields (rnd : Nat → Nat) (s : GameState) :
    (game_reset rnd s).player = ⟨39, 22, 3, 0⟩ ∧ (game_reset rnd s).level = 1 ∧
    (game_reset rnd s).enemy_direction = 1 ∧ (game_reset rnd s).projectile_count = 0 ∧
    (game_reset rnd s).enemy_projectile_count = 0 ∧ (game_reset rnd s).is_paused = false ∧
    (game_reset rnd s).game_over = false ∧ (game_reset rnd s).player_won = false ∧
    (game_reset rnd s).enemy_count = 30 ∧ (game_reset rnd s).alive_enemy_count = 30 ∧
    (game_reset rnd s).frame_count = 0 ∧
    (game_reset rnd s).enemy_fire_timer = s.enemy_fire_timer ∧
    (game_reset rnd s).enemy_move_counter = 0 := by
  unfold game_reset
  simp only
  obtain ⟨h1, h2, h3, h4, h5, h6, -, -, h9, h10, h11⟩ := respawn_fields rnd
    { s with
      player := ⟨Int.tdiv BOARD_WIDTH 2 - Int.tdiv PLAYER_WIDTH 2, BOARD_HEIGHT - 2,
        INITIAL_LIVES, 0⟩
      level := INITIAL_LEVEL
      frame_count := 0
      is_paused := false
      game_over := false
      player_won := false
      projectile_count := 0
      enemy_projectile_count := 0
      enemy_direction := 1
      enemy_move_counter := 0 }
  obtain ⟨c1, c2, c3, c4⟩ := respawn_counters rnd
    { s with
      player := ⟨Int.tdiv BOARD_WIDTH 2 - Int.tdiv PLAYER_WIDTH 2, BOARD_HEIGHT - 2,
        INITIAL_LIVES, 0⟩
      level := INITIAL_LEVEL
      frame_count := 0
      is_paused := false
      game_over := false
      player_won := false
      projectile_count := 0
      enemy_projectile_count := 0
      enemy_direction := 1
      enemy_move_counter := 0 }
  exact ⟨h2, h1, c3, h3, h4, h11, h9, h10, h6, h5, c1, c2, c4⟩

/-! # Pools right after the advance -/

theorem player_pool_update_projectiles (s : GameState)
    (hp : s.projectile_count.toNat ≤ s.projectiles.length) :
    player_pool (update_projectiles s) = spec_advance_player_pool (player_pool s) := by
  unfold player_pool update_projectiles
  simp only
  rw [move_compact_pool move_up move_projectile_body
    (fun i a _ => move_projectile_body_eq i a) s.projectiles s.projectile_count hp]
  exact filter_map_move_up _

theorem enemy_pool_update_enemy_projectiles (s : GameState)
    (he : s.enemy_projectile_count.toNat ≤ s.enemy_projectiles.length) :
    enemy_pool (update_enemy_projectiles s) = spec_advance_enemy_pool (enemy_pool s) := by
  unfold enemy_pool update_enemy_projectiles
  simp only
  rw [move_compact_pool move_down move_enemy_projectile_body
    (fun i a _ => move_enemy_projectile_body_eq i a) s.enemy_projectiles
    s.enemy_projectile_count he]
  exact filter_map_move_down _

theorem spec_advance_player_pool_active (l : List Projectile) (p : Projectile)
    (h : p ∈ spec_advance_player_pool l) : p.active = true := by
  unfold spec_advance_player_pool at h
  rw [List.mem_map] at h
  obtain ⟨q, hq, rfl⟩ := h
  rw [List.mem_filter] at hq
  have := hq.2
  simp only [Bool.and_eq_true] at this
  exact this.1

theorem spec_advance_enemy_pool_active (l : List Projectile) (p : Projectile)
    (h : p ∈ spec_advance_enemy_pool l) : p.active = true := by
  unfold spec_advance_enemy_pool at h
  rw [List.mem_map] at h
  obtain ⟨q, hq, rfl⟩ := h
  rw [List.mem_filter] at hq
  have := hq.2
  simp only [Bool.and_eq_true] at this
  exact this.1

theorem fire_probe_length (n : Nat) (idx : Int) (s : GameState) :
    (fire_probe n idx s).enemy_projectiles.length = s.enemy_projectiles.length := by
  induction n generalizing idx with
  | zero => rfl
  | succ n ih =>
    unfold fire_probe
    simp only
    split_ifs
    · simp only [List.length_set]
    · rfl
    · exact ih _

theorem update_enemies_fire_length (rand : Nat) (s : GameState) :
    (update_enemies_fire rand s).enemy_projectiles.length = s.enemy_projectiles.length := by
  unfold update_enemies_fire
  simp only
  split_ifs
  · exact fire_probe_length _ _ _
  · rfl
  · rfl

/-- Right after the advance, the live pools are the stable filters of the pools
the enemy step left. -/
theorem pools_after_advance (rand : Nat) (s : GameState)
    (hp : s.projectile_count.toNat ≤ s.projectiles.length)
    (he1 : s.enemy_projectile_count ≤ MAX_ENEMY_PROJECTILES)
    (he2 : s.enemy_projectiles.length = 30) :
    player_pool (advance rand s) = spec_advance_player_pool (player_pool s) ∧
    enemy_pool (advance rand s)
      = spec_advance_enemy_pool
          (enemy_pool (update_enemies rand { s with frame_count := s.frame_count + 1 })) := by
  have hm := update_enemies_move_frame { s with frame_count := s.frame_count + 1 }
  have hf := update_enemies_fire_frame rand
    (update_enemies_move { s with frame_count := s.frame_count + 1 })
  have hpr : (update_enemies rand { s with frame_count := s.frame_count + 1 }).projectiles
      = s.projectiles := by
    unfold update_enemies
    rw [hf, hm]
  have hpc : (update_enemies rand { s with frame_count := s.frame_count + 1 }).projectile_count
      = s.projectile_count := by
    unfold update_enemies
    rw [hf, hm]
  have hel : (update_enemies rand { s with frame_count := s.frame_count + 1 }).enemy_projectiles.length
      = 30 := by
    unfold update_enemies
    rw [update_enemies_fire_length, hm]
    exact he2
  have hec : (update_enemies rand
      { s with frame_count := s.frame_count + 1 }).enemy_projectile_count
      ≤ MAX_ENEMY_PROJECTILES := by
    unfold update_enemies
    apply update_enemies_fire_count_le
    rw [hm]
    exact he1
  constructor
  · have h1 : player_pool (advance rand s)
        = player_pool (update_projectiles
            (update_enemies rand { s with frame_count := s.frame_count + 1 })) := rfl
    rw [h1, player_pool_update_projectiles _ (by rw [hpr, hpc]; exact hp)]
    unfold player_pool
    rw [hpr, hpc]
  · unfold advance
    rw [enemy_pool_update_enemy_projectiles]
    · rfl
    · show (update_enemies rand
          { s with frame_count := s.frame_count + 1 }).enemy_projectile_count.toNat
        ≤ (update_enemies rand { s with frame_count := s.frame_count + 1 }).enemy_projectiles.length
      rw [hel]
      simp only [MAX_ENEMY_PROJECTILES] at hec
      omega

/-! # The enemy step, slot by slot -/

theorem getD_set_map {α : Type} (l : List α) (k i : Nat) (d : α) (f : α → α) (hf : f d = d) :
    (l.set k (f (l.getD k d))).getD i d = if i = k then f (l.getD k d) else l.getD i d := by
  split_ifs with h
  · subst h
    by_cases hl : i < l.length
    · exact getD_set_self _ _ _ _ hl
    · rw [List.set_eq_of_length_le (by omega), getD_default_of_le _ _ _ (by omega), hf]
  · exact getD_set_ne _ _ _ _ _ (Ne.symm h)

theorem move_enemy_body_eq (k : Nat) (st : GameState × Bool) :
    move_enemy_body k st
      = ({ st.1 with enemies := (st.1.enemies.set k
            (shift_enemy st.1.enemy_direction (st.1.enemies.getD k default))) },
         st.2 || ((st.1.enemies.getD k default).active &&
           (decide ((st.1.enemies.getD k default).x + st.1.enemy_direction ≤ 0) ||
            decide ((st.1.enemies.getD k default).x + st.1.enemy_direction + ENEMY_WIDTH
              ≥ BOARD_WIDTH)))) := by
  unfold move_enemy_body shift_enemy
  simp only
  generalize hp : st.1.enemies.getD k default = e
  have hself : st.1.enemies.set k e = st.1.enemies := by rw [← hp, set_getD_self]
  cases hact : e.active
  · simp [hself]
  · by_cases hc : e.x + st.1.enemy_direction ≤ 0 ∨
        e.x + st.1.enemy_direction + ENEMY_WIDTH ≥ BOARD_WIDTH
    · rcases hc with hc | hc <;> simp [hc]
    · have h1 : ¬ (e.x + st.1.enemy_direction ≤ 0) := fun h => hc (Or.inl h)
      have h2 : ¬ (e.x + st.1.enemy_direction + ENEMY_WIDTH ≥ BOARD_WIDTH) :=
        fun h => hc (Or.inr h)
      simp [h1, h2, hc]

theorem descend_enemy_body_eq (k : Nat) (u : GameState) :
    descend_enemy_body k u
      = { u with
          enemies := u.enemies.set k (lower_enemy (u.enemies.getD k default))
          game_over := u.game_over || ((u.enemies.getD k default).active &&
            decide ((u.enemies.getD k default).y + ENEMY_MOVE_DOWN ≥ BOARD_HEIGHT - 2)) } := by
  unfold descend_enemy_body lower_enemy
  simp only
  generalize hp : u.enemies.getD k default = e
  have hself : u.enemies.set k e = u.enemies := by rw [← hp, set_getD_self]
  cases hact : e.active
  · simp [hself]
  · by_cases hc : e.y + ENEMY_MOVE_DOWN ≥ BOARD_HEIGHT - 2
    · simp [hc]
    · simp [hc]


theorem shift_enemy_default (d : Int) : shift_enemy d default = default := rfl

theorem lower_enemy_default : lower_enemy default = default := rfl

/-- The horizontal-step loop of `update_enemies`: every slot below
`enemy_count` is shifted, nothing else changes, and the loop's `hit_edge` flag
is `edge_hit`. -/
theorem move_loop_spec (s : GameState) :
    (forLoop s.enemy_count move_enemy_body (s, false)).1
      = { s with enemies := (forLoop s.enemy_count move_enemy_body (s, false)).1.enemies } ∧
    (∀ i, (forLoop s.enemy_count move_enemy_body (s, false)).1.enemies.getD i default
      = if i < s.enemy_count.toNat then
          shift_enemy s.enemy_direction (s.enemies.getD i default)
        else s.enemies.getD i default) ∧
    ((forLoop s.enemy_count move_enemy_body (s, false)).2 = true ↔ edge_hit s) := by
  have h := forLoop_ind
    (fun k (st : GameState × Bool) =>
      st.1 = { s with enemies := st.1.enemies } ∧
      (∀ i, st.1.enemies.getD i default
        = if i < k then shift_enemy s.enemy_direction (s.enemies.getD i default)
          else s.enemies.getD i default) ∧
      (st.2 = true ↔ ∃ i, i < k ∧ (s.enemies.getD i default).active = true ∧
        ((s.enemies.getD i default).x + s.enemy_direction ≤ 0 ∨
         (s.enemies.getD i default).x + s.enemy_direction + ENEMY_WIDTH ≥ BOARD_WIDTH)))
    s.enemy_count move_enemy_body (s, false)
    ⟨rfl, fun i => by simp, by simp⟩
    (by
      intro k st _ hst
      obtain ⟨hfr, hget, hflag⟩ := hst
      have hd : st.1.enemy_direction = s.enemy_direction := by rw [hfr]
      have hk : st.1.enemies.getD k default = s.enemies.getD k default := by
        rw [hget k, if_neg (by omega)]
      rw [move_enemy_body_eq, hd, hk]
      refine ⟨?_, ?_, ?_⟩
      · simp only
        rw [hfr]
      · intro i
        simp only
        rw [← hk, getD_set_map _ _ _ _ _ (shift_enemy_default _), hk]
        by_cases hik : i = k
        · subst hik
          rw [if_pos rfl, if_pos (by omega)]
        · rw [if_neg hik, hget i]
          by_cases hlt : i < k
          · rw [if_pos hlt, if_pos (by omega)]
          · rw [if_neg hlt, if_neg (by omega)]
      · simp only [Bool.or_eq_true, Bool.and_eq_true, decide_eq_true_eq]
        rw [hflag]
        constructor
        · rintro (⟨i, hi, hrest⟩ | ⟨ha, hc⟩)
          · exact ⟨i, by omega, hrest⟩
          · exact ⟨k, by omega, ha, hc⟩
        · rintro ⟨i, hi, ha, hc⟩
          by_cases hik : i = k
          · subst hik
            exact Or.inr ⟨ha, hc⟩
          · exact Or.inl ⟨i, by omega, ha, hc⟩)
  exact h

/-- The descent loop of `update_enemies`: every slot below `enemy_count` is
lowered, and `game_over` is set when a lowered active enemy reaches the player
line. -/
theorem descend_loop_spec (s : GameState) :
    forLoop s.enemy_count descend_enemy_body s
      = { s with enemies := (forLoop s.enemy_count descend_enemy_body s).enemies,
                 game_over := (forLoop s.enemy_count descend_enemy_body s).game_over } ∧
    (∀ i, (forLoop s.enemy_count descend_enemy_body s).enemies.getD i default
      = if i < s.enemy_count.toNat then lower_enemy (s.enemies.getD i default)
        else s.enemies.getD i default) ∧
    ((forLoop s.enemy_count descend_enemy_body s).game_over = true ↔
      (s.game_over = true ∨ ∃ i, i < s.enemy_count.toNat ∧
        (s.enemies.getD i default).active = true ∧
        (s.enemies.getD i default).y + ENEMY_MOVE_DOWN ≥ BOARD_HEIGHT - 2)) := by
  have h := forLoop_ind
    (fun k (u : GameState) =>
      u = { s with enemies := u.enemies, game_over := u.game_over } ∧
      (∀ i, u.enemies.getD i default
        = if i < k then lower_enemy (s.enemies.getD i default) else s.enemies.getD i default) ∧
      (u.game_over = true ↔
        (s.game_over = true ∨ ∃ i, i < k ∧ (s.enemies.getD i default).active = true ∧
          (s.enemies.getD i default).y + ENEMY_MOVE_DOWN ≥ BOARD_HEIGHT - 2)))
    s.enemy_count descend_enemy_body s
    ⟨rfl, fun i => by simp, by simp⟩
    (by
      intro k u _ hu
      obtain ⟨hfr, hget, hflag⟩ := hu
      have hk : u.enemies.getD k default = s.enemies.getD k default := by
        rw [hget k, if_neg (by omega)]
      rw [descend_enemy_body_eq, hk]
      refine ⟨?_, ?_, ?_⟩
      · simp only
        rw [hfr]
      · intro i
        simp only
        rw [← hk, getD_set_map _ _ _ _ _ lower_enemy_default, hk]
        by_cases hik : i = k
        · subst hik
          rw [if_pos rfl, if_pos (by omega)]
        · rw [if_neg hik, hget i]
          by_cases hlt : i < k
          · rw [if_pos hlt, if_pos (by omega)]
          · rw [if_neg hlt, if_neg (by omega)]
      · simp only [Bool.or_eq_true, Bool.and_eq_true, decide_eq_true_eq]
        rw [hflag]
        constructor
        · rintro ((hg | ⟨i, hi, hrest⟩) | ⟨ha, hc⟩)
          · exact Or.inl hg
          · exact Or.inr ⟨i, by omega, hrest⟩
          · exact Or.inr ⟨k, by omega, ha, hc⟩
        · rintro (hg | ⟨i, hi, ha, hc⟩)
          · exact Or.inl (Or.inl hg)
          · by_cases hik : i = k
            · subst hik
              exact Or.inr ⟨ha, hc⟩
            · exact Or.inl (Or.inr ⟨i, by omega, ha, hc⟩))
  exact h

theorem update_enemies_move_idle (s : GameState) (h : ¬ step_triggered s) :
    update_enemies_move s = { s with enemy_move_counter := s.enemy_move_counter + 1 } := by
  unfold update_enemies_move
  exact if_neg h

theorem after_move_loop (s : GameState) (r : GameState × Bool)
    (hfr : r.1 = { s with enemy_move_counter := 0, enemies := r.1.enemies })
    (hget : ∀ i, r.1.enemies.getD i default
      = if i < s.enemy_count.toNat then
          shift_enemy s.enemy_direction (s.enemies.getD i default)
        else s.enemies.getD i default)
    (hflag : r.2 = true ↔ edge_hit s)
    (t : GameState)
    (ht : t = if r.2 = true then
        forLoop ({ r.1 with enemy_direction := r.1.enemy_direction * -1 } : GameState).enemy_count
          descend_enemy_body { r.1 with enemy_direction := r.1.enemy_direction * -1 }
      else r.1) :
    t.enemy_move_counter = 0 ∧
    t = { s with enemies := t.enemies, enemy_move_counter := t.enemy_move_counter,
                 enemy_direction := t.enemy_direction, game_over := t.game_over } ∧
    (¬ edge_hit s →
      t.enemy_direction = s.enemy_direction ∧ t.game_over = s.game_over ∧
      ∀ i, t.enemies.getD i default
        = if i < s.enemy_count.toNat then
            shift_enemy s.enemy_direction (s.enemies.getD i default)
          else s.enemies.getD i default) ∧
    (edge_hit s →
      t.enemy_direction = s.enemy_direction * -1 ∧
      (∀ i, t.enemies.getD i default
        = if i < s.enemy_count.toNat then
            lower_enemy (shift_enemy s.enemy_direction (s.enemies.getD i default))
          else s.enemies.getD i default) ∧
      (t.game_over = true ↔
        (s.game_over = true ∨ ∃ i, i < s.enemy_count.toNat ∧
          (s.enemies.getD i default).active = true ∧
          (s.enemies.getD i default).y + ENEMY_MOVE_DOWN ≥ BOARD_HEIGHT - 2))) := by
  have hcount : r.1.enemy_count = s.enemy_count := by rw [hfr]
  have hdir : r.1.enemy_direction = s.enemy_direction := by rw [hfr]
  have hgo : r.1.game_over = s.game_over := by rw [hfr]
  have hmc : r.1.enemy_move_counter = 0 := by rw [hfr]
  by_cases he : edge_hit s
  · rw [if_pos (hflag.mpr he)] at ht
    obtain ⟨dfr, dget, dflag⟩ :=
      descend_loop_spec { r.1 with enemy_direction := r.1.enemy_direction * -1 }
    rw [← ht] at dfr dget dflag
    have hshift : ∀ i, (shift_enemy s.enemy_direction (s.enemies.getD i default)).active
        = (s.enemies.getD i default).active ∧
        (shift_enemy s.enemy_direction (s.enemies.getD i default)).y
        = (s.enemies.getD i default).y := by
      intro i
      unfold shift_enemy
      split_ifs <;> exact ⟨rfl, rfl⟩
    have hdirt : t.enemy_direction = s.enemy_direction * -1 := by
      rw [dfr]
      show r.1.enemy_direction * -1 = _
      rw [hdir]
    refine ⟨by rw [dfr]; exact hmc, ?_, fun hne => absurd he hne, fun _ => ⟨hdirt, ?_, ?_⟩⟩
    · rw [dfr, hfr]
    · intro i
      rw [dget i]
      show (if i < r.1.enemy_count.toNat then lower_enemy (r.1.enemies.getD i default)
        else r.1.enemies.getD i default) = _
      rw [hcount, hget i]
      split_ifs <;> rfl
    · rw [dflag]
      show (r.1.game_over = true ∨ ∃ i, i < r.1.enemy_count.toNat ∧
        (r.1.enemies.getD i default).active = true ∧
        (r.1.enemies.getD i default).y + ENEMY_MOVE_DOWN ≥ BOARD_HEIGHT - 2) ↔ _
      rw [hcount, hgo]
      constructor
      · rintro (hg | ⟨i, hi, ha, hy⟩)
        · exact Or.inl hg
        · rw [hget i, if_pos hi] at ha hy
          rw [(hshift i).1] at ha
          rw [(hshift i).2] at hy
          exact Or.inr ⟨i, hi, ha, hy⟩
      · rintro (hg | ⟨i, hi, ha, hy⟩)
        · exact Or.inl hg
        · refine Or.inr ⟨i, hi, ?_, ?_⟩
          · rw [hget i, if_pos hi, (hshift i).1]; exact ha
          · rw [hget i, if_pos hi, (hshift i).2]; exact hy
  · have hf : ¬ (r.2 = true) := fun h => he (hflag.mp h)
    rw [if_neg hf] at ht
    rw [ht]
    refine ⟨hmc, ?_, fun _ => ⟨hdir, hgo, hget⟩, fun h => absurd h he⟩
    rw [hfr]

/-- The movement half of `update_enemies` on a triggered step. -/
theorem update_enemies_move_step (s : GameState) (h : step_triggered s) :
    (update_enemies_move s).enemy_move_counter = 0 ∧
    (¬ edge_hit s →
      (update_enemies_move s).enemy_direction = s.enemy_direction ∧
      (update_enemies_move s).game_over = s.game_over ∧
      ∀ i, (update_enemies_move s).enemies.getD i default
        = if i < s.enemy_count.toNat then
            shift_enemy s.enemy_direction (s.enemies.getD i default)
          else s.enemies.getD i default) ∧
    (edge_hit s →
      (update_enemies_move s).enemy_direction = s.enemy_direction * -1 ∧
      (∀ i, (update_enemies_move s).enemies.getD i default
        = if i < s.enemy_count.toNat then
            lower_enemy (shift_enemy s.enemy_direction (s.enemies.getD i default))
          else s.enemies.getD i default) ∧
      ((update_enemies_move s).game_over = true ↔
        (s.game_over = true ∨ ∃ i, i < s.enemy_count.toNat ∧
          (s.enemies.getD i default).active = true ∧
          (s.enemies.getD i default).y + ENEMY_MOVE_DOWN ≥ BOARD_HEIGHT - 2))) := by
  obtain ⟨mfr, mget, mflag⟩ := move_loop_spec { s with enemy_move_counter := 0 }
  obtain ⟨r1, -, r3, r4⟩ := after_move_loop s
    (forLoop s.enemy_count move_enemy_body
      (({ s with enemy_move_counter := 0 } : GameState), false))
    mfr mget mflag (update_enemies_move s) (by
      unfold update_enemies_move
      exact if_pos h)
  exact ⟨r1, r3, r4⟩

/-! # The enemy step inside the frame -/

theorem update_enemies_of_move (rand : Nat) (s : GameState) :
    (update_enemies rand s).enemies = (update_enemies_move s).enemies ∧
    (update_enemies rand s).enemy_direction = (update_enemies_move s).enemy_direction ∧
    (update_enemies rand s).enemy_move_counter = (update_enemies_move s).enemy_move_counter ∧
    (update_enemies rand s).game_over = (update_enemies_move s).game_over := by
  unfold update_enemies
  refine ⟨?_, ?_, ?_, ?_⟩ <;> rw [update_enemies_fire_frame]

theorem advance_of_move (rand : Nat) (s : GameState) :
    (advance rand s).enemies
      = (update_enemies_move { s with frame_count := s.frame_count + 1 }).enemies ∧
    (advance rand s).enemy_direction
      = (update_enemies_move { s with frame_count := s.frame_count + 1 }).enemy_direction ∧
    (advance rand s).enemy_move_counter
      = (update_enemies_move { s with frame_count := s.frame_count + 1 }).enemy_move_counter ∧
    (advance rand s).game_over
      = (update_enemies_move { s with frame_count := s.frame_count + 1 }).game_over := by
  obtain ⟨h1, h2, h3, h4⟩ := update_enemies_of_move rand { s with frame_count := s.frame_count + 1 }
  exact ⟨h1, h2, h3, h4⟩

theorem check_level_complete_counters (rnd : Nat → Nat) (c : GameState) :
    (check_level_complete rnd c).enemy_move_counter = c.enemy_move_counter ∧
    (check_level_complete rnd c).enemy_direction = c.enemy_direction := by
  unfold check_level_complete
  split_ifs with h
  · by_cases hl : c.level < 10
    · rw [game_next_level_respawn rnd c hl]
      obtain ⟨-, -, c3, c4⟩ := respawn_counters rnd
        { c with
          level := c.level + 1
          player := { c.player with score := c.player.score + POINTS_LEVEL_BONUS }
          projectile_count := 0
          enemy_projectile_count := 0 }
      exact ⟨c4, c3⟩
    · rw [game_next_level_win rnd c (by omega)]
      exact ⟨rfl, rfl⟩
  · exact ⟨rfl, rfl⟩

/-- On a running state the cadence counter and the direction that `game_update`
returns are those the movement half of `update_enemies` computed. -/
theorem game_update_of_move (rand : Nat) (rnd : Nat → Nat) (s : GameState)
    (hp : s.is_paused = false) (hg : s.game_over = false) :
    (game_update rand rnd s).enemy_move_counter
      = (update_enemies_move { s with frame_count := s.frame_count + 1 }).enemy_move_counter ∧
    (game_update rand rnd s).enemy_direction
      = (update_enemies_move { s with frame_count := s.frame_count + 1 }).enemy_direction := by
  rw [game_update_running rand rnd s hp hg, (check_level_complete_counters rnd _).1,
    (check_level_complete_counters rnd _).2, (handle_collisions_flags _).2.2.1,
    (handle_collisions_flags _).2.2.2.1, (advance_of_move rand s).2.1,
    (advance_of_move rand s).2.2.1]
  exact ⟨rfl, rfl⟩

theorem hit_enemy_body_pos (i j n : Nat) (u : GameState) :
    ((hit_enemy_body i j u).enemies.getD n default).x = (u.enemies.getD n default).x ∧
    ((hit_enemy_body i j u).enemies.getD n default).y = (u.enemies.getD n default).y := by
  unfold hit_enemy_body
  simp only
  split_ifs
  · exact ⟨rfl, rfl⟩
  · by_cases hjn : j = n
    · subst hjn
      by_cases hl : j < u.enemies.length
      · rw [getD_set_self _ _ _ _ hl]
        exact ⟨rfl, rfl⟩
      · rw [List.set_eq_of_length_le (by omega)]
        exact ⟨rfl, rfl⟩
    · rw [getD_set_ne _ _ _ _ _ hjn]
      exact ⟨rfl, rfl⟩
  · exact ⟨rfl, rfl⟩

/-- The collision passes never move an enemy. -/
theorem handle_collisions_enemy_pos (s : GameState) (n : Nat) :
    ((handle_collisions s).enemies.getD n default).x = (s.enemies.getD n default).x ∧
    ((handle_collisions s).enemies.getD n default).y = (s.enemies.getD n default).y := by
  rw [(handle_collisions_after_first s).1]
  unfold collide_proj_enemies
  refine forLoop_inv (fun u : GameState =>
    (u.enemies.getD n default).x = (s.enemies.getD n default).x ∧
    (u.enemies.getD n default).y = (s.enemies.getD n default).y) _ _ s ⟨rfl, rfl⟩ ?_
  intro i t _ ht
  unfold proj_vs_enemies_body
  split_ifs
  · exact ht
  · exact forLoop_inv (fun u : GameState =>
      (u.enemies.getD n default).x = (s.enemies.getD n default).x ∧
      (u.enemies.getD n default).y = (s.enemies.getD n default).y) _ _ t ht
      (fun j u _ hu => ⟨(hit_enemy_body_pos i j n u).1.trans hu.1,
        (hit_enemy_body_pos i j n u).2.trans hu.2⟩)

theorem enemy_speed_eq (s : GameState) :
    enemy_speed s
      = if s.alive_enemy_count ≤ 5 then 3
        else if s.alive_enemy_count ≤ ENEMY_SPEED_INCREASE_THRESHOLD then 2
        else ENEMY_BASE_SPEED := by
  unfold enemy_speed
  simp only

theorem step_triggered_many_alive (s : GameState) (h : 10 < s.alive_enemy_count) :
    step_triggered s ↔ 8 ≤ s.enemy_move_counter := by
  unfold step_triggered
  rw [enemy_speed_eq, if_neg (by omega), if_neg (by simp only [ENEMY_SPEED_INCREASE_THRESHOLD]; omega)]
  simp only [ENEMY_BASE_SPEED]
  omega

theorem check_level_complete_idle (rnd : Nat → Nat) (c : GameState)
    (h : 0 < c.alive_enemy_count) : check_level_complete rnd c = c := by
  unfold check_level_complete
  exact if_neg (by omega)

/-- On a running frame that does not clear the level, the enemy coordinates that
`game_update` returns are those the movement half of `update_enemies` left. -/
theorem game_update_enemy_pos (rand : Nat) (rnd : Nat → Nat) (s : GameState)
    (hp : s.is_paused = false) (hg : s.game_over = false)
    (hal : 0 < (handle_collisions (advance rand s)).alive_enemy_count) (i : Nat) :
    ((game_update rand rnd s).enemies.getD i default).x
      = ((update_enemies_move { s with frame_count := s.frame_count + 1 }).enemies.getD i
          default).x ∧
    ((game_update rand rnd s).enemies.getD i default).y
      = ((update_enemies_move { s with frame_count := s.frame_count + 1 }).enemies.getD i
          default).y := by
  rw [game_update_running rand rnd s hp hg, check_level_complete_idle rnd _ hal,
    (handle_collisions_enemy_pos _ i).1, (handle_collisions_enemy_pos _ i).2,
    (advance_of_move rand s).1]
  exact ⟨rfl, rfl⟩

theorem shift_enemy_active (d : Int) (e : Enemy) (h : e.active = true) :
    shift_enemy d e = { e with x := e.x + d } := by
  unfold shift_enemy
  exact if_pos h

theorem shift_enemy_inactive (d : Int) (e : Enemy) (h : e.active = false) :
    shift_enemy d e = e := by
  unfold shift_enemy
  exact if_neg (by rw [h]; decide)

theorem lower_enemy_active (e : Enemy) (h : e.active = true) :
    lower_enemy e = { e with y := e.y + ENEMY_MOVE_DOWN } := by
  unfold lower_enemy
  exact if_pos h

theorem lower_enemy_inactive (e : Enemy) (h : e.active = false) :
    lower_enemy e = e := by
  unfold lower_enemy
  exact if_neg (by rw [h]; decide)

/-- What a triggered movement half does to each entry, with the two cases of
the edge test merged where they agree. -/
theorem update_enemies_move_entries (s : GameState) (h : step_triggered s) (i : Nat) :
    ((s.enemies.getD i default).active = false →
      (update_enemies_move s).enemies.getD i default = s.enemies.getD i default) ∧
    (i < s.enemy_count.toNat → (s.enemies.getD i default).active = true →
      ((update_enemies_move s).enemies.getD i default).x
        = (s.enemies.getD i default).x + s.enemy_direction ∧
      ((update_enemies_move s).enemies.getD i default).active = true ∧
      ((update_enemies_move s).enemies.getD i default).health
        = (s.enemies.getD i default).health ∧
      (edge_hit s → ((update_enemies_move s).enemies.getD i default).y
        = (s.enemies.getD i default).y + ENEMY_MOVE_DOWN) ∧
      (¬ edge_hit s → ((update_enemies_move s).enemies.getD i default).y
        = (s.enemies.getD i default).y)) ∧
    (¬ edge_hit s → ((update_enemies_move s).enemies.getD i default).y
        = (s.enemies.getD i default).y) := by
  obtain ⟨-, hno, hyes⟩ := update_enemies_move_step s h
  refine ⟨?_, ?_, ?_⟩
  · intro hin
    by_cases he : edge_hit s
    · rw [(hyes he).2.1 i]
      split_ifs
      · rw [shift_enemy_inactive _ _ hin, lower_enemy_inactive _ hin]
      · rfl
    · rw [(hno he).2.2 i]
      split_ifs
      · rw [shift_enemy_inactive _ _ hin]
      · rfl
  · intro hi hact
    by_cases he : edge_hit s
    · rw [(hyes he).2.1 i, if_pos hi, shift_enemy_active _ _ hact,
        lower_enemy_active _ (by exact hact)]
      exact ⟨rfl, hact, rfl, fun _ => rfl, fun hne => absurd he hne⟩
    · rw [(hno he).2.2 i, if_pos hi, shift_enemy_active _ _ hact]
      exact ⟨rfl, hact, rfl, fun hh => absurd hh he, fun _ => rfl⟩
  · intro he
    rw [(hno he).2.2 i]
    split_ifs
    · by_cases hact : (s.enemies.getD i default).active = true
      · rw [shift_enemy_active _ _ hact]
      · rw [shift_enemy_inactive _ _ (by simpa using hact)]
    · rfl

/-- The cadence counter and the direction across one running `game_update`. -/
theorem game_update_cadence (rand : Nat) (rnd : Nat → Nat) (s : GameState)
    (hp : s.is_paused = false) (hg : s.game_over = false) :
    (step_triggered s → (game_update rand rnd s).enemy_move_counter = 0) ∧
    (¬ step_triggered s →
      (game_update rand rnd s).enemy_move_counter = s.enemy_move_counter + 1 ∧
      (game_update rand rnd s).enemy_direction = s.enemy_direction) := by
  obtain ⟨hc, hd⟩ := game_update_of_move rand rnd s hp hg
  constructor
  · intro h
    rw [hc]
    exact (update_enemies_move_step { s with frame_count := s.frame_count + 1 } h).1
  · intro h
    rw [hc, hd, update_enemies_move_idle { s with frame_count := s.frame_count + 1 } h]
    exact ⟨rfl, rfl⟩

/-- With more than ten enemies alive on every frame of a run, the counter of
frame `k` is `k % 9`. -/
theorem counter_along_run (σ : Nat → GameState) (r : Nat → Nat) (rn : Nat → Nat → Nat)
    (N : Nat)
    (hstep : ∀ k, k < N → σ (k + 1) = game_update (r k) (rn k) (σ k))
    (hrun : ∀ k, k < N → (σ k).is_paused = false ∧ (σ k).game_over = false ∧
      10 < (σ k).alive_enemy_count)
    (h0 : (σ 0).enemy_move_counter = 0) :
    ∀ k, k ≤ N → (σ k).enemy_move_counter = ((k % 9 : Nat) : Int) := by
  intro k
  induction k with
  | zero =>
    intro _
    rw [h0]
    rfl
  | succ k ih =>
    intro hk
    have hk1 : k < N := by omega
    obtain ⟨hp, hg, hal⟩ := hrun k hk1
    have ihk := ih (by omega)
    obtain ⟨ht, hn⟩ := game_update_cadence (r k) (rn k) (σ k) hp hg
    rw [hstep k hk1]
    by_cases htr : step_triggered (σ k)
    · rw [ht htr]
      have h8 := (step_triggered_many_alive (σ k) hal).1 htr
      omega
    · rw [(hn htr).1]
      have h8 : ¬ 8 ≤ (σ k).enemy_move_counter :=
        fun h => htr ((step_triggered_many_alive (σ k) hal).2 h)
      omega

/-! # Enemy entries across the operations -/

theorem hit_enemy_body_active (i j n : Nat) (u : GameState)
    (h : ((hit_enemy_body i j u).enemies.getD n default).active = true) :
    (u.enemies.getD n default).active = true := by
  unfold hit_enemy_body at h
  simp only at h
  split_ifs at h
  · exact h
  · by_cases hjn : j = n
    · subst hjn
      by_cases hl : j < u.enemies.length
      · rw [getD_set_self _ _ _ _ hl] at h
        exact Bool.noConfusion h
      · rw [List.set_eq_of_length_le (by omega)] at h
        exact h
    · rw [getD_set_ne _ _ _ _ _ hjn] at h
      exact h
  · exact h

/-- The collision passes never activate an enemy. -/
theorem handle_collisions_enemy_active (s : GameState) (n : Nat)
    (h : ((handle_collisions s).enemies.getD n default).active = true) :
    (s.enemies.getD n default).active = true := by
  rw [(handle_collisions_after_first s).1] at h
  revert h
  unfold collide_proj_enemies
  refine forLoop_inv (fun u : GameState =>
    (u.enemies.getD n default).active = true → (s.enemies.getD n default).active = true)
    _ _ s (fun h => h) ?_
  intro i t _ ht
  unfold proj_vs_enemies_body
  split_ifs
  · exact ht
  · exact forLoop_inv (fun u : GameState =>
      (u.enemies.getD n default).active = true → (s.enemies.getD n default).active = true)
      _ _ t ht (fun j u _ hu hact => hu (hit_enemy_body_active i j n u hact))

theorem handle_collisions_game_over (s : GameState) (h : s.game_over = true) :
    (handle_collisions s).game_over = true := by
  rw [(handle_collisions_player s).2.1, h]
  rfl

theorem init_enemies_entry (t : GameState) (hl : 30 ≤ t.enemies.length) (i : Nat) :
    (init_enemies t).enemies.getD i default
      = if i < 30 then grid_enemy i else t.enemies.getD i default := by
  rw [init_enemies_enemies t hl]
  split_ifs with hi
  · exact getD_grid _ i hi
  · have := getD_prefix_drop ((List.range 30).map grid_enemy) t.enemies i default
      (by simp; omega)
    simpa using this

theorem respawn_entry (rnd : Nat → Nat) (t : GameState) (hl : 30 ≤ t.enemies.length)
    (i : Nat) :
    (init_shields rnd (init_enemies t)).enemies.getD i default
      = if i < 30 then grid_enemy i else t.enemies.getD i default := by
  rw [init_shields_enemies]
  exact init_enemies_entry t hl i

theorem grid_enemy_bounds (k : Nat) (hk : k < 30) :
    (grid_enemy k).active = true ∧ 2 ≤ (grid_enemy k).x ∧ (grid_enemy k).x ≤ 62 ∧
    2 ≤ (grid_enemy k).y ∧ (grid_enemy k).y ≤ 14 := by
  rw [grid_enemy_eq]
  refine ⟨rfl, ?_, ?_, ?_, ?_⟩ <;> simp only <;> omega

/-- After `game_next_level` an enemy slot holds its old entry or a grid cell. -/
theorem game_next_level_entry (rnd : Nat → Nat) (s : GameState)
    (hl : 30 ≤ s.enemies.length) (i : Nat) :
    (game_next_level rnd s).enemies.getD i default = s.enemies.getD i default ∨
    (i < 30 ∧ (game_next_level rnd s).enemies.getD i default = grid_enemy i) := by
  by_cases hlev : s.level < 10
  · rw [game_next_level_respawn rnd s hlev, respawn_entry rnd _ (by exact hl) i]
    split_ifs with hi
    · exact Or.inr ⟨hi, rfl⟩
    · exact Or.inl rfl
  · rw [game_next_level_win rnd s (by omega)]
    exact Or.inl rfl

theorem game_set_level_entry (rnd : Nat → Nat) (s : GameState) (n : Int)
    (hl : 30 ≤ s.enemies.length) (i : Nat) :
    (game_set_level rnd s n).enemies.getD i default = s.enemies.getD i default ∨
    (i < 30 ∧ (game_set_level rnd s n).enemies.getD i default = grid_enemy i) := by
  by_cases hn : 1 ≤ n
  · rw [game_set_level_respawn rnd s n hn, respawn_entry rnd _ (by exact hl) i]
    split_ifs with hi
    · exact Or.inr ⟨hi, rfl⟩
    · exact Or.inl rfl
  · left
    unfold game_set_level
    rw [if_pos (by omega)]

theorem game_reset_entry (rnd : Nat → Nat) (s : GameState)
    (hl : 30 ≤ s.enemies.length) (i : Nat) :
    (game_reset rnd s).enemies.getD i default = s.enemies.getD i default ∨
    (i < 30 ∧ (game_reset rnd s).enemies.getD i default = grid_enemy i) := by
  unfold game_reset
  simp only
  rw [respawn_entry rnd _ (by exact hl) i]
  split_ifs with hi
  · exact Or.inr ⟨hi, rfl⟩
  · exact Or.inl rfl

theorem check_level_complete_entry (rnd : Nat → Nat) (c : GameState)
    (hl : 30 ≤ c.enemies.length) (i : Nat) :
    (check_level_complete rnd c).enemies.getD i default = c.enemies.getD i default ∨
    (i < 30 ∧ (check_level_complete rnd c).enemies.getD i default = grid_enemy i) := by
  unfold check_level_complete
  split_ifs
  · exact game_next_level_entry rnd c hl i
  · exact Or.inl rfl

/-- One running frame, slot by slot: the slot holds a fresh grid cell (the
level was cleared), or the entry the movement half of `update_enemies` left,
possibly deactivated by a hit. -/
theorem game_update_entry (rand : Nat) (rnd : Nat → Nat) (s : GameState)
    (hp : s.is_paused = false) (hg : s.game_over = false)
    (hl : 30 ≤ s.enemies.length) (i : Nat) :
    (i < 30 ∧ (game_update rand rnd s).enemies.getD i default = grid_enemy i) ∨
    (((game_update rand rnd s).enemies.getD i default).x
        = ((update_enemies_move { s with frame_count := s.frame_count + 1 }).enemies.getD i
            default).x ∧
     ((game_update rand rnd s).enemies.getD i default).y
        = ((update_enemies_move { s with frame_count := s.frame_count + 1 }).enemies.getD i
            default).y ∧
     (((game_update rand rnd s).enemies.getD i default).active = true →
       ((update_enemies_move { s with frame_count := s.frame_count + 1 }).enemies.getD i
            default).active = true)) := by
  rw [game_update_running rand rnd s hp hg]
  have hlen : 30 ≤ (handle_collisions (advance rand s)).enemies.length := by
    rw [handle_collisions_enemies_length, advance_enemies_length]
    exact hl
  rcases check_level_complete_entry rnd _ hlen i with h | h
  · right
    rw [h, (handle_collisions_enemy_pos _ i).1, (handle_collisions_enemy_pos _ i).2,
      ← (advance_of_move rand s).1]
    exact ⟨rfl, rfl, handle_collisions_enemy_active _ i⟩
  · exact Or.inl h

/-- Once the movement half of `update_enemies` has set `game_over`, the frame
ends with it set. -/
theorem game_update_game_over (rand : Nat) (rnd : Nat → Nat) (s : GameState)
    (hp : s.is_paused = false) (hg : s.game_over = false)
    (h : (update_enemies_move { s with frame_count := s.frame_count + 1 }).game_over = true) :
    (game_update rand rnd s).game_over = true := by
  rw [game_update_running rand rnd s hp hg]
  apply (check_level_complete_player rnd _).2.2
  apply handle_collisions_game_over
  rw [(advance_of_move rand s).2.2.2]
  exact h

/-- The player commands touch neither the enemies nor the enemy pool. -/
theorem player_commands_frame (s : GameState) :
    (∀ t, t = game_move_player_left s ∨ t = game_move_player_right s ∨
        t = game_player_shoot s ∨ t = game_toggle_pause s →
      t.enemies = s.enemies ∧ t.enemy_count = s.enemy_count ∧
      t.enemy_direction = s.enemy_direction ∧ t.game_over = s.game_over ∧
      t.enemy_projectiles = s.enemy_projectiles ∧
      t.enemy_projectile_count = s.enemy_projectile_count ∧
      t.enemy_fire_timer = s.enemy_fire_timer ∧ t.player.health = s.player.health) := by
  intro t ht
  rcases ht with h | h | h | h <;> subst h
  · unfold game_move_player_left
    split_ifs <;> exact ⟨rfl, rfl, rfl, rfl, rfl, rfl, rfl, rfl⟩
  · unfold game_move_player_right
    split_ifs <;> exact ⟨rfl, rfl, rfl, rfl, rfl, rfl, rfl, rfl⟩
  · unfold game_player_shoot
    split_ifs <;> exact ⟨rfl, rfl, rfl, rfl, rfl, rfl, rfl, rfl⟩
  · unfold game_toggle_pause
    split_ifs <;> exact ⟨rfl, rfl, rfl, rfl, rfl, rfl, rfl, rfl⟩

/-! # Enemies on the player line -/

theorem bottomInv_move (s : GameState) (h : BottomInv s) :
    BottomInv (update_enemies_move s) := by
  by_cases htr : step_triggered s
  · obtain ⟨-, hno, hyes⟩ := update_enemies_move_step s htr
    by_cases he : edge_hit s
    · obtain ⟨-, hent, hover⟩ := hyes he
      intro i hact hy
      rw [hent i] at hact hy
      rw [hover]
      split_ifs at hact hy with hi
      · by_cases ha : (s.enemies.getD i default).active = true
        · rw [shift_enemy_active _ _ ha, lower_enemy_active _ (by exact ha)] at hy
          exact Or.inr ⟨i, hi, ha, hy⟩
        · rw [shift_enemy_inactive _ _ (by simpa using ha),
            lower_enemy_inactive _ (by simpa using ha)] at hact
          exact absurd hact ha
      · exact Or.inl (h i hact hy)
    · obtain ⟨-, hgo, hent⟩ := hno he
      intro i hact hy
      rw [hent i] at hact hy
      rw [hgo]
      split_ifs at hact hy with hi
      · by_cases ha : (s.enemies.getD i default).active = true
        · rw [shift_enemy_active _ _ ha] at hy
          exact h i ha hy
        · rw [shift_enemy_inactive _ _ (by simpa using ha)] at hact
          exact absurd hact ha
      · exact h i hact hy
  · rw [update_enemies_move_idle s htr]
    exact h

theorem bottomInv_update (rand : Nat) (rnd : Nat → Nat) (s : GameState)
    (hl : 30 ≤ s.enemies.length) (h : BottomInv s) :
    BottomInv (game_update rand rnd s) := by
  rcases running_or_frozen s with ⟨hp, hg⟩ | hf
  · have hm : BottomInv (update_enemies_move { s with frame_count := s.frame_count + 1 }) :=
      bottomInv_move _ h
    intro i hact hy
    rcases game_update_entry rand rnd s hp hg hl i with ⟨hi, hgrid⟩ | ⟨-, hy', ha'⟩
    · rw [hgrid] at hy
      have := (grid_enemy_bounds i hi).2.2.2.2
      simp only [BOARD_HEIGHT] at hy
      omega
    · rw [hy'] at hy
      exact game_update_game_over rand rnd s hp hg (hm i (ha' hact) hy)
  · rw [game_update_frozen rand rnd s hf]
    exact h

theorem game_init_entry (rnd : Nat → Nat) (i : Nat) :
    (game_init rnd).enemies.getD i default = if i < 30 then grid_enemy i else default := by
  rw [game_init_enemies]
  split_ifs with hi
  · exact getD_grid _ i hi
  · rw [List.getD_eq_getElem?_getD, List.getElem?_append_right (by simp; omega),
      List.getElem?_replicate]
    split_ifs <;> rfl

theorem bottomInv_init (rnd : Nat → Nat) : BottomInv (game_init rnd) := by
  intro i hact hy
  by_cases hi : i < 30
  · rw [game_init_entry, if_pos hi] at hy
    have := (grid_enemy_bounds i hi).2.2.2.2
    simp only [BOARD_HEIGHT] at hy
    omega
  · rw [game_init_entry, if_neg hi] at hact
    exact Bool.noConfusion hact

theorem bottomInv_played {rnd : Nat → Nat} {s : GameState}
    (h : PlayedFrom (game_init rnd) s) : BottomInv s := by
  induction h with
  | start => exact bottomInv_init rnd
  | update rand rnd' s hs ih =>
    exact bottomInv_update rand rnd' s (reachable_enemyInv (played_reachable hs)).1 ih
  | move_left s _ ih =>
    obtain ⟨he, -, -, hg, -⟩ := player_commands_frame s _ (Or.inl rfl)
    intro i
    rw [he, hg]
    exact ih i
  | move_right s _ ih =>
    obtain ⟨he, -, -, hg, -⟩ := player_commands_frame s _ (Or.inr (Or.inl rfl))
    intro i
    rw [he, hg]
    exact ih i
  | shoot s _ ih =>
    obtain ⟨he, -, -, hg, -⟩ := player_commands_frame s _ (Or.inr (Or.inr (Or.inl rfl)))
    intro i
    rw [he, hg]
    exact ih i
  | toggle_pause s _ ih =>
    obtain ⟨he, -, -, hg, -⟩ := player_commands_frame s _ (Or.inr (Or.inr (Or.inr rfl)))
    intro i
    rw [he, hg]
    exact ih i

/-! # The formation stays inside the board -/

theorem marchInv_move (s : GameState) (h : MarchInv s) :
    MarchInv (update_enemies_move s) := by
  obtain ⟨hn, hd, hent⟩ := h
  have hcount : (update_enemies_move s).enemy_count = s.enemy_count := by
    rw [update_enemies_move_frame]
  by_cases htr : step_triggered s
  · obtain ⟨-, hno, hyes⟩ := update_enemies_move_step s htr
    have hshape : ∀ i, ((update_enemies_move s).enemies.getD i default).active = true →
        i < 30 ∧ (s.enemies.getD i default).active = true ∧
        ((update_enemies_move s).enemies.getD i default).x
          = (s.enemies.getD i default).x + s.enemy_direction := by
      intro i hact
      have hx := update_enemies_move_entries s htr i
      by_cases ha : (s.enemies.getD i default).active = true
      · have hi := (hent i ha).1
        have hi' : i < s.enemy_count.toNat := by
          rw [hn]
          exact hi
        exact ⟨hi, ha, (hx.2.1 hi' ha).1⟩
      · rw [hx.1 (by simpa using ha)] at hact
        exact absurd hact ha
    by_cases he : edge_hit s
    · refine ⟨hcount.trans hn, ?_, ?_⟩
      · rw [(hyes he).1]
        rcases hd with hd | hd <;> rw [hd]
        · right; rfl
        · left; rfl
      · intro i hact
        obtain ⟨hi, ha, hx⟩ := hshape i hact
        obtain ⟨-, b0, b1, b2, b3⟩ := hent i ha
        rw [hx, (hyes he).1]
        simp only [ENEMY_WIDTH, BOARD_WIDTH] at *
        rcases hd with hd | hd
        · have := b2 hd
          rw [hd]
          refine ⟨hi, ?_, ?_, ?_, ?_⟩ <;> omega
        · have := b3 hd
          rw [hd]
          refine ⟨hi, ?_, ?_, ?_, ?_⟩ <;> omega
    · refine ⟨hcount.trans hn, ?_, ?_⟩
      · rw [(hno he).1]
        exact hd
      · intro i hact
        obtain ⟨hi, ha, hx⟩ := hshape i hact
        have hfree : ¬ ((s.enemies.getD i default).x + s.enemy_direction ≤ 0 ∨
            (s.enemies.getD i default).x + s.enemy_direction + ENEMY_WIDTH ≥ BOARD_WIDTH) :=
          fun hc => he ⟨i, by rw [hn]; exact hi, ha, hc⟩
        rw [hx, (hno he).1]
        simp only [ENEMY_WIDTH, BOARD_WIDTH] at *
        refine ⟨hi, ?_, ?_, ?_, ?_⟩ <;> omega
  · rw [update_enemies_move_idle s htr]
    exact ⟨hn, hd, hent⟩

theorem check_level_complete_enemy_count (rnd : Nat → Nat) (c : GameState)
    (h : c.enemy_count = INITIAL_ENEMIES) :
    (check_level_complete rnd c).enemy_count = INITIAL_ENEMIES := by
  unfold check_level_complete
  split_ifs
  · by_cases hl : c.level < 10
    · rw [game_next_level_respawn rnd c hl]
      exact (respawn_fields rnd _).2.2.2.2.2.1
    · rw [game_next_level_win rnd c (by omega)]
      exact h
  · exact h

theorem grid_enemy_march (d : Int) (i : Nat) (hi : i < 30) :
    i < 30 ∧ 0 ≤ (grid_enemy i).x ∧ (grid_enemy i).x + ENEMY_WIDTH ≤ BOARD_WIDTH ∧
    (d = 1 → (grid_enemy i).x + ENEMY_WIDTH < BOARD_WIDTH) ∧ (d = -1 → 0 < (grid_enemy i).x) := by
  obtain ⟨-, h1, h2, -⟩ := grid_enemy_bounds i hi
  simp only [ENEMY_WIDTH, BOARD_WIDTH]
  refine ⟨hi, ?_, ?_, ?_, ?_⟩ <;> omega

theorem marchInv_update (rand : Nat) (rnd : Nat → Nat) (s : GameState)
    (hl : 30 ≤ s.enemies.length) (h : MarchInv s) :
    MarchInv (game_update rand rnd s) := by
  rcases running_or_frozen s with ⟨hp, hg⟩ | hf
  · have hm : MarchInv (update_enemies_move { s with frame_count := s.frame_count + 1 }) :=
      marchInv_move _ h
    obtain ⟨mn, md, ment⟩ := hm
    have hdir := (game_update_of_move rand rnd s hp hg).2
    refine ⟨?_, ?_, ?_⟩
    · rw [game_update_running rand rnd s hp hg]
      apply check_level_complete_enemy_count
      rw [(handle_collisions_flags _).2.2.2.2.2.2, advance_frame]
      exact h.1
    · rw [hdir]
      exact md
    · intro i hact
      rcases game_update_entry rand rnd s hp hg hl i with ⟨hi, hgrid⟩ | ⟨hx, -, ha⟩
      · rw [hgrid]
        exact grid_enemy_march _ i hi
      · rw [hx, hdir]
        exact ment i (ha hact)
  · rw [game_update_frozen rand rnd s hf]
    exact h

theorem marchInv_same {s t : GameState} (h : MarchInv s) (he : t.enemies = s.enemies)
    (hc : t.enemy_count = s.enemy_count) (hd : t.enemy_direction = s.enemy_direction) :
    MarchInv t := by
  unfold MarchInv
  rw [he, hc, hd]
  exact h

theorem marchInv_respawn (rnd : Nat → Nat) (s t : GameState) (h : MarchInv s)
    (hl : 30 ≤ t.enemies.length) (he : t.enemies = s.enemies)
    (hd : t.enemy_direction = 1 ∨ t.enemy_direction = -1) :
    MarchInv (init_shields rnd (init_enemies t)) := by
  refine ⟨(respawn_fields rnd t).2.2.2.2.2.1, ?_, ?_⟩
  · rw [(respawn_counters rnd t).2.2.1]
    exact hd
  · intro i hact
    rw [respawn_entry rnd t hl i] at hact ⊢
    by_cases hi : i < 30
    · rw [if_pos hi]
      exact grid_enemy_march _ i hi
    · rw [if_neg hi, he] at hact
      exact absurd (h.2.2 i hact).1 hi

theorem marchInv_next_level (rnd : Nat → Nat) (s : GameState)
    (hl : 30 ≤ s.enemies.length) (h : MarchInv s) : MarchInv (game_next_level rnd s) := by
  by_cases hlev : s.level < 10
  · rw [game_next_level_respawn rnd s hlev]
    exact marchInv_respawn rnd s _ h hl rfl h.2.1
  · rw [game_next_level_win rnd s (by omega)]
    exact marchInv_same h rfl rfl rfl

theorem marchInv_set_level (rnd : Nat → Nat) (s : GameState) (n : Int)
    (hl : 30 ≤ s.enemies.length) (h : MarchInv s) : MarchInv (game_set_level rnd s n) := by
  by_cases hn : 1 ≤ n
  · rw [game_set_level_respawn rnd s n hn]
    exact marchInv_respawn rnd s _ h hl rfl h.2.1
  · unfold game_set_level
    rw [if_pos (by omega)]
    exact h

theorem marchInv_reset (rnd : Nat → Nat) (s : GameState)
    (hl : 30 ≤ s.enemies.length) (h : MarchInv s) : MarchInv (game_reset rnd s) := by
  unfold game_reset
  exact marchInv_respawn rnd s _ h hl rfl (Or.inl rfl)

theorem marchInv_init (rnd : Nat → Nat) : MarchInv (game_init rnd) := by
  obtain ⟨-, -, hd, -, -, -, -, -, hn, -⟩ := game_init_fields rnd
  refine ⟨hn, Or.inl hd, ?_⟩
  intro i hact
  by_cases hi : i < 30
  · rw [game_init_entry, if_pos hi]
    exact grid_enemy_march _ i hi
  · rw [game_init_entry, if_neg hi] at hact
    exact Bool.noConfusion hact

theorem reachable_marchInv {s : GameState} (h : Reachable s) : MarchInv s := by
  induction h with
  | init rnd => exact marchInv_init rnd
  | update rand rnd s hs ih => exact marchInv_update rand rnd s (reachable_enemyInv hs).1 ih
  | move_left s _ ih =>
    obtain ⟨he, hc, hd, -⟩ := player_commands_frame s _ (Or.inl rfl)
    exact marchInv_same ih he hc hd
  | move_right s _ ih =>
    obtain ⟨he, hc, hd, -⟩ := player_commands_frame s _ (Or.inr (Or.inl rfl))
    exact marchInv_same ih he hc hd
  | shoot s _ ih =>
    obtain ⟨he, hc, hd, -⟩ := player_commands_frame s _ (Or.inr (Or.inr (Or.inl rfl)))
    exact marchInv_same ih he hc hd
  | toggle_pause s _ ih =>
    obtain ⟨he, hc, hd, -⟩ := player_commands_frame s _ (Or.inr (Or.inr (Or.inr rfl)))
    exact marchInv_same ih he hc hd
  | next_level rnd s hs ih => exact marchInv_next_level rnd s (reachable_enemyInv hs).1 ih
  | set_level rnd s level hs ih =>
    exact marchInv_set_level rnd s level (reachable_enemyInv hs).1 ih
  | reset rnd s hs ih => exact marchInv_reset rnd s (reachable_enemyInv hs).1 ih

/-! # The enemy-fire step -/

/-- The probe loop, started after index `idx`, finds the first active enemy
among the next `k` indices (wrapping), and that enemy fires. -/
theorem fire_probe_spec (k : Nat) (s : GameState) (hn : 0 < s.enemy_count) :
    ∀ idx : Int, 0 ≤ idx →
      fire_probe k idx s
        = enemy_shoots s
            (((List.range k).map
                (fun j : Nat => ((idx + 1 + (j : Int)) % s.enemy_count).toNat)).find?
              (fun i => (s.enemies.getD i default).active)) := by
  induction k with
  | zero =>
    intro idx _
    rfl
  | succ k ih =>
    intro idx hidx
    have h1 : Int.tmod (idx + 1) s.enemy_count = (idx + 1) % s.enemy_count :=
      Int.tmod_eq_emod (by omega) (by omega)
    have h1nn : 0 ≤ (idx + 1) % s.enemy_count := Int.emod_nonneg _ (by omega)
    rw [List.range_succ_eq_map, List.map_cons, List.map_map, List.find?_cons]
    unfold fire_probe
    simp only
    rw [h1]
    have h0 : (idx + 1 + ((0 : Nat) : Int)) % s.enemy_count = (idx + 1) % s.enemy_count := by
      simp
    rw [h0]
    cases hact : (s.enemies.getD ((idx + 1) % s.enemy_count).toNat default).active
    · simp only [Bool.false_eq_true, if_false]
      rw [ih _ h1nn]
      congr 2
      apply List.map_congr_left
      intro j _
      simp only [Function.comp, Nat.succ_eq_add_one, Nat.cast_add, Nat.cast_one]
      rw [add_assoc ((idx + 1) % s.enemy_count), Int.emod_add_emod]
      congr 2
      ring
    · simp only [if_true]
      rfl

theorem utils_random_int_range (rand : Nat) (n : Int) (hn : 0 < n) :
    0 ≤ utils_random_int rand 0 (n - 1) ∧ utils_random_int rand 0 (n - 1) < n ∧
    utils_random_int rand 0 (n - 1) = (rand : Int) % n := by
  have h : utils_random_int rand 0 (n - 1) = Int.tmod (rand : Int) n := by
    unfold utils_random_int
    simp only
    rw [if_neg (by omega), if_neg (by omega)]
    have : n - 1 - 0 + 1 = n := by ring
    rw [this]
    simp
  rw [h, Int.tmod_eq_emod (by omega) (by omega)]
  exact ⟨Int.emod_nonneg _ (by omega), Int.emod_lt_of_pos _ hn, rfl⟩

/-- The fire half of `update_enemies` is the specified step with the probe
starting one past the drawn index. -/
theorem update_enemies_fire_spec (rand : Nat) (s : GameState) (hn : 0 < s.enemy_count) :
    update_enemies_fire rand s
      = spec_enemy_fire (utils_random_int rand 0 (s.enemy_count - 1) + 1) s := by
  unfold update_enemies_fire spec_enemy_fire first_active_among
  simp only
  split_ifs
  · exact fire_probe_spec 5 { s with enemy_fire_timer := 0 } hn _
      (utils_random_int_range rand s.enemy_count hn).1
  · rfl
  · rfl

theorem first_active_among_active (s : GameState) (first : Int) (j : Nat)
    (h : first_active_among s first = some j) : (s.enemies.getD j default).active = true := by
  unfold first_active_among at h
  have := List.find?_some h
  exact this

/-- The specified fire step, case by case: the timer, and either an untouched
pool or one shot appended. -/
theorem spec_enemy_fire_cases (first : Int) (s : GameState) :
    (spec_enemy_fire first s).enemy_fire_timer
      = (if s.enemy_fire_timer + 1 ≥ ENEMY_FIRE_RATE then 0 else s.enemy_fire_timer + 1) ∧
    (((spec_enemy_fire first s).enemy_projectiles = s.enemy_projectiles ∧
      (spec_enemy_fire first s).enemy_projectile_count = s.enemy_projectile_count) ∨
     (s.enemy_fire_timer + 1 ≥ ENEMY_FIRE_RATE ∧ 0 < s.alive_enemy_count ∧
      s.enemy_projectile_count < MAX_ENEMY_PROJECTILES ∧
      ∃ j, first_active_among s first = some j ∧
        (spec_enemy_fire first s).enemy_projectiles
          = s.enemy_projectiles.set s.enemy_projectile_count.toNat
              (enemy_shot (s.enemies.getD j default)) ∧
        (spec_enemy_fire first s).enemy_projectile_count = s.enemy_projectile_count + 1)) := by
  unfold spec_enemy_fire
  by_cases ht : s.enemy_fire_timer + 1 ≥ ENEMY_FIRE_RATE
  · rw [if_pos ht, if_pos ht]
    by_cases ha : s.alive_enemy_count > 0
    · rw [if_pos ha]
      cases hf : first_active_among s first with
      | none => exact ⟨rfl, Or.inl ⟨rfl, rfl⟩⟩
      | some j =>
        unfold enemy_shoots
        simp only
        by_cases hc : s.enemy_projectile_count < MAX_ENEMY_PROJECTILES
        · rw [if_pos hc]
          exact ⟨rfl, Or.inr ⟨ht, ha, hc, j, rfl, rfl, rfl⟩⟩
        · rw [if_neg hc]
          exact ⟨rfl, Or.inl ⟨rfl, rfl⟩⟩
    · rw [if_neg ha]
      exact ⟨rfl, Or.inl ⟨rfl, rfl⟩⟩
  · rw [if_neg ht, if_neg ht]
    exact ⟨rfl, Or.inl ⟨rfl, rfl⟩⟩

theorem update_enemies_move_keeps (s : GameState) :
    (update_enemies_move s).enemy_count = s.enemy_count ∧
    (update_enemies_move s).alive_enemy_count = s.alive_enemy_count ∧
    (update_enemies_move s).enemy_fire_timer = s.enemy_fire_timer ∧
    (update_enemies_move s).enemy_projectiles = s.enemy_projectiles ∧
    (update_enemies_move s).enemy_projectile_count = s.enemy_projectile_count := by
  refine ⟨?_, ?_, ?_, ?_, ?_⟩ <;> rw [update_enemies_move_frame]

theorem check_level_complete_timer (rnd : Nat → Nat) (c : GameState) :
    (check_level_complete rnd c).enemy_fire_timer = c.enemy_fire_timer := by
  unfold check_level_complete
  split_ifs
  · by_cases hl : c.level < 10
    · rw [game_next_level_respawn rnd c hl]
      exact (respawn_counters rnd _).2.1
    · rw [game_next_level_win rnd c (by omega)]
  · rfl

theorem update_enemies_fire_timer (rand : Nat) (s : GameState) :
    (update_enemies_fire rand s).enemy_fire_timer
      = (if s.enemy_fire_timer + 1 ≥ ENEMY_FIRE_RATE then 0 else s.enemy_fire_timer + 1) := by
  unfold update_enemies_fire
  simp only
  split_ifs
  · rw [fire_probe_frame]
  · rfl
  · rfl

theorem advance_fire_timer (rand : Nat) (s : GameState) :
    (advance rand s).enemy_fire_timer
      = (if s.enemy_fire_timer + 1 ≥ ENEMY_FIRE_RATE then 0 else s.enemy_fire_timer + 1) := by
  have h : (advance rand s).enemy_fire_timer
      = (update_enemies rand { s with frame_count := s.frame_count + 1 }).enemy_fire_timer := by
    unfold advance update_enemy_projectiles update_projectiles
    rfl
  rw [h]
  unfold update_enemies
  rw [update_enemies_fire_timer, (update_enemies_move_keeps _).2.2.1]

/-- The enemy-fire timer across one running `game_update`. -/
theorem game_update_fire_timer (rand : Nat) (rnd : Nat → Nat) (s : GameState)
    (hp : s.is_paused = false) (hg : s.game_over = false) :
    (game_update rand rnd s).enemy_fire_timer
      = (if s.enemy_fire_timer + 1 ≥ ENEMY_FIRE_RATE then 0 else s.enemy_fire_timer + 1) := by
  rw [game_update_running rand rnd s hp hg, check_level_complete_timer,
    (handle_collisions_flags _).2.2.2.2.1, advance_fire_timer]

/-! # One enemy shot at a time -/

/-- The probe loop leaves the state as it is or appends the shot of an active
enemy. -/
theorem fire_probe_cases (n : Nat) (s : GameState) :
    ∀ idx : Int, fire_probe n idx s = s ∨
      (s.enemy_projectile_count < MAX_ENEMY_PROJECTILES ∧
        ∃ j, (s.enemies.getD j default).active = true ∧
          fire_probe n idx s
            = { s with
                enemy_projectiles := s.enemy_projectiles.set s.enemy_projectile_count.toNat
                  (enemy_shot (s.enemies.getD j default))
                enemy_projectile_count := s.enemy_projectile_count + 1 }) := by
  induction n with
  | zero =>
    intro idx
    exact Or.inl rfl
  | succ n ih =>
    intro idx
    unfold fire_probe
    simp only
    split_ifs with hact hcap
    · exact Or.inr ⟨hcap, _, hact, rfl⟩
    · exact Or.inl rfl
    · exact ih _

/-- The fire half of `update_enemies`, on the enemy pool: untouched, or, at the
threshold, the shot of an active enemy appended. -/
theorem update_enemies_fire_cases (rand : Nat) (s : GameState) :
    ((update_enemies_fire rand s).enemy_projectiles = s.enemy_projectiles ∧
      (update_enemies_fire rand s).enemy_projectile_count = s.enemy_projectile_count) ∨
    (s.enemy_fire_timer + 1 ≥ ENEMY_FIRE_RATE ∧
      s.enemy_projectile_count < MAX_ENEMY_PROJECTILES ∧
      ∃ j, (s.enemies.getD j default).active = true ∧
        (update_enemies_fire rand s).enemy_projectiles
          = s.enemy_projectiles.set s.enemy_projectile_count.toNat
              (enemy_shot (s.enemies.getD j default)) ∧
        (update_enemies_fire rand s).enemy_projectile_count
          = s.enemy_projectile_count + 1) := by
  unfold update_enemies_fire
  simp only
  split_ifs with ht ha
  · rcases fire_probe_cases 5 { s with enemy_fire_timer := 0 }
      (utils_random_int rand 0 (s.enemy_count - 1)) with h | ⟨hcap, j, hact, h⟩
    · rw [h]
      exact Or.inl ⟨rfl, rfl⟩
    · rw [h]
      exact Or.inr ⟨ht, hcap, j, hact, rfl, rfl⟩
  · exact Or.inl ⟨rfl, rfl⟩
  · exact Or.inl ⟨rfl, rfl⟩

/-- The move-and-compact of `update_enemy_projectiles`, on the count, the array
length and the live slots. -/
theorem update_enemy_projectiles_spec (s : GameState)
    (he : s.enemy_projectile_count.toNat ≤ s.enemy_projectiles.length) :
    (update_enemy_projectiles s).enemy_projectile_count
      = ((spec_advance_enemy_pool (enemy_pool s)).length : Int) ∧
    (update_enemy_projectiles s).enemy_projectiles.length = s.enemy_projectiles.length ∧
    (∀ k, k < (spec_advance_enemy_pool (enemy_pool s)).length →
      (update_enemy_projectiles s).enemy_projectiles.getD k default
        = (spec_advance_enemy_pool (enemy_pool s)).getD k default) := by
  have hmove := map_loop move_down move_enemy_projectile_body
    (fun i a _ => move_enemy_projectile_body_eq i a) s.enemy_projectiles
    s.enemy_projectile_count he
  have hlen : (forLoop s.enemy_projectile_count move_enemy_projectile_body
      s.enemy_projectiles).length = s.enemy_projectiles.length := by
    rw [hmove]; simp; omega
  have htake : (forLoop s.enemy_projectile_count move_enemy_projectile_body
      s.enemy_projectiles).take s.enemy_projectile_count.toNat
        = (s.enemy_projectiles.take s.enemy_projectile_count.toNat).map move_down := by
    rw [hmove, List.take_left' (by simp; omega)]
  have hfil : ((forLoop s.enemy_projectile_count move_enemy_projectile_body
      s.enemy_projectiles).take s.enemy_projectile_count.toNat).filter (fun p => p.active)
        = spec_advance_enemy_pool (enemy_pool s) := by
    rw [htake]
    exact filter_map_move_down _
  have hfl : (spec_advance_enemy_pool (enemy_pool s)).length
      ≤ s.enemy_projectile_count.toNat := by
    rw [← hfil]
    refine le_trans (List.length_filter_le _ _) ?_
    rw [List.length_take]
    exact Nat.min_le_left _ _
  unfold update_enemy_projectiles
  simp only
  rw [compact_loop _ _ (by omega), hfil]
  refine ⟨rfl, ?_, ?_⟩
  · simp only [List.length_append, List.length_drop]
    omega
  · intro k hk
    simp only [List.getD_eq_getElem?_getD]
    rw [List.getElem?_append_left hk]

theorem take_one_getD (l : List Projectile) (h : 0 < l.length) :
    l.take 1 = [l.getD 0 default] := by
  cases l with
  | nil => exact absurd h (by simp)
  | cons a t => rfl

theorem spec_advance_enemy_pool_one (p : Projectile) :
    spec_advance_enemy_pool [p]
      = if p.active = true ∧ p.y + ENEMY_PROJECTILE_SPEED < BOARD_HEIGHT then
          [{ p with y := p.y + ENEMY_PROJECTILE_SPEED }]
        else [] := by
  unfold spec_advance_enemy_pool
  by_cases h : p.active = true ∧ p.y + ENEMY_PROJECTILE_SPEED < BOARD_HEIGHT
  · rw [if_pos h, List.filter_cons_of_pos (by simp [h.1, h.2])]
    rfl
  · rw [if_neg h, List.filter_cons_of_neg (by simpa using h)]
    rfl

theorem set_inactive_pos (l : List Projectile) (i k : Nat) :
    ((l.set i { l.getD i default with active := false }).getD k default).x
      = (l.getD k default).x ∧
    ((l.set i { l.getD i default with active := false }).getD k default).y
      = (l.getD k default).y := by
  by_cases hik : i = k
  · subst hik
    by_cases hl : i < l.length
    · rw [getD_set_self _ _ _ _ hl]
      exact ⟨rfl, rfl⟩
    · rw [List.set_eq_of_length_le (by omega)]
      exact ⟨rfl, rfl⟩
  · rw [getD_set_ne _ _ _ _ _ hik]
    exact ⟨rfl, rfl⟩

theorem eproj_vs_player_body_shots (i : Nat) (t : GameState) :
    (eproj_vs_player_body i t).enemy_projectiles.length = t.enemy_projectiles.length ∧
    ∀ k, ((eproj_vs_player_body i t).enemy_projectiles.getD k default).x
          = (t.enemy_projectiles.getD k default).x ∧
         ((eproj_vs_player_body i t).enemy_projectiles.getD k default).y
          = (t.enemy_projectiles.getD k default).y := by
  unfold eproj_vs_player_body
  simp only
  split_ifs
  · exact ⟨rfl, fun k => ⟨rfl, rfl⟩⟩
  · exact ⟨List.length_set _ _ _, fun k => set_inactive_pos _ i k⟩
  · exact ⟨List.length_set _ _ _, fun k => set_inactive_pos _ i k⟩
  · exact ⟨rfl, fun k => ⟨rfl, rfl⟩⟩

theorem ehit_shield_body_shots (i k b : Nat) (t : GameState) :
    (ehit_shield_body i k b t).enemy_projectiles.length = t.enemy_projectiles.length ∧
    ∀ n, ((ehit_shield_body i k b t).enemy_projectiles.getD n default).x
          = (t.enemy_projectiles.getD n default).x ∧
         ((ehit_shield_body i k b t).enemy_projectiles.getD n default).y
          = (t.enemy_projectiles.getD n default).y := by
  unfold ehit_shield_body
  simp only
  split_ifs
  · exact ⟨rfl, fun n => ⟨rfl, rfl⟩⟩
  · exact ⟨List.length_set _ _ _, fun n => set_inactive_pos _ i n⟩
  · exact ⟨rfl, fun n => ⟨rfl, rfl⟩⟩

theorem ehit_shield_loop_shots (i k : Nat) (c : Int) (s t : GameState)
    (h : t.enemy_projectiles.length = s.enemy_projectiles.length ∧
      ∀ n, (t.enemy_projectiles.getD n default).x = (s.enemy_projectiles.getD n default).x ∧
           (t.enemy_projectiles.getD n default).y = (s.enemy_projectiles.getD n default).y) :
    (forLoop c (ehit_shield_body i k) t).enemy_projectiles.length
        = s.enemy_projectiles.length ∧
      ∀ n, ((forLoop c (ehit_shield_body i k) t).enemy_projectiles.getD n default).x
            = (s.enemy_projectiles.getD n default).x ∧
           ((forLoop c (ehit_shield_body i k) t).enemy_projectiles.getD n default).y
            = (s.enemy_projectiles.getD n default).y :=
  forLoop_inv (fun u : GameState =>
    u.enemy_projectiles.length = s.enemy_projectiles.length ∧
      ∀ n, (u.enemy_projectiles.getD n default).x = (s.enemy_projectiles.getD n default).x ∧
           (u.enemy_projectiles.getD n default).y = (s.enemy_projectiles.getD n default).y)
    c (ehit_shield_body i k) t h
    (fun b u _ hu =>
      ⟨(ehit_shield_body_shots i k b u).1.trans hu.1,
       fun n => ⟨((ehit_shield_body_shots i k b u).2 n).1.trans (hu.2 n).1,
                 ((ehit_shield_body_shots i k b u).2 n).2.trans (hu.2 n).2⟩⟩)

theorem eproj_vs_shields_body_shots (i : Nat) (s t : GameState)
    (h : t.enemy_projectiles.length = s.enemy_projectiles.length ∧
      ∀ n, (t.enemy_projectiles.getD n default).x = (s.enemy_projectiles.getD n default).x ∧
           (t.enemy_projectiles.getD n default).y = (s.enemy_projectiles.getD n default).y) :
    (eproj_vs_shields_body i t).enemy_projectiles.length = s.enemy_projectiles.length ∧
      ∀ n, ((eproj_vs_shields_body i t).enemy_projectiles.getD n default).x
            = (s.enemy_projectiles.getD n default).x ∧
           ((eproj_vs_shields_body i t).enemy_projectiles.getD n default).y
            = (s.enemy_projectiles.getD n default).y := by
  unfold eproj_vs_shields_body
  split_ifs
  · exact h
  · exact forLoop_inv (fun u : GameState =>
      u.enemy_projectiles.length = s.enemy_projectiles.length ∧
        ∀ n, (u.enemy_projectiles.getD n default).x = (s.enemy_projectiles.getD n default).x ∧
             (u.enemy_projectiles.getD n default).y = (s.enemy_projectiles.getD n default).y)
      _ _ t h (fun k u _ hu => ehit_shield_loop_shots i k _ s u hu)

/-- The collision passes keep the enemy pool array's length and every slot's
position; only `active` flags are cleared. -/
theorem handle_collisions_shots (s : GameState) :
    (handle_collisions s).enemy_projectiles.length = s.enemy_projectiles.length ∧
    ∀ n, ((handle_collisions s).enemy_projectiles.getD n default).x
          = (s.enemy_projectiles.getD n default).x ∧
         ((handle_collisions s).enemy_projectiles.getD n default).y
          = (s.enemy_projectiles.getD n default).y := by
  have h2 := (before_player_pass s).1
  have h3 : (collide_eproj_player (collide_proj_shields (collide_proj_enemies s))).enemy_projectiles.length
        = s.enemy_projectiles.length ∧
      ∀ n, ((collide_eproj_player (collide_proj_shields (collide_proj_enemies s))).enemy_projectiles.getD n default).x
            = (s.enemy_projectiles.getD n default).x ∧
           ((collide_eproj_player (collide_proj_shields (collide_proj_enemies s))).enemy_projectiles.getD n default).y
            = (s.enemy_projectiles.getD n default).y := by
    unfold collide_eproj_player
    refine forLoop_inv (fun u : GameState =>
      u.enemy_projectiles.length = s.enemy_projectiles.length ∧
        ∀ n, (u.enemy_projectiles.getD n default).x = (s.enemy_projectiles.getD n default).x ∧
             (u.enemy_projectiles.getD n default).y = (s.enemy_projectiles.getD n default).y)
      _ _ _ (by show _ ∧ _; rw [h2]; exact ⟨rfl, fun n => ⟨rfl, rfl⟩⟩) ?_
    intro i u _ hu
    exact ⟨(eproj_vs_player_body_shots i u).1.trans hu.1,
      fun n => ⟨((eproj_vs_player_body_shots i u).2 n).1.trans (hu.2 n).1,
                ((eproj_vs_player_body_shots i u).2 n).2.trans (hu.2 n).2⟩⟩
  unfold handle_collisions
  unfold collide_eproj_shields
  exact forLoop_inv (fun u : GameState =>
      u.enemy_projectiles.length = s.enemy_projectiles.length ∧
        ∀ n, (u.enemy_projectiles.getD n default).x = (s.enemy_projectiles.getD n default).x ∧
             (u.enemy_projectiles.getD n default).y = (s.enemy_projectiles.getD n default).y)
      _ _ _ h3 (fun i u _ hu => eproj_vs_shields_body_shots i s u hu)

theorem enemy_rows_move (s : GameState)
    (h : ∀ i, (s.enemies.getD i default).active = true → 2 ≤ (s.enemies.getD i default).y) :
    ∀ i, ((update_enemies_move s).enemies.getD i default).active = true →
      2 ≤ ((update_enemies_move s).enemies.getD i default).y := by
  intro i hact
  by_cases htr : step_triggered s
  · have hx := update_enemies_move_entries s htr i
    by_cases ha : (s.enemies.getD i default).active = true
    · obtain ⟨-, hno, hyes⟩ := update_enemies_move_step s htr
      have h2 := h i ha
      by_cases he : edge_hit s
      · rw [(hyes he).2.1 i]
        split_ifs
        · rw [shift_enemy_active _ _ ha, lower_enemy_active _ (by exact ha)]
          show 2 ≤ (s.enemies.getD i default).y + ENEMY_MOVE_DOWN
          simp only [ENEMY_MOVE_DOWN]
          omega
        · exact h2
      · rw [hx.2.2 he]
        exact h2
    · rw [hx.1 (by simpa using ha)] at hact
      exact absurd hact ha
  · rw [update_enemies_move_idle s htr] at hact ⊢
    exact h i hact

theorem update_enemy_projectiles_empty (u : GameState) (hc : u.enemy_projectile_count = 0) :
    (update_enemy_projectiles u).enemy_projectile_count = 0 ∧
    (update_enemy_projectiles u).enemy_projectiles.length = u.enemy_projectiles.length := by
  obtain ⟨h1, h2, -⟩ := update_enemy_projectiles_spec u (by rw [hc]; exact Nat.zero_le _)
  refine ⟨?_, h2⟩
  rw [h1]
  unfold enemy_pool
  rw [hc]
  rfl

theorem update_enemy_projectiles_single (u : GameState) (hc : u.enemy_projectile_count = 1)
    (hl : 0 < u.enemy_projectiles.length) :
    (update_enemy_projectiles u).enemy_projectiles.length = u.enemy_projectiles.length ∧
    ((update_enemy_projectiles u).enemy_projectile_count = 0 ∨
      ((update_enemy_projectiles u).enemy_projectile_count = 1 ∧
        (u.enemy_projectiles.getD 0 default).y + ENEMY_PROJECTILE_SPEED < BOARD_HEIGHT ∧
        ((update_enemy_projectiles u).enemy_projectiles.getD 0 default).y
          = (u.enemy_projectiles.getD 0 default).y + ENEMY_PROJECTILE_SPEED)) := by
  obtain ⟨h1, h2, h3⟩ := update_enemy_projectiles_spec u (by rw [hc]; exact hl)
  have hpool : enemy_pool u = [u.enemy_projectiles.getD 0 default] := by
    unfold enemy_pool
    rw [hc]
    exact take_one_getD _ hl
  rw [hpool, spec_advance_enemy_pool_one] at h1 h3
  refine ⟨h2, ?_⟩
  by_cases hk : (u.enemy_projectiles.getD 0 default).active = true ∧
      (u.enemy_projectiles.getD 0 default).y + ENEMY_PROJECTILE_SPEED < BOARD_HEIGHT
  · rw [if_pos hk] at h1 h3
    right
    refine ⟨h1, hk.2, ?_⟩
    rw [h3 0 (by simp)]
    rfl
  · rw [if_neg hk] at h1
    exact Or.inl h1

/-- The fire half of `update_enemies` followed by both projectile updates keeps
at most one enemy shot in flight. -/
theorem shot_after_fire (rand : Nat) (m : GameState) (h : ShotInv m) :
    (update_enemy_projectiles (update_projectiles
      (update_enemies_fire rand m))).enemy_projectiles.length = 30 ∧
    ((update_enemy_projectiles (update_projectiles
        (update_enemies_fire rand m))).enemy_projectile_count = 0 ∨
      ((update_enemy_projectiles (update_projectiles
          (update_enemies_fire rand m))).enemy_projectile_count = 1 ∧
        (if m.enemy_fire_timer + 1 ≥ ENEMY_FIRE_RATE then 0 else m.enemy_fire_timer + 1) + 4
          ≤ ((update_enemy_projectiles (update_projectiles
              (update_enemies_fire rand m))).enemy_projectiles.getD 0 default).y ∧
        ((update_enemy_projectiles (update_projectiles
            (update_enemies_fire rand m))).enemy_projectiles.getD 0 default).y
          < BOARD_HEIGHT)) := by
  obtain ⟨hlen, hshot, hrows⟩ := h
  have hup : ∀ f : GameState,
      (update_projectiles f).enemy_projectiles = f.enemy_projectiles ∧
      (update_projectiles f).enemy_projectile_count = f.enemy_projectile_count :=
    fun f => ⟨rfl, rfl⟩
  have hflen := update_enemies_fire_length rand m
  rcases update_enemies_fire_cases rand m with ⟨fe, fc⟩ | ⟨ft, -, j, hj, fe, fc⟩
  · rcases hshot with h0 | ⟨h1, hy1, hy2⟩
    · obtain ⟨c0, l0⟩ := update_enemy_projectiles_empty
        (update_projectiles (update_enemies_fire rand m)) (by rw [(hup _).2, fc]; exact h0)
      exact ⟨by rw [l0, (hup _).1, fe]; exact hlen, Or.inl c0⟩
    · obtain ⟨l1, hcase⟩ := update_enemy_projectiles_single
        (update_projectiles (update_enemies_fire rand m))
        (by rw [(hup _).2, fc]; exact h1) (by rw [(hup _).1, fe, hlen]; decide)
      refine ⟨by rw [l1, (hup _).1, fe]; exact hlen, ?_⟩
      rcases hcase with c0 | ⟨c1, hb, hy⟩
      · exact Or.inl c0
      · right
        rw [(hup _).1, fe] at hb hy
        refine ⟨c1, ?_, ?_⟩
        · rw [hy]
          simp only [ENEMY_PROJECTILE_SPEED, ENEMY_FIRE_RATE] at *
          split_ifs <;> omega
        · rw [hy]
          exact hb
  · rcases hshot with h0 | ⟨h1, hy1, hy2⟩
    · rw [h0] at fe fc
      have hget : ((update_projectiles (update_enemies_fire rand m)).enemy_projectiles.getD
              0 default)
          = enemy_shot (m.enemies.getD j default) := by
        rw [(hup _).1, fe]
        exact getD_set_self _ _ _ _ (by rw [hlen]; decide)
      obtain ⟨l1, hcase⟩ := update_enemy_projectiles_single
        (update_projectiles (update_enemies_fire rand m))
        (by rw [(hup _).2, fc]; rfl) (by rw [(hup _).1, hflen, hlen]; decide)
      refine ⟨by rw [l1, (hup _).1, hflen]; exact hlen, ?_⟩
      rcases hcase with c0 | ⟨c1, hb, hy⟩
      · exact Or.inl c0
      · right
        rw [hget] at hb hy
        have h2 := hrows j hj
        refine ⟨c1, ?_, ?_⟩
        · rw [hy, if_pos ft]
          show (0 : Int) + 4 ≤ (m.enemies.getD j default).y + 1 + ENEMY_PROJECTILE_SPEED
          simp only [ENEMY_PROJECTILE_SPEED]
          omega
        · rw [hy]
          exact hb
    · exfalso
      simp only [ENEMY_FIRE_RATE, BOARD_HEIGHT] at *
      omega

/-- After the advance step of a frame at most one enemy shot is in flight. -/
theorem shot_advance (rand : Nat) (s : GameState) (h : ShotInv s) :
    (advance rand s).enemy_projectiles.length = 30 ∧
    ((advance rand s).enemy_projectile_count = 0 ∨
      ((advance rand s).enemy_projectile_count = 1 ∧
        (advance rand s).enemy_fire_timer + 4
          ≤ ((advance rand s).enemy_projectiles.getD 0 default).y ∧
        ((advance rand s).enemy_projectiles.getD 0 default).y < BOARD_HEIGHT)) := by
  obtain ⟨hlen, hshot, hrows⟩ := h
  obtain ⟨-, -, kt, kp, kc⟩ := update_enemies_move_keeps { s with frame_count := s.frame_count + 1 }
  have hm : ShotInv (update_enemies_move { s with frame_count := s.frame_count + 1 }) := by
    refine ⟨?_, ?_, enemy_rows_move { s with frame_count := s.frame_count + 1 } hrows⟩
    · rw [kp]
      exact hlen
    · rw [kp, kc, kt]
      exact hshot
  have key := shot_after_fire rand _ hm
  rw [kt] at key
  rw [advance_fire_timer rand s]
  exact key

theorem check_level_complete_shot_count (rnd : Nat → Nat) (c : GameState) :
    (check_level_complete rnd c).enemy_projectile_count = c.enemy_projectile_count ∨
    (check_level_complete rnd c).enemy_projectile_count = 0 := by
  unfold check_level_complete
  split_ifs
  · by_cases hl : c.level < 10
    · right
      rw [game_next_level_respawn rnd c hl]
      exact (respawn_fields rnd _).2.2.2.1
    · left
      rw [game_next_level_win rnd c (by omega)]
  · exact Or.inl rfl

theorem shotInv_update (rand : Nat) (rnd : Nat → Nat) (s : GameState)
    (hl : 30 ≤ s.enemies.length) (h : ShotInv s) : ShotInv (game_update rand rnd s) := by
  rcases running_or_frozen s with ⟨hp, hg⟩ | hf
  · obtain ⟨alen, ashot⟩ := shot_advance rand s h
    have hrows := enemy_rows_move { s with frame_count := s.frame_count + 1 } h.2.2
    refine ⟨?_, ?_, ?_⟩
    · rw [game_update_running rand rnd s hp hg, (check_level_complete_player rnd _).2.1,
        (handle_collisions_shots _).1]
      exact alen
    · rw [game_update_running rand rnd s hp hg]
      rcases check_level_complete_shot_count rnd (handle_collisions (advance rand s))
        with hc | hc
      · rw [hc, check_level_complete_timer, (check_level_complete_player rnd _).2.1,
          handle_collisions_enemy_projectile_count, (handle_collisions_flags _).2.2.2.2.1,
          ((handle_collisions_shots _).2 0).2]
        exact ashot
      · exact Or.inl hc
    · intro i hact
      rcases game_update_entry rand rnd s hp hg hl i with ⟨hi, hgrid⟩ | ⟨-, hy, ha⟩
      · rw [hgrid]
        exact (grid_enemy_bounds i hi).2.2.2.1
      · rw [hy]
        exact hrows i (ha hact)
  · rw [game_update_frozen rand rnd s hf]
    exact h

theorem shotInv_same {s t : GameState} (h : ShotInv s) (he : t.enemies = s.enemies)
    (hp : t.enemy_projectiles = s.enemy_projectiles)
    (hc : t.enemy_projectile_count = s.enemy_projectile_count)
    (ht : t.enemy_fire_timer = s.enemy_fire_timer) : ShotInv t := by
  unfold ShotInv
  rw [he, hp, hc, ht]
  exact h

theorem shotInv_respawn (rnd : Nat → Nat) (t : GameState)
    (hl : 30 ≤ t.enemies.length) (hlen : t.enemy_projectiles.length = 30)
    (hc : t.enemy_projectile_count = 0)
    (hrows : ∀ i, (t.enemies.getD i default).active = true → 2 ≤ (t.enemies.getD i default).y) :
    ShotInv (init_shields rnd (init_enemies t)) := by
  refine ⟨?_, Or.inl ?_, ?_⟩
  · rw [(respawn_fields rnd t).2.2.2.2.2.2.2.1]
    exact hlen
  · rw [(respawn_fields rnd t).2.2.2.1]
    exact hc
  · intro i hact
    rw [respawn_entry rnd t hl i] at hact ⊢
    by_cases hi : i < 30
    · rw [if_pos hi]
      exact (grid_enemy_bounds i hi).2.2.2.1
    · rw [if_neg hi] at hact ⊢
      exact hrows i hact

theorem shotInv_next_level (rnd : Nat → Nat) (s : GameState)
    (hl : 30 ≤ s.enemies.length) (h : ShotInv s) : ShotInv (game_next_level rnd s) := by
  by_cases hlev : s.level < 10
  · rw [game_next_level_respawn rnd s hlev]
    exact shotInv_respawn rnd _ hl h.1 rfl h.2.2
  · rw [game_next_level_win rnd s (by omega)]
    exact shotInv_same h rfl rfl rfl rfl

theorem shotInv_set_level (rnd : Nat → Nat) (s : GameState) (n : Int)
    (hl : 30 ≤ s.enemies.length) (h : ShotInv s) : ShotInv (game_set_level rnd s n) := by
  by_cases hn : 1 ≤ n
  · rw [game_set_level_respawn rnd s n hn]
    exact shotInv_respawn rnd _ hl h.1 rfl h.2.2
  · unfold game_set_level
    rw [if_pos (by omega)]
    exact h

theorem shotInv_reset (rnd : Nat → Nat) (s : GameState)
    (hl : 30 ≤ s.enemies.length) (h : ShotInv s) : ShotInv (game_reset rnd s) := by
  unfold game_reset
  exact shotInv_respawn rnd _ hl h.1 rfl h.2.2

theorem shotInv_init (rnd : Nat → Nat) : ShotInv (game_init rnd) := by
  refine ⟨?_, Or.inl (game_init_fields rnd).2.2.2.2.1, ?_⟩
  · unfold game_init
    simp only
    rw [(respawn_fields rnd _).2.2.2.2.2.2.2.1]
    rfl
  · intro i hact
    by_cases hi : i < 30
    · rw [game_init_entry, if_pos hi]
      exact (grid_enemy_bounds i hi).2.2.2.1
    · rw [game_init_entry, if_neg hi] at hact
      exact Bool.noConfusion hact

theorem reachable_shotInv {s : GameState} (h : Reachable s) : ShotInv s := by
  induction h with
  | init rnd => exact shotInv_init rnd
  | update rand rnd s hs ih => exact shotInv_update rand rnd s (reachable_enemyInv hs).1 ih
  | move_left s _ ih =>
    obtain ⟨he, -, -, -, hp, hc, ht, -⟩ := player_commands_frame s _ (Or.inl rfl)
    exact shotInv_same ih he hp hc ht
  | move_right s _ ih =>
    obtain ⟨he, -, -, -, hp, hc, ht, -⟩ := player_commands_frame s _ (Or.inr (Or.inl rfl))
    exact shotInv_same ih he hp hc ht
  | shoot s _ ih =>
    obtain ⟨he, -, -, -, hp, hc, ht, -⟩ :=
      player_commands_frame s _ (Or.inr (Or.inr (Or.inl rfl)))
    exact shotInv_same ih he hp hc ht
  | toggle_pause s _ ih =>
    obtain ⟨he, -, -, -, hp, hc, ht, -⟩ :=
      player_commands_frame s _ (Or.inr (Or.inr (Or.inr rfl)))
    exact shotInv_same ih he hp hc ht
  | next_level rnd s hs ih => exact shotInv_next_level rnd s (reachable_enemyInv hs).1 ih
  | set_level rnd s level hs ih =>
    exact shotInv_set_level rnd s level (reachable_enemyInv hs).1 ih
  | reset rnd s hs ih => exact shotInv_reset rnd s (reachable_enemyInv hs).1 ih

/-- With at most one enemy shot in flight a frame costs at most one life. -/
theorem game_update_health_step (rand : Nat) (rnd : Nat → Nat) (s : GameState)
    (h : ShotInv s) :
    s.player.health - 1 ≤ (game_update rand rnd s).player.health ∧
    (game_update rand rnd s).player.health ≤ s.player.health := by
  rcases running_or_frozen s with ⟨hp, hg⟩ | hf
  · rw [game_update_health rand rnd s hp hg]
    obtain ⟨-, ashot⟩ := shot_advance rand s h
    have hle : player_hits (advance rand s) ≤ 1 := by
      unfold player_hits
      refine le_trans (List.countP_le_length _) ?_
      unfold enemy_pool
      rw [List.length_take]
      rcases ashot with h0 | ⟨h1, -⟩
      · rw [h0]
        exact le_trans (Nat.min_le_left _ _) (by decide)
      · rw [h1]
        exact le_trans (Nat.min_le_left _ _) (by decide)
    omega
  · rw [game_update_frozen rand rnd s hf]
    omega

theorem reachable_idle_run (k : Nat) : Reachable (idle_run k) := by
  induction k with
  | zero => exact Reachable.init rnd0
  | succ k ih => exact Reachable.update 0 rnd0 _ ih

/-! # One kill per projectile -/

theorem overlapping_iff (s : GameState) (i j : Nat) :
    overlapping s i j = true ↔
      (s.projectiles.getD i default).active = true ∧
      (s.enemies.getD j default).active = true ∧
      proj_hits_enemy (s.projectiles.getD i default) (s.enemies.getD j default) = true := by
  unfold overlapping
  simp only [Bool.and_eq_true]
  constructor
  · rintro ⟨⟨a, b⟩, c⟩
    exact ⟨a, b, c⟩
  · rintro ⟨a, b, c⟩
    exact ⟨⟨a, b⟩, c⟩

theorem kill_enemy_other (i j k : Nat) (u : GameState) (h : j ≠ k) :
    (kill i j u).enemies.getD k default = u.enemies.getD k default := by
  unfold kill
  simp only
  rw [getD_set_ne _ _ _ _ _ h]

theorem kill_enemy_self (i j : Nat) (u : GameState)
    (h : ((kill i j u).enemies.getD j default).active = true) : False := by
  unfold kill at h
  simp only at h
  by_cases hl : j < u.enemies.length
  · rw [getD_set_self _ _ _ _ hl] at h
    exact Bool.noConfusion h
  · rw [getD_default_of_le _ _ _ (by rw [List.length_set]; omega)] at h
    exact Bool.noConfusion h

theorem kill_projectile_other (i j n : Nat) (u : GameState) (h : i ≠ n) :
    (kill i j u).projectiles.getD n default = u.projectiles.getD n default := by
  unfold kill
  simp only
  rw [getD_set_ne _ _ _ _ _ h]

theorem kill_projectile_pos (i j n : Nat) (u : GameState) :
    ((kill i j u).projectiles.getD n default).x = (u.projectiles.getD n default).x ∧
    ((kill i j u).projectiles.getD n default).y = (u.projectiles.getD n default).y := by
  unfold kill
  simp only
  exact set_inactive_pos _ i n

theorem proj_hits_enemy_congr (p q : Projectile) (e : Enemy) (hx : p.x = q.x) (hy : p.y = q.y) :
    proj_hits_enemy p e = proj_hits_enemy q e := by
  unfold proj_hits_enemy
  rw [hx, hy]

/-- After a kill by projectile `i`, what another projectile overlaps it
overlapped before. -/
theorem overlapping_kill (i j n k : Nat) (u : GameState) (hn : i ≠ n)
    (h : overlapping (kill i j u) n k = true) : overlapping u n k = true := by
  rw [overlapping_iff] at h ⊢
  obtain ⟨hp, he, hh⟩ := h
  rw [kill_projectile_other i j n u hn] at hp hh
  by_cases hjk : j = k
  · subst hjk
    exact absurd he (fun hc => kill_enemy_self i j u hc)
  · rw [kill_enemy_other i j k u hjk] at he hh
    exact ⟨hp, he, hh⟩

/-- The sweep of one projectile over the squad: with at most one overlapped
active enemy, it kills that enemy or changes nothing. -/
theorem proj_vs_enemies_body_one (i : Nat) (u : GameState)
    (huniq : ∀ j j', j < u.enemy_count.toNat → j' < u.enemy_count.toNat →
      overlapping u i j = true → overlapping u i j' = true → j = j') :
    (proj_vs_enemies_body i u = u ∧
      ∀ j, j < u.enemy_count.toNat → overlapping u i j = false) ∨
    (∃ j, j < u.enemy_count.toNat ∧ overlapping u i j = true ∧
      proj_vs_enemies_body i u = kill i j u) := by
  unfold proj_vs_enemies_body
  by_cases hp : (u.projectiles.getD i default).active = true
  · rw [if_neg (by rw [hp]; decide)]
    have key := forLoop_ind
      (fun k (t : GameState) =>
        (t = u ∧ ∀ j, j < k → overlapping u i j = false) ∨
        (∃ j, j < k ∧ overlapping u i j = true ∧ t = kill i j u))
      u.enemy_count (hit_enemy_body i) u
      (Or.inl ⟨rfl, fun j hj => absurd hj (Nat.not_lt_zero j)⟩) (by
        intro k t hk ht
        rcases ht with ⟨rfl, hnone⟩ | ⟨j, hj, hov, rfl⟩
        · by_cases hit : (t.enemies.getD k default).active = true ∧
              proj_hits_enemy (t.projectiles.getD i default) (t.enemies.getD k default) = true
          · right
            exact ⟨k, Nat.lt_succ_self k, (overlapping_iff t i k).2 ⟨hp, hit.1, hit.2⟩,
              hit_enemy_body_hit i k t hit.1 hit.2⟩
          · left
            refine ⟨hit_enemy_body_miss i k t hit, ?_⟩
            intro j hj
            by_cases hjk : j = k
            · subst hjk
              rw [← Bool.not_eq_true]
              intro hc
              rw [overlapping_iff] at hc
              exact hit ⟨hc.2.1, hc.2.2⟩
            · exact hnone j (by omega)
        · right
          refine ⟨j, by omega, hov, ?_⟩
          apply hit_enemy_body_miss
          rintro ⟨ha, hh⟩
          have hjk : j ≠ k := by omega
          rw [kill_enemy_other i j k u hjk] at ha hh
          rw [proj_hits_enemy_congr _ (u.projectiles.getD i default) _
            (kill_projectile_pos i j i u).1 (kill_projectile_pos i j i u).2] at hh
          have := huniq j k (by omega) hk hov ((overlapping_iff u i k).2 ⟨hp, ha, hh⟩)
          exact hjk this)
    rcases key with ⟨h1, h2⟩ | ⟨j, hj, hov, h⟩
    · exact Or.inl ⟨h1, h2⟩
    · exact Or.inr ⟨j, hj, hov, h⟩
  · rw [if_pos (by rw [Bool.not_eq_true] at hp; rw [hp]; rfl)]
    left
    refine ⟨rfl, ?_⟩
    intro j _
    rw [← Bool.not_eq_true]
    intro hc
    rw [overlapping_iff] at hc
    exact hp hc.1

theorem countP_take_succ (l : List Projectile) (k : Nat) :
    (l.take k).countP (fun p => p.active) ≤ (l.take (k + 1)).countP (fun p => p.active) ∧
    ((l.getD k default).active = true →
      (l.take (k + 1)).countP (fun p => p.active)
        = (l.take k).countP (fun p => p.active) + 1) := by
  by_cases hk : k < l.length
  · rw [take_succ_getD l k default hk, List.countP_append]
    constructor
    · omega
    · intro h
      rw [List.countP_singleton]
      simp only [h, if_true]
  · rw [List.take_of_length_le (by omega), List.take_of_length_le (by omega)]
    refine ⟨le_refl _, ?_⟩
    intro h
    rw [getD_default_of_le _ _ _ (by omega)] at h
    exact Bool.noConfusion h

/-- The first collision pass under `NoDoubleHit`: the enemies killed are at
most as many as the active projectiles of the live pool. -/
theorem collide_proj_enemies_kills (s : GameState) (h : NoDoubleHit s) :
    0 ≤ s.alive_enemy_count - (collide_proj_enemies s).alive_enemy_count ∧
    s.alive_enemy_count - (collide_proj_enemies s).alive_enemy_count
      ≤ (active_projectiles s : Int) := by
  unfold collide_proj_enemies
  have key := forLoop_ind
    (fun k (t : GameState) =>
      t.enemy_count = s.enemy_count ∧
      (∀ i j, k ≤ i → overlapping t i j = true → overlapping s i j = true) ∧
      0 ≤ s.alive_enemy_count - t.alive_enemy_count ∧
      s.alive_enemy_count - t.alive_enemy_count
        ≤ (((s.projectiles.take k).countP (fun p => p.active) : Nat) : Int))
    s.projectile_count proj_vs_enemies_body s
    ⟨rfl, fun i j _ hov => hov, by omega, by simp⟩ (by
      intro k t hk ⟨hc, hov, h0, hle⟩
      have hmono := (countP_take_succ s.projectiles k).1
      rcases proj_vs_enemies_body_one k t (by
          intro j j' hj hj' h1 h2
          rw [hc] at hj hj'
          exact h k j j' hj hj' (hov k j (le_refl k) h1) (hov k j' (le_refl k) h2))
        with ⟨hsame, -⟩ | ⟨j, hj, hovj, hkill⟩
      · rw [hsame]
        refine ⟨hc, fun i j hi => hov i j (by omega), h0, ?_⟩
        omega
      · rw [hkill]
        have hsk := hov k j (le_refl k) hovj
        have hact : (s.projectiles.getD k default).active = true :=
          ((overlapping_iff s k j).1 hsk).1
        have hsucc := (countP_take_succ s.projectiles k).2 hact
        refine ⟨hc, ?_, ?_, ?_⟩
        · intro i j2 hi hov2
          exact hov i j2 (by omega) (overlapping_kill k j i j2 t (by omega) hov2)
        · show 0 ≤ s.alive_enemy_count - (t.alive_enemy_count - 1)
          omega
        · show s.alive_enemy_count - (t.alive_enemy_count - 1) ≤ _
          rw [hsucc]
          push_cast
          omega)
  obtain ⟨-, -, k0, k1⟩ := key
  refine ⟨k0, ?_⟩
  unfold active_projectiles player_pool
  exact k1

/-! # The formation keeps the grid spacing -/

theorem utils_rect_collision_iff (x1 y1 w1 h1 x2 y2 w2 h2 : Int) :
    utils_rect_collision x1 y1 w1 h1 x2 y2 w2 h2 = true ↔
      (x1 < x2 + w2 ∧ x1 + w1 > x2 ∧ y1 < y2 + h2 ∧ y1 + h1 > y2) := by
  unfold utils_rect_collision
  simp only [Bool.and_eq_true, decide_eq_true_eq]
  constructor
  · rintro ⟨⟨⟨a, b⟩, c⟩, d⟩
    exact ⟨a, b, c, d⟩
  · rintro ⟨a, b, c, d⟩
    exact ⟨⟨⟨a, b⟩, c⟩, d⟩

theorem gridInv_noDoubleHit (s : GameState) (h : GridInv s) : NoDoubleHit s := by
  obtain ⟨dx, dy, hg⟩ := h
  intro i j j' _ _ h1 h2
  rw [overlapping_iff] at h1 h2
  obtain ⟨-, ha, hh⟩ := h1
  obtain ⟨-, ha', hh'⟩ := h2
  obtain ⟨hj, hx, hy⟩ := hg j ha
  obtain ⟨hj', hx', hy'⟩ := hg j' ha'
  unfold proj_hits_enemy at hh hh'
  rw [utils_rect_collision_iff] at hh hh'
  rw [hx, hy] at hh
  rw [hx', hy'] at hh'
  rw [grid_enemy_eq] at hh hh'
  simp only [ENEMY_WIDTH, ENEMY_HEIGHT] at hh hh'
  omega

theorem gridInv_move (s : GameState) (hn : s.enemy_count = 30) (h : GridInv s) :
    GridInv (update_enemies_move s) := by
  obtain ⟨dx, dy, hg⟩ := h
  by_cases htr : step_triggered s
  · have hshape : ∀ i, ((update_enemies_move s).enemies.getD i default).active = true →
        (s.enemies.getD i default).active = true ∧ i < s.enemy_count.toNat := by
      intro i hact
      by_cases ha : (s.enemies.getD i default).active = true
      · refine ⟨ha, ?_⟩
        rw [hn]
        exact (hg i ha).1
      · rw [(update_enemies_move_entries s htr i).1 (by rw [Bool.not_eq_true] at ha; exact ha)]
          at hact
        exact absurd hact ha
    by_cases he : edge_hit s
    · refine ⟨dx + s.enemy_direction, dy + ENEMY_MOVE_DOWN, ?_⟩
      intro i hact
      obtain ⟨ha, hi⟩ := hshape i hact
      obtain ⟨hx, -, -, hy, -⟩ := (update_enemies_move_entries s htr i).2.1 hi ha
      obtain ⟨g1, g2, g3⟩ := hg i ha
      rw [hx, hy he, g2, g3]
      exact ⟨g1, by ring, by ring⟩
    · refine ⟨dx + s.enemy_direction, dy, ?_⟩
      intro i hact
      obtain ⟨ha, hi⟩ := hshape i hact
      obtain ⟨hx, -, -, -, hy⟩ := (update_enemies_move_entries s htr i).2.1 hi ha
      obtain ⟨g1, g2, g3⟩ := hg i ha
      rw [hx, hy he, g2, g3]
      exact ⟨g1, by ring, rfl⟩
  · rw [update_enemies_move_idle s htr]
    exact ⟨dx, dy, hg⟩

theorem gridInv_advance (rand : Nat) (s : GameState) (hn : s.enemy_count = 30)
    (h : GridInv s) : GridInv (advance rand s) := by
  have hm : GridInv (update_enemies_move { s with frame_count := s.frame_count + 1 }) :=
    gridInv_move _ hn h
  unfold GridInv
  rw [(advance_of_move rand s).1]
  exact hm

theorem gridInv_handle_collisions (s : GameState) (h : GridInv s) :
    GridInv (handle_collisions s) := by
  obtain ⟨dx, dy, hg⟩ := h
  refine ⟨dx, dy, ?_⟩
  intro i hact
  rw [(handle_collisions_enemy_pos s i).1, (handle_collisions_enemy_pos s i).2]
  exact hg i (handle_collisions_enemy_active s i hact)

theorem gridInv_respawn (rnd : Nat → Nat) (s t : GameState) (h : GridInv s)
    (he : t.enemies = s.enemies) (hl : 30 ≤ t.enemies.length) :
    GridInv (init_shields rnd (init_enemies t)) := by
  obtain ⟨dx, dy, hg⟩ := h
  refine ⟨0, 0, ?_⟩
  intro i hact
  rw [respawn_entry rnd t hl i] at hact ⊢
  by_cases hi : i < 30
  · rw [if_pos hi]
    exact ⟨hi, by ring, by ring⟩
  · rw [if_neg hi, he] at hact
    exact absurd (hg i hact).1 hi

theorem gridInv_same {s t : GameState} (h : GridInv s) (he : t.enemies = s.enemies) :
    GridInv t := by
  unfold GridInv
  rw [he]
  exact h

theorem gridInv_next_level (rnd : Nat → Nat) (s : GameState)
    (hl : 30 ≤ s.enemies.length) (h : GridInv s) : GridInv (game_next_level rnd s) := by
  by_cases hlev : s.level < 10
  · rw [game_next_level_respawn rnd s hlev]
    exact gridInv_respawn rnd s _ h rfl hl
  · rw [game_next_level_win rnd s (by omega)]
    exact gridInv_same h rfl

theorem gridInv_update (rand : Nat) (rnd : Nat → Nat) (s : GameState)
    (hn : s.enemy_count = 30) (hl : 30 ≤ s.enemies.length) (h : GridInv s) :
    GridInv (game_update rand rnd s) := by
  rcases running_or_frozen s with ⟨hp, hg⟩ | hf
  · rw [game_update_running rand rnd s hp hg]
    have hc := gridInv_handle_collisions _ (gridInv_advance rand s hn h)
    have hlen : 30 ≤ (handle_collisions (advance rand s)).enemies.length := by
      rw [handle_collisions_enemies_length, advance_enemies_length]
      exact hl
    unfold check_level_complete
    split_ifs
    · exact gridInv_next_level rnd _ hlen hc
    · exact hc
  · rw [game_update_frozen rand rnd s hf]
    exact h

theorem gridInv_init (rnd : Nat → Nat) : GridInv (game_init rnd) := by
  refine ⟨0, 0, ?_⟩
  intro i hact
  by_cases hi : i < 30
  · rw [game_init_entry, if_pos hi]
    exact ⟨hi, by ring, by ring⟩
  · rw [game_init_entry, if_neg hi] at hact
    exact Bool.noConfusion hact

theorem reachable_gridInv {s : GameState} (h : Reachable s) : GridInv s := by
  induction h with
  | init rnd => exact gridInv_init rnd
  | update rand rnd s hs ih =>
    exact gridInv_update rand rnd s (reachable_marchInv hs).1 (reachable_enemyInv hs).1 ih
  | move_left s _ ih =>
    exact gridInv_same ih (player_commands_frame s _ (Or.inl rfl)).1
  | move_right s _ ih =>
    exact gridInv_same ih (player_commands_frame s _ (Or.inr (Or.inl rfl))).1
  | shoot s _ ih =>
    exact gridInv_same ih (player_commands_frame s _ (Or.inr (Or.inr (Or.inl rfl)))).1
  | toggle_pause s _ ih =>
    exact gridInv_same ih (player_commands_frame s _ (Or.inr (Or.inr (Or.inr rfl)))).1
  | next_level rnd s hs ih => exact gridInv_next_level rnd s (reachable_enemyInv hs).1 ih
  | set_level rnd s level hs ih =>
    by_cases hn : 1 ≤ level
    · rw [game_set_level_respawn rnd s level hn]
      exact gridInv_respawn rnd s _ ih rfl (reachable_enemyInv hs).1
    · unfold game_set_level
      rw [if_pos (by omega)]
      exact ih
  | reset rnd s hs ih =>
    unfold game_reset
    exact gridInv_respawn rnd s _ ih rfl (reachable_enemyInv hs).1

/-- In play no projectile can overlap two active enemies, neither between
frames nor when the collision pass runs. -/
theorem reachable_noDoubleHit {s : GameState} (h : Reachable s) (rand : Nat) :
    NoDoubleHit s ∧ NoDoubleHit (advance rand s) :=
  ⟨gridInv_noDoubleHit s (reachable_gridInv h),
   gridInv_noDoubleHit _ (gridInv_advance rand s (reachable_marchInv h).1 (reachable_gridInv h))⟩

theorem reachable_shot_run (k : Nat) : Reachable (shot_run k) := by
  induction k with
  | zero => exact Reachable.shoot _ (Reachable.init rnd0)
  | succ k ih => exact Reachable.update 0 rnd0 _ ih

theorem advance_score (rand : Nat) (s : GameState) :
    (advance rand s).player.score = s.player.score := by
  rw [advance_frame]

/-! # The shield passes -/

theorem default_shield_block (b : Nat) :
    (default : Shield).blocks.getD b default = default := by
  show (List.replicate 48 (default : ShieldBlock)).getD b default = default
  rw [List.getD_eq_getElem?_getD, List.getElem?_replicate]
  split_ifs <;> rfl

/-- A block with health left is inside its arrays. -/
theorem live_in_range (shields : List Shield) (k b : Nat)
    (h : 0 < ((shields.getD k default).blocks.getD b default).health) :
    k < shields.length ∧ b < (shields.getD k default).blocks.length := by
  constructor
  · by_contra hk
    rw [getD_default_of_le shields k default (by omega), default_shield_block] at h
    exact absurd h (by decide)
  · by_contra hb
    rw [getD_default_of_le (shields.getD k default).blocks _ _ (by omega)] at h
    exact absurd h (by decide)

theorem damage_block_at (shields : List Shield) (k b : Nat)
    (hk : k < shields.length) (hb : b < (shields.getD k default).blocks.length)
    (k' b' : Nat) :
    ((damage_block k b shields).getD k' default).blocks.getD b' default
      = (if k' = k ∧ b' = b then worn ((shields.getD k default).blocks.getD b default)
         else (shields.getD k' default).blocks.getD b' default) ∧
    ((damage_block k b shields).getD k' default).block_count
      = (shields.getD k' default).block_count := by
  by_cases hkk : k' = k
  · have hsh : (damage_block k b shields).getD k' default
        = { shields.getD k default with
            blocks := (shields.getD k default).blocks.set b
              (worn ((shields.getD k default).blocks.getD b default)) } := by
      rw [hkk]
      unfold damage_block
      exact getD_set_self _ _ _ _ hk
    rw [hsh]
    refine ⟨?_, by rw [hkk]⟩
    by_cases hbb : b' = b
    · rw [if_pos ⟨hkk, hbb⟩, hbb]
      exact getD_set_self _ _ _ _ hb
    · rw [if_neg (fun hc => hbb hc.2), hkk]
      exact getD_set_ne _ _ _ _ _ (Ne.symm hbb)
  · have hsh : (damage_block k b shields).getD k' default = shields.getD k' default := by
      unfold damage_block
      exact getD_set_ne _ _ _ _ _ (Ne.symm hkk)
    rw [hsh, if_neg (fun hc => hkk hc.1)]
    exact ⟨rfl, rfl⟩

theorem shield_hit_live (p : Projectile) (blk : ShieldBlock) (h : shield_hit p blk = true) :
    0 < blk.health ∧ utils_rect_collision p.x p.y 1 1 blk.x blk.y 6 2 = true := by
  unfold shield_hit at h
  rw [Bool.and_eq_true, decide_eq_true_eq] at h
  exact h

theorem shield_hit_dead (p : Projectile) (blk : ShieldBlock) (h : blk.health ≤ 0) :
    shield_hit p blk = false := by
  rw [← Bool.not_eq_true]
  intro hc
  have := (shield_hit_live p blk hc).1
  omega

theorem shield_hit_congr (p q : Projectile) (blk : ShieldBlock) (hx : q.x = p.x)
    (hy : q.y = p.y) : shield_hit q blk = shield_hit p blk := by
  unfold shield_hit
  rw [hx, hy]

/-- One test of the player pass: a hit deactivates the slot and wears the block;
anything else leaves the state as it is. -/
theorem hit_shield_body_event (i k b : Nat) (v : GameState) :
    (shield_hit (v.projectiles.getD i default) (block_at v k b) = true →
      hit_shield_body i k b v
        = { v with
            projectiles := v.projectiles.set i
              { v.projectiles.getD i default with active := false }
            shields := damage_block k b v.shields }) ∧
    (shield_hit (v.projectiles.getD i default) (block_at v k b) = false →
      hit_shield_body i k b v = v) := by
  unfold hit_shield_body shield_hit block_at
  simp only
  constructor
  · intro h
    rw [Bool.and_eq_true, decide_eq_true_eq] at h
    rw [if_neg (by omega), if_pos h.2]
  · intro h
    by_cases hd : ((v.shields.getD k default).blocks.getD b default).health ≤ 0
    · rw [if_pos hd]
    · rw [if_neg hd]
      have h0 : decide (0 < ((v.shields.getD k default).blocks.getD b default).health) = true :=
        decide_eq_true (by omega)
      rw [h0, Bool.true_and] at h
      rw [if_neg (by rw [h]; decide)]

/-- One test of the enemy pass. -/
theorem ehit_shield_body_event (i k b : Nat) (v : GameState) :
    (shield_hit (v.enemy_projectiles.getD i default) (block_at v k b) = true →
      ehit_shield_body i k b v
        = { v with
            enemy_projectiles := v.enemy_projectiles.set i
              { v.enemy_projectiles.getD i default with active := false }
            shields := damage_block k b v.shields }) ∧
    (shield_hit (v.enemy_projectiles.getD i default) (block_at v k b) = false →
      ehit_shield_body i k b v = v) := by
  unfold ehit_shield_body shield_hit block_at
  simp only
  constructor
  · intro h
    rw [Bool.and_eq_true, decide_eq_true_eq] at h
    rw [if_neg (by omega), if_pos h.2]
  · intro h
    by_cases hd : ((v.shields.getD k default).blocks.getD b default).health ≤ 0
    · rw [if_pos hd]
    · rw [if_neg hd]
      have h0 : decide (0 < ((v.shields.getD k default).blocks.getD b default).health) = true :=
        decide_eq_true (by omega)
      rw [h0, Bool.true_and] at h
      rw [if_neg (by rw [h]; decide)]

theorem blocksWorn_refl (s : GameState) : BlocksWorn s s :=
  fun _ _ => ⟨rfl, rfl, le_refl _, fun h => h, fun _ => rfl⟩

theorem blocksWorn_trans {s t r : GameState} (h1 : BlocksWorn s t) (h2 : BlocksWorn t r) :
    BlocksWorn s r := by
  intro k b
  obtain ⟨a1, a2, a3, a4, a5⟩ := h1 k b
  obtain ⟨b1, b2, b3, b4, b5⟩ := h2 k b
  refine ⟨b1.trans a1, b2.trans a2, le_trans b3 a3, fun h => b4 (a4 h), ?_⟩
  intro h
  have e1 := a5 h
  have : (block_at t k b).health ≤ 0 := by rw [e1]; exact h
  rw [b5 this, e1]

theorem blocksWorn_of_shields {s t : GameState} (h : t.shields = s.shields) :
    BlocksWorn s t := by
  intro k b
  unfold block_at
  rw [h]
  exact ⟨rfl, rfl, le_refl _, fun h => h, fun _ => rfl⟩

/-- Wearing a block that has health left only wears the blocks down. -/
theorem blocksWorn_damage (v r : GameState) (k b : Nat)
    (hlive : 0 < (block_at v k b).health)
    (hr : r.shields = damage_block k b v.shields) : BlocksWorn v r := by
  obtain ⟨hk, hb⟩ := live_in_range v.shields k b hlive
  intro k' b'
  unfold block_at at hlive ⊢
  rw [hr, (damage_block_at v.shields k b hk hb k' b').1]
  by_cases hc : k' = k ∧ b' = b
  · rw [if_pos hc]
    obtain ⟨h1, h2⟩ := hc
    subst h1
    subst h2
    refine ⟨rfl, rfl, ?_, ?_, ?_⟩
    · show ((v.shields.getD k' default).blocks.getD b' default).health - 1 ≤ _
      omega
    · intro _
      show 0 ≤ ((v.shields.getD k' default).blocks.getD b' default).health - 1
      omega
    · intro h
      omega
  · rw [if_neg hc]
    exact ⟨rfl, rfl, le_refl _, fun h => h, fun _ => rfl⟩

theorem hit_shield_body_worn (i k b : Nat) (v : GameState) :
    BlocksWorn v (hit_shield_body i k b v) := by
  cases hh : shield_hit (v.projectiles.getD i default) (block_at v k b)
  · rw [(hit_shield_body_event i k b v).2 hh]
    exact blocksWorn_refl v
  · rw [(hit_shield_body_event i k b v).1 hh]
    exact blocksWorn_damage v _ k b (shield_hit_live _ _ hh).1 rfl

theorem ehit_shield_body_worn (i k b : Nat) (v : GameState) :
    BlocksWorn v (ehit_shield_body i k b v) := by
  cases hh : shield_hit (v.enemy_projectiles.getD i default) (block_at v k b)
  · rw [(ehit_shield_body_event i k b v).2 hh]
    exact blocksWorn_refl v
  · rw [(ehit_shield_body_event i k b v).1 hh]
    exact blocksWorn_damage v _ k b (shield_hit_live _ _ hh).1 rfl

theorem hit_shield_loop_worn (i k : Nat) (c : Int) (s t : GameState) (h : BlocksWorn s t) :
    BlocksWorn s (forLoop c (hit_shield_body i k) t) :=
  forLoop_inv (fun u : GameState => BlocksWorn s u) c (hit_shield_body i k) t h
    (fun b u _ hu => blocksWorn_trans hu (hit_shield_body_worn i k b u))

theorem ehit_shield_loop_worn (i k : Nat) (c : Int) (s t : GameState) (h : BlocksWorn s t) :
    BlocksWorn s (forLoop c (ehit_shield_body i k) t) :=
  forLoop_inv (fun u : GameState => BlocksWorn s u) c (ehit_shield_body i k) t h
    (fun b u _ hu => blocksWorn_trans hu (ehit_shield_body_worn i k b u))

theorem proj_vs_shields_body_worn (i : Nat) (s t : GameState) (h : BlocksWorn s t) :
    BlocksWorn s (proj_vs_shields_body i t) := by
  unfold proj_vs_shields_body
  split_ifs
  · exact h
  · exact forLoop_inv (fun u : GameState => BlocksWorn s u) _ _ t h
      (fun k u _ hu => hit_shield_loop_worn i k _ s u hu)

theorem eproj_vs_shields_body_worn (i : Nat) (s t : GameState) (h : BlocksWorn s t) :
    BlocksWorn s (eproj_vs_shields_body i t) := by
  unfold eproj_vs_shields_body
  split_ifs
  · exact h
  · exact forLoop_inv (fun u : GameState => BlocksWorn s u) _ _ t h
      (fun k u _ hu => ehit_shield_loop_worn i k _ s u hu)

/-- Both shield passes, and `handle_collisions` as a whole, only wear the
blocks down. -/
theorem handle_collisions_worn (s : GameState) :
    BlocksWorn s (collide_proj_shields s) ∧ BlocksWorn s (collide_eproj_shields s) ∧
    BlocksWorn s (handle_collisions s) := by
  have hp : ∀ t : GameState, BlocksWorn t (collide_proj_shields t) := by
    intro t
    unfold collide_proj_shields
    exact forLoop_inv (fun u : GameState => BlocksWorn t u) _ _ t (blocksWorn_refl t)
      (fun i u _ hu => proj_vs_shields_body_worn i t u hu)
  have he : ∀ t : GameState, BlocksWorn t (collide_eproj_shields t) := by
    intro t
    unfold collide_eproj_shields
    exact forLoop_inv (fun u : GameState => BlocksWorn t u) _ _ t (blocksWorn_refl t)
      (fun i u _ hu => eproj_vs_shields_body_worn i t u hu)
  refine ⟨hp s, he s, ?_⟩
  unfold handle_collisions
  have h1 : BlocksWorn s (collide_proj_enemies s) :=
    blocksWorn_of_shields (by rw [collide_proj_enemies_frame])
  have h3 : BlocksWorn (collide_proj_shields (collide_proj_enemies s))
      (collide_eproj_player (collide_proj_shields (collide_proj_enemies s))) :=
    blocksWorn_of_shields (by rw [collide_eproj_player_frame])
  exact blocksWorn_trans (blocksWorn_trans (blocksWorn_trans h1 (hp _)) h3) (he _)

/-! # The sweep of one projectile over the shields -/

theorem swept_congr_player (i : Nat) (seen seen' : Nat → Nat → Prop) (t r : GameState)
    (hs : ∀ k b, seen k b ↔ seen' k b) (h : SweptPlayer i seen t r) : SweptPlayer i seen' t r := by
  have : seen = seen' := funext (fun k => funext (fun b => propext (hs k b)))
  rw [← this]
  exact h

theorem swept_start_player (i : Nat) (t : GameState) : SweptPlayer i (fun _ _ => False) t t :=
  ⟨fun _ _ hf => absurd hf not_false, fun _ _ _ => rfl, fun _ => rfl,
   fun ⟨_, _, hf, _⟩ => absurd hf not_false, fun _ => rfl, fun _ _ => rfl⟩

/-- The slot under test keeps its position while its sweep runs. -/
theorem swept_slot_pos_player (i : Nat) (seen : Nat → Nat → Prop) (t v : GameState)
    (h : SweptPlayer i seen t v) :
    (v.projectiles.getD i default).x = (t.projectiles.getD i default).x ∧
    (v.projectiles.getD i default).y = (t.projectiles.getD i default).y := by
  by_cases he : ∃ k b, seen k b ∧ shield_hit (t.projectiles.getD i default) (block_at t k b) = true
  · rw [h.2.2.2.1 he]
    exact ⟨rfl, rfl⟩
  · rw [h.2.2.2.2.1 he]
    exact ⟨rfl, rfl⟩

/-- One more block tested. -/
theorem swept_step_player (i k b : Nat) (seen : Nat → Nat → Prop) (t v : GameState)
    (h : SweptPlayer i seen t v) (hns : ¬ seen k b) :
    SweptPlayer i (fun k' b' => seen k' b' ∨ (k' = k ∧ b' = b)) t (hit_shield_body i k b v) := by
  obtain ⟨c1, c2, c3, c4, c5, c6⟩ := h
  obtain ⟨px, py⟩ := swept_slot_pos_player i seen t v ⟨c1, c2, c3, c4, c5, c6⟩
  have hblk : block_at v k b = block_at t k b := c2 k b (fun hc => hns hc.1)
  have hsame : shield_hit (v.projectiles.getD i default) (block_at v k b)
      = shield_hit (t.projectiles.getD i default) (block_at t k b) := by
    rw [hblk]
    exact shield_hit_congr _ _ _ px py
  cases hh : shield_hit (t.projectiles.getD i default) (block_at t k b)
  · rw [(hit_shield_body_event i k b v).2 (hsame.trans hh)]
    refine ⟨?_, ?_, c3, ?_, ?_, c6⟩
    · intro k' b' hs hhit
      rcases hs with hs | ⟨hk, hb⟩
      · exact c1 k' b' hs hhit
      · rw [hk, hb, hh] at hhit
        exact Bool.noConfusion hhit
    · intro k' b' hn
      exact c2 k' b' (fun hc => hn ⟨Or.inl hc.1, hc.2⟩)
    · rintro ⟨k', b', hs, hhit⟩
      rcases hs with hs | ⟨hk, hb⟩
      · exact c4 ⟨k', b', hs, hhit⟩
      · rw [hk, hb, hh] at hhit
        exact Bool.noConfusion hhit
    · intro hn
      exact c5 (fun ⟨k', b', hs, hhit⟩ => hn ⟨k', b', Or.inl hs, hhit⟩)
  · rw [(hit_shield_body_event i k b v).1 (hsame.trans hh)]
    have hlive : 0 < ((v.shields.getD k default).blocks.getD b default).health :=
      (shield_hit_live _ _ (hsame.trans hh)).1
    obtain ⟨hk, hb⟩ := live_in_range v.shields k b hlive
    have hat : ∀ k' b', block_at
        { v with
          projectiles := v.projectiles.set i { v.projectiles.getD i default with active := false }
          shields := damage_block k b v.shields } k' b'
        = if k' = k ∧ b' = b then worn (block_at v k b) else block_at v k' b' :=
      fun k' b' => (damage_block_at v.shields k b hk hb k' b').1
    refine ⟨?_, ?_, ?_, ?_, ?_, ?_⟩
    · intro k' b' hs hhit
      rw [hat k' b']
      by_cases hc : k' = k ∧ b' = b
      · rw [if_pos hc, hc.1, hc.2, hblk]
      · rw [if_neg hc]
        rcases hs with hs | hs
        · exact c1 k' b' hs hhit
        · exact absurd hs hc
    · intro k' b' hn
      rw [hat k' b']
      have hc : ¬ (k' = k ∧ b' = b) := by
        rintro ⟨hk', hb'⟩
        exact hn ⟨Or.inr ⟨hk', hb'⟩, by rw [hk', hb']; exact hh⟩
      rw [if_neg hc]
      exact c2 k' b' (fun hc' => hn ⟨Or.inl hc'.1, hc'.2⟩)
    · intro k'
      exact ((damage_block_at v.shields k b hk hb k' 0).2).trans (c3 k')
    · intro _
      show (v.projectiles.set i { v.projectiles.getD i default with active := false }).getD i default
        = { t.projectiles.getD i default with active := false }
      rw [getD_set_same]
      split_ifs with hl
      · show Projectile.mk (v.projectiles.getD i default).x (v.projectiles.getD i default).y false
          = Projectile.mk (t.projectiles.getD i default).x (t.projectiles.getD i default).y false
        rw [px, py]
      · have hd : v.projectiles.getD i default = default :=
          getD_default_of_le _ _ _ (by omega)
        rw [hd] at px py
        show (default : Projectile)
          = Projectile.mk (t.projectiles.getD i default).x (t.projectiles.getD i default).y false
        rw [← px, ← py]
        rfl
    · intro hn
      exact absurd ⟨k, b, Or.inr ⟨rfl, rfl⟩, hh⟩ hn
    · intro n hn
      show (v.projectiles.set i { v.projectiles.getD i default with active := false }).getD n default
        = t.projectiles.getD n default
      rw [getD_set_ne _ _ _ _ _ (Ne.symm hn)]
      exact c6 n hn

/-- One shield tested: the inner loop over its blocks. -/
theorem swept_row_player (i k : Nat) (c : Int) (seen : Nat → Nat → Prop) (t v : GameState)
    (h : SweptPlayer i seen t v) (hns : ∀ b, ¬ seen k b) :
    SweptPlayer i (fun k' b' => seen k' b' ∨ (k' = k ∧ b' < c.toNat)) t
      (forLoop c (hit_shield_body i k) v) := by
  refine forLoop_ind
    (fun b (u : GameState) => SweptPlayer i (fun k' b' => seen k' b' ∨ (k' = k ∧ b' < b)) t u)
    c (hit_shield_body i k) v ?_ ?_
  · exact swept_congr_player i seen _ t v
      (fun k' b' => ⟨fun hs => Or.inl hs, fun hs => hs.elim (fun x => x)
        (fun x => absurd x.2 (Nat.not_lt_zero b'))⟩) h
  · intro b u _ hu
    have hstep := swept_step_player i k b _ t u hu (by
      rintro (hs | ⟨_, hlt⟩)
      · exact hns b hs
      · exact Nat.lt_irrefl b hlt)
    refine swept_congr_player i _ _ t _ ?_ hstep
    intro k' b'
    constructor
    · rintro ((hs | ⟨hk, hb⟩) | ⟨hk, hb⟩)
      · exact Or.inl hs
      · exact Or.inr ⟨hk, by omega⟩
      · exact Or.inr ⟨hk, by omega⟩
    · rintro (hs | ⟨hk, hb⟩)
      · exact Or.inl (Or.inl hs)
      · by_cases hbb : b' = b
        · exact Or.inr ⟨hk, hbb⟩
        · exact Or.inl (Or.inr ⟨hk, by omega⟩)

/-- The sweep of an active projectile over all shields: every block below its
shield's `block_count` that the projectile hits loses one health, and the
projectile is deactivated if it hit something. -/
theorem sweep_spec_player (i : Nat) (u : GameState)
    (hact : (u.projectiles.getD i default).active = true) :
    SweptPlayer i (fun k b => k < 4 ∧ b < ((u.shields.getD k default).block_count).toNat) u
      (proj_vs_shields_body i u) := by
  unfold proj_vs_shields_body
  rw [if_neg (by rw [hact]; decide)]
  have key := forLoop_ind
    (fun k (v : GameState) =>
      SweptPlayer i (fun k' b' => k' < k ∧ b' < ((u.shields.getD k' default).block_count).toNat) u v)
    SHIELD_COUNT
    (fun k t => forLoop (t.shields.getD k default).block_count (hit_shield_body i k) t) u
    (swept_congr_player i _ _ u u
      (fun k' b' => ⟨fun hf => absurd hf not_false,
        fun hs => absurd hs.1 (Nat.not_lt_zero k')⟩) (swept_start_player i u))
    (by
      intro k v _ hv
      have hrow := swept_row_player i k (v.shields.getD k default).block_count _ u v hv
        (fun b hs => Nat.lt_irrefl k hs.1)
      have hbc := hv.2.2.1 k
      refine swept_congr_player i _ _ u _ ?_ hrow
      intro k' b'
      constructor
      · rintro (⟨hk, hb⟩ | ⟨hk, hb⟩)
        · exact ⟨by omega, hb⟩
        · rw [hbc] at hb
          exact ⟨by omega, by rw [hk]; exact hb⟩
      · rintro ⟨hk, hb⟩
        by_cases hkk : k' = k
        · rw [hkk] at hb
          exact Or.inr ⟨hkk, by rw [hbc]; exact hb⟩
        · exact Or.inl ⟨by omega, hb⟩)
  exact key

theorem sweep_inactive_player (i : Nat) (u : GameState)
    (h : (u.projectiles.getD i default).active = false) : proj_vs_shields_body i u = u := by
  unfold proj_vs_shields_body
  rw [if_pos (by rw [h]; rfl)]

/-- A slot that is inactive when the pass starts is inactive when its turn
comes, so its sweep changes nothing. -/
theorem sweep_after_inactive_player (i : Nat) (n : Int) (t : GameState)
    (h : (t.projectiles.getD i default).active = false) :
    proj_vs_shields_body i (forLoop n proj_vs_shields_body t) = forLoop n proj_vs_shields_body t := by
  apply sweep_inactive_player
  refine forLoop_inv (fun u : GameState => (u.projectiles.getD i default).active = false) _ _ t h ?_
  intro j u _ hu
  unfold proj_vs_shields_body
  split_ifs
  · exact hu
  · exact forLoop_inv (fun w : GameState => (w.projectiles.getD i default).active = false) _ _ u hu
      (fun k w _ hw =>
        forLoop_inv (fun x : GameState => (x.projectiles.getD i default).active = false) _ _ w hw
          (fun b x _ hx => hit_shield_body_inactive j k b i x hx))

theorem swept_congr_enemy (i : Nat) (seen seen' : Nat → Nat → Prop) (t r : GameState)
    (hs : ∀ k b, seen k b ↔ seen' k b) (h : SweptEnemy i seen t r) : SweptEnemy i seen' t r := by
  have : seen = seen' := funext (fun k => funext (fun b => propext (hs k b)))
  rw [← this]
  exact h

theorem swept_start_enemy (i : Nat) (t : GameState) : SweptEnemy i (fun _ _ => False) t t :=
  ⟨fun _ _ hf => absurd hf not_false, fun _ _ _ => rfl, fun _ => rfl,
   fun ⟨_, _, hf, _⟩ => absurd hf not_false, fun _ => rfl, fun _ _ => rfl⟩

/-- The slot under test keeps its position while its sweep runs. -/
theorem swept_slot_pos_enemy (i : Nat) (seen : Nat → Nat → Prop) (t v : GameState)
    (h : SweptEnemy i seen t v) :
    (v.enemy_projectiles.getD i default).x = (t.enemy_projectiles.getD i default).x ∧
    (v.enemy_projectiles.getD i default).y = (t.enemy_projectiles.getD i default).y := by
  by_cases he : ∃ k b, seen k b ∧ shield_hit (t.enemy_projectiles.getD i default) (block_at t k b) = true
  · rw [h.2.2.2.1 he]
    exact ⟨rfl, rfl⟩
  · rw [h.2.2.2.2.1 he]
    exact ⟨rfl, rfl⟩

/-- One more block tested. -/
theorem swept_step_enemy (i k b : Nat) (seen : Nat → Nat → Prop) (t v : GameState)
    (h : SweptEnemy i seen t v) (hns : ¬ seen k b) :
    SweptEnemy i (fun k' b' => seen k' b' ∨ (k' = k ∧ b' = b)) t (ehit_shield_body i k b v) := by
  obtain ⟨c1, c2, c3, c4, c5, c6⟩ := h
  obtain ⟨px, py⟩ := swept_slot_pos_enemy i seen t v ⟨c1, c2, c3, c4, c5, c6⟩
  have hblk : block_at v k b = block_at t k b := c2 k b (fun hc => hns hc.1)
  have hsame : shield_hit (v.enemy_projectiles.getD i default) (block_at v k b)
      = shield_hit (t.enemy_projectiles.getD i default) (block_at t k b) := by
    rw [hblk]
    exact shield_hit_congr _ _ _ px py
  cases hh : shield_hit (t.enemy_projectiles.getD i default) (block_at t k b)
  · rw [(ehit_shield_body_event i k b v).2 (hsame.trans hh)]
    refine ⟨?_, ?_, c3, ?_, ?_, c6⟩
    · intro k' b' hs hhit
      rcases hs with hs | ⟨hk, hb⟩
      · exact c1 k' b' hs hhit
      · rw [hk, hb, hh] at hhit
        exact Bool.noConfusion hhit
    · intro k' b' hn
      exact c2 k' b' (fun hc => hn ⟨Or.inl hc.1, hc.2⟩)
    · rintro ⟨k', b', hs, hhit⟩
      rcases hs with hs | ⟨hk, hb⟩
      · exact c4 ⟨k', b', hs, hhit⟩
      · rw [hk, hb, hh] at hhit
        exact Bool.noConfusion hhit
    · intro hn
      exact c5 (fun ⟨k', b', hs, hhit⟩ => hn ⟨k', b', Or.inl hs, hhit⟩)
  · rw [(ehit_shield_body_event i k b v).1 (hsame.trans hh)]
    have hlive : 0 < ((v.shields.getD k default).blocks.getD b default).health :=
      (shield_hit_live _ _ (hsame.trans hh)).1
    obtain ⟨hk, hb⟩ := live_in_range v.shields k b hlive
    have hat : ∀ k' b', block_at
        { v with
          enemy_projectiles := v.enemy_projectiles.set i { v.enemy_projectiles.getD i default with active := false }
          shields := damage_block k b v.shields } k' b'
        = if k' = k ∧ b' = b then worn (block_at v k b) else block_at v k' b' :=
      fun k' b' => (damage_block_at v.shields k b hk hb k' b').1
    refine ⟨?_, ?_, ?_, ?_, ?_, ?_⟩
    · intro k' b' hs hhit
      rw [hat k' b']
      by_cases hc : k' = k ∧ b' = b
      · rw [if_pos hc, hc.1, hc.2, hblk]
      · rw [if_neg hc]
        rcases hs with hs | hs
        · exact c1 k' b' hs hhit
        · exact absurd hs hc
    · intro k' b' hn
      rw [hat k' b']
      have hc : ¬ (k' = k ∧ b' = b) := by
        rintro ⟨hk', hb'⟩
        exact hn ⟨Or.inr ⟨hk', hb'⟩, by rw [hk', hb']; exact hh⟩
      rw [if_neg hc]
      exact c2 k' b' (fun hc' => hn ⟨Or.inl hc'.1, hc'.2⟩)
    · intro k'
      exact ((damage_block_at v.shields k b hk hb k' 0).2).trans (c3 k')
    · intro _
      show (v.enemy_projectiles.set i { v.enemy_projectiles.getD i default with active := false }).getD i default
        = { t.enemy_projectiles.getD i default with active := false }
      rw [getD_set_same]
      split_ifs with hl
      · show Projectile.mk (v.enemy_projectiles.getD i default).x (v.enemy_projectiles.getD i default).y false
          = Projectile.mk (t.enemy_projectiles.getD i default).x (t.enemy_projectiles.getD i default).y false
        rw [px, py]
      · have hd : v.enemy_projectiles.getD i default = default :=
          getD_default_of_le _ _ _ (by omega)
        rw [hd] at px py
        show (default : Projectile)
          = Projectile.mk (t.enemy_projectiles.getD i default).x (t.enemy_projectiles.getD i default).y false
        rw [← px, ← py]
        rfl
    · intro hn
      exact absurd ⟨k, b, Or.inr ⟨rfl, rfl⟩, hh⟩ hn
    · intro n hn
      show (v.enemy_projectiles.set i { v.enemy_projectiles.getD i default with active := false }).getD n default
        = t.enemy_projectiles.getD n default
      rw [getD_set_ne _ _ _ _ _ (Ne.symm hn)]
      exact c6 n hn

/-- One shield tested: the inner loop over its blocks. -/
theorem swept_row_enemy (i k : Nat) (c : Int) (seen : Nat → Nat → Prop) (t v : GameState)
    (h : SweptEnemy i seen t v) (hns : ∀ b, ¬ seen k b) :
    SweptEnemy i (fun k' b' => seen k' b' ∨ (k' = k ∧ b' < c.toNat)) t
      (forLoop c (ehit_shield_body i k) v) := by
  refine forLoop_ind
    (fun b (u : GameState) => SweptEnemy i (fun k' b' => seen k' b' ∨ (k' = k ∧ b' < b)) t u)
    c (ehit_shield_body i k) v ?_ ?_
  · exact swept_congr_enemy i seen _ t v
      (fun k' b' => ⟨fun hs => Or.inl hs, fun hs => hs.elim (fun x => x)
        (fun x => absurd x.2 (Nat.not_lt_zero b'))⟩) h
  · intro b u _ hu
    have hstep := swept_step_enemy i k b _ t u hu (by
      rintro (hs | ⟨_, hlt⟩)
      · exact hns b hs
      · exact Nat.lt_irrefl b hlt)
    refine swept_congr_enemy i _ _ t _ ?_ hstep
    intro k' b'
    constructor
    · rintro ((hs | ⟨hk, hb⟩) | ⟨hk, hb⟩)
      · exact Or.inl hs
      · exact Or.inr ⟨hk, by omega⟩
      · exact Or.inr ⟨hk, by omega⟩
    · rintro (hs | ⟨hk, hb⟩)
      · exact Or.inl (Or.inl hs)
      · by_cases hbb : b' = b
        · exact Or.inr ⟨hk, hbb⟩
        · exact Or.inl (Or.inr ⟨hk, by omega⟩)

/-- The sweep of an active projectile over all shields: every block below its
shield's `block_count` that the projectile hits loses one health, and the
projectile is deactivated if it hit something. -/
theorem sweep_spec_enemy (i : Nat) (u : GameState)
    (hact : (u.enemy_projectiles.getD i default).active = true) :
    SweptEnemy i (fun k b => k < 4 ∧ b < ((u.shields.getD k default).block_count).toNat) u
      (eproj_vs_shields_body i u) := by
  unfold eproj_vs_shields_body
  rw [if_neg (by rw [hact]; decide)]
  have key := forLoop_ind
    (fun k (v : GameState) =>
      SweptEnemy i (fun k' b' => k' < k ∧ b' < ((u.shields.getD k' default).block_count).toNat) u v)
    SHIELD_COUNT
    (fun k t => forLoop (t.shields.getD k default).block_count (ehit_shield_body i k) t) u
    (swept_congr_enemy i _ _ u u
      (fun k' b' => ⟨fun hf => absurd hf not_false,
        fun hs => absurd hs.1 (Nat.not_lt_zero k')⟩) (swept_start_enemy i u))
    (by
      intro k v _ hv
      have hrow := swept_row_enemy i k (v.shields.getD k default).block_count _ u v hv
        (fun b hs => Nat.lt_irrefl k hs.1)
      have hbc := hv.2.2.1 k
      refine swept_congr_enemy i _ _ u _ ?_ hrow
      intro k' b'
      constructor
      · rintro (⟨hk, hb⟩ | ⟨hk, hb⟩)
        · exact ⟨by omega, hb⟩
        · rw [hbc] at hb
          exact ⟨by omega, by rw [hk]; exact hb⟩
      · rintro ⟨hk, hb⟩
        by_cases hkk : k' = k
        · rw [hkk] at hb
          exact Or.inr ⟨hkk, by rw [hbc]; exact hb⟩
        · exact Or.inl ⟨by omega, hb⟩)
  exact key

theorem sweep_inactive_enemy (i : Nat) (u : GameState)
    (h : (u.enemy_projectiles.getD i default).active = false) : eproj_vs_shields_body i u = u := by
  unfold eproj_vs_shields_body
  rw [if_pos (by rw [h]; rfl)]

/-- A slot that is inactive when the pass starts is inactive when its turn
comes, so its sweep changes nothing. -/
theorem sweep_after_inactive_enemy (i : Nat) (n : Int) (t : GameState)
    (h : (t.enemy_projectiles.getD i default).active = false) :
    eproj_vs_shields_body i (forLoop n eproj_vs_shields_body t) = forLoop n eproj_vs_shields_body t := by
  apply sweep_inactive_enemy
  refine forLoop_inv (fun u : GameState => (u.enemy_projectiles.getD i default).active = false) _ _ t h ?_
  intro j u _ hu
  unfold eproj_vs_shields_body
  split_ifs
  · exact hu
  · exact forLoop_inv (fun w : GameState => (w.enemy_projectiles.getD i default).active = false) _ _ u hu
      (fun k w _ hw =>
        forLoop_inv (fun x : GameState => (x.enemy_projectiles.getD i default).active = false) _ _ w hw
          (fun b x _ hx => ehit_shield_body_inactive j k b i x hx))

theorem played_wait {s0 : GameState} (k : Nat) {s : GameState} (h : PlayedFrom s0 s) :
    PlayedFrom s0 (wait k s) := by
  induction k with
  | zero => exact h
  | succ k ih => exact PlayedFrom.update 0 rnd0 _ ih

theorem played_moves_left {s0 : GameState} (n : Nat) :
    ∀ {s : GameState}, PlayedFrom s0 s → PlayedFrom s0 (game_move_player_left^[n] s) := by
  induction n with
  | zero => exact fun h => h
  | succ n ih =>
    intro s h
    rw [Function.iterate_succ_apply]
    exact ih (PlayedFrom.move_left s h)

theorem played_tunnel_play : PlayedFrom (game_init rnd0) tunnel_play :=
  played_wait 6 (PlayedFrom.shoot _ (played_wait 128 (played_moves_left 11 PlayedFrom.start)))

theorem played_moves_right {s0 : GameState} (n : Nat) :
    ∀ {s : GameState}, PlayedFrom s0 s → PlayedFrom s0 (game_move_player_right^[n] s) := by
  induction n with
  | zero => exact fun h => h
  | succ n ih =>
    intro s h
    rw [Function.iterate_succ_apply]
    exact ih (PlayedFrom.move_right s h)

theorem played_shots {s0 : GameState} (n : Nat) :
    ∀ {s : GameState}, PlayedFrom s0 s → PlayedFrom s0 (game_player_shoot^[n] s) := by
  induction n with
  | zero => exact fun h => h
  | succ n ih =>
    intro s h
    rw [Function.iterate_succ_apply]
    exact ih (PlayedFrom.shoot s h)

theorem played_shot_run (k : Nat) : PlayedFrom (game_init rnd0) (shot_run k) := by
  induction k with
  | zero => exact PlayedFrom.shoot _ PlayedFrom.start
  | succ k ih => exact PlayedFrom.update 0 rnd0 _ ih

theorem played_shot_round {s0 : GameState} (l r k : Nat) {s : GameState}
    (h : PlayedFrom s0 s) : PlayedFrom s0 (shot_round l r k s) :=
  played_wait k (PlayedFrom.shoot _ (played_moves_right r (played_moves_left l h)))

theorem played_play_rounds {s0 : GameState} (rounds : List (Nat × Nat × Nat)) :
    ∀ {s : GameState}, PlayedFrom s0 s → PlayedFrom s0 (play_rounds rounds s) := by
  induction rounds with
  | nil => exact fun h => h
  | cons a rest ih =>
    intro s h
    obtain ⟨l, r, k⟩ := a
    exact ih (played_shot_round l r k h)

theorem played_clear_play : PlayedFrom (game_init rnd0) clear_play :=
  played_play_rounds clear_script PlayedFrom.start

theorem played_under_fire : PlayedFrom (game_init rnd0) under_fire :=
  played_wait 67 (played_moves_left 10 PlayedFrom.start)

/-! # Lives -/

theorem livesInv_update (rand : Nat) (rnd : Nat → Nat) (s : GameState)
    (hs : ShotInv s) (h : LivesInv s) : LivesInv (game_update rand rnd s) := by
  by_cases hp : s.is_paused = true
  · rw [game_update_frozen rand rnd s (Or.inl hp)]; exact h
  by_cases hg : s.game_over = true
  · rw [game_update_frozen rand rnd s (Or.inr hg)]; exact h
  have hp' : s.is_paused = false := by simpa using hp
  have hg' : s.game_over = false := by simpa using hg
  have h1 : 1 ≤ s.player.health := by
    by_contra hc
    have := h.2 (by omega)
    rw [hg'] at this
    exact Bool.noConfusion this
  have hstep := game_update_health_step rand rnd s hs
  have hexact := game_update_health rand rnd s hp' hg'
  refine ⟨by omega, ?_⟩
  intro hz
  rw [game_update_running rand rnd s hp' hg']
  apply (check_level_complete_player rnd _).2.2
  rw [(handle_collisions_player (advance rand s)).2.1]
  have hh : (advance rand s).player.health = s.player.health := by rw [advance_frame]
  rw [hh]
  have hhits : 1 ≤ player_hits (advance rand s) := by omega
  have hle : s.player.health - (player_hits (advance rand s) : Int) ≤ 0 := by omega
  simp [hhits, hle]

theorem reachable_livesInv {s : GameState} (h : Reachable s) : LivesInv s := by
  induction h with
  | init rnd =>
    have := (game_init_fields rnd).1
    unfold LivesInv
    rw [this]
    exact ⟨by decide, fun h => absurd h (by decide)⟩
  | update rand rnd s hr ih => exact livesInv_update rand rnd s (reachable_shotInv hr) ih
  | move_left s _ ih =>
    obtain ⟨-, -, -, a, -, -, -, b⟩ := player_commands_frame s _ (Or.inl rfl)
    unfold LivesInv
    rw [a, b]; exact ih
  | move_right s _ ih =>
    obtain ⟨-, -, -, a, -, -, -, b⟩ := player_commands_frame s _ (Or.inr (Or.inl rfl))
    unfold LivesInv
    rw [a, b]; exact ih
  | shoot s _ ih =>
    obtain ⟨-, -, -, a, -, -, -, b⟩ := player_commands_frame s _ (Or.inr (Or.inr (Or.inl rfl)))
    unfold LivesInv
    rw [a, b]; exact ih
  | toggle_pause s _ ih =>
    obtain ⟨-, -, -, a, -, -, -, b⟩ := player_commands_frame s _ (Or.inr (Or.inr (Or.inr rfl)))
    unfold LivesInv
    rw [a, b]; exact ih
  | next_level rnd s _ ih =>
    by_cases hl : s.level < 10
    · rw [game_next_level_respawn rnd s hl]
      obtain ⟨-, a, -, -, -, -, -, -, b, -⟩ := respawn_fields rnd
        { s with
          level := s.level + 1
          player := { s.player with score := s.player.score + POINTS_LEVEL_BONUS }
          projectile_count := 0
          enemy_projectile_count := 0 }
      unfold LivesInv
      rw [a, b]
      exact ih
    · rw [game_next_level_win rnd s (by omega)]
      exact ⟨ih.1, fun _ => rfl⟩
  | set_level rnd s n _ ih =>
    by_cases hn : 1 ≤ n
    · rw [game_set_level_respawn rnd s n hn]
      obtain ⟨-, a, -, -, -, -, -, -, b, -⟩ := respawn_fields rnd
        { s with
          level := n
          player := { s.player with
            score := wrap_int (s.player.score + wrap_int (POINTS_LEVEL_BONUS * (n - 1))) }
          projectile_count := 0
          enemy_projectile_count := 0 }
      unfold LivesInv
      rw [a, b]
      exact ih
    · have : game_set_level rnd s n = s := by
        unfold game_set_level
        exact if_pos (by omega)
      rw [this]; exact ih
  | reset rnd s _ _ =>
    obtain ⟨a, -, -, -, -, -, b, -⟩ := game_reset_fields rnd s
    unfold LivesInv
    rw [a, b]
    exact ⟨by decide, fun h => absurd h (by decide)⟩

/-! # Machine integers -/

theorem wrap_int_of_fits (z : Int) (h1 : INT_MIN ≤ z) (h2 : z ≤ INT_MAX) : wrap_int z = z := by
  unfold wrap_int
  simp only [INT_MIN, INT_MAX] at h1 h2
  omega

theorem wrap_int_fits (z : Int) : INT_MIN ≤ wrap_int z ∧ wrap_int z ≤ INT_MAX := by
  unfold wrap_int
  simp only [INT_MIN, INT_MAX]
  omega

theorem utils_rect_collision_int_iff (x1 y1 w1 h1 x2 y2 w2 h2 : Int) :
    utils_rect_collision_int x1 y1 w1 h1 x2 y2 w2 h2 = true ↔
      (x1 < wrap_int (x2 + w2) ∧ wrap_int (x1 + w1) > x2 ∧
        y1 < wrap_int (y2 + h2) ∧ wrap_int (y1 + h1) > y2) := by
  unfold utils_rect_collision_int
  simp only [Bool.and_eq_true, decide_eq_true_eq]
  constructor
  · rintro ⟨⟨⟨a, b⟩, c⟩, d⟩
    exact ⟨a, b, c, d⟩
  · rintro ⟨a, b, c, d⟩
    exact ⟨⟨⟨a, b⟩, c⟩, d⟩

theorem utils_rect_collision_int_exact (x1 y1 w1 h1 x2 y2 w2 h2 : Int)
    (a1 : INT_MIN ≤ x1 + w1) (b1 : x1 + w1 ≤ INT_MAX)
    (a2 : INT_MIN ≤ y1 + h1) (b2 : y1 + h1 ≤ INT_MAX)
    (a3 : INT_MIN ≤ x2 + w2) (b3 : x2 + w2 ≤ INT_MAX)
    (a4 : INT_MIN ≤ y2 + h2) (b4 : y2 + h2 ≤ INT_MAX) :
    utils_rect_collision_int x1 y1 w1 h1 x2 y2 w2 h2
      = utils_rect_collision x1 y1 w1 h1 x2 y2 w2 h2 := by
  unfold utils_rect_collision_int utils_rect_collision
  rw [wrap_int_of_fits _ a1 b1, wrap_int_of_fits _ a2 b2, wrap_int_of_fits _ a3 b3,
    wrap_int_of_fits _ a4 b4]

/-! # The shield passes as a whole -/

theorem pool_hits_take_succ (l : List Projectile) (n : Nat) (blk : ShieldBlock) :
    pool_hits (l.take (n + 1)) blk
      = pool_hits (l.take n) blk
        + (if ((l.getD n default).active && in_box (l.getD n default) blk) = true then 1 else 0) := by
  unfold pool_hits
  by_cases hn : n < l.length
  · rw [take_succ_getD l n default hn, List.countP_append, List.countP_singleton]
  · rw [List.take_of_length_le (by omega), List.take_of_length_le (by omega),
      getD_default_of_le l n default (by omega)]
    rfl

theorem wear_zero (h : Int) : wear h 0 = h := by
  unfold wear
  split_ifs with h0
  · rfl
  · rw [max_def]
    split_ifs <;> omega

theorem wear_pos_iff (h : Int) (m : Nat) : 0 < wear h m ↔ (m : Int) < h := by
  unfold wear
  split_ifs with h0
  · omega
  · rw [max_def]
    split_ifs <;> omega

theorem wear_hit (h : Int) (m : Nat) (hp : 0 < wear h m) : wear h (m + 1) = wear h m - 1 := by
  have hlt := (wear_pos_iff h m).1 hp
  unfold wear
  rw [if_neg (by omega), if_neg (by omega), max_def, max_def]
  push_cast
  split_ifs <;> omega

theorem wear_spent (h : Int) (m : Nat) (hp : ¬ 0 < wear h m) : wear h (m + 1) = wear h m := by
  have hlt := mt (wear_pos_iff h m).2 hp
  unfold wear
  split_ifs with h0
  · rfl
  · rw [max_def, max_def]
    push_cast
    split_ifs <;> omega

theorem wear_bounds (h : Int) (m : Nat) :
    wear h m ≤ h ∧ (0 ≤ h → 0 ≤ wear h m) ∧ (h ≤ 0 → wear h m = h) ∧
    (0 < h → wear h m = max 0 (h - (m : Int))) := by
  unfold wear
  split_ifs with h0
  · exact ⟨le_refl _, fun h1 => h1, fun _ => rfl, fun h1 => absurd h1 (by omega)⟩
  · rw [max_def]
    split_ifs <;> refine ⟨by omega, fun _ => by omega, fun h1 => by omega, fun _ => rfl⟩

theorem shield_hit_worn (p : Projectile) (blk : ShieldBlock) (m : Nat) :
    shield_hit p { blk with health := wear blk.health m }
      = (decide (0 < wear blk.health m) && in_box p blk) := rfl

theorem worn_start_player (t : GameState) : WornPlayer 0 t t := by
  refine ⟨?_, fun _ _ _ => rfl, fun _ => rfl, fun j hj => absurd hj (Nat.not_lt_zero j),
    fun j hj => absurd hj (Nat.not_lt_zero j), fun _ _ => rfl⟩
  intro k b _
  rw [List.take_zero]
  show block_at t k b = { block_at t k b with health := wear (block_at t k b).health 0 }
  rw [wear_zero]

/-- One more slot of the pool has had its turn. -/
theorem worn_step_player (n : Nat) (t u : GameState) (h : WornPlayer n t u) :
    WornPlayer (n + 1) t (proj_vs_shields_body n u) := by
  obtain ⟨c1, c2, c3, c4, c5, c6⟩ := h
  have hun : u.projectiles.getD n default = t.projectiles.getD n default := c6 n (le_refl n)
  cases hact : (t.projectiles.getD n default).active
  · rw [sweep_inactive_player n u (by rw [hun]; exact hact)]
    have hnot : ¬ stopped_player t n := fun hs => by
      have := hs.1
      rw [hact] at this
      exact Bool.noConfusion this
    refine ⟨?_, c2, c3, ?_, ?_, ?_⟩
    · intro k b hr
      rw [c1 k b hr, pool_hits_take_succ, hact]
      rfl
    · intro j hj hs
      by_cases hjn : j = n
      · rw [hjn] at hs
        exact absurd hs hnot
      · exact c4 j (by omega) hs
    · intro j hj hs
      by_cases hjn : j = n
      · rw [hjn]
        exact hun
      · exact c5 j (by omega) hs
    · intro j hj
      exact c6 j (by omega)
  · obtain ⟨d1, d2, d3, d4, d5, d6⟩ := sweep_spec_player n u (by rw [hun]; exact hact)
    have hseen : ∀ k b, (k < 4 ∧ b < ((u.shields.getD k default).block_count).toNat) ↔
        (k < 4 ∧ b < ((t.shields.getD k default).block_count).toNat) := by
      intro k b
      rw [c3 k]
    have hhit : ∀ k b, k < 4 ∧ b < ((t.shields.getD k default).block_count).toNat →
        shield_hit (u.projectiles.getD n default) (block_at u k b)
          = (decide (0 < wear (block_at t k b).health
                (pool_hits (t.projectiles.take n) (block_at t k b)))
              && in_box (t.projectiles.getD n default) (block_at t k b)) := by
      intro k b hr
      rw [hun, c1 k b hr]
      rfl
    have hex : (∃ k b, (k < 4 ∧ b < ((u.shields.getD k default).block_count).toNat) ∧
        shield_hit (u.projectiles.getD n default) (block_at u k b) = true) ↔ stopped_player t n := by
      constructor
      · rintro ⟨k, b, hr, hh⟩
        have hr' := (hseen k b).1 hr
        rw [hhit k b hr', Bool.and_eq_true, decide_eq_true_eq] at hh
        exact ⟨hact, k, b, hr', hh.2, (wear_pos_iff _ _).1 hh.1⟩
      · rintro ⟨-, k, b, hr, hin, hlt⟩
        refine ⟨k, b, (hseen k b).2 hr, ?_⟩
        rw [hhit k b hr, Bool.and_eq_true, decide_eq_true_eq]
        exact ⟨(wear_pos_iff _ _).2 hlt, hin⟩
    refine ⟨?_, ?_, ?_, ?_, ?_, ?_⟩
    · intro k b hr
      rw [pool_hits_take_succ, hact, Bool.true_and]
      cases hh : shield_hit (u.projectiles.getD n default) (block_at u k b)
      · rw [d2 k b (fun hc => by rw [hh] at hc; exact Bool.noConfusion hc.2), c1 k b hr]
        rw [hhit k b hr] at hh
        cases hin : in_box (t.projectiles.getD n default) (block_at t k b)
        · rfl
        · rw [hin, Bool.and_true, decide_eq_false_iff_not] at hh
          rw [if_pos rfl, wear_spent _ _ hh]
      · rw [d1 k b ((hseen k b).2 hr) hh, c1 k b hr]
        rw [hhit k b hr, Bool.and_eq_true, decide_eq_true_eq] at hh
        rw [hh.2, if_pos rfl, wear_hit _ _ hh.1]
        rfl
    · intro k b hr
      rw [d2 k b (fun hc => hr ((hseen k b).1 hc.1)), c2 k b hr]
    · intro k
      rw [d3 k, c3 k]
    · intro j hj hs
      by_cases hjn : j = n
      · rw [hjn] at hs ⊢
        rw [d4 (hex.2 hs), hun]
      · rw [d6 j hjn]
        exact c4 j (by omega) hs
    · intro j hj hs
      by_cases hjn : j = n
      · rw [hjn] at hs ⊢
        rw [d5 (fun hc => hs (hex.1 hc)), hun]
      · rw [d6 j hjn]
        exact c5 j (by omega) hs
    · intro j hj
      rw [d6 j (by omega)]
      exact c6 j (by omega)

/-- The whole pass. -/
theorem collide_proj_shields_worn_by (t : GameState) : WornPlayer t.projectile_count.toNat t (collide_proj_shields t) := by
  unfold collide_proj_shields
  exact forLoop_ind (fun n (u : GameState) => WornPlayer n t u) t.projectile_count proj_vs_shields_body t
    (worn_start_player t) (fun n u _ hu => worn_step_player n t u hu)

theorem worn_start_enemy (t : GameState) : WornEnemy 0 t t := by
  refine ⟨?_, fun _ _ _ => rfl, fun _ => rfl, fun j hj => absurd hj (Nat.not_lt_zero j),
    fun j hj => absurd hj (Nat.not_lt_zero j), fun _ _ => rfl⟩
  intro k b _
  rw [List.take_zero]
  show block_at t k b = { block_at t k b with health := wear (block_at t k b).health 0 }
  rw [wear_zero]

/-- One more slot of the pool has had its turn. -/
theorem worn_step_enemy (n : Nat) (t u : GameState) (h : WornEnemy n t u) :
    WornEnemy (n + 1) t (eproj_vs_shields_body n u) := by
  obtain ⟨c1, c2, c3, c4, c5, c6⟩ := h
  have hun : u.enemy_projectiles.getD n default = t.enemy_projectiles.getD n default := c6 n (le_refl n)
  cases hact : (t.enemy_projectiles.getD n default).active
  · rw [sweep_inactive_enemy n u (by rw [hun]; exact hact)]
    have hnot : ¬ stopped_enemy t n := fun hs => by
      have := hs.1
      rw [hact] at this
      exact Bool.noConfusion this
    refine ⟨?_, c2, c3, ?_, ?_, ?_⟩
    · intro k b hr
      rw [c1 k b hr, pool_hits_take_succ, hact]
      rfl
    · intro j hj hs
      by_cases hjn : j = n
      · rw [hjn] at hs
        exact absurd hs hnot
      · exact c4 j (by omega) hs
    · intro j hj hs
      by_cases hjn : j = n
      · rw [hjn]
        exact hun
      · exact c5 j (by omega) hs
    · intro j hj
      exact c6 j (by omega)
  · obtain ⟨d1, d2, d3, d4, d5, d6⟩ := sweep_spec_enemy n u (by rw [hun]; exact hact)
    have hseen : ∀ k b, (k < 4 ∧ b < ((u.shields.getD k default).block_count).toNat) ↔
        (k < 4 ∧ b < ((t.shields.getD k default).block_count).toNat) := by
      intro k b
      rw [c3 k]
    have hhit : ∀ k b, k < 4 ∧ b < ((t.shields.getD k default).block_count).toNat →
        shield_hit (u.enemy_projectiles.getD n default) (block_at u k b)
          = (decide (0 < wear (block_at t k b).health
                (pool_hits (t.enemy_projectiles.take n) (block_at t k b)))
              && in_box (t.enemy_projectiles.getD n default) (block_at t k b)) := by
      intro k b hr
      rw [hun, c1 k b hr]
      rfl
    have hex : (∃ k b, (k < 4 ∧ b < ((u.shields.getD k default).block_count).toNat) ∧
        shield_hit (u.enemy_projectiles.getD n default) (block_at u k b) = true) ↔ stopped_enemy t n := by
      constructor
      · rintro ⟨k, b, hr, hh⟩
        have hr' := (hseen k b).1 hr
        rw [hhit k b hr', Bool.and_eq_true, decide_eq_true_eq] at hh
        exact ⟨hact, k, b, hr', hh.2, (wear_pos_iff _ _).1 hh.1⟩
      · rintro ⟨-, k, b, hr, hin, hlt⟩
        refine ⟨k, b, (hseen k b).2 hr, ?_⟩
        rw [hhit k b hr, Bool.and_eq_true, decide_eq_true_eq]
        exact ⟨(wear_pos_iff _ _).2 hlt, hin⟩
    refine ⟨?_, ?_, ?_, ?_, ?_, ?_⟩
    · intro k b hr
      rw [pool_hits_take_succ, hact, Bool.true_and]
      cases hh : shield_hit (u.enemy_projectiles.getD n default) (block_at u k b)
      · rw [d2 k b (fun hc => by rw [hh] at hc; exact Bool.noConfusion hc.2), c1 k b hr]
        rw [hhit k b hr] at hh
        cases hin : in_box (t.enemy_projectiles.getD n default) (block_at t k b)
        · rfl
        · rw [hin, Bool.and_true, decide_eq_false_iff_not] at hh
          rw [if_pos rfl, wear_spent _ _ hh]
      · rw [d1 k b ((hseen k b).2 hr) hh, c1 k b hr]
        rw [hhit k b hr, Bool.and_eq_true, decide_eq_true_eq] at hh
        rw [hh.2, if_pos rfl, wear_hit _ _ hh.1]
        rfl
    · intro k b hr
      rw [d2 k b (fun hc => hr ((hseen k b).1 hc.1)), c2 k b hr]
    · intro k
      rw [d3 k, c3 k]
    · intro j hj hs
      by_cases hjn : j = n
      · rw [hjn] at hs ⊢
        rw [d4 (hex.2 hs), hun]
      · rw [d6 j hjn]
        exact c4 j (by omega) hs
    · intro j hj hs
      by_cases hjn : j = n
      · rw [hjn] at hs ⊢
        rw [d5 (fun hc => hs (hex.1 hc)), hun]
      · rw [d6 j hjn]
        exact c5 j (by omega) hs
    · intro j hj
      rw [d6 j (by omega)]
      exact c6 j (by omega)

/-- The whole pass. -/
theorem collide_eproj_shields_worn_by (t : GameState) : WornEnemy t.enemy_projectile_count.toNat t (collide_eproj_shields t) := by
  unfold collide_eproj_shields
  exact forLoop_ind (fun n (u : GameState) => WornEnemy n t u) t.enemy_projectile_count eproj_vs_shields_body t
    (worn_start_enemy t) (fun n u _ hu => worn_step_enemy n t u hu)

theorem block_at_congr {s t : GameState} (h : s.shields = t.shields) (k b : Nat) :
    block_at s k b = block_at t k b := by
  unfold block_at
  rw [h]

theorem pool_hits_take_mono (l : List Projectile) (blk : ShieldBlock) (j n : Nat) (h : j ≤ n) :
    pool_hits (l.take j) blk ≤ pool_hits (l.take n) blk := by
  induction n with
  | zero =>
    have : j = 0 := by omega
    rw [this]
  | succ n ih =>
    by_cases hj : j = n + 1
    · rw [hj]
    · have := ih (by omega)
      rw [pool_hits_take_succ]
      omega

/-- An active projectile in the box of `blk` is counted after the ones in
earlier slots. -/
theorem pool_hits_before (l : List Projectile) (blk : ShieldBlock) (j n : Nat) (h : j < n)
    (hact : (l.getD j default).active = true) (hin : in_box (l.getD j default) blk = true) :
    pool_hits (l.take j) blk + 1 ≤ pool_hits (l.take n) blk := by
  have h1 := pool_hits_take_mono l blk (j + 1) n (by omega)
  rw [pool_hits_take_succ, hact, hin] at h1
  exact h1

/-- Across `handle_collisions` a block below its shield's `block_count` is
worn first by the player pool as the enemy pass leaves it, then by the enemy
pool as the player test leaves it. -/
theorem handle_collisions_wear (s : GameState) (k b : Nat)
    (hr : k < 4 ∧ b < ((s.shields.getD k default).block_count).toNat) :
    block_at (handle_collisions s) k b
      = { block_at s k b with
          health := wear (wear (block_at s k b).health
              (pool_hits (player_pool (collide_proj_enemies s)) (block_at s k b)))
            (pool_hits (enemy_pool (collide_eproj_player (collide_proj_shields
              (collide_proj_enemies s)))) (block_at s k b)) } := by
  have e1 : (collide_proj_enemies s).shields = s.shields := by
    rw [collide_proj_enemies_frame]
  have e3 : (collide_eproj_player (collide_proj_shields (collide_proj_enemies s))).shields
      = (collide_proj_shields (collide_proj_enemies s)).shields := by
    rw [collide_eproj_player_frame]
  have w2 := collide_proj_shields_worn_by (collide_proj_enemies s)
  have w4 := collide_eproj_shields_worn_by
    (collide_eproj_player (collide_proj_shields (collide_proj_enemies s)))
  have hr1 : k < 4 ∧ b < (((collide_proj_enemies s).shields.getD k default).block_count).toNat := by
    rw [e1]
    exact hr
  have hr3 : k < 4 ∧ b < (((collide_eproj_player (collide_proj_shields
      (collide_proj_enemies s))).shields.getD k default).block_count).toNat := by
    rw [e3, w2.2.2.1 k]
    exact hr1
  have b2 := w2.1 k b hr1
  have b4 := w4.1 k b hr3
  rw [block_at_congr e3, b2, block_at_congr e1] at b4
  unfold handle_collisions
  rw [b4]
  rfl

/-- A frame that does not clear the level wears the blocks as
`handle_collisions` does on the advanced state. -/
theorem game_update_wear (rand : Nat) (rnd : Nat → Nat) (s : GameState)
    (hp : s.is_paused = false) (hg : s.game_over = false)
    (halive : 0 < (handle_collisions (advance rand s)).alive_enemy_count) (k b : Nat)
    (hr : k < 4 ∧ b < ((s.shields.getD k default).block_count).toNat) :
    block_at (game_update rand rnd s) k b
      = { block_at s k b with
          health := wear (wear (block_at s k b).health
              (pool_hits (player_pool (collide_proj_enemies (advance rand s))) (block_at s k b)))
            (pool_hits (enemy_pool (collide_eproj_player (collide_proj_shields
              (collide_proj_enemies (advance rand s))))) (block_at s k b)) } := by
  have e : (advance rand s).shields = s.shields := by rw [advance_frame]
  have hc : check_level_complete rnd (handle_collisions (advance rand s))
      = handle_collisions (advance rand s) := by
    unfold check_level_complete
    exact if_neg (by omega)
  rw [game_update_running rand rnd s hp hg, hc,
    handle_collisions_wear (advance rand s) k b (by rw [e]; exact hr), block_at_congr e]

theorem played_shield_play : PlayedFrom (game_init rnd0) shield_play :=
  played_wait 10 (PlayedFrom.shoot _ (played_moves_left 17 PlayedFrom.start))

/-! # The claims -/

/-- C1: in every state reachable from `game_init` through `game_update`, the
player commands, `game_next_level`, `game_set_level` and `game_reset`,
`alive_enemy_count` is the number of enemy entries below `enemy_count` whose
`active` flag is set. -/
theorem alive_enemy_count_eq_active (s : GameState) (h : Reachable s) :
    s.alive_enemy_count = (active_enemies s : Int) :=
  (reachable_enemyInv h).2.2

theorem alive_enemy_count_eq_active_witness :
    Reachable (game_update 7 rnd0 (game_player_shoot (game_init rnd0))) ∧
    (game_update 7 rnd0 (game_player_shoot (game_init rnd0))).alive_enemy_count
      = (active_enemies (game_update 7 rnd0 (game_player_shoot (game_init rnd0))) : Int) :=
  ⟨Reachable.update _ _ _ (Reachable.shoot _ (Reachable.init _)),
   alive_enemy_count_eq_active _ (Reachable.update _ _ _ (Reachable.shoot _ (Reachable.init _)))⟩

/-- C2: every public operation keeps both projectile pools within their
capacities (`MAX_PROJECTILES`, `MAX_ENEMY_PROJECTILES`), and a pool that is
exactly full stays as it is: `game_player_shoot` returns the state unchanged
and `update_enemies` (which holds the enemy-fire step of `game_update`) leaves
the enemy pool and its count untouched. -/
theorem pools_stay_within_capacity (s : GameState) (h : PoolsBounded s) :
    (∀ rand rnd, PoolsBounded (game_update rand rnd s)) ∧
    PoolsBounded (game_player_shoot s) ∧
    PoolsBounded (game_move_player_left s) ∧
    PoolsBounded (game_move_player_right s) ∧
    PoolsBounded (game_toggle_pause s) ∧
    (∀ rnd, PoolsBounded (game_next_level rnd s)) ∧
    (∀ rnd level, PoolsBounded (game_set_level rnd s level)) ∧
    (∀ rnd, PoolsBounded (game_reset rnd s)) ∧
    (s.projectile_count = MAX_PROJECTILES → game_player_shoot s = s) ∧
    (s.enemy_projectile_count = MAX_ENEMY_PROJECTILES → ∀ rand,
      (update_enemies_fire rand s).enemy_projectiles = s.enemy_projectiles ∧
      (update_enemies_fire rand s).enemy_projectile_count = s.enemy_projectile_count ∧
      (update_enemies rand s).enemy_projectiles = s.enemy_projectiles ∧
      (update_enemies rand s).enemy_projectile_count = s.enemy_projectile_count) := by
  refine ⟨fun rand rnd => poolsBounded_update rand rnd s h, ?_, ?_, ?_, ?_,
    fun rnd => poolsBounded_next_level rnd s h, ?_, ?_, ?_, ?_⟩
  · unfold game_player_shoot
    split_ifs with h1 h2
    · refine ⟨?_, h.2⟩
      simp only [MAX_PROJECTILES] at h2 ⊢
      omega
    · exact h
    · exact h
  · unfold game_move_player_left
    split_ifs
    · exact h
    · exact h
  · unfold game_move_player_right
    split_ifs
    · exact h
    · exact h
  · unfold game_toggle_pause
    split_ifs
    · exact h
    · exact h
  · intro rnd level
    unfold game_set_level
    simp only
    split_ifs
    · exact h
    · exact ⟨show (0 : Int) ≤ MAX_PROJECTILES by decide,
        show (0 : Int) ≤ MAX_ENEMY_PROJECTILES by decide⟩
  · intro rnd
    exact ⟨show (0 : Int) ≤ MAX_PROJECTILES by decide,
      show (0 : Int) ≤ MAX_ENEMY_PROJECTILES by decide⟩
  · intro hfull
    unfold game_player_shoot
    split_ifs with h1 h2
    · omega
    · rfl
    · rfl
  · intro hfull rand
    have hfire : ∀ t : GameState, t.enemy_projectile_count = MAX_ENEMY_PROJECTILES →
        (update_enemies_fire rand t).enemy_projectiles = t.enemy_projectiles ∧
        (update_enemies_fire rand t).enemy_projectile_count = t.enemy_projectile_count := by
      intro t ht
      unfold update_enemies_fire
      simp only
      split_ifs
      · rw [fire_probe_full 5 _ { t with enemy_fire_timer := 0 } ht]
        exact ⟨rfl, rfl⟩
      · exact ⟨rfl, rfl⟩
      · exact ⟨rfl, rfl⟩
    have hm1 : (update_enemies_move s).enemy_projectiles = s.enemy_projectiles := by
      rw [update_enemies_move_frame]
    have hm2 : (update_enemies_move s).enemy_projectile_count = s.enemy_projectile_count := by
      rw [update_enemies_move_frame]
    have hu := hfire (update_enemies_move s) (by rw [hm2]; exact hfull)
    refine ⟨(hfire s hfull).1, (hfire s hfull).2, ?_, ?_⟩
    · unfold update_enemies
      rw [hu.1, hm1]
    · unfold update_enemies
      rw [hu.2, hm2]

theorem pools_stay_within_capacity_witness :
    PoolsBounded full_pools ∧ game_player_shoot full_pools = full_pools ∧
    (update_enemies 3 full_pools).enemy_projectile_count = 30 :=
  ⟨by decide,
   (pools_stay_within_capacity full_pools (by decide)).2.2.2.2.2.2.2.2.1 rfl,
   ((pools_stay_within_capacity full_pools (by decide)).2.2.2.2.2.2.2.2.2 rfl 3).2.2.2⟩

/-- C3: on a running state (not paused, not over) whose player pool has room,
`game_player_shoot` raises `projectile_count` by one, the live pool becomes the
old live pool (same entries, same order) followed by one active projectile at
`(player.x + PLAYER_WIDTH / 2, player.y - 1)`, and no other field changes. -/
theorem game_player_shoot_appends (s : GameState)
    (hp : s.is_paused = false) (hg : s.game_over = false)
    (h0 : 0 ≤ s.projectile_count) (hlt : s.projectile_count < MAX_PROJECTILES)
    (hlen : s.projectiles.length = 100) :
    (game_player_shoot s).projectile_count = s.projectile_count + 1 ∧
    (game_player_shoot s).projectiles.getD s.projectile_count.toNat default
      = ⟨s.player.x + Int.tdiv PLAYER_WIDTH 2, s.player.y - 1, true⟩ ∧
    player_pool (game_player_shoot s)
      = player_pool s ++ [⟨s.player.x + Int.tdiv PLAYER_WIDTH 2, s.player.y - 1, true⟩] ∧
    (∀ k, k < s.projectile_count.toNat →
      (game_player_shoot s).projectiles.getD k default = s.projectiles.getD k default) ∧
    game_player_shoot s
      = { s with projectiles := (game_player_shoot s).projectiles,
                 projectile_count := (game_player_shoot s).projectile_count } := by
  have hn : s.projectile_count.toNat < s.projectiles.length := by
    simp only [MAX_PROJECTILES] at hlt; omega
  have hshoot : game_player_shoot s = { s with
      projectiles := s.projectiles.set s.projectile_count.toNat
        (Projectile.mk (s.player.x + Int.tdiv PLAYER_WIDTH 2) (s.player.y - 1) true)
      projectile_count := s.projectile_count + 1 } := by
    unfold game_player_shoot
    simp [hp, hg, hlt]
  rw [hshoot]
  refine ⟨rfl, ?_, ?_, ?_, rfl⟩
  · simp only [List.getD_eq_getElem?_getD]
    rw [List.getElem?_set_self hn]
    rfl
  · unfold player_pool
    simp only
    have : (s.projectile_count + 1).toNat = s.projectile_count.toNat + 1 := by omega
    rw [this, take_succ_set_end _ _ _ hn]
  · intro k hk
    simp only [List.getD_eq_getElem?_getD]
    rw [List.getElem?_set_ne (by omega)]

theorem game_player_shoot_appends_witness :
    (game_init rnd0).is_paused = false ∧ (game_init rnd0).game_over = false ∧
    0 ≤ (game_init rnd0).projectile_count ∧
    (game_init rnd0).projectile_count < MAX_PROJECTILES ∧
    (game_init rnd0).projectiles.length = 100 ∧
    player_pool (game_player_shoot (game_init rnd0)) = [⟨40, 21, true⟩] :=
  ⟨rfl, rfl, by decide, by decide, by decide,
   (game_player_shoot_appends (game_init rnd0) rfl rfl (by decide) (by decide)
      (by decide)).2.2.1⟩

/-- C4: the per-frame advance of each pool is the stable filter of the moved
pool.  The live player pool after `update_projectiles` is, in the original
order, the projectiles that were active and whose new row `y - 1` is `>= 0`,
each moved up by one; the live enemy pool after `update_enemy_projectiles` is
the projectiles that were active and whose new row `y + ENEMY_PROJECTILE_SPEED`
is `< BOARD_HEIGHT`, each moved down by that speed.  So neither pool grows. -/
theorem projectile_advance_is_stable_filter (s : GameState)
    (hp : s.projectile_count.toNat ≤ s.projectiles.length)
    (he : s.enemy_projectile_count.toNat ≤ s.enemy_projectiles.length) :
    player_pool (update_projectiles s) = spec_advance_player_pool (player_pool s) ∧
    enemy_pool (update_enemy_projectiles s) = spec_advance_enemy_pool (enemy_pool s) ∧
    (player_pool (update_projectiles s)).length ≤ (player_pool s).length ∧
    (enemy_pool (update_enemy_projectiles s)).length ≤ (enemy_pool s).length ∧
    (0 ≤ s.projectile_count →
      (update_projectiles s).projectile_count ≤ s.projectile_count) ∧
    (0 ≤ s.enemy_projectile_count →
      (update_enemy_projectiles s).enemy_projectile_count ≤ s.enemy_projectile_count) := by
  have h1 : player_pool (update_projectiles s) = spec_advance_player_pool (player_pool s) := by
    unfold player_pool update_projectiles
    simp only
    rw [move_compact_pool move_up move_projectile_body
      (fun i a _ => move_projectile_body_eq i a) s.projectiles s.projectile_count hp]
    exact filter_map_move_up _
  have h2 : enemy_pool (update_enemy_projectiles s)
      = spec_advance_enemy_pool (enemy_pool s) := by
    unfold enemy_pool update_enemy_projectiles
    simp only
    rw [move_compact_pool move_down move_enemy_projectile_body
      (fun i a _ => move_enemy_projectile_body_eq i a) s.enemy_projectiles
      s.enemy_projectile_count he]
    exact filter_map_move_down _
  refine ⟨h1, h2, ?_, ?_, ?_, ?_⟩
  · rw [h1]
    unfold spec_advance_player_pool
    rw [List.length_map]
    exact List.length_filter_le _ _
  · rw [h2]
    unfold spec_advance_enemy_pool
    rw [List.length_map]
    exact List.length_filter_le _ _
  · intro h0
    exact update_projectiles_count_le s _ h0 (le_refl _)
  · intro h0
    exact update_enemy_projectiles_count_le s _ h0 (le_refl _)

theorem projectile_advance_is_stable_filter_witness :
    pool_demo.projectile_count.toNat ≤ pool_demo.projectiles.length ∧
    pool_demo.enemy_projectile_count.toNat ≤ pool_demo.enemy_projectiles.length ∧
    player_pool (update_projectiles pool_demo) = [⟨6, 2, true⟩, ⟨8, 8, true⟩] ∧
    enemy_pool (update_enemy_projectiles pool_demo) = [⟨11, 5, true⟩, ⟨13, 23, true⟩] :=
  ⟨by decide, by decide,
   (projectile_advance_is_stable_filter pool_demo (by decide) (by decide)).1,
   (projectile_advance_is_stable_filter pool_demo (by decide) (by decide)).2.1⟩

/-- C8: once `game_over` is set, `game_update`, both moves, `game_player_shoot`
and `game_toggle_pause` return the state unchanged; while `is_paused` is set,
`game_update`, both moves and `game_player_shoot` return the state unchanged
(every field, `frame_count` and both timers included). -/
theorem terminal_and_paused_states_are_frozen (s : GameState) :
    (s.game_over = true →
      (∀ rand rnd, game_update rand rnd s = s) ∧
      game_move_player_left s = s ∧
      game_move_player_right s = s ∧
      game_player_shoot s = s ∧
      game_toggle_pause s = s) ∧
    (s.is_paused = true →
      (∀ rand rnd, game_update rand rnd s = s) ∧
      game_move_player_left s = s ∧
      game_move_player_right s = s ∧
      game_player_shoot s = s) := by
  constructor
  · intro h
    refine ⟨fun rand rnd => ?_, ?_, ?_, ?_, ?_⟩
    · unfold game_update
      exact if_pos (by rw [h]; simp)
    · unfold game_move_player_left
      exact if_neg (by rw [h]; simp)
    · unfold game_move_player_right
      exact if_neg (by rw [h]; simp)
    · unfold game_player_shoot
      exact if_neg (by rw [h]; simp)
    · unfold game_toggle_pause
      exact if_neg (by rw [h]; simp)
  · intro h
    refine ⟨fun rand rnd => ?_, ?_, ?_, ?_⟩
    · unfold game_update
      exact if_pos (by rw [h]; simp)
    · unfold game_move_player_left
      exact if_neg (by rw [h]; simp)
    · unfold game_move_player_right
      exact if_neg (by rw [h]; simp)
    · unfold game_player_shoot
      exact if_neg (by rw [h]; simp)

theorem terminal_and_paused_states_are_frozen_witness :
    (game_next_level rnd0 (game_set_level rnd0 (game_init rnd0) 10)).game_over = true ∧
    game_toggle_pause (game_next_level rnd0 (game_set_level rnd0 (game_init rnd0) 10))
      = game_next_level rnd0 (game_set_level rnd0 (game_init rnd0) 10) ∧
    (game_toggle_pause (game_init rnd0)).is_paused = true ∧
    game_update 5 rnd0 (game_toggle_pause (game_init rnd0))
      = game_toggle_pause (game_init rnd0) :=
  ⟨by decide,
   ((terminal_and_paused_states_are_frozen
      (game_next_level rnd0 (game_set_level rnd0 (game_init rnd0) 10))).1 (by decide)).2.2.2.2,
   by decide,
   ((terminal_and_paused_states_are_frozen (game_toggle_pause (game_init rnd0))).2
      (by decide)).1 5 rnd0⟩

/-- C9: on a running state in which, after the frame's advance, enemy
projectile `i` is active and overlaps the player's box and no other pooled
enemy projectile does: after `game_update` projectile `i` is inactive, the
lives have dropped by exactly one, and `game_over` is set whenever the new
lives value is `<= 0`. -/
theorem single_enemy_shot_costs_one_life (rand : Nat) (rnd : Nat → Nat) (s : GameState)
    (i : Nat) (hp : s.is_paused = false) (hg : s.game_over = false)
    (hi : i < (advance rand s).enemy_projectile_count.toNat)
    (hhit : wounds s.player ((advance rand s).enemy_projectiles.getD i default) = true)
    (huniq : ∀ k, k < (advance rand s).enemy_projectile_count.toNat →
      wounds s.player ((advance rand s).enemy_projectiles.getD k default) = true → k = i) :
    ((game_update rand rnd s).enemy_projectiles.getD i default).active = false ∧
    (game_update rand rnd s).player.health = s.player.health - 1 ∧
    ((game_update rand rnd s).player.health ≤ 0 → (game_update rand rnd s).game_over = true) := by
  have hm : (advance rand s).player = s.player := by rw [advance_frame]
  have hil : i < (advance rand s).enemy_projectiles.length := by
    exact getD_active_lt _ i default (wounds s.player)
      (show wounds s.player (default : Projectile) = false from rfl) hhit
  have hone : player_hits (advance rand s) = 1 := by
    unfold player_hits enemy_pool
    rw [hm]
    exact countP_take_unique _ _ default _ i hi hil hhit (fun k hk _ hw => huniq k hk hw)
  obtain ⟨hh, hgo, hoff⟩ := handle_collisions_player (advance rand s)
  rw [hone, hm] at hh hgo
  have hhealth : (game_update rand rnd s).player.health = s.player.health - 1 := by
    rw [game_update_health rand rnd s hp hg, hone]
    rfl
  refine ⟨?_, hhealth, ?_⟩
  · rw [game_update_running rand rnd s hp hg, (check_level_complete_player rnd _).2.1]
    exact hoff i hi hil (by rw [hm]; exact hhit)
  · intro hle
    rw [hhealth] at hle
    rw [game_update_running rand rnd s hp hg]
    apply (check_level_complete_player rnd _).2.2
    rw [hgo]
    have : decide (s.player.health - ((1 : Nat) : Int) ≤ 0) = true := by
      simp only [decide_eq_true_eq]
      push_cast
      exact hle
    rw [this]
    simp

set_option maxRecDepth 100000 in
theorem single_enemy_shot_costs_one_life_witness :
    one_shot.is_paused = false ∧ one_shot.game_over = false ∧
    wounds one_shot.player ((advance 0 one_shot).enemy_projectiles.getD 0 default) = true ∧
    ((game_update 0 rnd0 one_shot).enemy_projectiles.getD 0 default).active = false ∧
    (game_update 0 rnd0 one_shot).player.health = one_shot.player.health - 1 :=
  ⟨rfl, rfl, by decide,
   (single_enemy_shot_costs_one_life 0 rnd0 one_shot 0 rfl rfl (by decide) (by decide)
      (by decide)).1,
   (single_enemy_shot_costs_one_life 0 rnd0 one_shot 0 rfl rfl (by decide) (by decide)
      (by decide)).2.1⟩

/-- C10 as stated fails: with one life left and two enemy projectiles in the
pool right above the ship, `game_update` leaves the lives at -1.  The state is
one of those the claim speaks of (lives `>= 0`, a pool within capacity); it is
not reached by play, where at most one enemy projectile exists. -/
theorem lives_clamped_at_zero_counterexample :
    0 ≤ two_shots.player.health ∧
    two_shots.enemy_projectile_count ≤ MAX_ENEMY_PROJECTILES ∧
    two_shots.enemy_projectiles.length = 30 ∧
    two_shots.is_paused = false ∧ two_shots.game_over = false ∧
    (game_update 0 rnd0 two_shots).player.health = -1 ∧
    ¬ (0 ≤ (game_update 0 rnd0 two_shots).player.health) := by
  decide

/-- C10, amended: lives are not clamped, they follow the hits.  On a running
state `game_update` lowers the lives by exactly the number of active
projectiles of the advanced enemy pool that overlap the player, whatever that
number is, and a paused or finished state keeps its lives; so the result has
lives `>= 0` exactly when the hits do not exceed the lives.  In every state
reached from `game_init` by the public operations the lives are `>= 0` and a
state with no lives left is game over, a frame brings at most one hit, and
`game_update` again yields lives `>= 0`, with the game over when none is
left. -/
theorem lives_follow_hits_nonneg_in_play (rand : Nat) (rnd : Nat → Nat) (s : GameState) :
    (s.is_paused = false → s.game_over = false →
      (game_update rand rnd s).player.health
        = s.player.health - (player_hits (advance rand s) : Int)) ∧
    (s.is_paused = true ∨ s.game_over = true →
      (game_update rand rnd s).player.health = s.player.health) ∧
    (s.is_paused = false → s.game_over = false →
      (0 ≤ (game_update rand rnd s).player.health
        ↔ (player_hits (advance rand s) : Int) ≤ s.player.health)) ∧
    (Reachable s →
      0 ≤ s.player.health ∧
      (s.player.health ≤ 0 → s.game_over = true) ∧
      (s.is_paused = false → s.game_over = false → player_hits (advance rand s) ≤ 1) ∧
      0 ≤ (game_update rand rnd s).player.health ∧
      ((game_update rand rnd s).player.health ≤ 0 →
        (game_update rand rnd s).game_over = true)) := by
  refine ⟨game_update_health rand rnd s, ?_, ?_, ?_⟩
  · intro h
    rw [game_update_frozen rand rnd s h]
  · intro hp hg
    rw [game_update_health rand rnd s hp hg]
    omega
  · intro hr
    have hl := reachable_livesInv hr
    have hl' := reachable_livesInv (Reachable.update rand rnd s hr)
    refine ⟨hl.1, hl.2, ?_, hl'.1, hl'.2⟩
    intro hp hg
    have hstep := game_update_health_step rand rnd s (reachable_shotInv hr)
    rw [game_update_health rand rnd s hp hg] at hstep
    omega

set_option maxRecDepth 1000000 in
theorem lives_follow_hits_nonneg_in_play_witness :
    Reachable under_fire ∧
    under_fire.is_paused = false ∧ under_fire.game_over = false ∧
    under_fire.player.health = 3 ∧ player_hits (advance 0 under_fire) = 1 ∧
    (game_update 0 rnd0 under_fire).player.health = 2 ∧
    (game_update 0 rnd0 under_fire).player.health
      = under_fire.player.health - (player_hits (advance 0 under_fire) : Int) ∧
    0 ≤ (game_update 0 rnd0 under_fire).player.health ∧
    two_shots.is_paused = false ∧ two_shots.game_over = false ∧
    two_shots.player.health = 1 ∧ player_hits (advance 0 two_shots) = 2 ∧
    (game_update 0 rnd0 two_shots).player.health
      = two_shots.player.health - (player_hits (advance 0 two_shots) : Int) ∧
    (0 ≤ (game_update 0 rnd0 two_shots).player.health
      ↔ (player_hits (advance 0 two_shots) : Int) ≤ two_shots.player.health) :=
  ⟨played_reachable played_under_fire, by decide, by decide, by decide, by decide, by decide,
   (lives_follow_hits_nonneg_in_play 0 rnd0 under_fire).1 (by decide) (by decide),
   ((lives_follow_hits_nonneg_in_play 0 rnd0 under_fire).2.2.2
      (played_reachable played_under_fire)).2.2.2.1,
   by decide, by decide, by decide, by decide,
   (lives_follow_hits_nonneg_in_play 0 rnd0 two_shots).1 (by decide) (by decide),
   (lives_follow_hits_nonneg_in_play 0 rnd0 two_shots).2.2.1 (by decide) (by decide)⟩

/-- C11: `0 <= player.x <= BOARD_WIDTH - PLAYER_WIDTH` holds after `game_init`
and is preserved by both moves and by every other public operation (so it holds
in every reachable state); on a running state `game_move_player_left` yields
`x = max 0 (x - PLAYER_SPEED)` and `game_move_player_right` yields
`x = min (BOARD_WIDTH - PLAYER_WIDTH) (x + PLAYER_SPEED)`; and any number of
`game_move_player_left` calls from `x = 0` leaves `x = 0`. -/
theorem player_x_stays_in_bounds :
    (∀ rnd, PlayerInBounds (game_init rnd)) ∧
    (∀ s, PlayerInBounds s →
      PlayerInBounds (game_move_player_left s) ∧
      PlayerInBounds (game_move_player_right s) ∧
      (∀ rand rnd, PlayerInBounds (game_update rand rnd s)) ∧
      PlayerInBounds (game_player_shoot s) ∧
      PlayerInBounds (game_toggle_pause s) ∧
      (∀ rnd, PlayerInBounds (game_next_level rnd s)) ∧
      (∀ rnd level, PlayerInBounds (game_set_level rnd s level)) ∧
      (∀ rnd, PlayerInBounds (game_reset rnd s))) ∧
    (∀ s, s.is_paused = false → s.game_over = false →
      (game_move_player_left s).player.x = max 0 (s.player.x - PLAYER_SPEED) ∧
      (game_move_player_right s).player.x
        = min (BOARD_WIDTH - PLAYER_WIDTH) (s.player.x + PLAYER_SPEED)) ∧
    (∀ (n : Nat) s, s.player.x = 0 → (game_move_player_left^[n] s).player.x = 0) := by
  have hinit : ∀ rnd, PlayerInBounds (game_init rnd) := by
    intro rnd
    have : (game_init rnd).player = ⟨39, 22, 3, 0⟩ := by
      unfold game_init
      simp only
      rw [(respawn_fields rnd _).2.1]
      rfl
    unfold PlayerInBounds
    rw [this]
    decide
  have hleft : ∀ s, PlayerInBounds s → PlayerInBounds (game_move_player_left s) := by
    intro s h
    unfold PlayerInBounds at *
    rw [game_move_player_left_x, max_def]
    simp only [BOARD_WIDTH, PLAYER_WIDTH, PLAYER_SPEED] at *
    split_ifs <;> omega
  have hright : ∀ s, PlayerInBounds s → PlayerInBounds (game_move_player_right s) := by
    intro s h
    unfold PlayerInBounds at *
    rw [game_move_player_right_x, min_def]
    simp only [BOARD_WIDTH, PLAYER_WIDTH, PLAYER_SPEED] at *
    split_ifs <;> omega
  refine ⟨hinit, ?_, ?_, ?_⟩
  · intro s h
    refine ⟨hleft s h, hright s h, ?_, ?_, ?_, ?_, ?_, ?_⟩
    · intro rand rnd
      unfold PlayerInBounds
      rw [(game_update_player_pos rand rnd s).1]
      exact h
    · unfold game_player_shoot
      split_ifs <;> exact h
    · unfold game_toggle_pause
      split_ifs <;> exact h
    · intro rnd
      by_cases hl : s.level < 10
      · unfold PlayerInBounds
        rw [game_next_level_respawn rnd s hl, (respawn_fields rnd _).2.1]
        exact h
      · rw [game_next_level_win rnd s (by omega)]
        exact h
    · intro rnd level
      unfold game_set_level
      simp only
      split_ifs
      · exact h
      · unfold PlayerInBounds
        rw [(respawn_fields rnd _).2.1]
        exact h
    · intro rnd
      unfold game_reset PlayerInBounds
      simp only
      rw [(respawn_fields rnd _).2.1]
      exact ⟨show (0 : Int) ≤ Int.tdiv 80 2 - Int.tdiv 3 2 by decide,
        show Int.tdiv 80 2 - Int.tdiv 3 2 ≤ (80 : Int) - 3 by decide⟩
  · intro s hp hg
    rw [game_move_player_left_x, game_move_player_right_x, if_pos ⟨hp, hg⟩, if_pos ⟨hp, hg⟩]
    exact ⟨rfl, rfl⟩
  · intro n
    induction n with
    | zero => intro s hs; exact hs
    | succ n ih =>
      intro s hs
      rw [Function.iterate_succ_apply]
      apply ih
      rw [game_move_player_left_x, hs]
      split_ifs <;> decide

theorem player_x_stays_in_bounds_witness :
    PlayerInBounds (game_init rnd0) ∧
    PlayerInBounds (game_move_player_right (game_init rnd0)) ∧
    (game_init rnd0).is_paused = false ∧ (game_init rnd0).game_over = false ∧
    (game_move_player_left (game_init rnd0)).player.x
      = max 0 ((game_init rnd0).player.x - PLAYER_SPEED) :=
  ⟨player_x_stays_in_bounds.1 rnd0,
   (player_x_stays_in_bounds.2.1 (game_init rnd0) (by decide)).2.1,
   rfl, rfl,
   (player_x_stays_in_bounds.2.2.1 (game_init rnd0) rfl rfl).1⟩

/-- C12 as stated fails: the level bonus is an `int` product.  For
`n = 21474838`, the first level whose bonus `(n - 1) * POINTS_LEVEL_BONUS`
exceeds `INT_MAX`, `game_set_level n` on a fresh game leaves the score at
-2147483596. -/
theorem game_set_level_score_counterexample :
    (1 : Int) ≤ 21474838 ∧ (21474838 : Int) ≤ INT_MAX ∧
    (game_set_level rnd0 (game_init rnd0) 21474838).level = 21474838 ∧
    (game_set_level rnd0 (game_init rnd0) 21474838).player.score = -2147483596 ∧
    (21474838 - 1) * POINTS_LEVEL_BONUS = 2147483700 ∧
    (game_set_level rnd0 (game_init rnd0) 21474838).player.score
      ≠ (21474838 - 1) * POINTS_LEVEL_BONUS := by
  decide

/-- C12, amended: for every `n >= 1`, `game_set_level n` on a fresh `game_init`
state yields `level = n`, both pools empty, an enemy array identical to the
fresh one (30 active enemies on the grid), and the shields of a fresh game
placed with the new draws; the score is `(n - 1) * POINTS_LEVEL_BONUS` for
`1 <= n <= 21474837`, the levels whose bonus fits in an `int`, and differs from
it for every larger `n`, being the wrapped product in all cases; for `n < 1`
the state is unchanged. -/
theorem game_set_level_at_start (rnd rnd' : Nat → Nat) (n : Int) :
    (1 ≤ n →
      (game_set_level rnd' (game_init rnd) n).level = n ∧
      (game_set_level rnd' (game_init rnd) n).projectile_count = 0 ∧
      (game_set_level rnd' (game_init rnd) n).enemy_projectile_count = 0 ∧
      player_pool (game_set_level rnd' (game_init rnd) n) = [] ∧
      enemy_pool (game_set_level rnd' (game_init rnd) n) = [] ∧
      (game_set_level rnd' (game_init rnd) n).enemies = (game_init rnd).enemies ∧
      (game_set_level rnd' (game_init rnd) n).enemy_count = INITIAL_ENEMIES ∧
      (game_set_level rnd' (game_init rnd) n).alive_enemy_count = INITIAL_ENEMIES ∧
      (∀ k, k < 30 → (game_set_level rnd' (game_init rnd) n).enemies.getD k default
        = ⟨2 + 12 * ((k % 6 : Nat) : Int), 2 + 3 * ((k / 6 : Nat) : Int), true, 1⟩) ∧
      (game_set_level rnd' (game_init rnd) n).shields = (game_init rnd').shields ∧
      (game_set_level rnd' (game_init rnd) n).player.score
        = wrap_int (POINTS_LEVEL_BONUS * (n - 1))) ∧
    (1 ≤ n → n ≤ 21474837 →
      (game_set_level rnd' (game_init rnd) n).player.score = (n - 1) * POINTS_LEVEL_BONUS) ∧
    (21474838 ≤ n →
      (game_set_level rnd' (game_init rnd) n).player.score ≠ (n - 1) * POINTS_LEVEL_BONUS) ∧
    (n < 1 → game_set_level rnd' (game_init rnd) n = game_init rnd) := by
  have hscore : 1 ≤ n → (game_set_level rnd' (game_init rnd) n).player.score
      = wrap_int (POINTS_LEVEL_BONUS * (n - 1)) := by
    intro h
    have hf := respawn_fields rnd'
      { game_init rnd with
        level := n
        player := { (game_init rnd).player with
          score := wrap_int ((game_init rnd).player.score
            + wrap_int (POINTS_LEVEL_BONUS * (n - 1))) }
        projectile_count := 0
        enemy_projectile_count := 0 }
    rw [← game_set_level_respawn rnd' (game_init rnd) n h] at hf
    rw [hf.2.1]
    show wrap_int ((0 : Int) + wrap_int (POINTS_LEVEL_BONUS * (n - 1))) = _
    rw [zero_add]
    exact wrap_int_of_fits _ (wrap_int_fits _).1 (wrap_int_fits _).2
  refine ⟨?_, ?_, ?_, ?_⟩
  · intro h
    have hen := set_level_enemies rnd rnd' n h
    have hf := respawn_fields rnd'
      { game_init rnd with
        level := n
        player := { (game_init rnd).player with
          score := wrap_int ((game_init rnd).player.score
            + wrap_int (POINTS_LEVEL_BONUS * (n - 1))) }
        projectile_count := 0
        enemy_projectile_count := 0 }
    rw [← game_set_level_respawn rnd' (game_init rnd) n h] at hf
    obtain ⟨h1, -, h3, h4, h5, h6, -⟩ := hf
    refine ⟨h1, h3, h4, ?_, ?_, hen, h6, h5, ?_, ?_, hscore h⟩
    · unfold player_pool
      rw [h3]
      rfl
    · unfold enemy_pool
      rw [h4]
      rfl
    · intro k hk
      rw [hen, game_init_enemies, getD_grid _ k hk, grid_enemy_eq]
    · rw [game_set_level_shields rnd' _ n h,
        init_shields_four rnd' (game_init rnd) _ _ _ _ (game_init_shields rnd),
        game_init_shields]
      rfl
  · intro h hmax
    rw [hscore h, wrap_int_of_fits _ (by simp only [INT_MIN, POINTS_LEVEL_BONUS]; omega)
      (by simp only [INT_MAX, POINTS_LEVEL_BONUS]; omega)]
    ring
  · intro h heq
    have hfit := (wrap_int_fits (POINTS_LEVEL_BONUS * (n - 1))).2
    rw [← hscore (by omega), heq] at hfit
    simp only [INT_MAX, POINTS_LEVEL_BONUS] at hfit
    omega
  · intro h
    unfold game_set_level
    exact if_pos h

theorem game_set_level_at_start_witness :
    (1 : Int) ≤ 5 ∧ (5 : Int) ≤ 21474837 ∧
    (game_set_level rnd0 (game_init rnd0) 5).level = 5 ∧
    (game_set_level rnd0 (game_init rnd0) 5).enemies = (game_init rnd0).enemies ∧
    (game_set_level rnd0 (game_init rnd0) 5).player.score = (5 - 1) * POINTS_LEVEL_BONUS ∧
    (game_set_level rnd0 (game_init rnd0) 5).player.score = 400 ∧
    (1 : Int) ≤ 21474837 ∧
    (game_set_level rnd0 (game_init rnd0) 21474837).player.score
      = (21474837 - 1) * POINTS_LEVEL_BONUS ∧
    (game_set_level rnd0 (game_init rnd0) 21474837).player.score = 2147483600 ∧
    (21474838 : Int) ≤ 21474839 ∧
    (game_set_level rnd0 (game_init rnd0) 21474839).player.score
      ≠ (21474839 - 1) * POINTS_LEVEL_BONUS ∧
    (0 : Int) < 1 ∧ game_set_level rnd0 (game_init rnd0) 0 = game_init rnd0 :=
  ⟨by decide, by decide,
   ((game_set_level_at_start rnd0 rnd0 5).1 (by decide)).1,
   ((game_set_level_at_start rnd0 rnd0 5).1 (by decide)).2.2.2.2.2.1,
   (game_set_level_at_start rnd0 rnd0 5).2.1 (by decide) (by decide),
   by decide,
   by decide,
   (game_set_level_at_start rnd0 rnd0 21474837).2.1 (by decide) (by decide),
   by decide,
   by decide,
   (game_set_level_at_start rnd0 rnd0 21474839).2.2.1 (by decide),
   by decide,
   (game_set_level_at_start rnd0 rnd0 0).2.2.2 (by decide)⟩

/-- C14: `game_init` yields the player at `x = BOARD_WIDTH/2 - PLAYER_WIDTH/2`
(39), `y = BOARD_HEIGHT - 2` (22) with `INITIAL_LIVES` lives and score 0; level
1; `enemy_direction` +1; both pools empty; `is_paused`, `game_over` and
`player_won` false; `enemy_count = alive_enemy_count = 30`; and for every `k`
in 0..29 enemy `k` is active with health 1 at
`(2 + 12 * (k mod 6), 2 + 3 * (k div 6))`. -/
theorem game_init_state (rnd : Nat → Nat) :
    (game_init rnd).player.x = Int.tdiv BOARD_WIDTH 2 - Int.tdiv PLAYER_WIDTH 2 ∧
    (game_init rnd).player.x = 39 ∧
    (game_init rnd).player.y = BOARD_HEIGHT - 2 ∧
    (game_init rnd).player.y = 22 ∧
    (game_init rnd).player.health = INITIAL_LIVES ∧
    (game_init rnd).player.score = 0 ∧
    (game_init rnd).level = 1 ∧
    (game_init rnd).enemy_direction = 1 ∧
    (game_init rnd).projectile_count = 0 ∧
    (game_init rnd).enemy_projectile_count = 0 ∧
    player_pool (game_init rnd) = [] ∧
    enemy_pool (game_init rnd) = [] ∧
    (game_init rnd).is_paused = false ∧
    (game_init rnd).game_over = false ∧
    (game_init rnd).player_won = false ∧
    (game_init rnd).enemy_count = 30 ∧
    (game_init rnd).alive_enemy_count = 30 ∧
    (∀ k, k < 30 → (game_init rnd).enemies.getD k default
      = ⟨2 + 12 * ((k % (ENEMY_COLS.toNat) : Nat) : Int),
         2 + 3 * ((k / (ENEMY_COLS.toNat) : Nat) : Int), true, 1⟩) := by
  refine ⟨rfl, rfl, rfl, rfl, rfl, rfl, rfl, rfl, rfl, rfl, rfl, rfl, rfl, rfl, rfl, rfl, rfl, ?_⟩
  intro k hk
  rw [game_init_enemies, getD_grid _ k hk, grid_enemy_eq]
  rfl

theorem game_init_state_witness :
    (7 : Nat) < 30 ∧
    (game_init rnd0).enemies.getD 7 default = ⟨14, 5, true, 1⟩ :=
  ⟨by decide, (game_init_state rnd0).2.2.2.2.2.2.2.2.2.2.2.2.2.2.2.2.2 7 (by decide)⟩

/-- C15: after `game_init`, whatever `rand()` returns, each of the
`SHIELD_COUNT` shields has `block_count = SHIELD_WIDTH * SHIELD_HEIGHT` (4) but
only blocks 0 and 1 carry `SHIELD_HEALTH`, at `x = p` and `p + 1` for a base
column `p` in `[0, 79]` and `y` in `[BOARD_HEIGHT - 19, BOARD_HEIGHT - 15]`;
every block from index 2 on has health 0, a block with health `<= 0` is skipped
by both shield passes, and in every reachable state the blocks from index 2 on
still have health 0. -/
theorem game_init_shields_have_two_blocks (rnd : Nat → Nat) (i : Nat) (hi : i < 4) :
    (game_init rnd).shields.length = SHIELD_COUNT.toNat ∧
    ((game_init rnd).shields.getD i default).block_count = SHIELD_WIDTH * SHIELD_HEIGHT ∧
    ((game_init rnd).shields.getD i default).block_count = 4 ∧
    ((((game_init rnd).shields.getD i default).blocks.getD 0 default).health = SHIELD_HEALTH) ∧
    ((((game_init rnd).shields.getD i default).blocks.getD 1 default).health = SHIELD_HEALTH) ∧
    (∃ p : Int, 0 ≤ p ∧ p ≤ 79 ∧
      (((game_init rnd).shields.getD i default).blocks.getD 0 default).x = p ∧
      (((game_init rnd).shields.getD i default).blocks.getD 1 default).x = p + 1) ∧
    BOARD_HEIGHT - 19 ≤ (((game_init rnd).shields.getD i default).blocks.getD 0 default).y ∧
    (((game_init rnd).shields.getD i default).blocks.getD 0 default).y ≤ BOARD_HEIGHT - 15 ∧
    BOARD_HEIGHT - 19 ≤ (((game_init rnd).shields.getD i default).blocks.getD 1 default).y ∧
    (((game_init rnd).shields.getD i default).blocks.getD 1 default).y ≤ BOARD_HEIGHT - 15 ∧
    (∀ b, 2 ≤ b →
      (((game_init rnd).shields.getD i default).blocks.getD b default).health = 0) ∧
    (∀ (t : GameState) (j b : Nat),
      ((t.shields.getD i default).blocks.getD b default).health ≤ 0 →
      hit_shield_body j i b t = t ∧ ehit_shield_body j i b t = t) ∧
    (∀ t, Reachable t → ∀ b, 2 ≤ b →
      ((t.shields.getD i default).blocks.getD b default).health = 0) := by
  have hsh := game_init_shield rnd i hi
  have hlen : (game_init rnd).shields.length = SHIELD_COUNT.toNat := by
    rw [game_init_shields]; rfl
  rw [hsh]
  have hy : ∀ r : Nat, BOARD_HEIGHT - 19 ≤ BOARD_HEIGHT - 15 - Int.tmod (r : Int) 5 ∧
      BOARD_HEIGHT - 15 - Int.tmod (r : Int) 5 ≤ BOARD_HEIGHT - 15 := by
    intro r
    have h1 := Int.tmod_nonneg 5 (Int.ofNat_nonneg r)
    have h2 := Int.tmod_lt_of_pos (r : Int) (show (0 : Int) < 5 by decide)
    simp only [BOARD_HEIGHT]
    constructor <;> omega
  refine ⟨hlen, rfl, rfl, rfl, rfl, ⟨Int.tmod (rnd i : Int) 80, ?_, ?_, ?_, rfl⟩,
    (hy _).1, (hy _).2, (hy _).1, (hy _).2, ?_, ?_, ?_⟩
  · exact Int.tmod_nonneg 80 (Int.ofNat_nonneg _)
  · have := Int.tmod_lt_of_pos (rnd i : Int) (show (0 : Int) < 80 by decide)
    omega
  · show Int.tmod (rnd i : Int) 80 + 0 = _
    ring
  · intro b hb
    exact placed_shield_spare rnd i b hb
  · intro t j b h
    exact hit_shield_body_dead j i b t h
  · intro t ht b hb
    exact reachable_spareBlocksEmpty ht i b hb

theorem game_init_shields_have_two_blocks_witness :
    (2 : Nat) < 4 ∧
    ((game_init rnd0).shields.getD 2 default).block_count = 4 ∧
    ((((game_init rnd0).shields.getD 2 default).blocks.getD 1 default).health = SHIELD_HEALTH) ∧
    (((game_init rnd0).shields.getD 2 default).blocks.getD 3 default).health = 0 :=
  ⟨by decide,
   (game_init_shields_have_two_blocks rnd0 2 (by decide)).2.2.1,
   (game_init_shields_have_two_blocks rnd0 2 (by decide)).2.2.2.2.1,
   (game_init_shields_have_two_blocks rnd0 2 (by decide)).2.2.2.2.2.2.2.2.2.2.1 3 (by decide)⟩

/-- C13: in every state reached from `game_init`, optionally followed by one
`game_set_level` call, by any sequence of `game_update` and player commands,
`game_is_won` is true only if `level > 10`, and whenever `game_is_won` is true
`game_is_over` is true as well; `game_is_over` is true exactly when `game_over`
is set or the lives are `<= 0`. -/
theorem won_only_past_max_level (rnd rnd' : Nat → Nat) (n : Int) (s0 s : GameState)
    (h0 : s0 = game_init rnd ∨ s0 = game_set_level rnd' (game_init rnd) n)
    (h : PlayedFrom s0 s) :
    (game_is_won s = true → 10 < s.level) ∧
    (game_is_won s = true → game_is_over s = true) ∧
    (game_is_over s = true ↔ (s.game_over = true ∨ s.player.health ≤ 0)) := by
  have hstart : s0.player_won = false := by
    rcases h0 with h0 | h0
    · rw [h0]; rfl
    · rw [h0]
      by_cases hn : 1 ≤ n
      · rw [game_set_level_respawn rnd' _ n hn, (respawn_fields rnd' _).2.2.2.2.2.2.2.2.2.1]
        rfl
      · unfold game_set_level
        rw [if_pos (by omega)]
        rfl
  have hinv := wonInv_played (wonInv_of_not_won s0 hstart) h
  refine ⟨fun hw => (hinv hw).1, fun hw => ?_, ?_⟩
  · unfold game_is_over
    rw [(hinv hw).2]
    rfl
  · unfold game_is_over
    simp only [Bool.or_eq_true, decide_eq_true_eq]

theorem won_only_past_max_level_witness :
    PlayedFrom (game_set_level rnd0 (game_init rnd0) 3)
      (game_update 0 rnd0 (game_player_shoot (game_set_level rnd0 (game_init rnd0) 3))) ∧
    (game_is_over (game_update 0 rnd0 (game_player_shoot (game_set_level rnd0 (game_init rnd0) 3)))
        = true ↔
      ((game_update 0 rnd0 (game_player_shoot (game_set_level rnd0 (game_init rnd0) 3))).game_over
          = true ∨
       (game_update 0 rnd0
          (game_player_shoot (game_set_level rnd0 (game_init rnd0) 3))).player.health ≤ 0)) :=
  ⟨PlayedFrom.update _ _ _ (PlayedFrom.shoot _ PlayedFrom.start),
   (won_only_past_max_level rnd0 rnd0 3 _ _ (Or.inr rfl)
      (PlayedFrom.update 0 rnd0 _ (PlayedFrom.shoot _ PlayedFrom.start))).2.2⟩

set_option maxRecDepth 100000 in
/-- C16 fails on the code: `game_reset` never writes `enemy_fire_timer`, which
`game_init` sets to 0.  After one `game_update` of a fresh game the timer is 1,
and `game_reset` leaves it at 1, so the reset state differs from the state
`game_init` produces with the same draws; the other scalar fields, the player
and the shields' draws are reset. -/
theorem game_reset_keeps_fire_timer :
    (∀ rnd s, (game_reset rnd s).enemy_fire_timer = s.enemy_fire_timer) ∧
    (∀ rnd s, (game_reset rnd s).player = (game_init rnd).player ∧
      (game_reset rnd s).level = (game_init rnd).level ∧
      (game_reset rnd s).frame_count = (game_init rnd).frame_count ∧
      (game_reset rnd s).enemy_move_counter = (game_init rnd).enemy_move_counter ∧
      (game_reset rnd s).enemy_direction = (game_init rnd).enemy_direction ∧
      (game_reset rnd s).is_paused = (game_init rnd).is_paused ∧
      (game_reset rnd s).game_over = (game_init rnd).game_over ∧
      (game_reset rnd s).player_won = (game_init rnd).player_won ∧
      (game_reset rnd s).projectile_count = (game_init rnd).projectile_count ∧
      (game_reset rnd s).enemy_projectile_count = (game_init rnd).enemy_projectile_count ∧
      (game_reset rnd s).enemy_count = (game_init rnd).enemy_count ∧
      (game_reset rnd s).alive_enemy_count = (game_init rnd).alive_enemy_count) ∧
    PlayedFrom (game_init rnd0) (game_update 0 rnd0 (game_init rnd0)) ∧
    (game_init rnd0).enemy_fire_timer = 0 ∧
    (game_update 0 rnd0 (game_init rnd0)).enemy_fire_timer = 1 ∧
    (game_reset rnd0 (game_update 0 rnd0 (game_init rnd0))).enemy_fire_timer = 1 ∧
    game_reset rnd0 (game_update 0 rnd0 (game_init rnd0)) ≠ game_init rnd0 := by
  have htimer : ∀ rnd s, (game_reset rnd s).enemy_fire_timer = s.enemy_fire_timer :=
    fun rnd s => (game_reset_fields rnd s).2.2.2.2.2.2.2.2.2.2.2.1
  have h1 : (game_update 0 rnd0 (game_init rnd0)).enemy_fire_timer = 1 := by decide
  refine ⟨htimer, ?_, PlayedFrom.update _ _ _ PlayedFrom.start, rfl, h1, ?_, ?_⟩
  · intro rnd s
    obtain ⟨r1, r2, r3, r4, r5, r6, r7, r8, r9, r10, r11, -, r13⟩ := game_reset_fields rnd s
    obtain ⟨g1, g2, g3, g4, g5, g6, g7, g8, g9, g10, g11, -, g13⟩ := game_init_fields rnd
    rw [r1, r2, r3, r4, r5, r6, r7, r8, r9, r10, r11, r13, g1, g2, g3, g4, g5, g6, g7, g8, g9,
      g10, g11, g13]
    exact ⟨rfl, rfl, rfl, rfl, rfl, rfl, rfl, rfl, rfl, rfl, rfl, rfl⟩
  · rw [htimer, h1]
  · intro heq
    have := congrArg GameState.enemy_fire_timer heq
    rw [htimer, h1] at this
    exact absurd this (by decide)

/-- C17: in every state reached from `game_init` by any sequence of
`game_update` and player commands in which `player_won` is false,
`score = (INITIAL_ENEMIES * POINTS_PER_ENEMY + POINTS_LEVEL_BONUS) * (level - 1)
+ POINTS_PER_ENEMY * (INITIAL_ENEMIES - alive_enemy_count)`; in particular the
`game_update` that clears the last enemy of level 1 returns with `level = 2`,
`score = 30 * 10 + 100 = 400`, both pools empty and 30 new active enemies. -/
theorem score_is_determined_by_progress (rnd : Nat → Nat) (s : GameState)
    (h : PlayedFrom (game_init rnd) s) :
    (s.player_won = false →
      s.player.score
        = (INITIAL_ENEMIES * POINTS_PER_ENEMY + POINTS_LEVEL_BONUS) * (s.level - 1)
          + POINTS_PER_ENEMY * (INITIAL_ENEMIES - s.alive_enemy_count)) ∧
    (∀ rand rnd', s.is_paused = false → s.game_over = false → s.level = 1 →
      (handle_collisions (advance rand s)).alive_enemy_count ≤ 0 →
      (game_update rand rnd' s).level = 2 ∧
      (game_update rand rnd' s).player.score = 30 * 10 + 100 ∧
      (game_update rand rnd' s).player.score = 400 ∧
      (game_update rand rnd' s).projectile_count = 0 ∧
      (game_update rand rnd' s).enemy_projectile_count = 0 ∧
      (game_update rand rnd' s).alive_enemy_count = 30 ∧
      (game_update rand rnd' s).enemies.take 30 = (List.range 30).map grid_enemy ∧
      active_enemies (game_update rand rnd' s) = 30) := by
  have hs := scoreInv_played h
  have hreach := played_reachable h
  have he := reachable_enemyInv hreach
  have hwi : WonInv s := wonInv_played (wonInv_of_not_won _ rfl) h
  refine ⟨hs, ?_⟩
  intro rand rnd' hp hg hlv hz
  have hw : s.player_won = false := by
    cases hw : s.player_won
    · rfl
    · have := (hwi hw).2
      rw [hg] at this
      exact absurd this (by decide)
  have hsc := scoreInv_after_collisions rand s hs hw
  have hinvc := handle_collisions_inv _ (advance_inv rand s he)
  have halive := enemyInv_alive_nonneg _ hinvc
  have hl : (handle_collisions (advance rand s)).level = s.level := by
    rw [handle_collisions_level, advance_frame]
  obtain ⟨h1, h2, h3, h4, h5, -, h7, -⟩ :=
    check_level_complete_respawn rnd' _ (by rw [hl, hlv]; decide) hinvc.1 hz
  rw [← game_update_running rand rnd' s hp hg] at h1 h2 h3 h4 h5 h7
  have hscore : (game_update rand rnd' s).player.score = 400 := by
    rw [h2, hsc, hlv]
    simp only [INITIAL_ENEMIES, POINTS_PER_ENEMY, POINTS_LEVEL_BONUS]
    omega
  have hupd := Reachable.update rand rnd' s hreach
  have hact := (reachable_enemyInv hupd).2.2
  rw [h5] at hact
  refine ⟨by rw [h1, hl, hlv]; rfl, by rw [hscore]; rfl, hscore, h3, h4, h5, ?_, ?_⟩
  · rw [h7, take_grid]
  · have : ((30 : Nat) : Int) = (active_enemies (game_update rand rnd' s) : Int) := hact
    exact (Int.ofNat_inj.mp this).symm

set_option maxRecDepth 1000000 in
set_option maxHeartbeats 4000000 in
theorem score_is_determined_by_progress_witness :
    PlayedFrom (game_init rnd0) (shot_run 7) ∧
    (shot_run 6).player.score = 0 ∧ (shot_run 6).alive_enemy_count = 30 ∧
    (shot_run 7).player_won = false ∧ (shot_run 7).level = 1 ∧
    (shot_run 7).player.score = 10 ∧ (shot_run 7).alive_enemy_count = 29 ∧
    (shot_run 7).player.score
      = (INITIAL_ENEMIES * POINTS_PER_ENEMY + POINTS_LEVEL_BONUS) * ((shot_run 7).level - 1)
        + POINTS_PER_ENEMY * (INITIAL_ENEMIES - (shot_run 7).alive_enemy_count) ∧
    PlayedFrom (game_init rnd0) clear_play ∧
    clear_play.is_paused = false ∧ clear_play.game_over = false ∧
    clear_play.player_won = false ∧ clear_play.level = 1 ∧
    clear_play.player.score = 290 ∧ clear_play.alive_enemy_count = 1 ∧
    (handle_collisions (advance 0 clear_play)).alive_enemy_count ≤ 0 ∧
    clear_play.player.score
      = (INITIAL_ENEMIES * POINTS_PER_ENEMY + POINTS_LEVEL_BONUS) * (clear_play.level - 1)
        + POINTS_PER_ENEMY * (INITIAL_ENEMIES - clear_play.alive_enemy_count) ∧
    (game_update 0 rnd0 clear_play).level = 2 ∧
    (game_update 0 rnd0 clear_play).player.score = 400 ∧
    (game_update 0 rnd0 clear_play).projectile_count = 0 ∧
    (game_update 0 rnd0 clear_play).enemy_projectile_count = 0 ∧
    (game_update 0 rnd0 clear_play).alive_enemy_count = 30 ∧
    (game_update 0 rnd0 clear_play).enemies.take 30 = (List.range 30).map grid_enemy ∧
    active_enemies (game_update 0 rnd0 clear_play) = 30 := by
  have hk : (shot_run 6).player.score = 0 ∧ (shot_run 6).alive_enemy_count = 30 ∧
      (shot_run 7).player_won = false ∧ (shot_run 7).level = 1 ∧
      (shot_run 7).player.score = 10 ∧ (shot_run 7).alive_enemy_count = 29 := by decide
  have hc : clear_play.is_paused = false ∧ clear_play.game_over = false ∧
      clear_play.player_won = false ∧ clear_play.level = 1 ∧
      clear_play.player.score = 290 ∧ clear_play.alive_enemy_count = 1 ∧
      (handle_collisions (advance 0 clear_play)).alive_enemy_count ≤ 0 := by decide!
  have hclear := (score_is_determined_by_progress rnd0 clear_play played_clear_play).2
    0 rnd0 hc.1 hc.2.1 hc.2.2.2.1 hc.2.2.2.2.2.2
  exact ⟨played_shot_run 7, hk.1, hk.2.1, hk.2.2.1, hk.2.2.2.1, hk.2.2.2.2.1, hk.2.2.2.2.2,
    (score_is_determined_by_progress rnd0 (shot_run 7) (played_shot_run 7)).1 hk.2.2.1,
    played_clear_play, hc.1, hc.2.1, hc.2.2.1, hc.2.2.2.1, hc.2.2.2.2.1, hc.2.2.2.2.2.1,
    hc.2.2.2.2.2.2,
    (score_is_determined_by_progress rnd0 clear_play played_clear_play).1 hc.2.2.1,
    hclear.1, hclear.2.2.1, hclear.2.2.2.1, hclear.2.2.2.2.1, hclear.2.2.2.2.2.1,
    hclear.2.2.2.2.2.2.1, hclear.2.2.2.2.2.2.2⟩

set_option maxRecDepth 100000 in
/-- C18 as stated fails: a projectile deactivated by the collision passes is
still in its pool when `game_update` returns.  In a fresh game with a player
projectile right below an enemy the projectile kills the enemy and stays in
slot 0 of a pool of size 1, inactive; likewise for an enemy projectile that
hits the ship. -/
theorem pools_compacted_at_frame_end_counterexample :
    one_hit.is_paused = false ∧ one_hit.game_over = false ∧
    (game_update 0 rnd0 one_hit).projectile_count = 1 ∧
    ((game_update 0 rnd0 one_hit).projectiles.getD 0 default).active = false ∧
    one_shot.is_paused = false ∧ one_shot.game_over = false ∧
    (game_update 0 rnd0 one_shot).enemy_projectile_count = 1 ∧
    ((game_update 0 rnd0 one_shot).enemy_projectiles.getD 0 default).active = false := by
  decide

/-- C18, amended: inactive projectiles are compacted out in the advance step of
the frame, before the collision passes.  For every state whose pool counts lie
within the arrays, right after the advance (enemy step and both projectile
updates) every entry of the live player pool and of the live enemy pool is
active; on a running state `game_update` then runs the collision passes and the
level check on that state, and nothing compacts the pools after them. -/
theorem pools_all_active_after_advance (rand : Nat) (s : GameState)
    (hp : s.projectile_count.toNat ≤ s.projectiles.length)
    (he1 : s.enemy_projectile_count ≤ MAX_ENEMY_PROJECTILES)
    (he2 : s.enemy_projectiles.length = 30) :
    (∀ p, p ∈ player_pool (advance rand s) → p.active = true) ∧
    (∀ p, p ∈ enemy_pool (advance rand s) → p.active = true) ∧
    (∀ rnd, s.is_paused = false → s.game_over = false →
      game_update rand rnd s
        = check_level_complete rnd (handle_collisions (advance rand s)) ∧
      (handle_collisions (advance rand s)).projectile_count
        = (advance rand s).projectile_count ∧
      (handle_collisions (advance rand s)).enemy_projectile_count
        = (advance rand s).enemy_projectile_count) := by
  obtain ⟨h1, h2⟩ := pools_after_advance rand s hp he1 he2
  refine ⟨?_, ?_, ?_⟩
  · intro p hmem
    rw [h1] at hmem
    exact spec_advance_player_pool_active _ p hmem
  · intro p hmem
    rw [h2] at hmem
    exact spec_advance_enemy_pool_active _ p hmem
  · intro rnd hpa hg
    exact ⟨game_update_running rand rnd s hpa hg, handle_collisions_projectile_count _,
      handle_collisions_enemy_projectile_count _⟩

set_option maxRecDepth 100000 in
theorem pools_all_active_after_advance_witness :
    pool_demo.projectile_count.toNat ≤ pool_demo.projectiles.length ∧
    pool_demo.enemy_projectile_count ≤ MAX_ENEMY_PROJECTILES ∧
    pool_demo.enemy_projectiles.length = 30 ∧
    (∀ p, p ∈ player_pool (advance 0 pool_demo) → p.active = true) :=
  ⟨by decide, by decide, by decide,
   (pools_all_active_after_advance 0 pool_demo (by decide) (by decide) (by decide)).1⟩

/-- C19: the enemy speed tier is 3 when `alive_enemy_count ≤ 5`, else 2 when it
is at most `ENEMY_SPEED_INCREASE_THRESHOLD`, else `ENEMY_BASE_SPEED`; a step is
triggered exactly when the incremented counter reaches `10 - tier`.  On a
running state, a triggered frame leaves the counter at 0 and moves every active
enemy by `enemy_direction`; an untriggered frame leaves the counter at the old
value plus one, keeps the direction, and `update_enemies` keeps the enemy array
(so does the whole frame, coordinate by coordinate, unless it clears the level).
Along any run of running frames with more than ten enemies alive that starts
with counter 0, the counter of frame `k` is `k % 9` and the step is triggered
exactly on frames 9, 18, 27, ... (counting updates from 1). -/
theorem enemy_step_cadence :
    (∀ s : GameState,
      enemy_speed s
        = (if s.alive_enemy_count ≤ 5 then 3
           else if s.alive_enemy_count ≤ ENEMY_SPEED_INCREASE_THRESHOLD then 2
           else ENEMY_BASE_SPEED) ∧
      (step_triggered s ↔ s.enemy_move_counter + 1 ≥ 10 - enemy_speed s)) ∧
    (∀ (rand : Nat) (rnd : Nat → Nat) (s : GameState),
      s.is_paused = false → s.game_over = false →
      (step_triggered s →
        (game_update rand rnd s).enemy_move_counter = 0 ∧
        (update_enemies rand s).enemy_move_counter = 0 ∧
        ∀ i, i < s.enemy_count.toNat → (s.enemies.getD i default).active = true →
          ((update_enemies rand s).enemies.getD i default).x
            = (s.enemies.getD i default).x + s.enemy_direction) ∧
      (¬ step_triggered s →
        (game_update rand rnd s).enemy_move_counter = s.enemy_move_counter + 1 ∧
        (game_update rand rnd s).enemy_direction = s.enemy_direction ∧
        (update_enemies rand s).enemy_move_counter = s.enemy_move_counter + 1 ∧
        (update_enemies rand s).enemy_direction = s.enemy_direction ∧
        (update_enemies rand s).enemies = s.enemies ∧
        (0 < (handle_collisions (advance rand s)).alive_enemy_count →
          ∀ i, ((game_update rand rnd s).enemies.getD i default).x
                = (s.enemies.getD i default).x ∧
               ((game_update rand rnd s).enemies.getD i default).y
                = (s.enemies.getD i default).y))) ∧
    (∀ (σ : Nat → GameState) (r : Nat → Nat) (rn : Nat → Nat → Nat) (N : Nat),
      (∀ k, k < N → σ (k + 1) = game_update (r k) (rn k) (σ k)) →
      (∀ k, k < N → (σ k).is_paused = false ∧ (σ k).game_over = false ∧
        10 < (σ k).alive_enemy_count) →
      (σ 0).enemy_move_counter = 0 →
      (∀ k, k ≤ N → (σ k).enemy_move_counter = ((k % 9 : Nat) : Int)) ∧
      (∀ k, k < N → (step_triggered (σ k) ↔ (k + 1) % 9 = 0))) := by
  refine ⟨fun s => ⟨enemy_speed_eq s, Iff.rfl⟩, ?_, ?_⟩
  · intro rand rnd s hp hg
    obtain ⟨ht, hn⟩ := game_update_cadence rand rnd s hp hg
    obtain ⟨ue, ud, uc, -⟩ := update_enemies_of_move rand s
    constructor
    · intro h
      refine ⟨ht h, ?_, ?_⟩
      · rw [uc]
        exact (update_enemies_move_step s h).1
      · intro i hi hact
        rw [ue]
        exact ((update_enemies_move_entries s h i).2.1 hi hact).1
    · intro h
      refine ⟨(hn h).1, (hn h).2, ?_, ?_, ?_, ?_⟩
      · rw [uc, update_enemies_move_idle s h]
      · rw [ud, update_enemies_move_idle s h]
      · rw [ue, update_enemies_move_idle s h]
      · intro hal i
        obtain ⟨px, py⟩ := game_update_enemy_pos rand rnd s hp hg hal i
        rw [px, py, update_enemies_move_idle { s with frame_count := s.frame_count + 1 } h]
        exact ⟨rfl, rfl⟩
  · intro σ r rn N hstep hrun h0
    have hc := counter_along_run σ r rn N hstep hrun h0
    refine ⟨hc, ?_⟩
    intro k hk
    rw [step_triggered_many_alive (σ k) (hrun k hk).2.2, hc k (by omega)]
    omega

set_option maxRecDepth 100000 in
theorem enemy_step_cadence_witness :
    (∀ k, k < 9 → (idle_run k).is_paused = false ∧ (idle_run k).game_over = false ∧
      10 < (idle_run k).alive_enemy_count) ∧
    (idle_run 0).enemy_move_counter = 0 ∧
    ((∀ k, k ≤ 9 → (idle_run k).enemy_move_counter = ((k % 9 : Nat) : Int)) ∧
     (∀ k, k < 9 → (step_triggered (idle_run k) ↔ (k + 1) % 9 = 0))) :=
  ⟨by decide, by decide,
   enemy_step_cadence.2.2 idle_run (fun _ => 0) (fun _ => rnd0) 9 (fun _ _ => rfl)
     (by decide) (by decide)⟩

/-- C20: on a triggered enemy step `update_enemies` moves every active enemy of
the live array by `enemy_direction` (keeping it active, with its health) and
leaves every inactive entry as it was.  If some active enemy then touches a
board edge (`x ≤ 0` or `x + ENEMY_WIDTH ≥ BOARD_WIDTH` at its new `x`), the
direction is negated and every active enemy's `y` grows by `ENEMY_MOVE_DOWN`,
which is 1; otherwise the direction and every entry's `y` are unchanged.  On a
running state `game_update` returns that direction, and, unless the frame
clears the level, those coordinates. -/
theorem triggered_step_shifts_and_bounces (rand : Nat) (s : GameState)
    (h : step_triggered s) :
    (∀ i, i < s.enemy_count.toNat → (s.enemies.getD i default).active = true →
      ((update_enemies rand s).enemies.getD i default).x
        = (s.enemies.getD i default).x + s.enemy_direction ∧
      ((update_enemies rand s).enemies.getD i default).active = true ∧
      ((update_enemies rand s).enemies.getD i default).health
        = (s.enemies.getD i default).health) ∧
    (∀ i, (s.enemies.getD i default).active = false →
      (update_enemies rand s).enemies.getD i default = s.enemies.getD i default) ∧
    (edge_hit s →
      (update_enemies rand s).enemy_direction = - s.enemy_direction ∧
      ∀ i, i < s.enemy_count.toNat → (s.enemies.getD i default).active = true →
        ((update_enemies rand s).enemies.getD i default).y
          = (s.enemies.getD i default).y + ENEMY_MOVE_DOWN) ∧
    (¬ edge_hit s →
      (update_enemies rand s).enemy_direction = s.enemy_direction ∧
      ∀ i, ((update_enemies rand s).enemies.getD i default).y
        = (s.enemies.getD i default).y) ∧
    ENEMY_MOVE_DOWN = 1 ∧
    (∀ rnd : Nat → Nat, s.is_paused = false → s.game_over = false →
      (edge_hit s → (game_update rand rnd s).enemy_direction = - s.enemy_direction) ∧
      (¬ edge_hit s → (game_update rand rnd s).enemy_direction = s.enemy_direction) ∧
      (0 < (handle_collisions (advance rand s)).alive_enemy_count →
        ∀ i, i < s.enemy_count.toNat → (s.enemies.getD i default).active = true →
          ((game_update rand rnd s).enemies.getD i default).x
            = (s.enemies.getD i default).x + s.enemy_direction ∧
          (edge_hit s → ((game_update rand rnd s).enemies.getD i default).y
            = (s.enemies.getD i default).y + ENEMY_MOVE_DOWN) ∧
          (¬ edge_hit s → ((game_update rand rnd s).enemies.getD i default).y
            = (s.enemies.getD i default).y))) := by
  obtain ⟨ue, ud, -, -⟩ := update_enemies_of_move rand s
  obtain ⟨-, hno, hyes⟩ := update_enemies_move_step s h
  refine ⟨?_, ?_, ?_, ?_, rfl, ?_⟩
  · intro i hi hact
    rw [ue]
    obtain ⟨a, b, c, -⟩ := (update_enemies_move_entries s h i).2.1 hi hact
    exact ⟨a, b, c⟩
  · intro i hin
    rw [ue]
    exact (update_enemies_move_entries s h i).1 hin
  · intro he
    rw [ue, ud, (hyes he).1]
    refine ⟨by ring, ?_⟩
    intro i hi hact
    exact ((update_enemies_move_entries s h i).2.1 hi hact).2.2.2.1 he
  · intro he
    rw [ue, ud, (hno he).1]
    exact ⟨rfl, fun i => (update_enemies_move_entries s h i).2.2 he⟩
  · intro rnd hp hg
    obtain ⟨-, gd⟩ := game_update_of_move rand rnd s hp hg
    obtain ⟨-, fno, fyes⟩ :=
      update_enemies_move_step { s with frame_count := s.frame_count + 1 } h
    refine ⟨?_, ?_, ?_⟩
    · intro he
      rw [gd, (fyes he).1]
      show s.enemy_direction * -1 = - s.enemy_direction
      ring
    · intro he
      rw [gd, (fno he).1]
    · intro hal i hi hact
      obtain ⟨px, py⟩ := game_update_enemy_pos rand rnd s hp hg hal i
      obtain ⟨a, -, -, c, d⟩ :=
        (update_enemies_move_entries { s with frame_count := s.frame_count + 1 } h i).2.1
          hi hact
      rw [px, py]
      exact ⟨a, c, d⟩

set_option maxRecDepth 100000 in
theorem triggered_step_shifts_and_bounces_witness :
    (step_triggered (idle_run 8) ∧ ¬ edge_hit (idle_run 8) ∧
      ((update_enemies 0 (idle_run 8)).enemies.getD 0 default).x = 3 ∧
      (update_enemies 0 (idle_run 8)).enemy_direction = 1 ∧
      ((update_enemies 0 (idle_run 8)).enemies.getD 0 default).y = 2) ∧
    (step_triggered at_right_edge ∧ edge_hit at_right_edge ∧
      ((update_enemies 0 at_right_edge).enemies.getD 0 default).x = 17 ∧
      (update_enemies 0 at_right_edge).enemy_direction = -1 ∧
      ((update_enemies 0 at_right_edge).enemies.getD 0 default).y = 3) :=
  ⟨⟨by decide, by decide,
    ((triggered_step_shifts_and_bounces 0 (idle_run 8) (by decide)).1 0
      (by decide) (by decide)).1,
    ((triggered_step_shifts_and_bounces 0 (idle_run 8) (by decide)).2.2.2.1
      (by decide)).1,
    ((triggered_step_shifts_and_bounces 0 (idle_run 8) (by decide)).2.2.2.1
      (by decide)).2 0⟩,
   ⟨by decide, by decide,
    ((triggered_step_shifts_and_bounces 0 at_right_edge (by decide)).1 0
      (by decide) (by decide)).1,
    ((triggered_step_shifts_and_bounces 0 at_right_edge (by decide)).2.2.1
      (by decide)).1,
    ((triggered_step_shifts_and_bounces 0 at_right_edge (by decide)).2.2.1
      (by decide)).2 0 (by decide) (by decide)⟩⟩

/-- C21: in every state reached from `game_init` by `game_update` calls and
player commands, an active enemy with `y >= BOARD_HEIGHT - 2` implies that
`game_over` is set (and `game_is_over` answers true); so while `game_over` is
false every active enemy is above the player line.  The flag is set in the
frame of the descent: on a running state whose step is triggered and touches an
edge, an active enemy that the descent brings to `y >= BOARD_HEIGHT - 2` makes
`game_update` return with `game_over` set. -/
theorem enemy_on_player_line_ends_game :
    (∀ (rnd : Nat → Nat) (s : GameState), PlayedFrom (game_init rnd) s →
      (∀ i, (s.enemies.getD i default).active = true →
        (s.enemies.getD i default).y ≥ BOARD_HEIGHT - 2 →
        s.game_over = true ∧ game_is_over s = true) ∧
      (s.game_over = false → ∀ i, (s.enemies.getD i default).active = true →
        (s.enemies.getD i default).y < BOARD_HEIGHT - 2)) ∧
    (∀ (rand : Nat) (rnd : Nat → Nat) (s : GameState),
      s.is_paused = false → s.game_over = false → step_triggered s → edge_hit s →
      (∃ i, i < s.enemy_count.toNat ∧ (s.enemies.getD i default).active = true ∧
        (s.enemies.getD i default).y + ENEMY_MOVE_DOWN ≥ BOARD_HEIGHT - 2) →
      (game_update rand rnd s).game_over = true) := by
  constructor
  · intro rnd s h
    have hb := bottomInv_played h
    constructor
    · intro i hact hy
      have hg := hb i hact hy
      refine ⟨hg, ?_⟩
      unfold game_is_over
      rw [hg]
      rfl
    · intro hg i hact
      by_contra hy
      have := hb i hact (by omega)
      rw [hg] at this
      exact Bool.noConfusion this
  · intro rand rnd s hp hg htr he hex
    apply game_update_game_over rand rnd s hp hg
    obtain ⟨-, -, hyes⟩ :=
      update_enemies_move_step { s with frame_count := s.frame_count + 1 } htr
    exact (hyes he).2.2.2 (Or.inr hex)

set_option maxRecDepth 100000 in
theorem enemy_on_player_line_ends_game_witness :
    (PlayedFrom (game_init rnd0) (idle_run 9) ∧ (idle_run 9).game_over = false ∧
      ∀ i, ((idle_run 9).enemies.getD i default).active = true →
        ((idle_run 9).enemies.getD i default).y < BOARD_HEIGHT - 2) ∧
    (low_formation.is_paused = false ∧ low_formation.game_over = false ∧
      step_triggered low_formation ∧ edge_hit low_formation ∧
      (low_formation.enemies.getD 29 default).y + ENEMY_MOVE_DOWN ≥ BOARD_HEIGHT - 2 ∧
      (game_update 0 rnd0 low_formation).game_over = true) :=
  ⟨⟨PlayedFrom.update _ _ _ (PlayedFrom.update _ _ _ (PlayedFrom.update _ _ _
      (PlayedFrom.update _ _ _ (PlayedFrom.update _ _ _ (PlayedFrom.update _ _ _
      (PlayedFrom.update _ _ _ (PlayedFrom.update _ _ _ (PlayedFrom.update _ _ _
      PlayedFrom.start)))))))),
    by decide,
    ((enemy_on_player_line_ends_game.1 rnd0 (idle_run 9)
      (PlayedFrom.update _ _ _ (PlayedFrom.update _ _ _ (PlayedFrom.update _ _ _
      (PlayedFrom.update _ _ _ (PlayedFrom.update _ _ _ (PlayedFrom.update _ _ _
      (PlayedFrom.update _ _ _ (PlayedFrom.update _ _ _ (PlayedFrom.update _ _ _
      PlayedFrom.start)))))))))).2 (by decide))⟩,
   ⟨by decide, by decide, by decide, by decide, by decide,
    enemy_on_player_line_ends_game.2 0 rnd0 low_formation (by decide) (by decide)
      (by decide) (by decide) ⟨29, by decide, by decide, by decide⟩⟩⟩

set_option maxRecDepth 1000000 in
/-- C22 as stated fails: the probe does not start at the drawn index.  After 49
idle frames of a fresh game the fire timer is at 49; with `rand()` returning 0
the drawn index is `r = 0` and enemy 0, at (7, 2), is active, so the step as
claimed would append a projectile spawned from enemy 0, at (8, 3);
`update_enemies` appends the one spawned from enemy 1, at (20, 3). -/
theorem enemy_fire_probe_start_counterexample :
    Reachable (idle_run 49) ∧
    (idle_run 49).is_paused = false ∧ (idle_run 49).game_over = false ∧
    (idle_run 49).enemy_fire_timer + 1 ≥ ENEMY_FIRE_RATE ∧
    0 < (idle_run 49).alive_enemy_count ∧
    utils_random_int 0 0 ((idle_run 49).enemy_count - 1) = 0 ∧
    (update_enemies_move (idle_run 49)).enemies.getD 0 default = ⟨7, 2, true, 1⟩ ∧
    first_active_among (update_enemies_move (idle_run 49)) 0 = some 0 ∧
    (spec_enemy_fire 0 (update_enemies_move (idle_run 49))).enemy_projectiles.getD 0 default
      = enemy_shot ((update_enemies_move (idle_run 49)).enemies.getD 0 default) ∧
    enemy_shot ((update_enemies_move (idle_run 49)).enemies.getD 0 default) = ⟨8, 3, true⟩ ∧
    (update_enemies 0 (idle_run 49)).enemy_projectile_count = 1 ∧
    (update_enemies 0 (idle_run 49)).enemy_projectiles.getD 0 default = ⟨20, 3, true⟩ ∧
    (game_update 0 rnd0 (idle_run 49)).enemy_projectiles.getD 0 default = ⟨20, 4, true⟩ ∧
    update_enemies 0 (idle_run 49) ≠ spec_enemy_fire 0 (update_enemies_move (idle_run 49)) := by
  have h0 : (update_enemies_move (idle_run 49)).enemies.getD 0 default = ⟨7, 2, true, 1⟩ := by
    decide
  have h1 : (spec_enemy_fire 0 (update_enemies_move (idle_run 49))).enemy_projectiles.getD 0
      default = ⟨8, 3, true⟩ := by decide
  have h2 : (update_enemies 0 (idle_run 49)).enemy_projectiles.getD 0 default = ⟨20, 3, true⟩ := by
    decide
  refine ⟨reachable_idle_run 49, by decide, by decide, by decide, by decide, by decide, h0,
    by decide, ?_, ?_, by decide, h2, by decide, ?_⟩
  · rw [h1, h0]
    rfl
  · rw [h0]
    rfl
  · intro heq
    rw [heq, h1] at h2
    exact absurd h2 (by decide)

/-- C22, amended: for every state with `enemy_count > 0`, the fire half of
`update_enemies` is the specified step with the probe starting one past the
drawn index `r = utils_random_int (0, enemy_count - 1)`: the five probed indices
are `r + 1, ..., r + 5` (mod `enemy_count`).  The timer is incremented and, when
it reaches `ENEMY_FIRE_RATE`, reset to 0 (also as `game_update` returns it on a
running state); below the threshold the enemy pool is untouched; at the
threshold, with an enemy alive, the first active enemy among the five probed
ones appends one active projectile spawned from it if the pool has capacity,
and the pool is untouched if none of the five is active or the pool is full. -/
theorem enemy_fire_probes_after_draw (rand : Nat) (s : GameState) (hn : 0 < s.enemy_count) :
    update_enemies rand s
      = spec_enemy_fire (utils_random_int rand 0 (s.enemy_count - 1) + 1)
          (update_enemies_move s) ∧
    (0 ≤ utils_random_int rand 0 (s.enemy_count - 1) ∧
      utils_random_int rand 0 (s.enemy_count - 1) < s.enemy_count) ∧
    (update_enemies rand s).enemy_fire_timer
      = (if s.enemy_fire_timer + 1 ≥ ENEMY_FIRE_RATE then 0 else s.enemy_fire_timer + 1) ∧
    (∀ rnd : Nat → Nat, s.is_paused = false → s.game_over = false →
      (game_update rand rnd s).enemy_fire_timer
        = (if s.enemy_fire_timer + 1 ≥ ENEMY_FIRE_RATE then 0 else s.enemy_fire_timer + 1)) ∧
    (s.enemy_fire_timer + 1 < ENEMY_FIRE_RATE →
      (update_enemies rand s).enemy_projectiles = s.enemy_projectiles ∧
      (update_enemies rand s).enemy_projectile_count = s.enemy_projectile_count) ∧
    (s.enemy_fire_timer + 1 ≥ ENEMY_FIRE_RATE → 0 < s.alive_enemy_count →
      (∀ j, first_active_among (update_enemies_move s)
            (utils_random_int rand 0 (s.enemy_count - 1) + 1) = some j →
        ((update_enemies_move s).enemies.getD j default).active = true ∧
        (s.enemy_projectile_count < MAX_ENEMY_PROJECTILES →
          (update_enemies rand s).enemy_projectile_count = s.enemy_projectile_count + 1 ∧
          (update_enemies rand s).enemy_projectiles
            = s.enemy_projectiles.set s.enemy_projectile_count.toNat
                (enemy_shot ((update_enemies_move s).enemies.getD j default)) ∧
          (0 ≤ s.enemy_projectile_count →
            s.enemy_projectile_count.toNat < s.enemy_projectiles.length →
            enemy_pool (update_enemies rand s)
              = enemy_pool s
                ++ [enemy_shot ((update_enemies_move s).enemies.getD j default)])) ∧
        (¬ s.enemy_projectile_count < MAX_ENEMY_PROJECTILES →
          (update_enemies rand s).enemy_projectiles = s.enemy_projectiles ∧
          (update_enemies rand s).enemy_projectile_count = s.enemy_projectile_count)) ∧
      (first_active_among (update_enemies_move s)
          (utils_random_int rand 0 (s.enemy_count - 1) + 1) = none →
        (update_enemies rand s).enemy_projectiles = s.enemy_projectiles ∧
        (update_enemies rand s).enemy_projectile_count = s.enemy_projectile_count)) := by
  obtain ⟨kn, ka, kt, kp, kc⟩ := update_enemies_move_keeps s
  have hspec : update_enemies rand s
      = spec_enemy_fire (utils_random_int rand 0 (s.enemy_count - 1) + 1)
          (update_enemies_move s) := by
    unfold update_enemies
    rw [update_enemies_fire_spec rand _ (by rw [kn]; exact hn), kn]
  have hr := utils_random_int_range rand s.enemy_count hn
  refine ⟨hspec, ⟨hr.1, hr.2.1⟩, ?_, ?_, ?_, ?_⟩
  · unfold update_enemies
    rw [update_enemies_fire_timer, kt]
  · intro rnd hp hg
    exact game_update_fire_timer rand rnd s hp hg
  · intro hlt
    rw [hspec]
    unfold spec_enemy_fire
    rw [if_neg (by rw [kt]; omega)]
    exact ⟨kp, kc⟩
  · intro hge halive
    rw [hspec]
    unfold spec_enemy_fire
    rw [if_pos (by rw [kt]; exact hge), if_pos (by rw [ka]; exact halive)]
    constructor
    · intro j hj
      rw [hj]
      unfold enemy_shoots
      simp only
      refine ⟨first_active_among_active _ _ j hj, ?_, ?_⟩
      · intro hcap
        rw [if_pos (by rw [kc]; exact hcap)]
        simp only
        rw [kc, kp]
        refine ⟨rfl, rfl, ?_⟩
        intro h0 hlen
        unfold enemy_pool
        simp only
        have : (s.enemy_projectile_count + 1).toNat = s.enemy_projectile_count.toNat + 1 := by
          omega
        rw [this, take_succ_set_end _ _ _ hlen]
      · intro hfull
        rw [if_neg (by rw [kc]; exact hfull)]
        exact ⟨kp, kc⟩
    · intro hnone
      rw [hnone]
      exact ⟨kp, kc⟩

set_option maxRecDepth 1000000 in
theorem enemy_fire_probes_after_draw_witness :
    0 < (idle_run 49).enemy_count ∧
    (idle_run 49).enemy_fire_timer + 1 ≥ ENEMY_FIRE_RATE ∧
    0 < (idle_run 49).alive_enemy_count ∧
    first_active_among (update_enemies_move (idle_run 49))
      (utils_random_int 0 0 ((idle_run 49).enemy_count - 1) + 1) = some 1 ∧
    (idle_run 49).enemy_projectile_count < MAX_ENEMY_PROJECTILES ∧
    (update_enemies 0 (idle_run 49)).enemy_projectile_count
      = (idle_run 49).enemy_projectile_count + 1 ∧
    (update_enemies 0 (idle_run 49)).enemy_fire_timer
      = (if (idle_run 49).enemy_fire_timer + 1 ≥ ENEMY_FIRE_RATE then 0
         else (idle_run 49).enemy_fire_timer + 1) :=
  ⟨by decide, by decide, by decide, by decide, by decide,
   ((((enemy_fire_probes_after_draw 0 (idle_run 49) (by decide)).2.2.2.2.2 (by decide)
      (by decide)).1 1 (by decide)).2.1 (by decide)).1,
   (enemy_fire_probes_after_draw 0 (idle_run 49) (by decide)).2.2.1⟩

set_option maxRecDepth 100000 in
/-- C23 as stated fails: the inner loop of the first collision pass never
re-checks the projectile, so one projectile kills every active enemy whose
hit-box contains its cell.  In `stacked_enemies` enemies 0 and 1 are both at
(2, 2); the single projectile reaches (3, 2), both enemies are deactivated, and
the frame scores 20 with one active projectile. -/
theorem one_kill_per_projectile_counterexample :
    stacked_enemies.is_paused = false ∧ stacked_enemies.game_over = false ∧
    active_projectiles (advance 0 stacked_enemies) = 1 ∧
    overlapping (advance 0 stacked_enemies) 0 0 = true ∧
    overlapping (advance 0 stacked_enemies) 0 1 = true ∧
    ((collide_proj_enemies (advance 0 stacked_enemies)).enemies.getD 0 default).active = false ∧
    ((collide_proj_enemies (advance 0 stacked_enemies)).enemies.getD 1 default).active = false ∧
    (advance 0 stacked_enemies).alive_enemy_count
      - (collide_proj_enemies (advance 0 stacked_enemies)).alive_enemy_count = 2 ∧
    stacked_enemies.player.score = 0 ∧
    (game_update 0 rnd0 stacked_enemies).player.score = 20 ∧
    ¬ ((game_update 0 rnd0 stacked_enemies).player.score - stacked_enemies.player.score
        ≤ POINTS_PER_ENEMY * (active_projectiles (advance 0 stacked_enemies) : Int)) := by
  decide

/-- C23, amended: for every state in which no player projectile's cell lies in
the hit-boxes of two active enemies at once, the sweep of a projectile over the
squad kills nothing or exactly one enemy, the lowest-index (indeed the only)
active enemy it overlaps; the first collision pass kills at most as many
enemies as the live pool has active projectiles, and the kill score of the pass
and of the whole of `handle_collisions` is `POINTS_PER_ENEMY` per kill, hence at
most `POINTS_PER_ENEMY` times the number of active player projectiles.  The
hypothesis holds in every reachable state and when the collision pass of its
frame runs, because active enemies keep the grid spacing. -/
theorem one_kill_per_projectile (s : GameState) (h : NoDoubleHit s) :
    (∀ i,
      (proj_vs_enemies_body i s = s ∧
        ∀ j, j < s.enemy_count.toNat → overlapping s i j = false) ∨
      (∃ j, j < s.enemy_count.toNat ∧ overlapping s i j = true ∧
        (∀ j', j' < s.enemy_count.toNat → overlapping s i j' = true → j ≤ j') ∧
        proj_vs_enemies_body i s = kill i j s)) ∧
    0 ≤ s.alive_enemy_count - (collide_proj_enemies s).alive_enemy_count ∧
    s.alive_enemy_count - (collide_proj_enemies s).alive_enemy_count
      ≤ (active_projectiles s : Int) ∧
    (collide_proj_enemies s).player.score - s.player.score
      = POINTS_PER_ENEMY * (s.alive_enemy_count - (collide_proj_enemies s).alive_enemy_count) ∧
    (collide_proj_enemies s).player.score - s.player.score
      ≤ POINTS_PER_ENEMY * (active_projectiles s : Int) ∧
    (handle_collisions s).player.score - s.player.score
      ≤ POINTS_PER_ENEMY * (active_projectiles s : Int) ∧
    (∀ (r : GameState) (rand : Nat), Reachable r →
      NoDoubleHit r ∧ NoDoubleHit (advance rand r) ∧
      (handle_collisions (advance rand r)).player.score - r.player.score
        ≤ POINTS_PER_ENEMY * (active_projectiles (advance rand r) : Int)) := by
  obtain ⟨k0, k1⟩ := collide_proj_enemies_kills s h
  have hscore := collide_proj_enemies_score s
  have hgain : (collide_proj_enemies s).player.score - s.player.score
      = POINTS_PER_ENEMY
          * (s.alive_enemy_count - (collide_proj_enemies s).alive_enemy_count) := by
    simp only [POINTS_PER_ENEMY] at hscore ⊢
    omega
  have hle : (collide_proj_enemies s).player.score - s.player.score
      ≤ POINTS_PER_ENEMY * (active_projectiles s : Int) := by
    rw [hgain]
    simp only [POINTS_PER_ENEMY]
    omega
  refine ⟨?_, k0, k1, hgain, hle, ?_, ?_⟩
  · intro i
    rcases proj_vs_enemies_body_one i s (h i) with hnone | ⟨j, hj, hov, hk⟩
    · exact Or.inl hnone
    · exact Or.inr ⟨j, hj, hov, fun j' hj' hov' => le_of_eq (h i j j' hj hj' hov hov'), hk⟩
  · rw [(handle_collisions_after_first s).2.2.1]
    exact hle
  · intro r rand hr
    obtain ⟨n1, n2⟩ := reachable_noDoubleHit hr rand
    refine ⟨n1, n2, ?_⟩
    obtain ⟨-, a1⟩ := collide_proj_enemies_kills _ n2
    have ascore := collide_proj_enemies_score (advance rand r)
    rw [(handle_collisions_after_first _).2.2.1, ← advance_score rand r]
    simp only [POINTS_PER_ENEMY] at ascore ⊢
    omega

set_option maxRecDepth 100000 in
theorem one_kill_per_projectile_witness :
    NoDoubleHit (advance 0 (shot_run 6)) ∧
    player_pool (advance 0 (shot_run 6)) = [⟨40, 14, true⟩] ∧
    overlapping (advance 0 (shot_run 6)) 0 27 = true ∧
    (advance 0 (shot_run 6)).alive_enemy_count
      - (collide_proj_enemies (advance 0 (shot_run 6))).alive_enemy_count = 1 ∧
    (advance 0 (shot_run 6)).alive_enemy_count
      - (collide_proj_enemies (advance 0 (shot_run 6))).alive_enemy_count
        ≤ (active_projectiles (advance 0 (shot_run 6)) : Int) :=
  ⟨(reachable_noDoubleHit (reachable_shot_run 6) 0).2, by decide, by decide, by decide,
   (one_kill_per_projectile (advance 0 (shot_run 6))
     (reachable_noDoubleHit (reachable_shot_run 6) 0).2).2.2.1⟩

/-- C24: in both shield passes of `game_update`, with `in_box p blk` the test
"the cell of `p` overlaps the 6x2 box anchored at `blk`" and `shield_hit p blk`
the same test on a block that has health left:
a test against a block with `health <= 0` leaves the whole state as it is;
the sweep of an active projectile wears every block below its shield's
`block_count` that it hits by exactly one health and ends with the projectile
deactivated, and changes no other block and no other pool slot;
a projectile that is inactive when the pass starts (for a player projectile:
deactivated by the enemy pass) is still inactive when its turn comes and its
sweep changes nothing;
across each pass and across `handle_collisions` no block moves, no health
grows, no health that was `>= 0` turns negative, and a block with
`health <= 0` is exactly as it was;
each pass as a whole leaves a block with health `h > 0` at `max 0 (h - m)`,
`m` the number of active projectiles of the pool in its box, deactivates
exactly the active projectiles that are in the box of a block whose health
exceeds the number of such projectiles in earlier slots, and changes no other
slot; so while `m <= h` every active projectile in the box is deactivated and
the block loses exactly `m`, one health when the projectile is alone;
and `handle_collisions`, and a frame of `game_update` that does not clear the
level, wear a block by the player pool as the enemy pass leaves it and then by
the enemy pool as the test against the player leaves it. -/
theorem shield_passes_wear_blocks :
    (∀ (p : Projectile) (blk : ShieldBlock),
      shield_hit p blk = true ↔
        (0 < blk.health ∧ utils_rect_collision p.x p.y 1 1 blk.x blk.y 6 2 = true)) ∧
    (∀ (i k b : Nat) (u : GameState), (block_at u k b).health ≤ 0 →
      hit_shield_body i k b u = u ∧ ehit_shield_body i k b u = u) ∧
    (∀ (i : Nat) (u : GameState), (u.projectiles.getD i default).active = true →
      (∀ k b, k < 4 → b < ((u.shields.getD k default).block_count).toNat →
        shield_hit (u.projectiles.getD i default) (block_at u k b) = true →
        block_at (proj_vs_shields_body i u) k b = worn (block_at u k b) ∧
        (block_at (proj_vs_shields_body i u) k b).health = (block_at u k b).health - 1 ∧
        ((proj_vs_shields_body i u).projectiles.getD i default).active = false) ∧
      (∀ k b, ¬ ((k < 4 ∧ b < ((u.shields.getD k default).block_count).toNat) ∧
          shield_hit (u.projectiles.getD i default) (block_at u k b) = true) →
        block_at (proj_vs_shields_body i u) k b = block_at u k b) ∧
      ((¬ ∃ k b, (k < 4 ∧ b < ((u.shields.getD k default).block_count).toNat) ∧
          shield_hit (u.projectiles.getD i default) (block_at u k b) = true) →
        (proj_vs_shields_body i u).projectiles.getD i default
          = u.projectiles.getD i default) ∧
      (∀ n, n ≠ i → (proj_vs_shields_body i u).projectiles.getD n default
        = u.projectiles.getD n default)) ∧
    (∀ (i : Nat) (u : GameState), (u.enemy_projectiles.getD i default).active = true →
      (∀ k b, k < 4 → b < ((u.shields.getD k default).block_count).toNat →
        shield_hit (u.enemy_projectiles.getD i default) (block_at u k b) = true →
        block_at (eproj_vs_shields_body i u) k b = worn (block_at u k b) ∧
        (block_at (eproj_vs_shields_body i u) k b).health = (block_at u k b).health - 1 ∧
        ((eproj_vs_shields_body i u).enemy_projectiles.getD i default).active = false) ∧
      (∀ k b, ¬ ((k < 4 ∧ b < ((u.shields.getD k default).block_count).toNat) ∧
          shield_hit (u.enemy_projectiles.getD i default) (block_at u k b) = true) →
        block_at (eproj_vs_shields_body i u) k b = block_at u k b) ∧
      ((¬ ∃ k b, (k < 4 ∧ b < ((u.shields.getD k default).block_count).toNat) ∧
          shield_hit (u.enemy_projectiles.getD i default) (block_at u k b) = true) →
        (eproj_vs_shields_body i u).enemy_projectiles.getD i default
          = u.enemy_projectiles.getD i default) ∧
      (∀ n, n ≠ i → (eproj_vs_shields_body i u).enemy_projectiles.getD n default
        = u.enemy_projectiles.getD n default)) ∧
    (∀ (i : Nat) (n : Int) (t : GameState),
      ((t.projectiles.getD i default).active = false →
        proj_vs_shields_body i (forLoop n proj_vs_shields_body t)
          = forLoop n proj_vs_shields_body t) ∧
      ((t.enemy_projectiles.getD i default).active = false →
        eproj_vs_shields_body i (forLoop n eproj_vs_shields_body t)
          = forLoop n eproj_vs_shields_body t)) ∧
    (∀ s : GameState,
      BlocksWorn s (collide_proj_shields s) ∧ BlocksWorn s (collide_eproj_shields s) ∧
      BlocksWorn s (handle_collisions s)) ∧
    (∀ t : GameState,
      (∀ k b, k < 4 ∧ b < ((t.shields.getD k default).block_count).toNat →
        block_at (collide_proj_shields t) k b
          = { block_at t k b with
              health := wear (block_at t k b).health
                (pool_hits (player_pool t) (block_at t k b)) } ∧
        (0 < (block_at t k b).health →
          (block_at (collide_proj_shields t) k b).health
            = max 0 ((block_at t k b).health
                - (pool_hits (player_pool t) (block_at t k b) : Int)))) ∧
      (∀ k b, ¬ (k < 4 ∧ b < ((t.shields.getD k default).block_count).toNat) →
        block_at (collide_proj_shields t) k b = block_at t k b) ∧
      (∀ j, j < t.projectile_count.toNat → stopped_player t j →
        (collide_proj_shields t).projectiles.getD j default
          = { t.projectiles.getD j default with active := false }) ∧
      (∀ j, ¬ (j < t.projectile_count.toNat ∧ stopped_player t j) →
        (collide_proj_shields t).projectiles.getD j default = t.projectiles.getD j default) ∧
      (∀ j k b, j < t.projectile_count.toNat →
        k < 4 ∧ b < ((t.shields.getD k default).block_count).toNat →
        (t.projectiles.getD j default).active = true →
        in_box (t.projectiles.getD j default) (block_at t k b) = true →
        (pool_hits (player_pool t) (block_at t k b) : Int) ≤ (block_at t k b).health →
        ((collide_proj_shields t).projectiles.getD j default).active = false ∧
        (block_at (collide_proj_shields t) k b).health
          = (block_at t k b).health - (pool_hits (player_pool t) (block_at t k b) : Int) ∧
        (pool_hits (player_pool t) (block_at t k b) = 1 →
          (block_at (collide_proj_shields t) k b).health = (block_at t k b).health - 1))) ∧
    (∀ t : GameState,
      (∀ k b, k < 4 ∧ b < ((t.shields.getD k default).block_count).toNat →
        block_at (collide_eproj_shields t) k b
          = { block_at t k b with
              health := wear (block_at t k b).health
                (pool_hits (enemy_pool t) (block_at t k b)) } ∧
        (0 < (block_at t k b).health →
          (block_at (collide_eproj_shields t) k b).health
            = max 0 ((block_at t k b).health
                - (pool_hits (enemy_pool t) (block_at t k b) : Int)))) ∧
      (∀ k b, ¬ (k < 4 ∧ b < ((t.shields.getD k default).block_count).toNat) →
        block_at (collide_eproj_shields t) k b = block_at t k b) ∧
      (∀ j, j < t.enemy_projectile_count.toNat → stopped_enemy t j →
        (collide_eproj_shields t).enemy_projectiles.getD j default
          = { t.enemy_projectiles.getD j default with active := false }) ∧
      (∀ j, ¬ (j < t.enemy_projectile_count.toNat ∧ stopped_enemy t j) →
        (collide_eproj_shields t).enemy_projectiles.getD j default
          = t.enemy_projectiles.getD j default) ∧
      (∀ j k b, j < t.enemy_projectile_count.toNat →
        k < 4 ∧ b < ((t.shields.getD k default).block_count).toNat →
        (t.enemy_projectiles.getD j default).active = true →
        in_box (t.enemy_projectiles.getD j default) (block_at t k b) = true →
        (pool_hits (enemy_pool t) (block_at t k b) : Int) ≤ (block_at t k b).health →
        ((collide_eproj_shields t).enemy_projectiles.getD j default).active = false ∧
        (block_at (collide_eproj_shields t) k b).health
          = (block_at t k b).health - (pool_hits (enemy_pool t) (block_at t k b) : Int) ∧
        (pool_hits (enemy_pool t) (block_at t k b) = 1 →
          (block_at (collide_eproj_shields t) k b).health = (block_at t k b).health - 1))) ∧
    (∀ (s : GameState) (k b : Nat),
      k < 4 ∧ b < ((s.shields.getD k default).block_count).toNat →
      block_at (handle_collisions s) k b
        = { block_at s k b with
            health := wear (wear (block_at s k b).health
                (pool_hits (player_pool (collide_proj_enemies s)) (block_at s k b)))
              (pool_hits (enemy_pool (collide_eproj_player (collide_proj_shields
                (collide_proj_enemies s)))) (block_at s k b)) }) ∧
    (∀ (rand : Nat) (rnd : Nat → Nat) (s : GameState) (k b : Nat),
      s.is_paused = false → s.game_over = false →
      0 < (handle_collisions (advance rand s)).alive_enemy_count →
      k < 4 ∧ b < ((s.shields.getD k default).block_count).toNat →
      block_at (game_update rand rnd s) k b
        = { block_at s k b with
            health := wear (wear (block_at s k b).health
                (pool_hits (player_pool (collide_proj_enemies (advance rand s)))
                  (block_at s k b)))
              (pool_hits (enemy_pool (collide_eproj_player (collide_proj_shields
                (collide_proj_enemies (advance rand s))))) (block_at s k b)) }) := by
  refine ⟨?_, ?_, ?_, ?_, ?_, handle_collisions_worn, ?_, ?_, handle_collisions_wear, ?_⟩
  · intro p blk
    unfold shield_hit
    rw [Bool.and_eq_true, decide_eq_true_eq]
  · intro i k b u h
    exact hit_shield_body_dead i k b u h
  · intro i u hact
    obtain ⟨c1, c2, -, c4, c5, c6⟩ := sweep_spec_player i u hact
    refine ⟨?_, c2, c5, c6⟩
    intro k b hk hb hh
    have hw := c1 k b ⟨hk, hb⟩ hh
    refine ⟨hw, by rw [hw]; rfl, ?_⟩
    rw [c4 ⟨k, b, ⟨hk, hb⟩, hh⟩]
  · intro i u hact
    obtain ⟨c1, c2, -, c4, c5, c6⟩ := sweep_spec_enemy i u hact
    refine ⟨?_, c2, c5, c6⟩
    intro k b hk hb hh
    have hw := c1 k b ⟨hk, hb⟩ hh
    refine ⟨hw, by rw [hw]; rfl, ?_⟩
    rw [c4 ⟨k, b, ⟨hk, hb⟩, hh⟩]
  · intro i n t
    exact ⟨sweep_after_inactive_player i n t, sweep_after_inactive_enemy i n t⟩
  · intro t
    obtain ⟨c1, c2, -, c4, c5, c6⟩ := collide_proj_shields_worn_by t
    have hhealth : ∀ k b, k < 4 ∧ b < ((t.shields.getD k default).block_count).toNat →
        (block_at (collide_proj_shields t) k b).health
          = wear (block_at t k b).health (pool_hits (player_pool t) (block_at t k b)) := by
      intro k b hr
      rw [c1 k b hr]
      rfl
    refine ⟨?_, c2, c4, ?_, ?_⟩
    · intro k b hr
      refine ⟨c1 k b hr, ?_⟩
      intro hpos
      rw [hhealth k b hr]
      exact (wear_bounds _ _).2.2.2 hpos
    · intro j hj
      by_cases hlt : j < t.projectile_count.toNat
      · exact c5 j hlt (fun hs => hj ⟨hlt, hs⟩)
      · exact c6 j (by omega)
    · intro j k b hj hr hact hin hle
      have hbefore := pool_hits_before t.projectiles (block_at t k b) j t.projectile_count.toNat hj hact hin
      have hle' : (pool_hits (t.projectiles.take t.projectile_count.toNat) (block_at t k b) : Int)
          ≤ (block_at t k b).health := hle
      have hstop : stopped_player t j := ⟨hact, k, b, hr, hin, by omega⟩
      have hh : (block_at (collide_proj_shields t) k b).health
          = (block_at t k b).health - (pool_hits (player_pool t) (block_at t k b) : Int) := by
        rw [hhealth k b hr, (wear_bounds _ _).2.2.2 (by omega), max_def]
        split_ifs <;> omega
      refine ⟨by rw [c4 j hj hstop], hh, ?_⟩
      intro h1
      rw [hh, h1]
      rfl
  · intro t
    obtain ⟨c1, c2, -, c4, c5, c6⟩ := collide_eproj_shields_worn_by t
    have hhealth : ∀ k b, k < 4 ∧ b < ((t.shields.getD k default).block_count).toNat →
        (block_at (collide_eproj_shields t) k b).health
          = wear (block_at t k b).health (pool_hits (enemy_pool t) (block_at t k b)) := by
      intro k b hr
      rw [c1 k b hr]
      rfl
    refine ⟨?_, c2, c4, ?_, ?_⟩
    · intro k b hr
      refine ⟨c1 k b hr, ?_⟩
      intro hpos
      rw [hhealth k b hr]
      exact (wear_bounds _ _).2.2.2 hpos
    · intro j hj
      by_cases hlt : j < t.enemy_projectile_count.toNat
      · exact c5 j hlt (fun hs => hj ⟨hlt, hs⟩)
      · exact c6 j (by omega)
    · intro j k b hj hr hact hin hle
      have hbefore := pool_hits_before t.enemy_projectiles (block_at t k b) j t.enemy_projectile_count.toNat hj hact hin
      have hle' : (pool_hits (t.enemy_projectiles.take t.enemy_projectile_count.toNat) (block_at t k b) : Int)
          ≤ (block_at t k b).health := hle
      have hstop : stopped_enemy t j := ⟨hact, k, b, hr, hin, by omega⟩
      have hh : (block_at (collide_eproj_shields t) k b).health
          = (block_at t k b).health - (pool_hits (enemy_pool t) (block_at t k b) : Int) := by
        rw [hhealth k b hr, (wear_bounds _ _).2.2.2 (by omega), max_def]
        split_ifs <;> omega
      refine ⟨by rw [c4 j hj hstop], hh, ?_⟩
      intro h1
      rw [hh, h1]
      rfl
  · intro rand rnd s k b hp hg halive hr
    exact game_update_wear rand rnd s hp hg halive k b hr

set_option maxRecDepth 1000000 in
theorem shield_passes_wear_blocks_witness :
    ((advance 0 shield_demo).projectiles.getD 0 default).active = true ∧
    shield_hit ((advance 0 shield_demo).projectiles.getD 0 default)
      (block_at (advance 0 shield_demo) 0 1) = true ∧
    block_at (advance 0 shield_demo) 0 1 = ⟨1, 9, 3⟩ ∧
    (block_at (proj_vs_shields_body 0 (advance 0 shield_demo)) 0 1
        = worn (block_at (advance 0 shield_demo) 0 1) ∧
      (block_at (proj_vs_shields_body 0 (advance 0 shield_demo)) 0 1).health
        = (block_at (advance 0 shield_demo) 0 1).health - 1 ∧
      ((proj_vs_shields_body 0 (advance 0 shield_demo)).projectiles.getD 0 default).active
        = false) ∧
    (block_at (advance 0 shield_demo) 0 2).health ≤ 0 ∧
    hit_shield_body 0 0 2 (advance 0 shield_demo) = advance 0 shield_demo ∧
    PlayedFrom (game_init rnd0) shield_play ∧
    shield_play.is_paused = false ∧ shield_play.game_over = false ∧
    0 < (handle_collisions (advance 0 shield_play)).alive_enemy_count ∧
    block_at shield_play 0 1 = ⟨1, 9, 3⟩ ∧
    (shield_play.projectiles.getD 0 default) = ⟨6, 11, true⟩ ∧
    pool_hits (player_pool (collide_proj_enemies (advance 0 shield_play)))
      (block_at shield_play 0 1) = 1 ∧
    block_at (game_update 0 rnd0 shield_play) 0 1
      = { block_at shield_play 0 1 with
          health := wear (wear (block_at shield_play 0 1).health
              (pool_hits (player_pool (collide_proj_enemies (advance 0 shield_play)))
                (block_at shield_play 0 1)))
            (pool_hits (enemy_pool (collide_eproj_player (collide_proj_shields
              (collide_proj_enemies (advance 0 shield_play))))) (block_at shield_play 0 1)) } ∧
    block_at (game_update 0 rnd0 shield_play) 0 1 = ⟨1, 9, 2⟩ ∧
    (game_update 0 rnd0 shield_play).projectiles.getD 0 default = ⟨6, 10, false⟩ ∧
    (((collide_proj_shields (collide_proj_enemies (advance 0 shield_play))).projectiles.getD 0
        default).active = false ∧
      (block_at (collide_proj_shields (collide_proj_enemies (advance 0 shield_play))) 0 1).health
        = (block_at (collide_proj_enemies (advance 0 shield_play)) 0 1).health
          - (pool_hits (player_pool (collide_proj_enemies (advance 0 shield_play)))
              (block_at (collide_proj_enemies (advance 0 shield_play)) 0 1) : Int) ∧
      (pool_hits (player_pool (collide_proj_enemies (advance 0 shield_play)))
          (block_at (collide_proj_enemies (advance 0 shield_play)) 0 1) = 1 →
        (block_at (collide_proj_shields (collide_proj_enemies (advance 0 shield_play))) 0 1).health
          = (block_at (collide_proj_enemies (advance 0 shield_play)) 0 1).health - 1)) ∧
    block_at crossfire 0 1 = ⟨1, 9, 3⟩ ∧
    block_at (handle_collisions crossfire) 0 1
      = { block_at crossfire 0 1 with
          health := wear (wear (block_at crossfire 0 1).health
              (pool_hits (player_pool (collide_proj_enemies crossfire)) (block_at crossfire 0 1)))
            (pool_hits (enemy_pool (collide_eproj_player (collide_proj_shields
              (collide_proj_enemies crossfire)))) (block_at crossfire 0 1)) } ∧
    block_at (handle_collisions crossfire) 0 1 = ⟨1, 9, 1⟩ ∧
    (handle_collisions crossfire).projectiles.getD 0 default = ⟨2, 9, false⟩ ∧
    (handle_collisions crossfire).enemy_projectiles.getD 0 default = ⟨3, 10, false⟩ ∧
    ((collide_eproj_shields (collide_eproj_player (collide_proj_shields
        (collide_proj_enemies crossfire)))).enemy_projectiles.getD 0 default).active = false :=
  ⟨by decide, by decide, by decide,
   (shield_passes_wear_blocks.2.2.1 0 (advance 0 shield_demo) (by decide)).1 0 1
     (by decide) (by decide) (by decide),
   by decide,
   (shield_passes_wear_blocks.2.1 0 0 2 (advance 0 shield_demo) (by decide)).1,
   played_shield_play, by decide, by decide, by decide, by decide, by decide, by decide,
   shield_passes_wear_blocks.2.2.2.2.2.2.2.2.2 0 rnd0 shield_play 0 1
     (by decide) (by decide) (by decide) (by decide),
   by decide, by decide,
   (shield_passes_wear_blocks.2.2.2.2.2.2.1
      (collide_proj_enemies (advance 0 shield_play))).2.2.2.2 0 0 1
     (by decide) (by decide) (by decide) (by decide) (by decide),
   by decide,
   shield_passes_wear_blocks.2.2.2.2.2.2.2.2.1 crossfire 0 1 (by decide),
   by decide, by decide, by decide,
   ((shield_passes_wear_blocks.2.2.2.2.2.2.2.1
      (collide_eproj_player (collide_proj_shields (collide_proj_enemies crossfire)))).2.2.2.2
      0 0 1 (by decide) (by decide) (by decide) (by decide) (by decide)).1⟩

set_option maxRecDepth 1000000 in
/-- C25 fails on the code: a projectile one row below an enemy passes it without
a collision when the enemies descend in that frame.  `tunnel_play` is reached
from `game_init` by eleven moves to the left, 128 frames, a shot and 6 more
frames; its projectile is at (18, 15), below enemy 24 at (16, 14).  The next
frame steps the enemy to (17, 15), whose hit-box covers column 18, and only
then moves the projectile up to (18, 14); the collision pass sees them on
different rows, and after `game_update` both are active with the projectile
above the enemy. -/
theorem projectile_tunnels_past_descending_enemy :
    PlayedFrom (game_init rnd0) tunnel_play ∧
    tunnel_play.is_paused = false ∧ tunnel_play.game_over = false ∧
    tunnel_play.projectile_count = 1 ∧
    tunnel_play.projectiles.getD 0 default = ⟨18, 15, true⟩ ∧
    tunnel_play.enemies.getD 24 default = ⟨16, 14, true, 1⟩ ∧
    (tunnel_play.projectiles.getD 0 default).y > (tunnel_play.enemies.getD 24 default).y ∧
    (game_update 0 rnd0 tunnel_play).projectile_count = 1 ∧
    (game_update 0 rnd0 tunnel_play).projectiles.getD 0 default = ⟨18, 14, true⟩ ∧
    (game_update 0 rnd0 tunnel_play).enemies.getD 24 default = ⟨17, 15, true, 1⟩ ∧
    ((game_update 0 rnd0 tunnel_play).enemies.getD 24 default).x
      ≤ ((game_update 0 rnd0 tunnel_play).projectiles.getD 0 default).x ∧
    ((game_update 0 rnd0 tunnel_play).projectiles.getD 0 default).x
      < ((game_update 0 rnd0 tunnel_play).enemies.getD 24 default).x + ENEMY_WIDTH ∧
    ((game_update 0 rnd0 tunnel_play).projectiles.getD 0 default).y
      < ((game_update 0 rnd0 tunnel_play).enemies.getD 24 default).y ∧
    (game_update 0 rnd0 tunnel_play).alive_enemy_count = 30 ∧
    (game_update 0 rnd0 tunnel_play).game_over = false := by
  have h1 : tunnel_play.projectiles.getD 0 default = ⟨18, 15, true⟩ := by decide
  have h2 : tunnel_play.enemies.getD 24 default = ⟨16, 14, true, 1⟩ := by decide
  have h3 : (game_update 0 rnd0 tunnel_play).projectiles.getD 0 default = ⟨18, 14, true⟩ := by
    decide
  have h4 : (game_update 0 rnd0 tunnel_play).enemies.getD 24 default = ⟨17, 15, true, 1⟩ := by
    decide
  refine ⟨played_tunnel_play, by decide, by decide, by decide, h1, h2, ?_, by decide, h3, h4,
    ?_, ?_, ?_, by decide, by decide⟩
  · rw [h1, h2]
    decide
  · rw [h3, h4]
    decide
  · rw [h3, h4]
    decide
  · rw [h3, h4]
    decide

/-- C26 as stated fails: the four sums are `int` additions.  The rectangles
`[2147483646, 2147483647) x [0, 1)` and `[2147483646, 2147483649) x [0, 1)`,
given by `int` positions and positive sizes, share the cell `(2147483646, 0)`,
yet the test is false, because `x2 + w2` wraps around to -2147483647. -/
theorem utils_rect_collision_overflow_counterexample :
    (INT_MIN ≤ (2147483646 : Int) ∧ (2147483646 : Int) ≤ INT_MAX) ∧
    ((0 : Int) < 1 ∧ (0 : Int) < 3) ∧
    (∃ cx cy : Int, ((2147483646 : Int) ≤ cx ∧ cx < 2147483646 + 1) ∧ (0 ≤ cy ∧ cy < 0 + 1) ∧
      ((2147483646 : Int) ≤ cx ∧ cx < 2147483646 + 3) ∧ (0 ≤ cy ∧ cy < 0 + 1)) ∧
    wrap_int (2147483646 + 3) = -2147483647 ∧
    utils_rect_collision_int 2147483646 0 1 1 2147483646 0 3 1 = false :=
  ⟨by decide, by decide, ⟨2147483646, 0, by decide⟩, by decide, by decide⟩

/-- C26, amended: for all `int` positions and all positive widths and heights
for which none of the sums `x1 + w1`, `y1 + h1`, `x2 + w2`, `y2 + h2` exceeds
`INT_MAX`, `utils_rect_collision` is true exactly when the half-open rectangles
`[x1, x1+w1) x [y1, y1+h1)` and `[x2, x2+w2) x [y2, y2+h2)` share a grid cell;
the test is symmetric in the two rectangles; rectangles that only touch along
an edge (`x1 + w1 = x2` or `y1 + h1 = y2`) do not collide; and the test is the
one with exact sums that the game's collision passes are modelled with. -/
theorem utils_rect_collision_is_cell_overlap (x1 y1 w1 h1 x2 y2 w2 h2 : Int)
    (hw1 : 0 < w1) (hh1 : 0 < h1) (hw2 : 0 < w2) (hh2 : 0 < h2)
    (hx1 : INT_MIN ≤ x1) (hy1 : INT_MIN ≤ y1) (hx2 : INT_MIN ≤ x2) (hy2 : INT_MIN ≤ y2)
    (sx1 : x1 + w1 ≤ INT_MAX) (sy1 : y1 + h1 ≤ INT_MAX)
    (sx2 : x2 + w2 ≤ INT_MAX) (sy2 : y2 + h2 ≤ INT_MAX) :
    (utils_rect_collision_int x1 y1 w1 h1 x2 y2 w2 h2 = true ↔
      ∃ cx cy : Int, (x1 ≤ cx ∧ cx < x1 + w1) ∧ (y1 ≤ cy ∧ cy < y1 + h1) ∧
        (x2 ≤ cx ∧ cx < x2 + w2) ∧ (y2 ≤ cy ∧ cy < y2 + h2)) ∧
    utils_rect_collision_int x1 y1 w1 h1 x2 y2 w2 h2
      = utils_rect_collision_int x2 y2 w2 h2 x1 y1 w1 h1 ∧
    (x1 + w1 = x2 → utils_rect_collision_int x1 y1 w1 h1 x2 y2 w2 h2 = false) ∧
    (y1 + h1 = y2 → utils_rect_collision_int x1 y1 w1 h1 x2 y2 w2 h2 = false) ∧
    utils_rect_collision_int x1 y1 w1 h1 x2 y2 w2 h2
      = utils_rect_collision x1 y1 w1 h1 x2 y2 w2 h2 := by
  have e1 : wrap_int (x1 + w1) = x1 + w1 := wrap_int_of_fits _ (by omega) sx1
  have e2 : wrap_int (y1 + h1) = y1 + h1 := wrap_int_of_fits _ (by omega) sy1
  have e3 : wrap_int (x2 + w2) = x2 + w2 := wrap_int_of_fits _ (by omega) sx2
  have e4 : wrap_int (y2 + h2) = y2 + h2 := wrap_int_of_fits _ (by omega) sy2
  have key : utils_rect_collision_int x1 y1 w1 h1 x2 y2 w2 h2 = true ↔
      (x1 < x2 + w2 ∧ x1 + w1 > x2 ∧ y1 < y2 + h2 ∧ y1 + h1 > y2) := by
    rw [utils_rect_collision_int_iff, e1, e2, e3, e4]
  have key' : utils_rect_collision_int x2 y2 w2 h2 x1 y1 w1 h1 = true ↔
      (x2 < x1 + w1 ∧ x2 + w2 > x1 ∧ y2 < y1 + h1 ∧ y2 + h2 > y1) := by
    rw [utils_rect_collision_int_iff, e1, e2, e3, e4]
  refine ⟨?_, ?_, ?_, ?_, ?_⟩
  · rw [key]
    constructor
    · rintro ⟨a, b, c, d⟩
      refine ⟨max x1 x2, max y1 y2, ?_⟩
      rw [max_def, max_def]
      split_ifs <;> omega
    · rintro ⟨cx, cy, ⟨a1, a2⟩, ⟨b1, b2⟩, ⟨c1, c2⟩, ⟨d1, d2⟩⟩
      omega
  · rw [Bool.eq_iff_iff, key, key']
    constructor
    · rintro ⟨a, b, c, d⟩
      exact ⟨b, a, d, c⟩
    · rintro ⟨a, b, c, d⟩
      exact ⟨b, a, d, c⟩
  · intro h
    rw [← Bool.not_eq_true, key]
    omega
  · intro h
    rw [← Bool.not_eq_true, key]
    omega
  · exact utils_rect_collision_int_exact x1 y1 w1 h1 x2 y2 w2 h2 (by omega) sx1 (by omega) sy1
      (by omega) sx2 (by omega) sy2

theorem utils_rect_collision_is_cell_overlap_witness :
    (utils_rect_collision_int 18 3 1 1 17 3 3 1 = true ↔
      ∃ cx cy : Int, (18 ≤ cx ∧ cx < 18 + 1) ∧ (3 ≤ cy ∧ cy < 3 + 1) ∧
        (17 ≤ cx ∧ cx < 17 + 3) ∧ (3 ≤ cy ∧ cy < 3 + 1)) ∧
    utils_rect_collision_int 18 3 1 1 17 3 3 1 = true ∧
    utils_rect_collision_int 14 3 3 1 17 3 3 1 = false ∧
    (utils_rect_collision_int 2147483646 0 1 1 2147483644 0 3 1 = true ↔
      ∃ cx cy : Int, (2147483646 ≤ cx ∧ cx < 2147483646 + 1) ∧ (0 ≤ cy ∧ cy < 0 + 1) ∧
        (2147483644 ≤ cx ∧ cx < 2147483644 + 3) ∧ (0 ≤ cy ∧ cy < 0 + 1)) ∧
    utils_rect_collision_int 2147483646 0 1 1 2147483644 0 3 1 = true :=
  ⟨(utils_rect_collision_is_cell_overlap 18 3 1 1 17 3 3 1
      (by decide) (by decide) (by decide) (by decide) (by decide) (by decide) (by decide)
      (by decide) (by decide) (by decide) (by decide) (by decide)).1,
   by decide,
   (utils_rect_collision_is_cell_overlap 14 3 3 1 17 3 3 1
      (by decide) (by decide) (by decide) (by decide) (by decide) (by decide) (by decide)
      (by decide) (by decide) (by decide) (by decide) (by decide)).2.2.1 (by decide),
   (utils_rect_collision_is_cell_overlap 2147483646 0 1 1 2147483644 0 3 1
      (by decide) (by decide) (by decide) (by decide) (by decide) (by decide) (by decide)
      (by decide) (by decide) (by decide) (by decide) (by decide)).1,
   by decide⟩

/-- C27: in every state reached from `game_init` by `game_update`, the player
commands and the level transitions (`game_next_level`, `game_set_level`,
`game_reset`), every active enemy lies horizontally inside the board:
`0 <= x` and `x + ENEMY_WIDTH <= BOARD_WIDTH`.  The direction is always one
column left or right, and a new level keeps the direction it finds, leftward
included, with every active enemy again inside the board. -/
theorem active_enemies_stay_inside_board (s : GameState) (h : Reachable s) :
    (s.enemy_direction = 1 ∨ s.enemy_direction = -1) ∧
    (∀ i, (s.enemies.getD i default).active = true →
      0 ≤ (s.enemies.getD i default).x ∧
      (s.enemies.getD i default).x + ENEMY_WIDTH ≤ BOARD_WIDTH) ∧
    (∀ rnd : Nat → Nat, s.level < 10 →
      (game_next_level rnd s).enemy_direction = s.enemy_direction ∧
      ∀ i, ((game_next_level rnd s).enemies.getD i default).active = true →
        0 ≤ ((game_next_level rnd s).enemies.getD i default).x ∧
        ((game_next_level rnd s).enemies.getD i default).x + ENEMY_WIDTH ≤ BOARD_WIDTH) := by
  obtain ⟨-, hd, hent⟩ := reachable_marchInv h
  refine ⟨hd, fun i hact => ⟨(hent i hact).2.1, (hent i hact).2.2.1⟩, ?_⟩
  intro rnd hlev
  obtain ⟨-, -, hent'⟩ := reachable_marchInv (Reachable.next_level rnd s h)
  refine ⟨?_, fun i hact => ⟨(hent' i hact).2.1, (hent' i hact).2.2.1⟩⟩
  rw [game_next_level_respawn rnd s hlev]
  exact (respawn_counters rnd _).2.2.1

set_option maxRecDepth 100000 in
theorem active_enemies_stay_inside_board_witness :
    Reachable (idle_run 9) ∧ ((idle_run 9).enemies.getD 5 default).active = true ∧
    ((idle_run 9).enemies.getD 5 default).x = 63 ∧
    (0 ≤ ((idle_run 9).enemies.getD 5 default).x ∧
      ((idle_run 9).enemies.getD 5 default).x + ENEMY_WIDTH ≤ BOARD_WIDTH) :=
  ⟨Reachable.update _ _ _ (Reachable.update _ _ _ (Reachable.update _ _ _
      (Reachable.update _ _ _ (Reachable.update _ _ _ (Reachable.update _ _ _
      (Reachable.update _ _ _ (Reachable.update _ _ _ (Reachable.update _ _ _
      (Reachable.init rnd0))))))))),
   by decide, by decide,
   (active_enemies_stay_inside_board (idle_run 9)
     (Reachable.update _ _ _ (Reachable.update _ _ _ (Reachable.update _ _ _
      (Reachable.update _ _ _ (Reachable.update _ _ _ (Reachable.update _ _ _
      (Reachable.update _ _ _ (Reachable.update _ _ _ (Reachable.update _ _ _
      (Reachable.init rnd0))))))))))).2.1 5 (by decide)⟩

/-- C28: in every state reached from `game_init` by any sequence of public
operations, `enemy_projectile_count` is 0 or 1, so the pool capacity
`MAX_ENEMY_PROJECTILES` is never reached.  Every active enemy is on row 2 or
below, so a shot spawns on row 3 or below; while a shot is in the pool its row
is below `BOARD_HEIGHT` and at least `enemy_fire_timer + 4`, hence the timer is
below 20 and far from the next shot at `ENEMY_FIRE_RATE`; and one `game_update`
lowers the lives by at most one. -/
theorem at_most_one_enemy_shot (s : GameState) (h : Reachable s) :
    (s.enemy_projectile_count = 0 ∨ s.enemy_projectile_count = 1) ∧
    s.enemy_projectile_count ≤ 1 ∧
    s.enemy_projectile_count < MAX_ENEMY_PROJECTILES ∧
    (∀ i, (s.enemies.getD i default).active = true →
      2 ≤ (s.enemies.getD i default).y ∧ 3 ≤ (enemy_shot (s.enemies.getD i default)).y) ∧
    (s.enemy_projectile_count = 1 →
      s.enemy_fire_timer + 4 ≤ (s.enemy_projectiles.getD 0 default).y ∧
      (s.enemy_projectiles.getD 0 default).y < BOARD_HEIGHT ∧
      s.enemy_fire_timer + 1 < ENEMY_FIRE_RATE) ∧
    (∀ (rand : Nat) (rnd : Nat → Nat),
      (game_update rand rnd s).enemy_projectile_count ≤ 1 ∧
      s.player.health - 1 ≤ (game_update rand rnd s).player.health ∧
      (game_update rand rnd s).player.health ≤ s.player.health) := by
  have hinv := reachable_shotInv h
  obtain ⟨-, hshot, hrows⟩ := hinv
  have hcases : s.enemy_projectile_count = 0 ∨ s.enemy_projectile_count = 1 := by
    rcases hshot with h0 | ⟨h1, -⟩
    · exact Or.inl h0
    · exact Or.inr h1
  refine ⟨hcases, ?_, ?_, ?_, ?_, ?_⟩
  · rcases hcases with h0 | h1 <;> omega
  · simp only [MAX_ENEMY_PROJECTILES]
    rcases hcases with h0 | h1 <;> omega
  · intro i hact
    have := hrows i hact
    refine ⟨this, ?_⟩
    show 3 ≤ (s.enemies.getD i default).y + 1
    omega
  · intro h1
    rcases hshot with h0 | ⟨-, hy1, hy2⟩
    · omega
    · refine ⟨hy1, hy2, ?_⟩
      simp only [BOARD_HEIGHT, ENEMY_FIRE_RATE] at *
      omega
  · intro rand rnd
    have hnext := (reachable_shotInv (Reachable.update rand rnd s h)).2.1
    refine ⟨?_, game_update_health_step rand rnd s (reachable_shotInv h)⟩
    rcases hnext with h0 | ⟨h1, -⟩ <;> omega

set_option maxRecDepth 1000000 in
theorem at_most_one_enemy_shot_witness :
    Reachable (idle_run 50) ∧ (idle_run 50).enemy_projectile_count = 1 ∧
    (idle_run 50).enemy_projectiles.getD 0 default = ⟨20, 4, true⟩ ∧
    ((idle_run 50).enemy_fire_timer + 4 ≤ ((idle_run 50).enemy_projectiles.getD 0 default).y ∧
      ((idle_run 50).enemy_projectiles.getD 0 default).y < BOARD_HEIGHT ∧
      (idle_run 50).enemy_fire_timer + 1 < ENEMY_FIRE_RATE) :=
  ⟨reachable_idle_run 50, by decide, by decide,
   (at_most_one_enemy_shot (idle_run 50) (reachable_idle_run 50)).2.2.2.2.1 (by decide)⟩

end SpaceInvader
